import Mathlib

/-!
# Convert ichat Files: the binary property list reader and the chat reader

A shallow embedding of `Source/bplistReader.c` and `Source/ichatReader.c`.

Conventions of the embedding.

* The loaded file `gInFileContents` is a `List Nat`; a byte is what `peek` returns, the
  stored number reduced modulo 256.  `gInFileLength` is the length of the list.
* A `char *` into the file is an `Int`: the distance from `gInFileContents`.  A pointer
  that can be `NULL` is an `Option`.
* Reading a byte outside the file image yields 0.  (`LoadInFile` allocates one spare zero
  byte with `calloc`; further out C gives the read no meaning.)  The general theorems hold
  for whatever bytes are read, and no sample file below has a byte read outside its image.
* `uint64_t`, `uint32_t`, `uint16_t` values are `Nat`s kept below `2^64`, `2^32`, `2^16` by
  explicit reductions; a C `int` is an `Int` in `[-2^31, 2^31)`; plain `char` is signed.
* `int << n`: the count is taken modulo 32 and the result wraps to 32 bits, which is what
  the shift instructions of x86-64 and arm64 do.  C itself leaves a shift by 32 or more
  undefined; whatever a compiler makes of it, the result has type `int`.
* `malloc` is assumed to succeed.  Loop counters declared `int` are counted in `Nat`.
* The functions of `Source/ichatReader.c` have their outcome in the type `Res`: returned
  `true` with a result, returned `false`, passed `NULL` to a string function, did not
  return, or went outside an allocation.  What they write to the out file is the list of
  the bytes written.  A `NULL` given to a `%s` of `asprintf` is formatted as `(null)`, as
  the C library does; a `NULL` given to `strlen`, `strcmp`, `strchr` or `WriteToOutFile` is
  read.
* A `double` is the fraction of its value, and `double` operations round to the nearest
  `double`, ties to even; converting a value outside `int` to `int` is undefined.  Sums and
  products of `int`s wrap to 32 bits.
-/

namespace Bplist

/-! ## C integer arithmetic -/

/-- The `int` that results from wrapping the integer `x` to 32 bits, two's complement. -/
def wrapInt32 (x : Int) : Int := (x + 2 ^ 31) % 2 ^ 32 - 2 ^ 31

/-- Conversion of a signed value to `uint64_t`. -/
def toUInt64 (x : Int) : Nat := (x % 2 ^ 64).toNat

/-- Conversion of a signed value to `uint32_t`. -/
def toUInt32 (x : Int) : Nat := (x % 2 ^ 32).toNat

/-- Conversion of a signed value to `uint16_t`. -/
def toUInt16 (x : Int) : Nat := (x % 2 ^ 16).toNat

/-- The C expression `e << s` for an `int` operand `e`. -/
def shlInt (e : Int) (s : Nat) : Int := wrapInt32 (e * 2 ^ (s % 32))

/-- The value `(uint64_t)-1`, used by the reader as its failure sentinel. -/
def kNone : Nat := 2 ^ 64 - 1

/-! ## Memory -/

/-- The byte `*(uint8_t *)(gInFileContents + p)`. -/
def peek (B : List Nat) (p : Int) : Nat :=
  if 0 ≤ p then B.getD p.toNat 0 % 256 else 0

/-- The plain (signed) `char` `*(gInFileContents + p)`. -/
def peekChar (B : List Nat) (p : Int) : Int :=
  if peek B p < 128 then (peek B p : Int) else (peek B p : Int) - 256

/-! ## Byte-reading functions -/

/-- Embeds `ReadUInt_8Byte`: the cast to `uint64_t` is applied to the shifted `int`. -/
def ReadUInt_8Byte (B : List Nat) (start : Int) : Nat :=
  (List.range 8).foldl
    (fun (result a : Nat) => result ||| toUInt64 (shlInt (peek B (start + a)) ((7 - a) * 8))) 0

/-- Embeds `ReadUInt_4Byte`. -/
def ReadUInt_4Byte (B : List Nat) (start : Int) : Nat :=
  (List.range 4).foldl
    (fun (result a : Nat) => result ||| toUInt32 (shlInt (peek B (start + a)) ((3 - a) * 8))) 0

/-- Embeds `ReadUInt_2Byte`. -/
def ReadUInt_2Byte (B : List Nat) (start : Int) : Nat :=
  toUInt16 ((peek B (start + 1) : Int) + shlInt (peek B start) 8)

/-- Embeds `ReadUInt_XByte`: dispatch on the width, `(uint64_t)-1` for an unsupported one. -/
def ReadUInt_XByte (B : List Nat) (start : Int) (size : Nat) : Nat :=
  if size = 1 then peek B start
  else if size = 2 then ReadUInt_2Byte B start
  else if size = 4 then ReadUInt_4Byte B start
  else if size = 8 then ReadUInt_8Byte B start
  else kNone

/-- The big-endian unsigned value of the `w` bytes at `off`:
`sum over j < w of B[off+j] * 256^(w-1-j)`. -/
def bigEndian (B : List Nat) (off : Int) (w : Nat) : Nat :=
  ((List.range w).map (fun (j : Nat) => peek B (off + j) * 256 ^ (w - 1 - j))).sum

/-! ## Types of data that can be found in a bplist -/

/-- Embeds `enum BPObjectTypeCode`; `oType` is an `int` and also takes the value `-1`. -/
def kTypeNone : Int := 0
def kTypeNull : Int := 1
def kTypeBoolFalse : Int := 2
def kTypeBoolTrue : Int := 3
def kTypeFill : Int := 4
def kTypeInt : Int := 5
def kTypeReal : Int := 6
def kTypeDate : Int := 7
def kTypeData : Int := 8
def kTypeStringASCII : Int := 9
def kTypeStringUnicode : Int := 10
def kTypeUID : Int := 11
def kTypeArray : Int := 12
def kTypeSet : Int := 13
def kTypeDict : Int := 14
def kTypeCount : Int := 15

/-- Embeds `enum BPObjectSizeType`: how an object states the size of its payload. -/
inductive BPObjectSizeType where
  | kSizeNone
  | kSizePowerOfTwo
  | kSize8ByteFloat
  | kSizeScalarOverflow
  | kSizeAddOne
  deriving DecidableEq, Repr

/-- The functions a `gTypeTable` row can name in its `otReadFunc` column. -/
inductive ReadFunc where
  | Null
  | BoolFalse
  | BoolTrue
  | Fill
  | Int
  | Real
  | Date
  | Data
  | StringASCII
  | StringUnicode
  | UID
  | Array
  | Set
  | Dict
  deriving DecidableEq, Repr

/-- Embeds `struct BPObjectType`, without the print function. -/
structure BPObjectType where
  otEnum : Int
  otHighQuad : Int
  otLowQuad : Int
  otSizeType : BPObjectSizeType
  otReadFunc : Option ReadFunc
  otName : String
  deriving DecidableEq, Repr

open BPObjectSizeType in
/-- Embeds `gTypeTable`. -/
def gTypeTable : List BPObjectType :=
  [ ⟨kTypeNone, 0, 0, kSizeNone, none, ""⟩,
    ⟨kTypeNull, 0, 0, kSizeNone, some ReadFunc.Null, "null"⟩,
    ⟨kTypeBoolFalse, 0, 8, kSizeNone, some ReadFunc.BoolFalse, "boolean"⟩,
    ⟨kTypeBoolTrue, 0, 9, kSizeNone, some ReadFunc.BoolTrue, "boolean"⟩,
    ⟨kTypeFill, 0, 15, kSizeNone, some ReadFunc.Fill, "fill"⟩,
    ⟨kTypeInt, 1, -1, kSizePowerOfTwo, some ReadFunc.Int, "int"⟩,
    ⟨kTypeReal, 2, -1, kSizePowerOfTwo, some ReadFunc.Real, "real"⟩,
    ⟨kTypeDate, 3, 3, kSize8ByteFloat, some ReadFunc.Date, "date"⟩,
    ⟨kTypeData, 4, -1, kSizeScalarOverflow, some ReadFunc.Data, "data"⟩,
    ⟨kTypeStringASCII, 5, -1, kSizeScalarOverflow, some ReadFunc.StringASCII, "string (ASCII)"⟩,
    ⟨kTypeStringUnicode, 6, -1, kSizeScalarOverflow, some ReadFunc.StringUnicode,
      "string (Unicode)"⟩,
    ⟨kTypeUID, 8, -1, kSizeAddOne, some ReadFunc.UID, "UID"⟩,
    ⟨kTypeArray, 10, -1, kSizeScalarOverflow, some ReadFunc.Array, "array"⟩,
    ⟨kTypeSet, 12, -1, kSizeScalarOverflow, some ReadFunc.Set, "set"⟩,
    ⟨kTypeDict, 13, -1, kSizeScalarOverflow, some ReadFunc.Dict, "dict"⟩ ]

/-- The row `gTypeTable[oType]`. -/
def typeRow (oType : Int) : BPObjectType :=
  gTypeTable.getD oType.toNat ⟨kTypeNone, 0, 0, BPObjectSizeType.kSizeNone, none, ""⟩

/-- Embeds `struct BPObject`.  `oReal` holds the 64-bit pattern of the `double`; the embedding does
not interpret it as a floating-point number. -/
structure BPObject where
  oUID : Nat
  oObjAddress : Option Int
  oType : Int
  oSize : Nat
  oDataAddress : Option Int
  oBool : Bool
  oInt : Nat
  oReal : Nat
  oData : Option (List Nat)
  oIsBaseWritingDirection : Bool
  oIsNSTime : Bool
  deriving DecidableEq, Repr

/-- The globals of `bplistReader.c` once a file is loaded: the file image and what
`Load_bplist` stores. -/
structure BPState where
  gInFileContents : List Nat
  gRefSize : Nat
  gNumObj : Nat
  gRootObjID : Nat
  gOffsets : List Nat
  deriving DecidableEq, Repr

/-! ## C strings -/

/-- The bytes of a C string literal, without the terminating zero. -/
def cstr (s : String) : List Nat := s.toList.map Char.toNat

/-- Embeds `strncmp(s1, s2, n)` on two byte sources read from index `i` on. -/
def strncmp (s1 s2 : Nat → Nat) (i : Nat) : Nat → Int
  | 0 => 0
  | n + 1 =>
    if s1 i ≠ s2 i then (s1 i : Int) - (s2 i : Int)
    else if s1 i = 0 then 0
    else strncmp s1 s2 (i + 1) n

/-- Embeds `strcmp(s1, s2)` on two zero-terminated strings; the end of a list reads as the
terminator. -/
def strcmp : List Nat → List Nat → Int
  | [], [] => 0
  | [], c2 :: _ => - (c2 : Int)
  | c1 :: _, [] => (c1 : Int)
  | c1 :: r1, c2 :: r2 =>
    if c1 ≠ c2 then (c1 : Int) - (c2 : Int)
    else if c1 = 0 then 0
    else strcmp r1 r2

/-- Embeds `strncpy(dst, gInFileContents + src, n)`: the `n` bytes written to `dst`; copying stops
at the first zero byte and the rest is filled with zeros. -/
def strncpy (B : List Nat) (src : Int) : Nat → List Nat
  | 0 => []
  | n + 1 =>
    if peek B src = 0 then List.replicate (n + 1) 0
    else peek B src :: strncpy B (src + 1) n

/-- Embeds `memcpy(dst, gInFileContents + src, n)`: the `n` bytes written to `dst`. -/
def memcpy (B : List Nat) (src : Int) (n : Nat) : List Nat :=
  (List.range n).map (fun (j : Nat) => peek B (src + j))

/-! ## File-level functions -/

def kMagicWord : List Nat := cstr "bplist"
def kMagicWordLength : Nat := 6
def kVersion_bplist : List Nat := cstr "00"
def kVerLength : Nat := 2
def kTrailerOffset : Int := 26
def kOffsetSizeOffset : Int := 0
def kParamSizeOffset : Int := 1
def kNumObjOffset : Int := 2
def kRootObjOffset : Int := 10
def kOffsetTableOffsetOffset : Int := 18

/-- Embeds `Validate_bplist`; the argument is `gInFileContents`, `none` for `NULL`. -/
def Validate_bplist (contents : Option (List Nat)) : Bool :=
  match contents with
  | none => false
  | some B =>
    if B.length < kMagicWordLength + kVerLength then false
    else if strncmp (fun i => peek B i) (fun i => kMagicWord.getD i 0) 0 kMagicWordLength ≠ 0
    then false
    else if strncmp (fun i => peek B ((kMagicWordLength : Int) + i))
        (fun i => kVersion_bplist.getD i 0) 0 kVerLength ≠ 0
    then false
    else true

/-- The five values `Load_bplist` reads from the last 26 bytes of the file. -/
structure Trailer where
  offsetSize : Nat
  refSize : Nat
  numObj : Nat
  rootObjID : Nat
  offsetTableOffset : Nat
  deriving DecidableEq, Repr

/-- The trailer as `Load_bplist` reads it: the two size bytes are plain `char`s converted to
`uint64_t`, the three counts go through `ReadUInt_8Byte`. -/
def readTrailer (B : List Nat) : Trailer :=
  let trailer : Int := (B.length : Int) - kTrailerOffset
  { offsetSize := toUInt64 (peekChar B (trailer + kOffsetSizeOffset))
    refSize := toUInt64 (peekChar B (trailer + kParamSizeOffset))
    numObj := ReadUInt_8Byte B (trailer + kNumObjOffset)
    rootObjID := ReadUInt_8Byte B (trailer + kRootObjOffset)
    offsetTableOffset := ReadUInt_8Byte B (trailer + kOffsetTableOffsetOffset) }

/-- Embeds `Load_bplist`: `none` when it returns `false`, otherwise the globals it has set. -/
def Load_bplist (B : List Nat) : Option BPState :=
  let t := readTrailer B
  if t.numObj = 0 then none
  else if t.rootObjID > t.numObj then none
  else
    some
      { gInFileContents := B
        gRefSize := t.refSize
        gNumObj := t.numObj
        gRootObjID := t.rootObjID
        gOffsets := (List.range t.numObj).map (fun (a : Nat) =>
          ReadUInt_XByte B ((t.offsetTableOffset : Int) + a * t.offsetSize) t.offsetSize) }

/-! ## Object management -/

/-- Embeds `LoadObject_S1_Init`: the object with every member reset and its UID set. -/
def LoadObject_S1_Init (objNum : Nat) : BPObject :=
  { oUID := objNum
    oObjAddress := none
    oType := kTypeNone
    oSize := kNone
    oDataAddress := none
    oBool := false
    oInt := 0
    oReal := 0
    oData := none
    oIsBaseWritingDirection := false
    oIsNSTime := false }

/-- Embeds `LoadObject_S2_Locate`: the returned flag and the object as the call leaves it.
`gNumObj - 1` is computed in `uint64_t`. -/
def LoadObject_S2_Locate (s : BPState) (obj : BPObject) : Bool × BPObject :=
  if obj.oUID > (s.gNumObj + 2 ^ 64 - 1) % 2 ^ 64 then (false, obj)
  else (true, { obj with oObjAddress := some (s.gOffsets.getD obj.oUID 0 : Nat) })

/-- The search of `LoadObject_S3_GetType` through the rows of the table it is given: the
`otEnum` of the first row that matches, `-1` if none does. -/
def getTypeLoop (hiQuad loQuad : Int) : List BPObjectType → Int
  | [] => -1
  | row :: rest =>
    if hiQuad = row.otHighQuad then
      if row.otLowQuad ≠ -1 then
        if loQuad = row.otLowQuad then row.otEnum else getTypeLoop hiQuad loQuad rest
      else row.otEnum
    else getTypeLoop hiQuad loQuad rest

/-- The high quad `(byte & 0xF0) >> 4` of a code byte. -/
def hiQuadOf (b : Nat) : Nat := (b &&& 0xF0) >>> 4

/-- The low quad `byte & 0x0F` of a code byte. -/
def loQuadOf (b : Nat) : Nat := b &&& 0x0F

/-- Embeds `LoadObject_S3_GetType`: it returns `true` also when the type is left at `-1`. -/
def LoadObject_S3_GetType (s : BPState) (obj : BPObject) : Bool × BPObject :=
  match obj.oObjAddress with
  | none => (false, obj)
  | some addr =>
    let b := peek s.gInFileContents addr
    (true, { obj with oType := getTypeLoop (hiQuadOf b) (loQuadOf b) (gTypeTable.drop 1) })

open BPObjectSizeType in
/-- Embeds `LoadObject_S4_ReadSize`.  The table lookup reads the type set by stage 3, so the
object address is present here. -/
def LoadObject_S4_ReadSize (s : BPState) (obj : BPObject) : Bool × BPObject :=
  if obj.oType ≤ kTypeNone then (false, obj)
  else
    let addr : Int := obj.oObjAddress.getD 0
    let loQuad := loQuadOf (peek s.gInFileContents addr)
    let setSize (payloadSize overflow : Nat) : Bool × BPObject :=
      (true, { obj with oSize := payloadSize, oDataAddress := some (addr + 1 + overflow) })
    match (typeRow obj.oType).otSizeType with
    | kSizePowerOfTwo => setSize (2 ^ loQuad) 0
    | kSize8ByteFloat => setSize 8 0
    | kSizeScalarOverflow =>
      if loQuad = 0xF then
        let loScalarQuad := loQuadOf (peek s.gInFileContents (addr + 1))
        let payloadSizeScalar := 2 ^ loScalarQuad
        setSize (ReadUInt_XByte s.gInFileContents (addr + 2) payloadSizeScalar)
          (payloadSizeScalar + 1)
      else setSize loQuad 0
    | kSizeAddOne => setSize (loQuad + 1) 0
    | kSizeNone => setSize 0 0

/-! ## Data-reading functions -/

def ReadData_Null (obj : BPObject) : BPObject := { obj with oBool := false }
def ReadData_BoolFalse (obj : BPObject) : BPObject := { obj with oBool := false }
def ReadData_BoolTrue (obj : BPObject) : BPObject := { obj with oBool := true }
def ReadData_Fill (obj : BPObject) : BPObject := { obj with oBool := false }

/-- Embeds `ReadData_Int`. -/
def ReadData_Int (s : BPState) (obj : BPObject) : BPObject :=
  { obj with oInt := ReadUInt_XByte s.gInFileContents (obj.oDataAddress.getD 0) obj.oSize }

/-- Embeds `ReadData_Real`: for a size other than 4 and 8 nothing is stored.  The payload bytes are
reversed into a little-endian `double`; for size 4 the C code reads the `double` out of a
4-byte allocation, and only the four bytes it wrote are represented here. -/
def ReadData_Real (s : BPState) (obj : BPObject) : BPObject :=
  if obj.oSize ≠ 4 ∧ obj.oSize ≠ 8 then obj
  else { obj with oReal := bigEndian s.gInFileContents (obj.oDataAddress.getD 0) obj.oSize }

/-- Embeds `ReadData_Date`: the same code as `ReadData_Real`. -/
def ReadData_Date (s : BPState) (obj : BPObject) : BPObject :=
  if obj.oSize ≠ 4 ∧ obj.oSize ≠ 8 then obj
  else { obj with oReal := bigEndian s.gInFileContents (obj.oDataAddress.getD 0) obj.oSize }

/-- Embeds `ReadData_Data`. -/
def ReadData_Data (s : BPState) (obj : BPObject) : BPObject :=
  if obj.oSize > 0 then
    { obj with oData := some (memcpy s.gInFileContents (obj.oDataAddress.getD 0) obj.oSize) }
  else obj

/-- Embeds `ReadData_StringASCII`: `oData` is the `size + 1` bytes of the allocation. -/
def ReadData_StringASCII (s : BPState) (obj : BPObject) : BPObject :=
  if obj.oSize > 0 then
    let data := strncpy s.gInFileContents (obj.oDataAddress.getD 0) obj.oSize ++ [0]
    if strcmp data (cstr "BaseWritingDirection") = 0 then
      { obj with oData := some data, oIsBaseWritingDirection := true }
    else if strcmp data (cstr "NS.time") = 0 then
      { obj with oData := some data, oIsNSTime := true }
    else { obj with oData := some data }
  else obj

/-- Embeds `ReadData_StringUnicode`: `oData` is the `2 * size + 1` bytes of the allocation. -/
def ReadData_StringUnicode (s : BPState) (obj : BPObject) : BPObject :=
  if obj.oSize > 0 then
    { obj with
      oData := some (memcpy s.gInFileContents (obj.oDataAddress.getD 0) (obj.oSize * 2) ++ [0]) }
  else obj

/-- Embeds `ReadData_UID`. -/
def ReadData_UID (s : BPState) (obj : BPObject) : BPObject :=
  { obj with oInt := ReadUInt_XByte s.gInFileContents (obj.oDataAddress.getD 0) obj.oSize }

def ReadData_Array (obj : BPObject) : BPObject := { obj with oBool := false }
def ReadData_Set (obj : BPObject) : BPObject := { obj with oBool := false }

/-- Embeds `CopyObjectMetadata`: the destination object after the copy. -/
def CopyObjectMetadata (objSrc objDest : BPObject) : BPObject :=
  { objDest with
    oIsBaseWritingDirection := objSrc.oIsBaseWritingDirection
    oIsNSTime := objSrc.oIsNSTime }

/-- The reference that `ReadData_Dict` and `ReturnValueRefForKeyName` read for the key at
`pairReader`. -/
def dictKeyRef (s : BPState) (pairReader : Int) : Nat :=
  ReadUInt_XByte s.gInFileContents pairReader s.gRefSize

/-- The reference they read for the value paired with the key at `pairReader` in a dict of
`size` pairs; `gRefSize * size` is a `uint64_t` product. -/
def dictValueRef (s : BPState) (size : Nat) (pairReader : Int) : Nat :=
  ReadUInt_XByte s.gInFileContents (pairReader + ((s.gRefSize * size % 2 ^ 64 : Nat) : Int))
    s.gRefSize

/-- The loop of `ReadData_Dict` with `n` iterations left.  `load` is `LoadObject`; its
objects `key` and `value` are locals of the loop body and are dropped.  The result is
`none` when a `LoadObject` call does not return, `some ()` when the loop ends or is left by
`return`. -/
def ReadData_Dict_loop (load : Nat → Option (Bool × BPObject)) (s : BPState) (size : Nat) :
    Nat → Int → Option Unit
  | 0, _ => some ()
  | n + 1, pairReader =>
    match load (dictKeyRef s pairReader) with
    | none => none
    | some (false, _) => some ()
    | some (true, _) =>
      match load (dictValueRef s size pairReader) with
      | none => none
      | some (false, _) => some ()
      | some (true, _) => ReadData_Dict_loop load s size n (pairReader + s.gRefSize)

/-- Embeds `ReadData_Dict`: the object is left as it is; `none` when the scan does not return. -/
def ReadData_Dict (load : Nat → Option (Bool × BPObject)) (s : BPState) (obj : BPObject) :
    Option BPObject :=
  match ReadData_Dict_loop load s obj.oSize obj.oSize (obj.oDataAddress.getD 0) with
  | none => none
  | some () => some obj

/-- The call `gTypeTable[oType].otReadFunc(obj)`. -/
def callReadFunc (load : Nat → Option (Bool × BPObject)) (s : BPState) (obj : BPObject) :
    ReadFunc → Option BPObject
  | ReadFunc.Null => some (ReadData_Null obj)
  | ReadFunc.BoolFalse => some (ReadData_BoolFalse obj)
  | ReadFunc.BoolTrue => some (ReadData_BoolTrue obj)
  | ReadFunc.Fill => some (ReadData_Fill obj)
  | ReadFunc.Int => some (ReadData_Int s obj)
  | ReadFunc.Real => some (ReadData_Real s obj)
  | ReadFunc.Date => some (ReadData_Date s obj)
  | ReadFunc.Data => some (ReadData_Data s obj)
  | ReadFunc.StringASCII => some (ReadData_StringASCII s obj)
  | ReadFunc.StringUnicode => some (ReadData_StringUnicode s obj)
  | ReadFunc.UID => some (ReadData_UID s obj)
  | ReadFunc.Array => some (ReadData_Array obj)
  | ReadFunc.Set => some (ReadData_Set obj)
  | ReadFunc.Dict => ReadData_Dict load s obj

/-- Embeds `LoadObject_S5_ReadData`; `none` when the read function does not return. -/
def LoadObject_S5_ReadData (load : Nat → Option (Bool × BPObject)) (s : BPState)
    (obj : BPObject) : Option (Bool × BPObject) :=
  if obj.oSize = kNone then some (false, obj)
  else if obj.oType ≥ kTypeCount then some (false, obj)
  else
    match (typeRow obj.oType).otReadFunc with
    | some f =>
      match callReadFunc load s obj f with
      | none => none
      | some obj1 => some (true, obj1)
    | none => some (false, obj)

/-- Stages 1 to 4 of `LoadObject`, which call nothing that can fail to return. -/
def LoadObject_S1toS4 (s : BPState) (objNum : Nat) : Bool × BPObject :=
  match LoadObject_S2_Locate s (LoadObject_S1_Init objNum) with
  | (false, obj) => (false, obj)
  | (true, obj) =>
    match LoadObject_S3_GetType s obj with
    | (false, obj) => (false, obj)
    | (true, obj) => LoadObject_S4_ReadSize s obj

/-- Embeds `LoadObject`, with a bound `fuel` on the depth of nested `LoadObject` calls: `none`
when the bound is exhausted, otherwise the returned flag and the caller's object. -/
def LoadObject (s : BPState) : Nat → Nat → Option (Bool × BPObject)
  | 0, _ => none
  | fuel + 1, objNum =>
    match LoadObject_S1toS4 s objNum with
    | (false, obj) => some (false, obj)
    | (true, obj) => LoadObject_S5_ReadData (LoadObject s fuel) s obj

/-! ## Utility functions -/

/-- How a call that dereferences pointers and calls `LoadObject` can end. -/
inductive Run (α : Type) where
  /-- The call returned this value. -/
  | returned (a : α)
  /-- The call passed a `NULL` pointer to `strcmp`. -/
  | nullDeref
  /-- A nested `LoadObject` call did not return within the fuel. -/
  | noReturn
  deriving DecidableEq, Repr

/-- The loop of `ReturnValueRefForKeyName` with `n` iterations left.  The key reference is
read at `reader` and the value reference at `reader + gRefSize * dict->oSize`, with the
same expressions as in `ReadData_Dict`. -/
def ReturnValueRefForKeyName_loop (s : BPState) (fuel : Nat) (dictSize : Nat)
    (name : List Nat) : Nat → Int → Run Nat
  | 0, _ => Run.returned kNone
  | n + 1, reader =>
    match LoadObject s fuel (dictKeyRef s reader) with
    | none => Run.noReturn
    | some (false, _) => Run.returned kNone
    | some (true, key) =>
      if key.oType = kTypeStringASCII then
        match key.oData with
        | none => Run.nullDeref
        | some data =>
          if strcmp data name = 0 then
            Run.returned (dictValueRef s dictSize reader)
          else ReturnValueRefForKeyName_loop s fuel dictSize name n (reader + s.gRefSize)
      else ReturnValueRefForKeyName_loop s fuel dictSize name n (reader + s.gRefSize)

/-- Embeds `ReturnValueRefForKeyName(dict, name)`; `name` is the bytes of the C string. -/
def ReturnValueRefForKeyName (s : BPState) (fuel : Nat) (dict : BPObject) (name : List Nat) :
    Run Nat :=
  if dict.oSize = kNone then Run.returned kNone
  else if dict.oType ≠ kTypeDict then Run.returned kNone
  else ReturnValueRefForKeyName_loop s fuel dict.oSize name dict.oSize
    (dict.oDataAddress.getD 0)

/-! ## The object table of the design, written from its words -/

/-- The tag the design's table assigns to a header byte with high nibble `hi` and low
nibble `lo`, as the `oType` code of that tag; `none` where the table has no row. -/
def specTag (hi lo : Nat) : Option Int :=
  if hi = 0 ∧ lo = 0 then some kTypeNull
  else if hi = 0 ∧ lo = 8 then some kTypeBoolFalse
  else if hi = 0 ∧ lo = 9 then some kTypeBoolTrue
  else if hi = 0 ∧ lo = 15 then some kTypeFill
  else if hi = 1 then some kTypeInt
  else if hi = 2 then some kTypeReal
  else if hi = 3 ∧ lo = 3 then some kTypeDate
  else if hi = 4 then some kTypeData
  else if hi = 5 then some kTypeStringASCII
  else if hi = 6 then some kTypeStringUnicode
  else if hi = 8 then some kTypeUID
  else if hi = 10 then some kTypeArray
  else if hi = 12 then some kTypeSet
  else if hi = 13 then some kTypeDict
  else none

/-- The types whose size policy is `ScalarOverflow` in the design's table. -/
def isScalarOverflowType (t : Int) : Bool :=
  t = kTypeData || t = kTypeStringASCII || t = kTypeStringUnicode || t = kTypeArray
    || t = kTypeSet || t = kTypeDict

/-- The bytes one unit of payload takes, per the design: 1 for Int, Real, Date, Data,
AsciiString and UID, 2 for UnicodeString, `refIntSize` for Array (and Set), twice that for
Dict, and nothing for the types without payload. -/
def payloadUnit (s : BPState) (t : Int) : Nat :=
  if t = kTypeStringUnicode then 2
  else if t = kTypeArray ∨ t = kTypeSet then s.gRefSize
  else if t = kTypeDict then 2 * s.gRefSize
  else if t = kTypeNull ∨ t = kTypeBoolFalse ∨ t = kTypeBoolTrue ∨ t = kTypeFill then 0
  else 1

/-- The bytes of a C string: those before its first zero byte. -/
def cBytes (data : List Nat) : List Nat := data.takeWhile (fun c => c ≠ 0)

/-- The header byte of object `i`: the byte at `gOffsets[i]`. -/
def headerByte (s : BPState) (i : Nat) : Nat :=
  peek s.gInFileContents (s.gOffsets.getD i 0 : Nat)

/-- The object as stages 1 to 3 of `LoadObject` leave it for an index that stage 2
accepts: located at `gOffsets[i]` and typed from its header byte. -/
def typedObject (s : BPState) (i : Nat) : BPObject :=
  { LoadObject_S1_Init i with
    oObjAddress := some (s.gOffsets.getD i 0 : Nat)
    oType := getTypeLoop (hiQuadOf (headerByte s i)) (loQuadOf (headerByte s i))
      (gTypeTable.drop 1) }

/-! ## Sample files -/

/-- A 26-byte trailer whose three 64-bit fields fit in one byte each. -/
def mkTrailer (offsetSize refSize numObj rootObj tableOffset : Nat) : List Nat :=
  [offsetSize, refSize, 0, 0, 0, 0, 0, 0, 0, numObj, 0, 0, 0, 0, 0, 0, 0, rootObj,
    0, 0, 0, 0, 0, 0, 0, tableOffset]

/-- A file of the given object bytes, followed by a table of one-byte offsets and a trailer
with root object 0. -/
def mkFile (objects offsets : List Nat) (refSize : Nat) : List Nat :=
  cstr "bplist00" ++ objects ++ offsets ++
    mkTrailer 1 refSize offsets.length 0 (8 + objects.length)

/-- The globals `Load_bplist` sets for `mkFile objects offsets refSize`. -/
def mkState (objects offsets : List Nat) (refSize : Nat) : BPState :=
  { gInFileContents := mkFile objects offsets refSize
    gRefSize := refSize
    gNumObj := offsets.length
    gRootObjID := 0
    gOffsets := offsets }

/-- Object 0: the dict `{1: 2}`.  Object 1: the ASCII string of the bytes `61 00 62`.
Object 2: the int 7.  Object 3: a UID of three bytes `00 11 22`.  Object 4: the code byte
`70`, which the table does not know. -/
def sampleObjects : List Nat :=
  [0xD1, 1, 2, 0x53, 0x61, 0x00, 0x62, 0x10, 7, 0x82, 0x00, 0x11, 0x22, 0x70]

def sampleOffsets : List Nat := [8, 11, 15, 17, 21]
def sampleFile : List Nat := mkFile sampleObjects sampleOffsets 1
def sampleState : BPState := mkState sampleObjects sampleOffsets 1

/-- One object: an ASCII string header `5F` whose count marker `14` announces a count of
`2^4 = 16` bytes, followed by sixteen zero bytes. -/
def wideCountState : BPState := mkState ([0x5F, 0x14] ++ List.replicate 16 0) [8] 1

/-- One object: an ASCII string header `5F`, the count marker `00` (high nibble 0, not 1),
the count byte `01` and the payload byte `41`. -/
def markerState : BPState := mkState [0x5F, 0x00, 0x01, 0x41] [8] 1

/-- A file of 188 bytes whose only object has its header in the last byte of the file: the
low byte `A1` of the trailer's offset-table field, an array of one element. -/
def edgeState : BPState := mkState (List.replicate 153 0) [187] 1

/-- One object: a dict of one pair whose key reference and value reference are both 0, the
dict itself. -/
def loopState : BPState := mkState [0xD1, 0, 0] [8] 1

/-- Every key and value reference of every dict of the file has a smaller rank than the
dict: the dicts refer neither to themselves nor to a dict above them. -/
def dictRefsBelow (s : BPState) (rank : Nat → Nat) : Prop :=
  ∀ j < s.gNumObj, (LoadObject_S1toS4 s j).2.oType = kTypeDict →
    ∀ a < (LoadObject_S1toS4 s j).2.oSize,
      rank (dictKeyRef s ((LoadObject_S1toS4 s j).2.oDataAddress.getD 0
          + (a : Int) * (s.gRefSize : Int))) < rank j ∧
        rank (dictValueRef s (LoadObject_S1toS4 s j).2.oSize
          ((LoadObject_S1toS4 s j).2.oDataAddress.getD 0
            + (a : Int) * (s.gRefSize : Int))) < rank j

instance (s : BPState) (rank : Nat → Nat) : Decidable (dictRefsBelow s rank) := by
  unfold dictRefsBelow
  infer_instance

/-- A rank for `sampleState`: the dict, object 0, above everything else. -/
def sampleRank (j : Nat) : Nat := if j = 0 then 1 else 0

/-- A file with one object whose trailer gives 3 as the size of an offset and 3 as the size
of a reference. -/
def oddSizesFile : List Nat := cstr "bplist00" ++ [0x00] ++ [8] ++ mkTrailer 3 3 1 0 9

/-- The payload of a loaded object read as a C string: its bytes before the first zero
byte, `oSize` of them at most. -/
def keyCString (s : BPState) (key : BPObject) : List Nat :=
  cBytes (memcpy s.gInFileContents (key.oDataAddress.getD 0) key.oSize)

/-- The key is a non-empty AsciiString whose C string is that of `name`. -/
def keyMatches (s : BPState) (key : BPObject) (name : List Nat) : Prop :=
  key.oType = kTypeStringASCII ∧ 0 < key.oSize ∧ keyCString s key = cBytes name

/-- The key is not an AsciiString, or is a non-empty one whose C string differs from that
of `name`. -/
def keySkipped (s : BPState) (key : BPObject) (name : List Nat) : Prop :=
  key.oType ≠ kTypeStringASCII ∨ (0 < key.oSize ∧ keyCString s key ≠ cBytes name)

/-- Object 0 of `sampleState` as `LoadObject` returns it: the dict `{1: 2}`. -/
def sampleDict : BPObject := (LoadObject_S1toS4 sampleState 0).2

/-- Object 1 of `sampleState` as `LoadObject` returns it: the ASCII string whose payload is
`61 00 62`. -/
def sampleKey : BPObject := ReadData_StringASCII sampleState (LoadObject_S1toS4 sampleState 1).2

/-! ## Signed byte readers -/

/-- Conversion of an unsigned value to `int8_t`. -/
def toInt8 (x : Nat) : Int := ((x + 2 ^ 7) % 2 ^ 8 : Nat) - 2 ^ 7

/-- Conversion of an unsigned value to `int16_t`. -/
def toInt16 (x : Nat) : Int := ((x + 2 ^ 15) % 2 ^ 16 : Nat) - 2 ^ 15

/-- Embeds `ReadInt_2Byte`. -/
def ReadInt_2Byte (B : List Nat) (start : Int) : Int :=
  toInt16 (toUInt16 ((peek B (start + 1) : Int) + shlInt (peek B start) 8))

/-- Embeds `ReadInt_4Byte`: the `uint32_t` it assembles is returned through `(int16_t)`. -/
def ReadInt_4Byte (B : List Nat) (start : Int) : Int :=
  toInt16 ((List.range 4).foldl
    (fun (result a : Nat) => result ||| toUInt32 (shlInt (peek B (start + a)) ((3 - a) * 8))) 0)

/-- Embeds `ReadInt_8Byte`: the `uint64_t` it assembles is returned through `(int16_t)`. -/
def ReadInt_8Byte (B : List Nat) (start : Int) : Int :=
  toInt16 ((List.range 8).foldl
    (fun (result a : Nat) => result ||| toUInt64 (shlInt (peek B (start + a)) ((7 - a) * 8))) 0)

/-- Embeds `ReadInt_XByte`: dispatch on the width, 0 for an unsupported one. -/
def ReadInt_XByte (B : List Nat) (start : Int) (size : Nat) : Int :=
  if size = 1 then toInt8 (peek B start)
  else if size = 2 then ReadInt_2Byte B start
  else if size = 4 then ReadInt_4Byte B start
  else if size = 8 then ReadInt_8Byte B start
  else 0

/-- The two's-complement signed value of the big-endian word of `w` bytes at `off`. -/
def signedBigEndian (B : List Nat) (off : Int) (w : Nat) : Int :=
  if bigEndian B off w < 2 ^ (8 * w - 1) then (bigEndian B off w : Int)
  else (bigEndian B off w : Int) - 2 ^ (8 * w)

/-! ## Array elements -/

/-- Embeds `ReturnElemRef(array, elem)`; `elem * gRefSize` is a `uint64_t` product. -/
def ReturnElemRef (s : BPState) (array : BPObject) (elem : Nat) : Nat :=
  if array.oSize = kNone then kNone
  else if array.oType ≠ kTypeArray then kNone
  else if elem ≥ array.oSize then kNone
  else
    ReadUInt_XByte s.gInFileContents
      (array.oDataAddress.getD 0 + ((elem * s.gRefSize % 2 ^ 64 : Nat) : Int)) s.gRefSize

/-! ## More sample files -/

/-- Object 0: the dict whose key reference is 1 and whose value reference is 200.  Object
1: the ASCII string `"a"`.  The file has two objects. -/
def danglingState : BPState := mkState [0xD1, 1, 200, 0x51, 0x61] [8, 11] 1

/-- Object 0 of `danglingState` as `LoadObject` returns it. -/
def danglingDict : BPObject := (LoadObject_S1toS4 danglingState 0).2

/-- Object 0: an int whose header `14` declares a width of `2^4 = 16` bytes, followed by
sixteen bytes `01`. -/
def wideIntState : BPState := mkState ([0x14] ++ List.replicate 16 1) [8] 1

/-- Object 0: the array of the three references 1, 2, 1.  Object 1: the int 7.  Object 2:
the ASCII string `"a"`. -/
def arrayState : BPState := mkState [0xA3, 1, 2, 1, 0x10, 7, 0x51, 0x61] [8, 12, 14] 1

/-- Object 0 of `arrayState` as `LoadObject` returns it. -/
def sampleArray : BPObject := ReadData_Array (LoadObject_S1toS4 arrayState 0).2

/-! ## ichatReader.c

How a function of `ichatReader.c` can end.  Heap strings are represented by their bytes
before the terminator. -/

/-- The outcome of a function that returns `true` with a result, or returns `false`, or
passes a `NULL` pointer to a string function, or does not return because a nested
`LoadObject` does not, or reads or writes outside an allocation. -/
inductive Res (α : Type) where
  | ok (a : α)
  | fail
  | nullDeref
  | noReturn
  | outOfBounds
  deriving DecidableEq, Repr

/-- Sequencing: the rest of the function body runs only after a step that went through. -/
def Res.bind {α β : Type} (x : Res α) (f : α → Res β) : Res β :=
  match x with
  | Res.ok a => f a
  | Res.fail => Res.fail
  | Res.nullDeref => Res.nullDeref
  | Res.noReturn => Res.noReturn
  | Res.outOfBounds => Res.outOfBounds

instance : Monad Res where
  pure := Res.ok
  bind := Res.bind

/-- The macro `DieIf(boole)`, and `if (boole) return false;`. -/
def dieIf (boole : Bool) : Res Unit := if boole then Res.fail else Res.ok ()

/-- The pair of statements `DieIf(!LoadObject(ref, &obj));`, giving `obj`. -/
def loadOrDie (s : BPState) (fuel : Nat) (ref : Nat) : Res BPObject :=
  match LoadObject s fuel ref with
  | none => Res.noReturn
  | some (false, _) => Res.fail
  | some (true, obj) => Res.ok obj

/-- The call `ReturnValueRefForKeyName(dict, name)` as a step: its value, "none"
included. -/
def valueRef (s : BPState) (fuel : Nat) (dict : BPObject) (name : List Nat) : Res Nat :=
  match ReturnValueRefForKeyName s fuel dict name with
  | Run.returned v => Res.ok v
  | Run.nullDeref => Res.nullDeref
  | Run.noReturn => Res.noReturn

/-- The statements `ref = ReturnValueRefForKeyName(dict, name); DieIf(ref == (uint64_t)-1);`,
giving `ref`. -/
def valueRefOrDie (s : BPState) (fuel : Nat) (dict : BPObject) (name : List Nat) : Res Nat := do
  let ref ← valueRef s fuel dict name
  dieIf (ref = kNone)
  pure ref

/-- The statements `ref = ReturnElemRef(array, elem); DieIf(ref == (uint64_t)-1);`, giving
`ref`. -/
def elemRefOrDie (s : BPState) (array : BPObject) (elem : Nat) : Res Nat := do
  dieIf (ReturnElemRef s array elem = kNone)
  pure (ReturnElemRef s array elem)

/-- The call `strcmp(oData, literal) == 0` on the `oData` of a loaded object. -/
def oDataEquals (oData : Option (List Nat)) (literal : List Nat) : Res Bool :=
  match oData with
  | none => Res.nullDeref
  | some data => Res.ok (strcmp data literal = 0)

/-- The call `strlen(oData)` followed by `malloc`, `strncpy` of that length and the
terminator: the copy of the C string in `oData`. -/
def copyCString (oData : Option (List Nat)) : Res (List Nat) :=
  match oData with
  | none => Res.nullDeref
  | some data => Res.ok (cBytes data)

def kVersion_ichat : Nat := 100000

/-- Embeds `Validate_ichat`: `ok` with the object stored in `gObjectsArray` when it returns
`true`, `fail` when it returns `false`. -/
def Validate_ichat (s : BPState) (fuel : Nat) : Res BPObject := do
  let root ← loadOrDie s fuel s.gRootObjID
  dieIf (root.oType ≠ kTypeDict)
  let versionRef ← valueRefOrDie s fuel root (cstr "$version")
  let value ← loadOrDie s fuel versionRef
  dieIf (value.oType ≠ kTypeInt)
  dieIf (value.oInt ≠ kVersion_ichat)
  let objectsRef ← valueRefOrDie s fuel root (cstr "$objects")
  let objectsArray ← loadOrDie s fuel objectsRef
  dieIf (objectsArray.oType ≠ kTypeArray)
  pure objectsArray

/-! ## Building sample files -/

/-- The header of an object of `n < 256` units: the count in the low quad, or `0xF` and a
one-byte count. -/
def countHeader (tag n : Nat) : List Nat :=
  if n < 15 then [tag + n] else [tag + 15, 0x10, n]

def asciiObj (str : String) : List Nat := countHeader 0x50 (cstr str).length ++ cstr str

/-- A Unicode string object of the given 16-bit code units. -/
def unicodeObj (units : List Nat) : List Nat :=
  countHeader 0x60 units.length ++ units.flatMap (fun u => [u / 256, u % 256])

/-- A UID object of one byte. -/
def uidObj (n : Nat) : List Nat := [0x80, n]

/-- An int object of four bytes. -/
def intObj (n : Nat) : List Nat :=
  [0x12, n / 2 ^ 24 % 256, n / 2 ^ 16 % 256, n / 2 ^ 8 % 256, n % 256]

/-- A real object of eight bytes, all zero: the `double` 0.0. -/
def realZeroObj : List Nat := [0x23, 0, 0, 0, 0, 0, 0, 0, 0]

/-- An array object of one-byte references. -/
def arrayObj (refs : List Nat) : List Nat := countHeader 0xA0 refs.length ++ refs

/-- A dict object of one-byte references: the keys, then the values. -/
def dictObj (keys values : List Nat) : List Nat :=
  countHeader 0xD0 keys.length ++ keys ++ values

/-- The offsets of consecutive objects, the first of them at `start`. -/
def offsetsOf : Nat → List (List Nat) → List Nat
  | _, [] => []
  | start, obj :: rest => start :: offsetsOf (start + obj.length) rest

/-- The file made of the given objects: two-byte offsets, one-byte references. -/
def buildFile (objects : List (List Nat)) (root : Nat) : List Nat :=
  cstr "bplist00" ++ objects.flatten ++
    (offsetsOf 8 objects).flatMap (fun o => [o / 256, o % 256]) ++
    [2, 1, 0, 0, 0, 0, 0, 0, objects.length / 256, objects.length % 256,
      0, 0, 0, 0, 0, 0, 0, root,
      0, 0, 0, 0, 0, 0, (8 + objects.flatten.length) / 256, (8 + objects.flatten.length) % 256]

/-- The globals `Load_bplist` sets for `buildFile objects root`. -/
def buildState (objects : List (List Nat)) (root : Nat) : BPState :=
  { gInFileContents := buildFile objects root
    gRefSize := 1
    gNumObj := objects.length
    gRootObjID := root
    gOffsets := offsetsOf 8 objects }

/-- The function returned: `true` with a result, or `false`. -/
def Res.returns {α : Type} (x : Res α) : Prop := x = Res.fail ∨ ∃ a, x = Res.ok a

/-! ## Chat-level functions -/

/-- A plain `char`: the byte as a signed value. -/
def toSChar (b : Nat) : Int :=
  if b % 256 < 128 then ((b % 256 : Nat) : Int) else ((b % 256 : Nat) : Int) - 256

/-- The byte that the conversion `(char)x` stores. -/
def toByte (x : Int) : Nat := (x % 256).toNat

/-- Embeds `ConvertUnicodeToUTF8`: the five bytes of the allocation it returns, for the two
`char`s `c0`, `c1` at `unicodeStr`.  `wc >> n` and `wc & 0x3F` are written as division and
remainder; they are applied where `wc` is not negative. -/
def ConvertUnicodeToUTF8 (c0 c1 : Nat) : List Nat :=
  let wc : Int := shlInt (toSChar c0) 8 + toSChar c1
  if wc < 0x80 then [toByte wc, 0, 0, 0, 0]
  else if wc < 0x800 then [toByte (0xC0 + wc / 64), toByte (0x80 + wc % 64), 0, 0, 0]
  else if toUInt32 (wc - 0xd800) < 0x800 then [0, 0, 0, 0, 0]
  else if wc < 0x10000 then
    [toByte (0xE0 + wc / 4096), toByte (toSChar 0x80 + wc / 64 % 64), toByte (0x80 + wc % 64),
      0, 0]
  else if wc < 0x110000 then
    [toByte (0xF0 + wc / 262144), toByte (0x80 + wc / 4096 % 64),
      toByte (0x80 + wc / 64 % 64), toByte (0x80 + wc / 64), 0]
  else [0, 0, 0, 0, 0]

/-- The loop `for (b = 0; b < oSize * 2; b += 2)` over a Unicode string's `oData`, with `n`
iterations left: each code unit is converted, and the conversion is appended (`strcat`)
to `dst` when its `strlen` is 1. -/
def stripUnicodeLoop (oData : List Nat) : Nat → Nat → List Nat → List Nat
  | 0, _, dst => dst
  | n + 1, b, dst =>
    stripUnicodeLoop oData n (b + 2)
      (if (cBytes (ConvertUnicodeToUTF8 (oData.getD b 0) (oData.getD (b + 1) 0))).length = 1
        then dst ++ cBytes (ConvertUnicodeToUTF8 (oData.getD b 0) (oData.getD (b + 1) 0))
        else dst)

/-- The Unicode branch of the name and ID loops of `Load_ichat` (and of the subject in
`LoadMessage`): the zero-filled allocation, the loop, and `"<Unicode>"` when the result is
empty.  `oSize * 2` is a `uint64_t` product. -/
def stripUnicode (obj : BPObject) : List Nat :=
  if (stripUnicodeLoop (obj.oData.getD []) (obj.oSize * 2 % 2 ^ 64 / 2) 0 []).length = 0
  then cstr "<Unicode>"
  else stripUnicodeLoop (obj.oData.getD []) (obj.oSize * 2 % 2 ^ 64 / 2) 0 []

/-- The statements `p = strchr(str, '@'); if (p != NULL) *p = '\0';`. -/
def cutAtAt (str : List Nat) : List Nat := str.takeWhile (fun c => c ≠ 0x40)

/-- The ASCII branch of the name loop: the `strncpy` of `oSize` bytes of `oData` when
`oSize > 0`, `"<empty>"` otherwise. -/
def copyName (obj : BPObject) : Res (List Nat) :=
  if obj.oSize > 0 then
    match obj.oData with
    | none => Res.nullDeref
    | some data => Res.ok ((cBytes data).take obj.oSize)
  else Res.ok (cstr "<empty>")

/-- The ASCII branch of the ID loop: as for a name, and cut at the first `@` when
`gTrimEmailIDs` is set. -/
def copyAccountID (gTrimEmailIDs : Bool) (obj : BPObject) : Res (List Nat) :=
  if obj.oSize > 0 then
    match obj.oData with
    | none => Res.nullDeref
    | some data =>
      if gTrimEmailIDs then Res.ok (cutAtAt ((cBytes data).take obj.oSize))
      else Res.ok ((cBytes data).take obj.oSize)
  else Res.ok (cstr "<empty>")

/-- The statements that follow a UID through `$objects`: load the UID object at `ref`,
require its type, and load element `oInt` of `gObjectsArray`. -/
def followUID (s : BPState) (fuel : Nat) (gObjectsArray : BPObject) (ref : Nat) :
    Res BPObject := do
  let uid ← loadOrDie s fuel ref
  dieIf (uid.oType ≠ kTypeUID)
  let target ← elemRefOrDie s gObjectsArray uid.oInt
  loadOrDie s fuel target

/-- The search of `NS.keys` for `"Participants"` and `"PresentityIDs"` with `n` iterations
left, at index `a`. -/
def findMetadataKeys (s : BPState) (fuel : Nat) (gObjectsArray metadataKeys : BPObject) :
    Nat → Nat → Int → Int → Res (Int × Int)
  | 0, _, partIndex, presIndex => Res.ok (partIndex, presIndex)
  | n + 1, a, partIndex, presIndex => do
    let metadataKeyIDref ← elemRefOrDie s metadataKeys a
    let metadataKey ← followUID s fuel gObjectsArray metadataKeyIDref
    dieIf (metadataKey.oType ≠ kTypeStringASCII)
    let isPart ← oDataEquals metadataKey.oData (cstr "Participants")
    if isPart then findMetadataKeys s fuel gObjectsArray metadataKeys n (a + 1) a presIndex
    else do
      let isPres ← oDataEquals metadataKey.oData (cstr "PresentityIDs")
      if isPres then findMetadataKeys s fuel gObjectsArray metadataKeys n (a + 1) partIndex a
      else findMetadataKeys s fuel gObjectsArray metadataKeys n (a + 1) partIndex presIndex

/-- One iteration of the loop that reads the names of the participants. -/
def loadParticipantName (s : BPState) (fuel : Nat) (gObjectsArray participantsArray : BPObject)
    (a : Nat) : Res (List Nat) := do
  let nameID_IDref ← elemRefOrDie s participantsArray a
  let participant ← followUID s fuel gObjectsArray nameID_IDref
  if participant.oType = kTypeDict then do
    let participantNameRef ← valueRefOrDie s fuel participant (cstr "NS.string")
    let participantName ← loadOrDie s fuel participantNameRef
    dieIf (participantName.oType ≠ kTypeStringASCII)
    copyName participantName
  else if participant.oType = kTypeStringASCII then copyName participant
  else if participant.oType = kTypeStringUnicode then pure (stripUnicode participant)
  else Res.fail

/-- The loop that reads the names, with `n` iterations left, at index `a`. -/
def loadParticipantNames (s : BPState) (fuel : Nat) (gObjectsArray participantsArray : BPObject) :
    Nat → Nat → Res (List (List Nat))
  | 0, _ => Res.ok []
  | n + 1, a => do
    let name ← loadParticipantName s fuel gObjectsArray participantsArray a
    let rest ← loadParticipantNames s fuel gObjectsArray participantsArray n (a + 1)
    pure (name :: rest)

/-- One iteration of the loop that reads the account IDs. -/
def loadAccountID (s : BPState) (fuel : Nat) (gObjectsArray presentityArray : BPObject)
    (gTrimEmailIDs : Bool) (a : Nat) : Res (List Nat) := do
  let nameID_IDref ← elemRefOrDie s presentityArray a
  let presentity ← followUID s fuel gObjectsArray nameID_IDref
  if presentity.oType = kTypeDict then do
    let presentityNameRef ← valueRefOrDie s fuel presentity (cstr "NS.string")
    let presentityName ← loadOrDie s fuel presentityNameRef
    dieIf (presentityName.oType ≠ kTypeStringASCII)
    copyAccountID gTrimEmailIDs presentityName
  else if presentity.oType = kTypeStringASCII then copyAccountID gTrimEmailIDs presentity
  else if presentity.oType = kTypeStringUnicode then pure (stripUnicode presentity)
  else Res.fail

/-- The loop that reads the account IDs, with `n` iterations left, at index `a`. -/
def loadAccountIDs (s : BPState) (fuel : Nat) (gObjectsArray presentityArray : BPObject)
    (gTrimEmailIDs : Bool) : Nat → Nat → Res (List (List Nat))
  | 0, _ => Res.ok []
  | n + 1, a => do
    let id ← loadAccountID s fuel gObjectsArray presentityArray gTrimEmailIDs a
    let rest ← loadAccountIDs s fuel gObjectsArray presentityArray gTrimEmailIDs n (a + 1)
    pure (id :: rest)

/-- The statements that go from a dict to the array under its key `"NS.objects"`. -/
def objectsOf (s : BPState) (fuel : Nat) (dict : BPObject) : Res BPObject := do
  let ref ← valueRefOrDie s fuel dict (cstr "NS.objects")
  let array ← loadOrDie s fuel ref
  dieIf (array.oType ≠ kTypeArray)
  pure array

/-- Lines 100 to 173 of `Load_ichat`: the message list, the metadata dict, the indices of
the two keys and the array of the metadata values:
`(gMessageListArray, metadataValues, partIndex, presIndex)`. -/
def Load_ichat_metadata (s : BPState) (fuel : Nat) (gObjectsArray : BPObject) :
    Res (BPObject × BPObject × Int × Int) := do
  let messageListDictRef ← elemRefOrDie s gObjectsArray 4
  let messageListDict ← loadOrDie s fuel messageListDictRef
  dieIf (messageListDict.oType ≠ kTypeDict)
  let gMessageListArray ← objectsOf s fuel messageListDict
  let root ← loadOrDie s fuel s.gRootObjID
  let topRef ← valueRefOrDie s fuel root (cstr "$top")
  let top ← loadOrDie s fuel topRef
  dieIf (top.oType ≠ kTypeDict)
  let metadataIDRef ← valueRefOrDie s fuel top (cstr "metadata")
  let metadata ← followUID s fuel gObjectsArray metadataIDRef
  dieIf (metadata.oType ≠ kTypeDict)
  let metadataKeysRef ← valueRefOrDie s fuel metadata (cstr "NS.keys")
  let metadataKeys ← loadOrDie s fuel metadataKeysRef
  dieIf (metadataKeys.oType ≠ kTypeArray)
  let (partIndex, presIndex) ←
    findMetadataKeys s fuel gObjectsArray metadataKeys metadataKeys.oSize 0 (-1) (-1)
  dieIf (partIndex = -1)
  dieIf (presIndex = -1)
  let metadataValues ← objectsOf s fuel metadata
  pure (gMessageListArray, metadataValues, partIndex, presIndex)

/-- Lines 175 to 191 and 267 to 283 of `Load_ichat`: from the element `index` of the
metadata values to the array of the participants, or of the account IDs. -/
def Load_ichat_list (s : BPState) (fuel : Nat) (gObjectsArray metadataValues : BPObject)
    (index : Int) : Res BPObject := do
  let idRef ← elemRefOrDie s metadataValues index.toNat
  let dict ← followUID s fuel gObjectsArray idRef
  dieIf (dict.oType ≠ kTypeDict)
  objectsOf s fuel dict

/-- The globals of `ichatReader.c` that `Load_ichat` leaves behind when it returns
`true`. -/
structure ICGlobals where
  gObjectsArray : BPObject
  gMessageListArray : BPObject
  gNumParticipantNames : Nat
  gParticipantNames : List (List Nat)
  gNumParticipantIDs : Nat
  gParticipantIDs : List (List Nat)
  deriving DecidableEq, Repr

/-- Embeds `Load_ichat`. -/
def Load_ichat (s : BPState) (fuel : Nat) (gObjectsArray : BPObject) (gTrimEmailIDs : Bool) :
    Res ICGlobals := do
  let (gMessageListArray, metadataValues, partIndex, presIndex) ←
    Load_ichat_metadata s fuel gObjectsArray
  let participantsArray ← Load_ichat_list s fuel gObjectsArray metadataValues partIndex
  let names ←
    loadParticipantNames s fuel gObjectsArray participantsArray participantsArray.oSize 0
  let presentityArray ← Load_ichat_list s fuel gObjectsArray metadataValues presIndex
  let ids ←
    loadAccountIDs s fuel gObjectsArray presentityArray gTrimEmailIDs presentityArray.oSize 0
  pure
    { gObjectsArray := gObjectsArray
      gMessageListArray := gMessageListArray
      gNumParticipantNames := participantsArray.oSize
      gParticipantNames := names
      gNumParticipantIDs := presentityArray.oSize
      gParticipantIDs := ids }

/-! ## A sample chat log -/

/-- The objects of a chat log.  File objects 0 to 6 are the root dict, its three keys, the
version, the `$objects` array and the `$top` dict.  The `$objects` array has the elements
`a0` to `a9`, which are the file objects 7, 8, ..., 15 and 25, followed by `moreArchive`:
`a1` the metadata dict, `a2` and `a3` its two key names, `a4` the dict of the message list,
`a5` and `a6` the dicts of the participants and of the account IDs, `a7` the one
participant name, `a8` and `a9` the two account IDs.  File objects 16 to 24 are key names,
the UID 1 and the arrays; 26 to 32 are the UIDs 2, 3, 5, 6, 7, 8, 9.  `messages` are the
references of the message list, `more` the file objects from 33 on. -/
def chatObjects (name id1 id2 : List Nat) (moreArchive messages : List Nat)
    (more : List (List Nat)) : List (List Nat) :=
  [ dictObj [1, 2, 3] [4, 5, 6],
    asciiObj "$version", asciiObj "$objects", asciiObj "$top",
    intObj 100000,
    arrayObj ([7, 8, 9, 10, 11, 12, 13, 14, 15, 25] ++ moreArchive),
    dictObj [16] [17],
    asciiObj "$null",
    dictObj [18, 19] [20, 21],
    asciiObj "Participants", asciiObj "PresentityIDs",
    dictObj [19] [22],
    dictObj [19] [23],
    dictObj [19] [24],
    name, id1,
    asciiObj "metadata", uidObj 1, asciiObj "NS.keys", asciiObj "NS.objects",
    arrayObj [26, 27], arrayObj [28, 29],
    arrayObj messages,
    arrayObj [30], arrayObj [31, 32],
    id2,
    uidObj 2, uidObj 3, uidObj 5, uidObj 6, uidObj 7, uidObj 8, uidObj 9 ] ++ more

/-! ## Message-level functions -/

/-- Embeds `struct ICMessage`.  `mText` holds the bytes before the final terminator: a C
string, or, when `mWideStrSize` is not 0, the block of 16-bit characters. -/
structure ICMessage where
  mHiccup : Bool
  mFromClient : Bool
  mFileTransfer : Nat
  mSenderID : Option (List Nat)
  mTime : Option (List Nat)
  mText : Option (List Nat)
  mWideStrSize : Nat
  deriving DecidableEq, Repr

/-- Embeds `InitMessage`. -/
def InitMessage : ICMessage :=
  { mHiccup := false
    mFromClient := false
    mFileTransfer := 0
    mSenderID := none
    mTime := none
    mText := none
    mWideStrSize := 0 }

/-- Lines 542 to 551 of `LoadMessage`: whether the key `StatusChatItemStatusType` is there
with the value 1 or 2. -/
def LoadMessage_isClient (s : BPState) (fuel : Nat) (BPmsg : BPObject) : Res Bool := do
  let statusTypeRef ← valueRef s fuel BPmsg (cstr "StatusChatItemStatusType")
  if statusTypeRef ≠ kNone then do
    let statusType ← loadOrDie s fuel statusTypeRef
    dieIf (statusType.oType ≠ kTypeInt)
    pure (statusType.oInt = 1 || statusType.oInt = 2)
  else pure false

/-- Lines 560 to 623: the account ID of the subject of a client message. -/
def LoadMessage_subject (s : BPState) (fuel : Nat) (gObjectsArray BPmsg : BPObject) :
    Res (List Nat) := do
  let subjectDictID_IDref ← valueRefOrDie s fuel BPmsg (cstr "Subject")
  let subjectDict ← followUID s fuel gObjectsArray subjectDictID_IDref
  dieIf (subjectDict.oType ≠ kTypeDict)
  let subjectNameIDref ← valueRefOrDie s fuel subjectDict (cstr "ID")
  let subjectName ← followUID s fuel gObjectsArray subjectNameIDref
  if subjectName.oType = kTypeDict then do
    let subjectNameStrRef ← valueRefOrDie s fuel subjectName (cstr "NS.string")
    let subjectNameStr ← loadOrDie s fuel subjectNameStrRef
    dieIf (subjectNameStr.oType ≠ kTypeStringASCII)
    copyCString subjectNameStr.oData
  else if subjectName.oType = kTypeStringASCII then copyCString subjectName.oData
  else if subjectName.oType = kTypeStringUnicode then pure (stripUnicode subjectName)
  else Res.fail

/-- The call `strcat(buf, src)` on a buffer: the C string of `src` and a terminator are
written from the first zero byte of `buf` on. -/
def strcatBuf (buf src : List Nat) : List Nat :=
  buf.take (cBytes buf).length ++ cBytes src ++ [0] ++
    buf.drop ((cBytes buf).length + (cBytes src).length + 1)

/-- The loop of lines 686 to 692 with `n` iterations left: the two `char`s converted are
read at `mSenderID + b`, from the buffer `buf` that the loop fills. -/
def senderUnicodeLoop : Nat → Nat → List Nat → List Nat
  | 0, _, buf => buf
  | n + 1, b, buf =>
    senderUnicodeLoop n (b + 2)
      (if (cBytes (ConvertUnicodeToUTF8 (buf.getD b 0) (buf.getD (b + 1) 0))).length = 1
        then strcatBuf buf (ConvertUnicodeToUTF8 (buf.getD b 0) (buf.getD (b + 1) 0))
        else buf)

/-- Lines 685 to 698: the sender ID made from a Unicode string object. -/
def senderFromUnicode (obj : BPObject) : List Nat :=
  if (cBytes (senderUnicodeLoop (obj.oSize * 2 % 2 ^ 64 / 2) 0
      (List.replicate ((obj.oSize * 2 + 1) % 2 ^ 64) 0))).length = 0
  then cstr "<Unicode>"
  else cBytes (senderUnicodeLoop (obj.oSize * 2 % 2 ^ 64 / 2) 0
    (List.replicate ((obj.oSize * 2 + 1) % 2 ^ 64) 0))

/-- Lines 632 to 701: the sender of a message that is not a client message:
`(mFromClient, mSenderID)` as the statements leave them. -/
def LoadMessage_sender (s : BPState) (fuel : Nat) (gObjectsArray BPmsg : BPObject)
    (ICmsg : ICMessage) : Res (Bool × Option (List Nat)) := do
  let senderDictID_IDref ← valueRefOrDie s fuel BPmsg (cstr "Sender")
  let senderDictID ← loadOrDie s fuel senderDictID_IDref
  dieIf (senderDictID.oType ≠ kTypeUID)
  if senderDictID.oInt = 0 then pure (true, ICmsg.mSenderID)
  else do
    let senderDictIDref ← elemRefOrDie s gObjectsArray senderDictID.oInt
    let senderDict ← loadOrDie s fuel senderDictIDref
    dieIf (senderDict.oType ≠ kTypeDict)
    let senderNameIDref ← valueRefOrDie s fuel senderDict (cstr "ID")
    let senderName ← followUID s fuel gObjectsArray senderNameIDref
    if senderName.oType = kTypeDict then do
      let senderNameStrRef ← valueRefOrDie s fuel senderName (cstr "NS.string")
      let senderNameStr ← loadOrDie s fuel senderNameStrRef
      dieIf (senderNameStr.oType ≠ kTypeStringASCII)
      let id ← copyCString senderNameStr.oData
      pure (ICmsg.mFromClient, some id)
    else if senderName.oType = kTypeStringASCII then do
      let id ← copyCString senderName.oData
      pure (ICmsg.mFromClient, some id)
    else if senderName.oType = kTypeStringUnicode then
      pure (ICmsg.mFromClient, some (senderFromUnicode senderName))
    else Res.fail

/-- Lines 705 to 723: the bits of the `double` under `Time`, `NS.time`. -/
def LoadMessage_time (s : BPState) (fuel : Nat) (gObjectsArray BPmsg : BPObject) : Res Nat := do
  let timeDictIDref ← valueRefOrDie s fuel BPmsg (cstr "Time")
  let timeDict ← followUID s fuel gObjectsArray timeDictIDref
  dieIf (timeDict.oType ≠ kTypeDict)
  let timeRef ← valueRefOrDie s fuel timeDict (cstr "NS.time")
  let time ← loadOrDie s fuel timeRef
  dieIf (time.oType ≠ kTypeReal)
  pure time.oReal

/-- Lines 729 to 741, and again 797 to 809: the dict under `MessageText`. -/
def LoadMessage_messageText (s : BPState) (fuel : Nat) (gObjectsArray BPmsg : BPObject) :
    Res BPObject := do
  let msgTextIDref ← valueRefOrDie s fuel BPmsg (cstr "MessageText")
  let msgText ← followUID s fuel gObjectsArray msgTextIDref
  dieIf (msgText.oType ≠ kTypeDict)
  pure msgText

/-- What the text branch and the file branch of `LoadMessage` store in the message. -/
structure MessageBody where
  mHiccup : Bool
  mFileTransfer : Nat
  mText : Option (List Nat)
  mWideStrSize : Nat
  deriving DecidableEq, Repr

/-- The call `asprintf(&mText, "%s is now ...", subject)`; the text after `%s` is `rest`,
and a `NULL` subject is formatted as `(null)`. -/
def substituteSubject (subject : Option (List Nat)) (rest : List Nat) : Res (List Nat) :=
  Res.ok (subject.getD (cstr "(null)") ++ rest)

/-- Lines 768 to 782: the text of a message stored as an ASCII string. -/
def LoadMessage_asciiText (isClient : Bool) (subject : Option (List Nat)) (string : BPObject) :
    Res (List Nat) := do
  let online ← if isClient then oDataEquals string.oData (cstr "%@ is now online.")
    else pure false
  if online then substituteSubject subject (cstr " is now online.")
  else do
    let offline ← if isClient then oDataEquals string.oData (cstr "%@ is now offline.")
      else pure false
    if offline then substituteSubject subject (cstr " is now offline.")
    else copyCString string.oData

/-- Lines 749 to 793: the text branch. -/
def LoadMessage_text (s : BPState) (fuel : Nat) (gObjectsArray msgText : BPObject)
    (isClient : Bool) (subject : Option (List Nat)) (ICmsg : ICMessage) : Res MessageBody := do
  let stringDictIDref ← valueRefOrDie s fuel msgText (cstr "NSString")
  let stringDict ← followUID s fuel gObjectsArray stringDictIDref
  let stringRef ← valueRefOrDie s fuel stringDict (cstr "NS.string")
  let string ← loadOrDie s fuel stringRef
  if string.oType = kTypeStringASCII then do
    let text ← LoadMessage_asciiText isClient subject string
    pure
      { mHiccup := ICmsg.mHiccup
        mFileTransfer := ICmsg.mFileTransfer
        mText := some text
        mWideStrSize := ICmsg.mWideStrSize }
  else if string.oType = kTypeStringUnicode then
    pure
      { mHiccup := ICmsg.mHiccup
        mFileTransfer := ICmsg.mFileTransfer
        mText := some ((string.oData.getD []).take (string.oSize * 2 % 2 ^ 64))
        mWideStrSize := string.oSize }
  else Res.fail

/-- The statements that go from a dict to the array under its key `"NS.keys"`. -/
def keysOf (s : BPState) (fuel : Nat) (dict : BPObject) : Res BPObject := do
  let ref ← valueRefOrDie s fuel dict (cstr "NS.keys")
  let array ← loadOrDie s fuel ref
  dieIf (array.oType ≠ kTypeArray)
  pure array

/-- Lines 891 to 911: the search of `msgKeys` for `"__kIMFilenameAttributeName"`, with `n`
iterations left, at index `b`; there is no `break`. -/
def findFileNameKey (s : BPState) (fuel : Nat) (gObjectsArray msgKeys : BPObject) :
    Nat → Nat → Int → Res Int
  | 0, _, nameIndex => Res.ok nameIndex
  | n + 1, b, nameIndex => do
    let msgKeyIDref ← elemRefOrDie s msgKeys b
    let msgKey ← followUID s fuel gObjectsArray msgKeyIDref
    dieIf (msgKey.oType ≠ kTypeStringASCII)
    let found ← oDataEquals msgKey.oData (cstr "__kIMFilenameAttributeName")
    findFileNameKey s fuel gObjectsArray msgKeys n (b + 1) (if found then (b : Int) else nameIndex)

/-- Lines 890 to 924: the object that holds the name of the file described by `msgKeys`
and `msgValues`. -/
def LoadMessage_fileName (s : BPState) (fuel : Nat) (gObjectsArray msgKeys msgValues : BPObject) :
    Res BPObject := do
  let nameIndex ← findFileNameKey s fuel gObjectsArray msgKeys msgKeys.oSize 0 (-1)
  dieIf (nameIndex = -1)
  let fileNameIDref ← elemRefOrDie s msgValues nameIndex.toNat
  let fileName ← followUID s fuel gObjectsArray fileNameIDref
  dieIf (fileName.oType ≠ kTypeStringASCII)
  pure fileName

/-- The characters that `asprintf` writes for a `%s` conversion: those of the string, and
`(null)` when the argument is `NULL`, which is how the C library formats it. -/
def percentS (str : Option (List Nat)) : List Nat :=
  match str with
  | none => cstr "(null)"
  | some data => cBytes data

/-- Lines 860 to 948 when several files are sent: the loop over the elements of
`attribObjects`, with `n` iterations left, at index `a`, `mText` being the text so far. -/
def LoadMessage_fileNames (s : BPState) (fuel : Nat) (gObjectsArray attribObjects : BPObject) :
    Nat → Nat → Option (List Nat) → Res (Option (List Nat))
  | 0, _, mText => Res.ok mText
  | n + 1, a, mText => do
    let attribObjIDref ← elemRefOrDie s attribObjects a
    let attribObj ← followUID s fuel gObjectsArray attribObjIDref
    dieIf (attribObj.oType ≠ kTypeDict)
    let msgKeys ← keysOf s fuel attribObj
    let msgValues ← objectsOf s fuel attribObj
    let fileName ← LoadMessage_fileName s fuel gObjectsArray msgKeys msgValues
    match mText with
    | some prevStr =>
      LoadMessage_fileNames s fuel gObjectsArray attribObjects n (a + 1)
        (some (prevStr ++ cstr ", " ++ percentS fileName.oData))
    | none =>
      LoadMessage_fileNames s fuel gObjectsArray attribObjects n (a + 1)
        (some (percentS fileName.oData))

/-- Lines 797 to 948: the file branch. -/
def LoadMessage_files (s : BPState) (fuel : Nat) (gObjectsArray BPmsg : BPObject)
    (ICmsg : ICMessage) : Res MessageBody := do
  let msgText ← LoadMessage_messageText s fuel gObjectsArray BPmsg
  let attribInfoRef ← valueRef s fuel msgText (cstr "NSAttributeInfo")
  let attribIDref ← valueRef s fuel msgText (cstr "NSAttributes")
  if attribIDref = kNone then
    pure
      { mHiccup := true
        mFileTransfer := ICmsg.mFileTransfer
        mText := ICmsg.mText
        mWideStrSize := ICmsg.mWideStrSize }
  else do
    let attrib ← followUID s fuel gObjectsArray attribIDref
    dieIf (attrib.oType ≠ kTypeDict)
    if attribInfoRef ≠ kNone then do
      let attribObjects ← objectsOf s fuel attrib
      let mText ← LoadMessage_fileNames s fuel gObjectsArray attribObjects attribObjects.oSize 0
        ICmsg.mText
      pure
        { mHiccup := ICmsg.mHiccup
          mFileTransfer := attribObjects.oSize
          mText := mText
          mWideStrSize := ICmsg.mWideStrSize }
    else do
      let msgKeys ← keysOf s fuel attrib
      let msgValues ← objectsOf s fuel attrib
      let fileName ← LoadMessage_fileName s fuel gObjectsArray msgKeys msgValues
      let name ← copyCString fileName.oData
      pure
        { mHiccup := ICmsg.mHiccup
          mFileTransfer := 1
          mText := some name
          mWideStrSize := ICmsg.mWideStrSize }

/-- Lines 746 to 949: the text branch when `isText`, the file branch otherwise. -/
def LoadMessage_body (s : BPState) (fuel : Nat) (gObjectsArray BPmsg msgText : BPObject)
    (isClient : Bool) (subject : Option (List Nat)) (ICmsg : ICMessage) (isText : Bool) :
    Res MessageBody :=
  if isText then LoadMessage_text s fuel gObjectsArray msgText isClient subject ICmsg
  else LoadMessage_files s fuel gObjectsArray BPmsg ICmsg

/-- Lines 539 to 702: client or participant: `(isClient, subject, mFromClient, mSenderID)`. -/
def LoadMessage_party (s : BPState) (fuel : Nat) (gObjectsArray BPmsg : BPObject)
    (ICmsg : ICMessage) : Res (Bool × Option (List Nat) × Bool × Option (List Nat)) := do
  let isClient ← LoadMessage_isClient s fuel BPmsg
  if isClient then do
    let subject ← LoadMessage_subject s fuel gObjectsArray BPmsg
    pure (true, some subject, true, ICmsg.mSenderID)
  else do
    let sender ← LoadMessage_sender s fuel gObjectsArray BPmsg ICmsg
    pure (false, none, sender.1, sender.2)

/-- Embeds `LoadMessage`: the message and `gFirstMsgTime` as the call leaves them when it
returns `true`.  `dateString bits long` stands for the string `ConvertNSDate` makes of the
`double` with the given bit pattern, in long or short format. -/
def LoadMessage (s : BPState) (fuel : Nat) (gObjectsArray : BPObject)
    (dateString : Nat → Bool → List Nat) (gFirstMsgTime : Option (List Nat))
    (BPmsg : BPObject) (ICmsg : ICMessage) (firstMsg : Bool) :
    Res (ICMessage × Option (List Nat)) := do
  let party ← LoadMessage_party s fuel gObjectsArray BPmsg ICmsg
  let oReal ← LoadMessage_time s fuel gObjectsArray BPmsg
  let msgText ← LoadMessage_messageText s fuel gObjectsArray BPmsg
  let originalRef ← valueRef s fuel BPmsg (cstr "OriginalMessage")
  let body ← LoadMessage_body s fuel gObjectsArray BPmsg msgText party.1 party.2.1 ICmsg
    (originalRef ≠ kNone)
  pure
    ({ mHiccup := body.mHiccup
       mFromClient := party.2.2.1
       mFileTransfer := body.mFileTransfer
       mSenderID := party.2.2.2
       mTime := some (dateString oReal false)
       mText := body.mText
       mWideStrSize := body.mWideStrSize },
      if firstMsg then some (dateString oReal true) else gFirstMsgTime)

/-! ## Sample chat logs -/

/-- A chat log with one participant name and two account IDs. -/
def unevenLog : List (List Nat) :=
  chatObjects (asciiObj "Al") (asciiObj "al@x") (asciiObj "bo@y") [] [] []

/-- A chat log whose participant name is the Unicode string U+00E9, U+0041, U+202A and
whose first account ID is the Unicode string `a@b`. -/
def unicodeLog : List (List Nat) :=
  chatObjects (unicodeObj [0xE9, 0x41, 0x202A]) (unicodeObj [0x61, 0x40, 0x62])
    (asciiObj "bo@y") [] [] []

/-- A chat log with one message.  File object 33 is the message dict `message`; 34 to 41
are key names; the `$objects` array goes on with `a10` the dict of the sender, `a11` the
sender's account ID `sender`, `a12` the dict of the time, `a13` the dict `msgText`, `a14`
the dict of the string `"hi"`, `a15` the message, and then `moreArchive`.  File objects 49
to 54 are the UIDs 10 to 15, `more` the file objects from 55 on. -/
def messageLog (sender message msgText : List Nat) (moreArchive : List Nat)
    (more : List (List Nat)) : List (List Nat) :=
  chatObjects (asciiObj "Al") (asciiObj "al@x") (asciiObj "bo@y")
    ([42, 43, 44, 46, 47, 33] ++ moreArchive) [54]
    ([ message,
      asciiObj "Sender", asciiObj "Time", asciiObj "MessageText", asciiObj "OriginalMessage",
      asciiObj "ID", asciiObj "NS.time", asciiObj "NSString", asciiObj "NS.string",
      dictObj [38] [50], sender,
      dictObj [39] [45], realZeroObj,
      msgText,
      dictObj [41] [48], asciiObj "hi",
      uidObj 10, uidObj 11, uidObj 12, uidObj 13, uidObj 14, uidObj 15 ] ++ more)

/-- A text message whose sender has the account ID `sender`. -/
def textLog (sender : List Nat) : List (List Nat) :=
  messageLog sender (dictObj [34, 35, 36, 37] [49, 51, 52, 49]) (dictObj [40] [53]) [] []

/-- A message without `OriginalMessage`, with `NSAttributeInfo`, whose `NSAttributes` dict
(`a16`, file object 58) has an empty `NS.objects` array. -/
def noFilesLog : List (List Nat) :=
  messageLog (asciiObj "bob") (dictObj [34, 35, 36] [49, 51, 52]) (dictObj [55, 56] [49, 57])
    [58]
    [asciiObj "NSAttributeInfo", asciiObj "NSAttributes", uidObj 16, dictObj [19] [59],
      arrayObj []]

/-- The call `LoadMessage(&BPmsg, &ICmsg, firstMsg)` of `Convert_ichat` on the file made of
`objects`, for the message at file object `ref`, after `Validate_ichat`, with empty date
strings. -/
def loadSampleMessage (objects : List (List Nat)) (ref : Nat) : Res ICMessage := do
  let gObjectsArray ← Validate_ichat (buildState objects 0) 3
  let BPmsg ← loadOrDie (buildState objects 0) 3 ref
  let loaded ← LoadMessage (buildState objects 0) 3 gObjectsArray (fun _ _ => []) none BPmsg
    InitMessage true
  pure loaded.1

/-- The call `Load_ichat()` on the file made of `objects`, after `Validate_ichat`. -/
def loadSampleLog (objects : List (List Nat)) (gTrimEmailIDs : Bool) : Res ICGlobals := do
  let gObjectsArray ← Validate_ichat (buildState objects 0) 3
  Load_ichat (buildState objects 0) 3 gObjectsArray gTrimEmailIDs

/-- The globals after `Load_ichat` on `unevenLog`. -/
def unevenGlobals : ICGlobals :=
  { gObjectsArray := ReadData_Array (LoadObject_S1toS4 (buildState unevenLog 0) 5).2
    gMessageListArray := ReadData_Array (LoadObject_S1toS4 (buildState unevenLog 0) 22).2
    gNumParticipantNames := 1
    gParticipantNames := [cstr "Al"]
    gNumParticipantIDs := 2
    gParticipantIDs := [cstr "al@x", cstr "bo@y"] }

/-- The globals after `Load_ichat` on `unicodeLog` with `gTrimEmailIDs` set. -/
def unicodeGlobals : ICGlobals :=
  { gObjectsArray := ReadData_Array (LoadObject_S1toS4 (buildState unicodeLog 0) 5).2
    gMessageListArray := ReadData_Array (LoadObject_S1toS4 (buildState unicodeLog 0) 22).2
    gNumParticipantNames := 1
    gParticipantNames := [[0xE9, 0x41]]
    gNumParticipantIDs := 2
    gParticipantIDs := [cstr "a@b", cstr "bo"] }

/-- The globals that `Load_bplist` sets for the chat log `noFilesLog`. -/
def noFilesState : BPState := buildState noFilesLog 0

/-- The `$objects` array of a sample chat log, file object 5, as `LoadObject` gives it. -/
def sampleArchive (s : BPState) : BPObject := ReadData_Array (LoadObject_S1toS4 s 5).2

/-- The message dict of a sample chat log, file object 33, as `LoadObject` gives it. -/
def sampleMessage (s : BPState) : BPObject := (LoadObject_S1toS4 s 33).2

/-- The message that `LoadMessage` makes of the message of `noFilesLog`. -/
def noFilesMessage : ICMessage :=
  { InitMessage with mSenderID := some (cstr "bob"), mTime := some [] }

/-! ## `double` arithmetic

A finite `double` is represented by a fraction `(num, den)`, `den > 0`, of the same value.
The result of an operation is rounded to the nearest `double`, ties to the even mantissa;
`none` stands for an infinity or a NaN. -/

/-- The number of binary digits of `n`, by halving; `fuel` bounds the number of halvings. -/
def bitLength : Nat → Nat → Nat
  | 0, _ => 0
  | fuel + 1, n => if n = 0 then 0 else bitLength fuel (n / 2) + 1

/-- The integer nearest to `a / d`; of two that are equally near, the even one. -/
def roundHalfEven (a d : Nat) : Nat :=
  if 2 * (a % d) < d then a / d
  else if d < 2 * (a % d) then a / d + 1
  else if a / d % 2 = 0 then a / d
  else a / d + 1

/-- The exponent `e` with `2^e ≤ a / d < 2^(e+1)`, for `a > 0` and `d > 0`. -/
def binaryExponent (a d : Nat) : Int :=
  if 0 ≤ (bitLength a a : Int) - (bitLength d d : Int) then
    (if d * 2 ^ ((bitLength a a : Int) - (bitLength d d : Int)).toNat ≤ a
      then (bitLength a a : Int) - (bitLength d d : Int)
      else (bitLength a a : Int) - (bitLength d d : Int) - 1)
  else
    (if d ≤ a * 2 ^ ((bitLength d d : Int) - (bitLength a a : Int)).toNat
      then (bitLength a a : Int) - (bitLength d d : Int)
      else (bitLength a a : Int) - (bitLength d d : Int) - 1)

/-- The `double` nearest to `num / den`: 53 binary digits, or fewer below `2^-1022`. -/
def roundToDouble (num : Int) (den : Nat) : Option (Int × Nat) :=
  if num = 0 then some (0, 1)
  else
    let p : Int := max (binaryExponent num.natAbs den - 52) (-1074)
    let sgn : Int := if num < 0 then -1 else 1
    if 0 ≤ p then
      if roundHalfEven num.natAbs (den * 2 ^ p.toNat) * 2 ^ p.toNat < 2 ^ 1024 then
        some (sgn * ((roundHalfEven num.natAbs (den * 2 ^ p.toNat) * 2 ^ p.toNat : Nat) : Int), 1)
      else none
    else
      some (sgn * ((roundHalfEven (num.natAbs * 2 ^ (-p).toNat) den : Nat) : Int),
        2 ^ (-p).toNat)

/-- The `double` with the given 64 bits. -/
def doubleOfBits (bits : Nat) : Option (Int × Nat) :=
  let sgn : Int := if bits / 2 ^ 63 % 2 = 1 then -1 else 1
  if bits / 2 ^ 52 % 2048 = 2047 then none
  else if bits % 2 ^ 63 = 0 then some (0, 1)
  else if bits / 2 ^ 52 % 2048 = 0 then some (sgn * ((bits % 2 ^ 52 : Nat) : Int), 2 ^ 1074)
  else if 1075 ≤ bits / 2 ^ 52 % 2048 then
    some (sgn * (((2 ^ 52 + bits % 2 ^ 52) * 2 ^ (bits / 2 ^ 52 % 2048 - 1075) : Nat) : Int), 1)
  else
    some (sgn * ((2 ^ 52 + bits % 2 ^ 52 : Nat) : Int), 2 ^ (1075 - bits / 2 ^ 52 % 2048))

/-- The quotient `x / k` of a `double` by the `double` of the whole number `k > 0`. -/
def doubleDiv (x : Int × Nat) (k : Nat) : Option (Int × Nat) := roundToDouble x.1 (x.2 * k)

/-- The difference `x - (double)n` for an `int` `n`. -/
def doubleSub (x : Int × Nat) (n : Int) : Option (Int × Nat) :=
  roundToDouble (x.1 - n * (x.2 : Int)) x.2

/-- The conversion `(int)x`: the value without its fraction; undefined (`none`) when that is
not an `int`. -/
def doubleToInt (x : Int × Nat) : Option Int :=
  if -2 ^ 31 ≤ x.1.tdiv (x.2 : Int) ∧ x.1.tdiv (x.2 : Int) < 2 ^ 31
  then some (x.1.tdiv (x.2 : Int))
  else none

/-! ## `printf` conversions -/

/-- The decimal digits of `n`. -/
def decimal (n : Nat) : List Nat := (Nat.toDigits 10 n).map Char.toNat

/-- The conversion `%d`. -/
def printf_d (x : Int) : List Nat :=
  if x < 0 then 0x2D :: decimal x.natAbs else decimal x.natAbs

/-- The conversion `%02d`: at least two characters, filled with zeros after the sign. -/
def printf_02d (x : Int) : List Nat :=
  if x < 0 then
    0x2D :: (List.replicate (1 - (decimal x.natAbs).length) 0x30 ++ decimal x.natAbs)
  else List.replicate (2 - (decimal x.natAbs).length) 0x30 ++ decimal x.natAbs

/-! ## `ConvertNSDate` -/

def kDatePrint : Nat := 0
def kDateSaveLong : Nat := 1
def kDateSaveShort : Nat := 2

/-- The macro `DaysInYear(x)`; `%` is the remainder of the division that truncates. -/
def DaysInYear (x : Int) : Int :=
  if x.tmod 4 = 0 then (if x.tmod 100 = 0 then (if x.tmod 400 = 0 then 366 else 365) else 366)
  else 365

/-- The macro `DaysInFeb(x)`. -/
def DaysInFeb (x : Int) : Int :=
  if x.tmod 4 = 0 then (if x.tmod 100 = 0 then (if x.tmod 400 = 0 then 29 else 28) else 29)
  else 28

def daysInMonths : List Int := [31, -1, 31, 30, 31, 30, 31, 31, 30, 31, 30, 31]

/-- The macro `DaysInMonth(x, y)`, which reads `daysInMonths[theMonth - 1]`; at each use `x`
is `theMonth`. -/
def DaysInMonth (x y : Int) : Int :=
  if x = 2 then DaysInFeb y else daysInMonths.getD (x - 1).toNat 0

/-- The loop `for (; dayBank > DaysInYear(theYear); theYear++)`: `(dayBank, theYear)` after
it; `fuel` bounds the iterations. -/
def ConvertNSDate_years : Nat → Int → Int → Option (Int × Int)
  | 0, _, _ => none
  | fuel + 1, dayBank, theYear =>
    if dayBank > DaysInYear theYear then
      ConvertNSDate_years fuel (dayBank - DaysInYear theYear) (theYear + 1)
    else some (dayBank, theYear)

/-- The `do ... while (true)` loop over the months: `(dayBank, theMonth, theYear)` after
it. -/
def ConvertNSDate_months : Nat → Int → Int → Int → Option (Int × Int × Int)
  | 0, _, _, _ => none
  | fuel + 1, dayBank, theMonth, theYear =>
    if dayBank > DaysInMonth theMonth theYear then
      if theMonth + 1 > 12 then
        ConvertNSDate_months fuel (dayBank - DaysInMonth theMonth theYear) 1 (theYear + 1)
      else
        ConvertNSDate_months fuel (dayBank - DaysInMonth theMonth theYear) (theMonth + 1)
          theYear
    else some (dayBank, theMonth, theYear)

/-- The statements that adjust for the time zone, lines 845 to 860:
`(theYear, theMonth, theDay, theHour)` after them. -/
def ConvertNSDate_zone (LOCAL_TIME_ZONE theYear theMonth theDay theHour : Int) :
    Int × Int × Int × Int :=
  if theHour + LOCAL_TIME_ZONE < 0 then
    if theDay - 1 < 1 then
      if theMonth - 1 < 1 then
        (theYear - 1, theMonth - 1 + 12,
          theDay - 1 + DaysInMonth (theMonth - 1 + 12) (theYear - 1),
          theHour + LOCAL_TIME_ZONE + 24)
      else
        (theYear, theMonth - 1, theDay - 1 + DaysInMonth (theMonth - 1) theYear,
          theHour + LOCAL_TIME_ZONE + 24)
    else (theYear, theMonth, theDay - 1, theHour + LOCAL_TIME_ZONE + 24)
  else (theYear, theMonth, theDay, theHour + LOCAL_TIME_ZONE)

/-- The string of lines 863 to 867. -/
def ConvertNSDate_format (mode : Nat) (theYear theMonth theDay theHour theMinute theSecond : Int) :
    List Nat :=
  if mode = kDatePrint ∨ mode = kDateSaveLong then
    printf_d theYear ++ [0x2D] ++ printf_02d theMonth ++ [0x2D] ++ printf_02d theDay ++ [0x20]
      ++ printf_02d theHour ++ [0x3A] ++ printf_02d theMinute ++ [0x3A] ++ printf_02d theSecond
  else printf_02d theHour ++ [0x3A] ++ printf_02d theMinute ++ [0x3A] ++ printf_02d theSecond

/-- Lines 807 to 810 of `ConvertNSDate`: `dayBank` and `dayFraction` for the `double` `x`.
The products of `int`s wrap to 32 bits. -/
def ConvertNSDate_dayBank (x : Int × Nat) : Option (Int × (Int × Nat)) := do
  let perMinute ← doubleDiv x 60
  let perHour ← doubleDiv perMinute 60
  let perDay ← doubleDiv perHour 24
  let dayBank ← doubleToInt perDay
  let dayFraction ← doubleSub x (wrapInt32 (wrapInt32 (wrapInt32 (dayBank * 60) * 60) * 24))
  pure (dayBank, dayFraction)

/-- Lines 838 and 839: `theHour`, and `dayFraction` after the hours are taken off. -/
def ConvertNSDate_hour (dayFraction : Int × Nat) : Option (Int × (Int × Nat)) := do
  let perMinute ← doubleDiv dayFraction 60
  let perHour ← doubleDiv perMinute 60
  let theHour ← doubleToInt perHour
  let rest ← doubleSub dayFraction (wrapInt32 (wrapInt32 (theHour * 60) * 60))
  pure (theHour, rest)

/-- Lines 840 to 842: `theMinute` and `theSecond`. -/
def ConvertNSDate_minute (dayFraction : Int × Nat) : Option (Int × Int) := do
  let perMinute ← doubleDiv dayFraction 60
  let theMinute ← doubleToInt perMinute
  let rest ← doubleSub dayFraction (wrapInt32 (theMinute * 60))
  let theSecond ← doubleToInt rest
  pure (theMinute, theSecond)

/-- Embeds `ConvertNSDate`: the string `output` for the `double` with the bits `nsDate`;
`LOCAL_TIME_ZONE` is the macro of that name.  `none` when a conversion to `int` is
undefined.  The two loops take fewer iterations than there are days in `dayBank`. -/
def ConvertNSDate (LOCAL_TIME_ZONE : Int) (nsDate : Nat) (mode : Nat) : Option (List Nat) := do
  let x ← doubleOfBits nsDate
  let days ← ConvertNSDate_dayBank x
  let years ← ConvertNSDate_years (days.1.toNat + 1) days.1 2001
  let months ← ConvertNSDate_months (years.1.toNat + 1) years.1 1 years.2
  let hour ← ConvertNSDate_hour days.2
  let minute ← ConvertNSDate_minute hour.2
  let zone := ConvertNSDate_zone LOCAL_TIME_ZONE months.2.2 months.2.1 (1 + months.1) hour.1
  pure (ConvertNSDate_format mode zone.1 zone.2.1 zone.2.2.1 zone.2.2.2 minute.1 minute.2)

/-- The bits of the `double` of the whole number `n`, `0 < n < 2^53`. -/
def doubleBitsOfNat (n : Nat) : Nat :=
  (1022 + bitLength n n) * 2 ^ 52 + (n * 2 ^ (53 - bitLength n n) - 2 ^ 52)

/-! ## Writing the converted chat log

The functions below give the bytes that the calls of `WriteToOutFile` write, in order.
`WriteToOutFile(str)` writes the C string at `str`. -/

def gClientName : List Nat := cstr "iChat"

/-- Lines 1227 to 1239 of `WriteSenderName`: the string `senderCompareCopy`, which is the
copy of the sender ID ended at its first `@` and, when it then starts with `+`, moved left
by one place.  The `memmove` moves `copySize + 1` bytes from `senderCompareCopy + 1`: the
`copySize - 1` characters after the `+`, the terminator, and the byte that follows the
terminator, which comes to stand after the new terminator and is no part of the string. -/
def senderCompareCopy (mSenderID : List Nat) : List Nat :=
  if (cutAtAt (cBytes mSenderID)).head? = some 0x2B then (cutAtAt (cBytes mSenderID)).tail
  else cutAtAt (cBytes mSenderID)

/-- The loop of lines 1245 to 1253 with `n` iterations left, at index `a`: `nameIndex`
after it. -/
def WriteSenderName_index (gParticipantIDs : List (List Nat)) (mSenderID copy : List Nat) :
    Nat → Nat → Int
  | 0, _ => -1
  | n + 1, a =>
    if strcmp (gParticipantIDs.getD a []) mSenderID = 0 ∨
        strcmp (gParticipantIDs.getD a []) copy = 0 then (a : Int)
    else WriteSenderName_index gParticipantIDs mSenderID copy n (a + 1)

/-- Lines 1258 to 1275: the real name when the lookup succeeds.  `nameIndex` is compared
with `gNumParticipantNames` as a `uint64_t`; `gParticipantNames` has
`gNumParticipantNames` elements, none of them `NULL`. -/
def WriteSenderName_realName (g : ICGlobals) (gUseRealNames : Bool) (nameIndex : Int) :
    Res (Option (List Nat)) :=
  if gUseRealNames then
    if toUInt64 nameIndex > g.gNumParticipantNames then Res.ok none
    else if nameIndex < 0 then Res.outOfBounds
    else
      match g.gParticipantNames[nameIndex.toNat]? with
      | none => Res.outOfBounds
      | some name => Res.ok (some (cBytes name))
  else Res.ok none

/-- Lines 1280 to 1300: the account ID as written: `IDstart` is moved past the first `:`
and `IDlength` is reduced to end at the first `@`, when `gTrimEmailIDs` is set.  When the
subtraction wraps, `strncpy` is given a length that no allocation has. -/
def WriteSenderName_accountID (gTrimEmailIDs : Bool) (mSenderID : List Nat) : Res (List Nat) :=
  let IDstart : Nat :=
    if gTrimEmailIDs ∧ 0x3A ∈ cBytes mSenderID then
      ((cBytes mSenderID).takeWhile (fun c => c ≠ 0x3A)).length + 1
    else 0
  let IDlength : Nat :=
    if gTrimEmailIDs ∧ 0x40 ∈ cBytes mSenderID then
      toUInt64 (((cBytes mSenderID).length : Int) -
        (toUInt32 (((IDstart + (cBytes mSenderID).length : Nat) : Int) -
          ((cutAtAt (cBytes mSenderID)).length : Int)) : Int))
    else (cBytes mSenderID).length
  if IDlength ≤ (cBytes mSenderID).length then
    Res.ok (((cBytes mSenderID).drop IDstart).take IDlength)
  else Res.outOfBounds

/-- Lines 1309 to 1313: the string `nameColor`. -/
def WriteSenderName_color (mFileTransfer : Nat) (nameIndex : Int) : List Nat :=
  (if mFileTransfer ≠ 0 then cstr "\\i1 " else []) ++ cstr "\\cf" ++
    printf_d (if nameIndex = -1 then 0 else nameIndex.tmod 5 + 2) ++ cstr " "

/-- The name `WriteSenderName` writes: the real name if the lookup succeeded, else the
account ID. -/
def WriteSenderName_nameToUse (gTrimEmailIDs : Bool) (mSenderID : List Nat)
    (realName : Option (List Nat)) : Res (List Nat) :=
  match realName with
  | some name => Res.ok name
  | none => WriteSenderName_accountID gTrimEmailIDs mSenderID

/-- Embeds `WriteSenderName`.  When `mSenderID` is `NULL` the copy is made of `(null)`, and
`NULL` is passed to `strcmp` at the first participant ID or, when there is none, to the
`strlen` of line 1282, which the index -1 always leads to. -/
def WriteSenderName (g : ICGlobals) (gUseRealNames gTrimEmailIDs : Bool) (msg : ICMessage)
    (useRTF : Bool) : Res (List Nat) :=
  match msg.mSenderID with
  | none =>
    if g.gNumParticipantIDs = 0 then do
      let _ ← WriteSenderName_realName g gUseRealNames (-1)
      Res.nullDeref
    else Res.nullDeref
  | some mSenderID => do
    let realName ← WriteSenderName_realName g gUseRealNames
      (WriteSenderName_index g.gParticipantIDs (cBytes mSenderID)
        (senderCompareCopy (cBytes mSenderID)) g.gNumParticipantIDs 0)
    let nameToUse ← WriteSenderName_nameToUse gTrimEmailIDs (cBytes mSenderID) realName
    pure ((if useRTF then
        WriteSenderName_color msg.mFileTransfer
          (WriteSenderName_index g.gParticipantIDs (cBytes mSenderID)
            (senderCompareCopy (cBytes mSenderID)) g.gNumParticipantIDs 0)
      else []) ++ nameToUse)

/-- The bytes at `msg->mText` where the writing functions read them; `mText` may be
`NULL`. -/
def messageText (msg : ICMessage) : Res (List Nat) :=
  match msg.mText with
  | none => Res.nullDeref
  | some text => Res.ok text

/-- The text that the writing functions use.  For a file transfer `mText` is the argument
of a `%s` of `asprintf`, which formats `NULL` as `(null)`.  Otherwise the string at `mText`
is read: by `WriteToOutFile`, whose `fprintf` of the one conversion `%s` is a call of
`fputs`, by `strchr`, or by the loop over the 16-bit characters, unless that loop has no
pass to make. -/
def messageTextRead (msg : ICMessage) : Res (List Nat) :=
  if msg.mFileTransfer > 0 then Res.ok (msg.mText.getD (cstr "(null)"))
  else if msg.mWideStrSize ≠ 0 ∧ msg.mWideStrSize * 2 % 2 ^ 64 = 0 then
    Res.ok (msg.mText.getD [])
  else messageText msg

/-- The loop of lines 1146 to 1151 with `n` iterations left, at index `a`: what is written
for the 16-bit characters of `mText`. -/
def ConvertMessageToTXT_wide (mText : List Nat) : Nat → Nat → List Nat
  | 0, _ => []
  | n + 1, a =>
    cBytes (ConvertUnicodeToUTF8 (mText.getD a 0) (mText.getD (a + 1) 0)) ++
      ConvertMessageToTXT_wide mText n (a + 2)

/-- Lines 1103 to 1120 of `ConvertMessageToTXT`: the time and the name. -/
def ConvertMessageToTXT_head (g : ICGlobals) (gUseRealNames gTrimEmailIDs : Bool)
    (msg : ICMessage) (mTime : List Nat) : Res (List Nat) :=
  if msg.mFromClient then Res.ok (mTime ++ cstr " " ++ gClientName ++ cstr " ")
  else do
    let name ← WriteSenderName g gUseRealNames gTrimEmailIDs msg false
    pure (mTime ++ cstr " " ++ name)

/-- Lines 1122 to 1154 of `ConvertMessageToTXT`: the file names or the text. -/
def ConvertMessageToTXT_body (msg : ICMessage) (mText : List Nat) : List Nat :=
  if msg.mFileTransfer > 0 then
    if msg.mFileTransfer = 1 then cstr " sent file " ++ cBytes mText ++ cstr ".\n"
    else
      cstr " sent " ++ decimal msg.mFileTransfer ++ cstr " files: " ++ cBytes mText ++
        cstr ".\n"
  else if msg.mWideStrSize = 0 then cstr ": " ++ cBytes mText ++ cstr "\n"
  else
    cstr ": " ++ ConvertMessageToTXT_wide mText (msg.mWideStrSize * 2 % 2 ^ 64 / 2) 0 ++
      cstr "\n"

/-- Embeds `ConvertMessageToTXT`.  `mTime` is the argument of a `%s` of `asprintf`. -/
def ConvertMessageToTXT (g : ICGlobals) (gUseRealNames gTrimEmailIDs : Bool)
    (msg : ICMessage) : Res (List Nat) :=
  if msg.mHiccup then Res.ok []
  else do
    let head ← ConvertMessageToTXT_head g gUseRealNames gTrimEmailIDs msg (percentS msg.mTime)
    let mText ← messageTextRead msg
    pure (head ++ ConvertMessageToTXT_body msg mText)

/-- The characters that `ConvertMessageToRTF` escapes: the braces, the backslash and the
line feed. -/
def rtfSpecial (c : Int) : Bool := c = 0x7B || c = 0x7D || c = 0x5C || c = 0x0A

/-- The `do ... while` loop of lines 1042 to 1053 on the string at `reader`: a backslash is
put before each character to escape. -/
def ConvertMessageToRTF_escape : List Nat → List Nat
  | [] => []
  | c :: rest =>
    if rtfSpecial (c : Int) then 0x5C :: c :: ConvertMessageToRTF_escape rest
    else c :: ConvertMessageToRTF_escape rest

/-- The loop of lines 1064 to 1088 with `n` iterations left, at index `byte`. -/
def ConvertMessageToRTF_wide (mText : List Nat) : Nat → Nat → List Nat
  | 0, _ => []
  | n + 1, byte =>
    (if shlInt (toSChar (mText.getD byte 0)) 8 + toSChar (mText.getD (byte + 1) 0) ≤ 127 then
      (if rtfSpecial (shlInt (toSChar (mText.getD byte 0)) 8 + toSChar (mText.getD (byte + 1) 0))
        then [0x5C] else []) ++
      cBytes [toByte (shlInt (toSChar (mText.getD byte 0)) 8 + toSChar (mText.getD (byte + 1) 0))]
    else
      cstr "\\uc0\\u" ++
        printf_d (shlInt (toSChar (mText.getD byte 0)) 8 + toSChar (mText.getD (byte + 1) 0)) ++
        cstr " ") ++
    ConvertMessageToRTF_wide mText n (byte + 2)

/-- Lines 994 to 1011 of `ConvertMessageToRTF`: the time and the name. -/
def ConvertMessageToRTF_head (g : ICGlobals) (gUseRealNames gTrimEmailIDs : Bool)
    (msg : ICMessage) (mTime : List Nat) : Res (List Nat) :=
  if msg.mFromClient then
    Res.ok (cstr "\\cf1 " ++ mTime ++ cstr " \\cf0 \\b1 " ++ gClientName ++ cstr "\\b0 ")
  else do
    let name ← WriteSenderName g gUseRealNames gTrimEmailIDs msg true
    pure (cstr "\\cf1 " ++ mTime ++ cstr " " ++ name)

/-- Lines 1013 to 1092 of `ConvertMessageToRTF`: the file names or the text, and the end of
the line. -/
def ConvertMessageToRTF_body (msg : ICMessage) (mText : List Nat) : List Nat :=
  (if msg.mFileTransfer > 0 then
    if msg.mFileTransfer = 1 then cstr "\\cf0  sent file " ++ cBytes mText ++ cstr ".\\i0 \n"
    else
      cstr "\\cf0  sent " ++ decimal msg.mFileTransfer ++ cstr " files: " ++ cBytes mText ++
        cstr ".\\i0 \n"
  else if msg.mWideStrSize = 0 then
    cstr "\\cf0 : " ++
      (if (cBytes mText).any (fun c => rtfSpecial (c : Int)) then
        ConvertMessageToRTF_escape (cBytes mText)
      else cBytes mText)
  else
    cstr "\\cf0 : " ++ ConvertMessageToRTF_wide mText (msg.mWideStrSize * 2 % 2 ^ 64 / 2) 0 ++
      cstr "\n") ++
  cstr "\\\n"

/-- Embeds `ConvertMessageToRTF`. -/
def ConvertMessageToRTF (g : ICGlobals) (gUseRealNames gTrimEmailIDs : Bool)
    (msg : ICMessage) : Res (List Nat) :=
  if msg.mHiccup then Res.ok []
  else do
    let head ← ConvertMessageToRTF_head g gUseRealNames gTrimEmailIDs msg (percentS msg.mTime)
    let mText ← messageTextRead msg
    pure (head ++ ConvertMessageToRTF_body msg mText)

/-- Embeds `WriteRTFHeader`. -/
def WriteRTFHeader : List Nat :=
  cstr "\x7b\\rtf1\\ansi\\ansicpg1252\\cocoartf1038\\cocoasubrtf360\n" ++
  cstr "\x7b\\fonttbl\\f0\\fswiss\\fcharset0 Helvetica;\x7d\n" ++
  cstr ("\x7b\\colortbl\\red0\\green0\\blue0;\\red128\\green128\\blue128;" ++
    "\\red0\\green0\\blue128;\\red0\\green128\\blue0;") ++
  cstr "\\red255\\green128\\blue0;\\red0\\green128\\blue128;\\red128\\green0\\blue0;\x7d\n" ++
  cstr "\\margl1440\\margr1440\\vieww9000\\viewh8400\\viewkind0\n\n"

/-- Embeds `WriteRTFFooter`. -/
def WriteRTFFooter : List Nat := cstr "\x7d"

/-- Embeds `WriteTimeHeader`; `gFirstMsgTime` is `NULL` until `LoadMessage` sets it, and
`WriteToOutFile` reads the string it is given. -/
def WriteTimeHeader (gFirstMsgTime : Option (List Nat)) (useRTF : Bool) : Res (List Nat) := do
  let time ← copyCString gFirstMsgTime
  pure ((if useRTF then cstr "\\cf1 " else []) ++ cstr "Chat window opened on " ++ time ++
    (if useRTF then cstr ":\\\n" else cstr ":\n"))

/-- Embeds `ReturnMessageRef`: `ok` with the value it returns, which is `(uint64_t)-1` for
a failure and `false`, that is 0, for an element that is not a UID. -/
def ReturnMessageRef (s : BPState) (fuel : Nat) (g : ICGlobals) (msgNum : Nat) : Res Nat :=
  if ReturnElemRef s g.gMessageListArray msgNum = kNone then Res.ok kNone
  else
    match LoadObject s fuel (ReturnElemRef s g.gMessageListArray msgNum) with
    | none => Res.noReturn
    | some (false, _) => Res.ok kNone
    | some (true, msgID_ID) =>
      if msgID_ID.oType ≠ kTypeUID then Res.ok 0
      else Res.ok (ReturnElemRef s g.gObjectsArray msgID_ID.oInt)

/-- Lines 483 to 493 of `Convert_ichat`: the message at index `a` of the message list as
`LoadMessage` gives it, and `gFirstMsgTime` after that. -/
def Convert_ichat_load (s : BPState) (fuel : Nat) (g : ICGlobals)
    (dateString : Nat → Bool → List Nat) (gFirstMsgTime : Option (List Nat)) (a : Nat) :
    Res (ICMessage × Option (List Nat)) := do
  let msgIDref ← ReturnMessageRef s fuel g a
  dieIf (msgIDref = kNone)
  let BPmsg ← loadOrDie s fuel msgIDref
  LoadMessage s fuel g.gObjectsArray dateString gFirstMsgTime BPmsg InitMessage (a = 0)

/-- Lines 495 to 501 of `Convert_ichat`: what is written for the message at index `a`. -/
def Convert_ichat_write (g : ICGlobals) (gUseRealNames gTrimEmailIDs useRTF : Bool)
    (gFirstMsgTime : Option (List Nat)) (a : Nat) (ICmsg : ICMessage) : Res (List Nat) := do
  let header ← if a = 0 then WriteTimeHeader gFirstMsgTime useRTF else Res.ok []
  let text ←
    if useRTF then ConvertMessageToRTF g gUseRealNames gTrimEmailIDs ICmsg
    else ConvertMessageToTXT g gUseRealNames gTrimEmailIDs ICmsg
  pure (header ++ text)

/-- The loop of `Convert_ichat` with `n` iterations left, at index `a`; `fail` when the
function returns from inside the loop. -/
def Convert_ichat_loop (s : BPState) (fuel : Nat) (g : ICGlobals)
    (gUseRealNames gTrimEmailIDs : Bool) (dateString : Nat → Bool → List Nat) (useRTF : Bool) :
    Nat → Nat → Option (List Nat) → Res (List Nat)
  | 0, _, _ => Res.ok []
  | n + 1, a, gFirstMsgTime => do
    let loaded ← Convert_ichat_load s fuel g dateString gFirstMsgTime a
    let written ← Convert_ichat_write g gUseRealNames gTrimEmailIDs useRTF loaded.2 a loaded.1
    let rest ← Convert_ichat_loop s fuel g gUseRealNames gTrimEmailIDs dateString useRTF n
      (a + 1) loaded.2
    pure (written ++ rest)

/-- Embeds `Convert_ichat` when `CreateOutFile` returns `true`: the contents of the out
file when the function reaches `CloseOutFile`. -/
def Convert_ichat (s : BPState) (fuel : Nat) (g : ICGlobals)
    (gUseRealNames gTrimEmailIDs : Bool) (dateString : Nat → Bool → List Nat)
    (gFirstMsgTime : Option (List Nat)) (useRTF : Bool) : Res (List Nat) := do
  let messages ← Convert_ichat_loop s fuel g gUseRealNames gTrimEmailIDs dateString useRTF
    g.gMessageListArray.oSize 0 gFirstMsgTime
  pure ((if useRTF then WriteRTFHeader else []) ++ messages ++
    (if useRTF then WriteRTFFooter else []))

/-- The strings `ConvertNSDate` saves, as `LoadMessage` uses them: long or short; empty
where the conversion is undefined. -/
def dateStringOf (LOCAL_TIME_ZONE : Int) (bits : Nat) (long : Bool) : List Nat :=
  (ConvertNSDate LOCAL_TIME_ZONE bits (if long then kDateSaveLong else kDateSaveShort)).getD []

/-! ## File names, one by one -/

/-- Lines 863 to 924 of `LoadMessage` and the `%s` of line 935 or 939, for the element `a`
of `attribObjects`: the name of the file that the element describes. -/
def LoadMessage_fileNameAt (s : BPState) (fuel : Nat) (gObjectsArray attribObjects : BPObject)
    (a : Nat) : Res (List Nat) := do
  let attribObjIDref ← elemRefOrDie s attribObjects a
  let attribObj ← followUID s fuel gObjectsArray attribObjIDref
  dieIf (attribObj.oType ≠ kTypeDict)
  let msgKeys ← keysOf s fuel attribObj
  let msgValues ← objectsOf s fuel attribObj
  let fileName ← LoadMessage_fileName s fuel gObjectsArray msgKeys msgValues
  pure (percentS fileName.oData)

/-- Lines 927 to 940: `mText` after one more file name. -/
def appendFileName (mText : Option (List Nat)) (name : List Nat) : Option (List Nat) :=
  match mText with
  | some prevStr => some (prevStr ++ cstr ", " ++ name)
  | none => some name

/-- The design's text for a file transfer: the file names with `", "` between them; no
text when there is no file. -/
def joinFileNames (names : List (List Nat)) : Option (List Nat) :=
  if names = [] then none else some (List.intercalate (cstr ", ") names)

/-! ## The design's UTF-8 encoding -/

/-- The canonical UTF-8 encoding of a code unit below `0x10000`, as the design words it. -/
def utf8Canonical (c : Nat) : List Nat :=
  if c < 0x80 then [c]
  else if c < 0x800 then [0xC0 ||| (c >>> 6), 0x80 ||| (c &&& 0x3F)]
  else [0xE0 ||| (c >>> 12), 0x80 ||| ((c >>> 6) &&& 0x3F), 0x80 ||| (c &&& 0x3F)]

/-- The five bytes of the allocation that hold the string `bytes`. -/
def inFiveBytes (bytes : List Nat) : List Nat := bytes ++ List.replicate (5 - bytes.length) 0

/-! ## More sample chat logs -/

/-- A message without `OriginalMessage` whose dict under `MessageText` has no key
`NSAttributes`. -/
def hiccupLog : List (List Nat) :=
  messageLog (asciiObj "bob") (dictObj [34, 35, 36] [49, 51, 52]) (dictObj [40] [53]) [] []

/-- The chat log of the design's end-to-end scenario: the participants `alice@x` and
`bob@y`, and one text message `hi` at the date 0.0 sent by `alice@x`.  The file objects
are those of `textLog`. -/
def fixtureLog : List (List Nat) :=
  chatObjects (asciiObj "Al") (asciiObj "alice@x") (asciiObj "bob@y")
    [42, 43, 44, 46, 47, 33] [54]
    [ dictObj [34, 35, 36, 37] [49, 51, 52, 49],
      asciiObj "Sender", asciiObj "Time", asciiObj "MessageText", asciiObj "OriginalMessage",
      asciiObj "ID", asciiObj "NS.time", asciiObj "NSString", asciiObj "NS.string",
      dictObj [38] [50], asciiObj "alice@x",
      dictObj [39] [45], realZeroObj,
      dictObj [40] [53],
      dictObj [41] [48], asciiObj "hi",
      uidObj 10, uidObj 11, uidObj 12, uidObj 13, uidObj 14, uidObj 15 ]

/-- The run of `main` on a sample chat log after `Load_bplist`: `Validate_ichat`,
`Load_ichat` and `Convert_ichat`, with `LOCAL_TIME_ZONE` as given. -/
def convertSampleLog (objects : List (List Nat)) (LOCAL_TIME_ZONE : Int)
    (gUseRealNames gTrimEmailIDs useRTF : Bool) : Res (List Nat) := do
  let gObjectsArray ← Validate_ichat (buildState objects 0) 3
  let g ← Load_ichat (buildState objects 0) 3 gObjectsArray gTrimEmailIDs
  Convert_ichat (buildState objects 0) 3 g gUseRealNames gTrimEmailIDs
    (dateStringOf LOCAL_TIME_ZONE) none useRTF

/-- A dict of a sample chat log, file object `i`, as `LoadObject` gives it. -/
def sampleDictAt (s : BPState) (i : Nat) : BPObject := (LoadObject_S1toS4 s i).2

/-- An array of a sample chat log, file object `i`, as `LoadObject` gives it. -/
def sampleArrayAt (s : BPState) (i : Nat) : BPObject := ReadData_Array (LoadObject_S1toS4 s i).2

/-- What the sender stage of `LoadMessage` gives for a message sent by `bob`. -/
def bobParty : Bool × Option (List Nat) × Bool × Option (List Nat) :=
  (false, none, false, some (cstr "bob"))

/-- The globals that `Load_bplist` sets for the chat log `hiccupLog`. -/
def hiccupState : BPState := buildState hiccupLog 0

/-- The test of line 1248 at index `j`: the ID there equals, as a C string, the sender ID
or its copy. -/
def senderMatches (gParticipantIDs : List (List Nat)) (mSenderID copy : List Nat) (j : Nat) :
    Prop :=
  cBytes (gParticipantIDs.getD j []) = cBytes mSenderID ∨
    cBytes (gParticipantIDs.getD j []) = cBytes copy

instance (gParticipantIDs : List (List Nat)) (mSenderID copy : List Nat) (j : Nat) :
    Decidable (senderMatches gParticipantIDs mSenderID copy j) := by
  unfold senderMatches
  infer_instance

/-- Globals with the account IDs `alice` and `alice@x`, and the names `A` and `B`. -/
def aliceGlobals : ICGlobals :=
  { gObjectsArray := LoadObject_S1_Init 0
    gMessageListArray := LoadObject_S1_Init 0
    gNumParticipantNames := 2
    gParticipantNames := [cstr "A", cstr "B"]
    gNumParticipantIDs := 2
    gParticipantIDs := [cstr "alice", cstr "alice@x"] }

/-- A text message `hi` from `alice@x` at `00:00:00`. -/
def aliceMessage : ICMessage :=
  { InitMessage with
    mSenderID := some (cstr "alice@x"), mTime := some (cstr "00:00:00"),
    mText := some (cstr "hi") }

/-- A message from the client that sends the file `a.txt`. -/
def clientFileMessage : ICMessage :=
  { InitMessage with
    mFromClient := true, mFileTransfer := 1, mTime := some (cstr "00:00:00"),
    mText := some (cstr "a.txt") }


/-! ## The escaping loop of `ConvertMessageToRTF`, on its buffer -/

/-- The value `strlen(buf + i)` for a buffer that holds a zero byte from `i` on. -/
def strlenAt (buf : List Nat) (i : Nat) : Nat := (cBytes (buf.drop i)).length

/-- Embeds `memmove(buf + dst, buf + src, n)`: the buffer after the call; `none` when the
bytes read or written do not all lie in the buffer. -/
def memmove (buf : List Nat) (dst src n : Nat) : Option (List Nat) :=
  if dst + n ≤ buf.length ∧ src + n ≤ buf.length then
    some (buf.take dst ++ (buf.drop src).take n ++ buf.drop (dst + n))
  else none

/-- The body of the `do ... while` loop of lines 1042 to 1053: the buffer `newStr` and the
index `reader` after one pass; `none` when an access lies outside the buffer. -/
def ConvertMessageToRTF_escapeStep (newStr : List Nat) (reader : Nat) :
    Option (List Nat × Nat) :=
  if newStr.length ≤ reader then none
  else if rtfSpecial (toSChar (newStr.getD reader 0)) then
    (memmove newStr (reader + 1) reader (strlenAt newStr reader)).map
      (fun moved => (moved.set reader 0x5C, reader + 2))
  else some (newStr, reader + 1)

/-- The `do ... while (*reader != 0)` loop of lines 1042 to 1053: the buffer after it;
`none` when `fuel` passes do not end it or an access lies outside the buffer. -/
def ConvertMessageToRTF_escapeLoop : Nat → List Nat → Nat → Option (List Nat)
  | 0, _, _ => none
  | fuel + 1, newStr, reader =>
    match ConvertMessageToRTF_escapeStep newStr reader with
    | none => none
    | some (newStr1, reader1) =>
      if newStr1.length ≤ reader1 then none
      else if toSChar (newStr1.getD reader1 0) ≠ 0 then
        ConvertMessageToRTF_escapeLoop fuel newStr1 reader1
      else some newStr1

/-- Lines 1038 to 1055 for the string `mText`: the buffer of `strLen * 2 + 1` zero bytes
from `calloc`, the `strncpy` of `strLen` bytes, and the loop, which ends within `strLen`
passes; the result is the buffer that `mText` then points to. -/
def ConvertMessageToRTF_escaped (mText : List Nat) : Option (List Nat) :=
  ConvertMessageToRTF_escapeLoop (cBytes mText).length
    (cBytes mText ++
      List.replicate (((cBytes mText).length * 2 + 1) % 2 ^ 64 - (cBytes mText).length) 0) 0

/-- The design's escaping of one character: a backslash before a brace, a backslash or a
line feed. -/
def rtfEscapeChar (c : Nat) : List Nat :=
  if c = 0x7B ∨ c = 0x7D ∨ c = 0x5C ∨ c = 0x0A then [0x5C, c] else [c]

/-- The design's reading of an escaped text: a backslash stands for the character after
it. -/
def rtfUnescape : List Nat → List Nat
  | [] => []
  | [c] => [c]
  | c :: d :: rest => if c = 0x5C then d :: rtfUnescape rest else c :: rtfUnescape (d :: rest)

/-! ## The out file -/

/-- The stream `gOutFileHandle` of `FileIO.c` once `fopen` has returned it: the path it was
opened at, the bytes written to it with `fprintf`, in order, whether `fflush` has been
called after the last of them, and whether `fclose` has been called. -/
structure OutFile where
  path : List Nat
  written : List Nat
  flushed : Bool
  closed : Bool
  deriving DecidableEq, Repr

/-- Embeds `CreateOutFile`: `ok` with the stream when it returns `true`, `fail` when it
returns `false`, which it does when the path has no `.` and when `fopen` returns `NULL`;
`fopenSucceeds` says which of the two `fopen` does.  `strncpy` writes four bytes, the
suffix and its terminator, after the last `.` of the copy of the path, which has room for
them when three characters or more follow that `.`. -/
def CreateOutFile (gInFilePath : List Nat) (useRTF fopenSucceeds : Bool) : Res OutFile :=
  if 0x2E ∉ cBytes gInFilePath then Res.fail
  else if ((cBytes gInFilePath).reverse.takeWhile (fun c => c ≠ 0x2E)).length < 3 then
    Res.outOfBounds
  else if fopenSucceeds then
    Res.ok
      { path := ((cBytes gInFilePath).reverse.dropWhile (fun c => c ≠ 0x2E)).reverse ++
          (if useRTF then cstr "rtf" else cstr "txt")
        written := []
        flushed := false
        closed := false }
  else Res.fail

/-- Embeds `WriteToOutFile` on the stream, for the call or the calls in a row that write
the bytes `output`. -/
def WriteToOutFile (f : OutFile) (output : List Nat) : OutFile :=
  { f with written := f.written ++ output, flushed := false }

/-- Embeds `CloseOutFile`: `fflush` and then `fclose`. -/
def CloseOutFile (f : OutFile) : OutFile := { f with flushed := true, closed := true }

/-- The loop of `Convert_ichat` on the stream, with `n` passes left, at index `a`: the
stream when the loop is left, and whether it is left at its end, `true`, or by one of the
three `return` statements of lines 484, 486 and 491, `false`, which is when the message
does not load. -/
def Convert_ichat_loopOut (s : BPState) (fuel : Nat) (g : ICGlobals)
    (gUseRealNames gTrimEmailIDs : Bool) (dateString : Nat → Bool → List Nat) (useRTF : Bool) :
    Nat → Nat → Option (List Nat) → OutFile → Res (Bool × OutFile)
  | 0, _, _, f => Res.ok (true, f)
  | n + 1, a, gFirstMsgTime, f =>
    match Convert_ichat_load s fuel g dateString gFirstMsgTime a with
    | Res.fail => Res.ok (false, f)
    | loaded => do
      let message ← loaded
      let written ← Convert_ichat_write g gUseRealNames gTrimEmailIDs useRTF message.2 a
        message.1
      Convert_ichat_loopOut s fuel g gUseRealNames gTrimEmailIDs dateString useRTF n (a + 1)
        message.2 (WriteToOutFile f written)

/-- Embeds `Convert_ichat` with its out file: `ok none` when `CreateOutFile` returns
`false`, and otherwise the stream as it is when `Convert_ichat` returns. -/
def Convert_ichat_out (s : BPState) (fuel : Nat) (g : ICGlobals)
    (gUseRealNames gTrimEmailIDs : Bool) (dateString : Nat → Bool → List Nat)
    (gFirstMsgTime : Option (List Nat)) (useRTF : Bool) (gInFilePath : List Nat)
    (fopenSucceeds : Bool) : Res (Option OutFile) :=
  match CreateOutFile gInFilePath useRTF fopenSucceeds with
  | Res.fail => Res.ok none
  | created => do
    let f ← created
    let looped ← Convert_ichat_loopOut s fuel g gUseRealNames gTrimEmailIDs dateString useRTF
      g.gMessageListArray.oSize 0 gFirstMsgTime
      (if useRTF then WriteToOutFile f WriteRTFHeader else f)
    if looped.1 then
      pure (some (CloseOutFile
        (if useRTF then WriteToOutFile looped.2 WriteRTFFooter else looped.2)))
    else pure (some looped.2)

/-- The run of `main` on a sample chat log at the path `a.ichat` after `Load_bplist`, as
`convertSampleLog`: the out file when `Convert_ichat` returns. -/
def closeSampleLog (objects : List (List Nat)) (LOCAL_TIME_ZONE : Int)
    (gUseRealNames gTrimEmailIDs useRTF : Bool) : Res (Option OutFile) := do
  let gObjectsArray ← Validate_ichat (buildState objects 0) 3
  let g ← Load_ichat (buildState objects 0) 3 gObjectsArray gTrimEmailIDs
  Convert_ichat_out (buildState objects 0) 3 g gUseRealNames gTrimEmailIDs
    (dateStringOf LOCAL_TIME_ZONE) none useRTF (cstr "a.ichat") true

/-! ## Sample chat logs with one text message -/

/-- A chat log with one text message, as `textLog`, where the first account ID is `id1`,
the message list has the references `messages`, the sender's account ID is `sender`, the
message dict is `message` and the string of the text is `text`. -/
def messageLogOf (id1 : List Nat) (messages : List Nat) (sender message text : List Nat) :
    List (List Nat) :=
  chatObjects (asciiObj "Al") id1 (asciiObj "bo@y") [42, 43, 44, 46, 47, 33] messages
    [ message,
      asciiObj "Sender", asciiObj "Time", asciiObj "MessageText", asciiObj "OriginalMessage",
      asciiObj "ID", asciiObj "NS.time", asciiObj "NSString", asciiObj "NS.string",
      dictObj [38] [50], sender,
      dictObj [39] [45], realZeroObj,
      dictObj [40] [53],
      dictObj [41] [48], text,
      uidObj 10, uidObj 11, uidObj 12, uidObj 13, uidObj 14, uidObj 15 ]

/-- The message dict of a text message: `Sender`, `Time`, `MessageText`,
`OriginalMessage`. -/
def textMessageDict : List Nat := dictObj [34, 35, 36, 37] [49, 51, 52, 49]

/-- A chat log whose first account ID and whose message sender are both the Unicode string
`bob`. -/
def unicodeBobLog : List (List Nat) :=
  messageLogOf (unicodeObj [0x62, 0x6F, 0x62]) [54] (unicodeObj [0x62, 0x6F, 0x62])
    textMessageDict (asciiObj "hi")

/-- A chat log whose text message has the ASCII string of length 0 under `NS.string`. -/
def emptyTextLog : List (List Nat) :=
  messageLogOf (asciiObj "al@x") [54] (asciiObj "bob") textMessageDict (asciiObj "")

/-- A chat log whose message dict has the key `Sender` only. -/
def noTimeLog : List (List Nat) :=
  messageLogOf (asciiObj "al@x") [54] (asciiObj "bob") (dictObj [34] [49]) (asciiObj "hi")

/-- A chat log whose message list has one element, the ASCII string `Sender` (file object
34), which is not a UID; the root dict, file object 0, has the keys of a text message
besides its own. -/
def strayLog : List (List Nat) :=
  dictObj [1, 2, 3, 34, 35, 36, 37] [4, 5, 6, 49, 51, 52, 49] ::
    (messageLogOf (asciiObj "al@x") [34] (asciiObj "bob") textMessageDict
      (asciiObj "hi")).drop 1

/-- The globals that `Load_bplist` sets for `strayLog`. -/
def strayState : BPState := buildState strayLog 0

/-- The globals after `Load_ichat` on `strayLog`. -/
def strayGlobals : ICGlobals :=
  { gObjectsArray := sampleArrayAt strayState 5
    gMessageListArray := sampleArrayAt strayState 22
    gNumParticipantNames := 1
    gParticipantNames := [cstr "Al"]
    gNumParticipantIDs := 2
    gParticipantIDs := [cstr "al@x", cstr "bo@y"] }

/-- The globals that `Load_bplist` sets for `unicodeBobLog`. -/
def unicodeBobState : BPState := buildState unicodeBobLog 0

/-- The sender's account ID of `unicodeBobLog`, file object 43, as `LoadObject` gives it. -/
def unicodeBob : BPObject :=
  ReadData_StringUnicode unicodeBobState (LoadObject_S1toS4 unicodeBobState 43).2

/-- A text message in 16-bit characters: U+00E9, U+2019 and a left brace. -/
def wideMessage : ICMessage :=
  { InitMessage with
    mSenderID := some (cstr "alice@x"), mTime := some (cstr "00:00:00"),
    mText := some [0x00, 0xE9, 0x20, 0x19, 0x00, 0x7B, 0, 0], mWideStrSize := 3 }

/-- A message sent by `bo@y`. -/
def boMessage : ICMessage :=
  { InitMessage with
    mSenderID := some (cstr "bo@y"), mTime := some (cstr "00:00:00"),
    mText := some (cstr "hi") }

/-- Globals with three account IDs and one participant name. -/
def threeIDsGlobals : ICGlobals :=
  { unevenGlobals with
    gNumParticipantIDs := 3
    gParticipantIDs := [cstr "al@x", cstr "zed", cstr "bo@y"] }

/-! ## Dicts with the keys `NS.time` and `BaseWritingDirection` -/

/-- A file of five objects.  Object 0: the dict `{1: 2, 3: 4}`.  Object 1: the ASCII
string `NS.time`.  Object 2: the real 0.0.  Object 3: the ASCII string
`BaseWritingDirection`.  Object 4: the int 1. -/
def flagObjects : List (List Nat) :=
  [dictObj [1, 3] [2, 4], asciiObj "NS.time", realZeroObj, asciiObj "BaseWritingDirection",
    [0x10, 1]]

/-- The globals that `Load_bplist` sets for the file of `flagObjects`. -/
def flagState : BPState := buildState flagObjects 0

/-! ## Days and months -/

/-- The number of days from the first day of month `m` to the end of year `y`, for `m`
from 1 to 12. -/
def daysFrom (m y : Int) : Int :=
  (((List.range 12).drop (m - 1).toNat).map (fun (i : Nat) => DaysInMonth ((i : Int) + 1) y)).sum

/-- Two decimal digits. -/
def twoDigits (n : Nat) : List Nat := [0x30 + n / 10, 0x30 + n % 10]

/-- The bits of the `double` of the whole number `t < 2^53`. -/
def bitsOfSeconds (t : Nat) : Nat := if t = 0 then 0 else doubleBitsOfNat t

/-- The value of the fraction that stands for a `double`. -/
def doubleValue (x : Int × Nat) : ℚ := (x.1 : ℚ) / (x.2 : ℚ)

/-- A file of three objects.  Object 0: the dict `{1: 2}`.  Object 1: the ASCII string of
length 0.  Object 2: the int 7. -/
def emptyKeyObjects : List (List Nat) := [dictObj [1] [2], asciiObj "", [0x10, 7]]

/-- The globals that `Load_bplist` sets for the file of `emptyKeyObjects`. -/
def emptyKeyState : BPState := buildState emptyKeyObjects 0

/-- The globals that `Load_bplist` sets for `emptyTextLog`. -/
def emptyTextState : BPState := buildState emptyTextLog 0

/-- The string under `NS.string` of `emptyTextLog`, file object 48, as `LoadObject` gives
it: no data. -/
def emptyText : BPObject := (LoadObject_S1toS4 emptyTextState 48).2

/-- The globals after `Load_ichat` on `unicodeBobLog`. -/
def unicodeBobGlobals : ICGlobals :=
  { gObjectsArray := sampleArrayAt unicodeBobState 5
    gMessageListArray := sampleArrayAt unicodeBobState 22
    gNumParticipantNames := 1
    gParticipantNames := [cstr "Al"]
    gNumParticipantIDs := 2
    gParticipantIDs := [cstr "bob", cstr "bo@y"] }

/-- The object with the number `i` of the file of `flagObjects`, a string or a number, as
`LoadObject` gives it. -/
def flagObject (i : Nat) : BPObject :=
  ((LoadObject flagState 1 i).getD (false, LoadObject_S1_Init i)).2

/-- The element of the message list of `strayLog`, file object 34, as `LoadObject` gives
it. -/
def strayElement : BPObject :=
  ReadData_StringASCII strayState (LoadObject_S1toS4 strayState 34).2

/-- A chat log with two elements in its message list: the UID 15 of the text message `hi`
sent by `bob`, and the UID 10 (file object 49) of the dict of the sender, which has the key
`ID` only and so is no message. -/
def twoRefsLog : List (List Nat) :=
  messageLogOf (asciiObj "al@x") [54, 49] (asciiObj "bob") textMessageDict (asciiObj "hi")

/-- The globals that `Load_bplist` sets for `twoRefsLog`. -/
def twoRefsState : BPState := buildState twoRefsLog 0

/-- The globals after `Load_ichat` on `twoRefsLog`. -/
def twoRefsGlobals : ICGlobals :=
  { gObjectsArray := sampleArrayAt twoRefsState 5
    gMessageListArray := sampleArrayAt twoRefsState 22
    gNumParticipantNames := 1
    gParticipantNames := [cstr "Al"]
    gNumParticipantIDs := 2
    gParticipantIDs := [cstr "al@x", cstr "bo@y"] }

/-- The message that `LoadMessage` makes of the text message `hi` sent by `bob` at the
date 0.0, with `LOCAL_TIME_ZONE` at -5. -/
def bobHiMessage : ICMessage :=
  { InitMessage with
    mSenderID := some (cstr "bob"), mTime := some (cstr "19:00:00"),
    mText := some (cstr "hi") }
/-! ## The trailer as the file format has it -/

/-- The trailer in the words of the design: the last 26 bytes of the file are
`offsetIntSize` (1 byte), `refIntSize` (1 byte), and `numObjects`, `rootObjectIndex` and
`offsetTableStart`, of 8 bytes each, big-endian. -/
def trailerFields (B : List Nat) : Trailer :=
  { offsetSize := peek B ((B.length : Int) - 26)
    refSize := peek B ((B.length : Int) - 25)
    numObj := bigEndian B ((B.length : Int) - 24) 8
    rootObjID := bigEndian B ((B.length : Int) - 16) 8
    offsetTableOffset := bigEndian B ((B.length : Int) - 8) 8 }

/-- The places in `gInFileContents` of the bytes that `Load_bplist` reads: the 26 bytes of
the trailer and, when the two checks pass, for each of the `gNumObj` calls of
`ReadUInt_XByte` the bytes of the offset, which are none for a width that is not 1, 2, 4
or 8. -/
def Load_bplist_reads (B : List Nat) : List Int :=
  (List.range 26).map (fun (j : Nat) => (B.length : Int) - kTrailerOffset + j) ++
    (if (readTrailer B).numObj = 0 ∨ (readTrailer B).rootObjID > (readTrailer B).numObj then []
    else
      (List.range (readTrailer B).numObj).flatMap (fun (a : Nat) =>
        (List.range
          (if (readTrailer B).offsetSize = 1 ∨ (readTrailer B).offsetSize = 2 ∨
              (readTrailer B).offsetSize = 4 ∨ (readTrailer B).offsetSize = 8
            then (readTrailer B).offsetSize else 0)).map
          (fun (j : Nat) =>
            ((readTrailer B).offsetTableOffset : Int) + a * (readTrailer B).offsetSize + j)))

/-! ## The sender ID as the design compares it -/

/-- The canonicalised sender ID in the words of the design: everything from the first `@`
removed, then one leading `+` removed. -/
def canonicalSenderID (senderId : List Nat) : List Nat :=
  match senderId.takeWhile (fun c => c ≠ 0x40) with
  | 0x2B :: rest => rest
  | cut => cut

/-- Globals with the account IDs `bob` and `15551235555`, and the names `Bob` and `Ann`. -/
def phoneGlobals : ICGlobals :=
  { gObjectsArray := LoadObject_S1_Init 0
    gMessageListArray := LoadObject_S1_Init 0
    gNumParticipantNames := 2
    gParticipantNames := [cstr "Bob", cstr "Ann"]
    gNumParticipantIDs := 2
    gParticipantIDs := [cstr "bob", cstr "15551235555"] }

/-- A text message `hi` from `+15551235555` at `19:00:00`. -/
def phoneMessage : ICMessage :=
  { InitMessage with
    mSenderID := some (cstr "+15551235555"), mTime := some (cstr "19:00:00"),
    mText := some (cstr "hi") }

/-! ## File transfers with a file name of length 0 -/

/-- A message that sends two files: the dict under `MessageText` has the keys
`NSAttributeInfo` and `NSAttributes`; the dict under `NSAttributes` (`a16`) has an
`NS.objects` array of two UIDs, for the dicts `a17` and `a18`, each with the key name `a19`
and a file name, `a20` or `a21`.  The name of the first file is the ASCII string of length
0, that of the second is `b.txt`. -/
def emptyNameLog : List (List Nat) :=
  messageLog (asciiObj "bob") (dictObj [34, 35, 36] [49, 51, 52]) (dictObj [55, 56] [49, 57])
    [58, 62, 63, 70, 71, 72]
    [asciiObj "NSAttributeInfo", asciiObj "NSAttributes", uidObj 16, dictObj [19] [59],
      arrayObj [60, 61], uidObj 17, uidObj 18,
      dictObj [18, 19] [64, 65], dictObj [18, 19] [64, 66],
      arrayObj [67], arrayObj [68], arrayObj [69],
      uidObj 19, uidObj 20, uidObj 21,
      asciiObj "__kIMFilenameAttributeName", asciiObj "", asciiObj "b.txt"]

/-- A message that sends one file: the dict under `MessageText` has the key `NSAttributes`
only, and the dict under it (`a16`) has the key name `a17` and the file name `a18`, which
is the ASCII string of length 0. -/
def oneEmptyNameLog : List (List Nat) :=
  messageLog (asciiObj "bob") (dictObj [34, 35, 36] [49, 51, 52]) (dictObj [56] [57])
    [58, 63, 64]
    [asciiObj "NSAttributeInfo", asciiObj "NSAttributes", uidObj 16,
      dictObj [18, 19] [59, 60], arrayObj [61], arrayObj [62], uidObj 17, uidObj 18,
      asciiObj "__kIMFilenameAttributeName", asciiObj ""]

/-- The message that `LoadMessage` makes of a message in which `bob` sends two files, with
the text `mText`. -/
def twoFilesMessage (mText : List Nat) : ICMessage :=
  { InitMessage with
    mFileTransfer := 2, mSenderID := some (cstr "bob"), mTime := some [],
    mText := some mText }

/-! ## The byte readers -/

theorem peek_lt (B : List Nat) (p : Int) : peek B p < 256 := by
  unfold peek
  split
  · exact Nat.mod_lt _ (by norm_num)
  · norm_num

theorem or_low (a b i : Nat) (hb : b < 2 ^ i) : a * 2 ^ i ||| b = a * 2 ^ i + b := by
  have h := @Nat.mul_add_lt_is_or i b hb a
  rw [Nat.mul_comm (2 ^ i) a] at h
  exact h.symm

theorem toUInt32_shlInt (b s : Nat) (hb : b < 256) (hs : s ≤ 24) :
    toUInt32 (shlInt b s) = b * 2 ^ s := by
  have h32 : s % 32 = s := Nat.mod_eq_of_lt (by omega)
  have hp : b * 2 ^ s < 4294967296 := by
    calc b * 2 ^ s < 256 * 2 ^ s := Nat.mul_lt_mul_of_pos_right hb (by positivity)
      _ ≤ 256 * 2 ^ 24 := Nat.mul_le_mul_left _ (Nat.pow_le_pow_right (by norm_num) hs)
      _ = 4294967296 := by norm_num
  unfold toUInt32 shlInt wrapInt32
  rw [h32]
  have hc : ((b : Int) * 2 ^ s) = ((b * 2 ^ s : Nat) : Int) := by push_cast; ring
  rw [hc]
  generalize b * 2 ^ s = x at hp ⊢
  have e31 : (2 : Int) ^ 31 = 2147483648 := by norm_num
  have e32 : (2 : Int) ^ 32 = 4294967296 := by norm_num
  rw [e31, e32]
  omega

theorem or_bytes4 (b0 b1 b2 b3 : Nat) (h1 : b1 < 256) (h2 : b2 < 256) (h3 : b3 < 256) :
    (((0 ||| b0 * 2 ^ 24) ||| b1 * 2 ^ 16) ||| b2 * 2 ^ 8) ||| b3 * 2 ^ 0
      = b0 * 256 ^ 3 + b1 * 256 ^ 2 + b2 * 256 ^ 1 + b3 * 256 ^ 0 := by
  rw [Nat.zero_or, Nat.lor_assoc, Nat.lor_assoc, Nat.pow_zero, Nat.mul_one]
  rw [or_low b2 b3 8 (by omega)]
  rw [or_low b1 (b2 * 2 ^ 8 + b3) 16 (by omega)]
  rw [or_low b0 (b1 * 2 ^ 16 + (b2 * 2 ^ 8 + b3)) 24 (by omega)]
  omega

/-- The four-byte reader returns the big-endian value of its four bytes. -/
theorem ReadUInt_4Byte_eq (B : List Nat) (start : Int) :
    ReadUInt_4Byte B start = bigEndian B start 4 := by
  have hr : List.range 4 = [0, 1, 2, 3] := rfl
  have s0 : (3 - 0) * 8 = 24 := rfl
  have s1 : (3 - 1) * 8 = 16 := rfl
  have s2 : (3 - 2) * 8 = 8 := rfl
  have s3 : (3 - 3) * 8 = 0 := rfl
  have t0 : 4 - 1 - 0 = 3 := rfl
  have t1 : 4 - 1 - 1 = 2 := rfl
  have t2 : 4 - 1 - 2 = 1 := rfl
  have t3 : 4 - 1 - 3 = 0 := rfl
  unfold ReadUInt_4Byte bigEndian
  rw [hr]
  rw [List.foldl_cons, List.foldl_cons, List.foldl_cons, List.foldl_cons, List.foldl_nil]
  simp only [List.map, List.sum_cons, List.sum_nil]
  rw [s0, s1, s2, s3, t0, t1, t2, t3]
  rw [toUInt32_shlInt _ 24 (peek_lt _ _) (by norm_num),
    toUInt32_shlInt _ 16 (peek_lt _ _) (by norm_num),
    toUInt32_shlInt _ 8 (peek_lt _ _) (by norm_num),
    toUInt32_shlInt _ 0 (peek_lt _ _) (by norm_num)]
  rw [or_bytes4 _ _ _ _ (peek_lt _ _) (peek_lt _ _) (peek_lt _ _), Nat.add_zero, Nat.add_assoc,
    Nat.add_assoc]

/-- The two-byte reader returns the big-endian value of its two bytes. -/
theorem ReadUInt_2Byte_eq (B : List Nat) (start : Int) :
    ReadUInt_2Byte B start = bigEndian B start 2 := by
  have hr : List.range 2 = [0, 1] := rfl
  have h0 := peek_lt B start
  have h1 := peek_lt B (start + 1)
  have e31 : (2 : Int) ^ 31 = 2147483648 := by norm_num
  have e32 : (2 : Int) ^ 32 = 4294967296 := by norm_num
  have e16 : (2 : Int) ^ 16 = 65536 := by norm_num
  have e8 : (2 : Int) ^ (8 % 32) = 256 := by norm_num
  unfold ReadUInt_2Byte bigEndian toUInt16 shlInt wrapInt32
  rw [hr, e31, e32, e16, e8]
  simp only [List.map, List.sum_cons, List.sum_nil, Nat.cast_zero, Nat.cast_one, add_zero]
  generalize peek B start = b0 at h0 ⊢
  generalize peek B (start + 1) = b1 at h1 ⊢
  norm_num
  omega

/-- For the widths 1, 2 and 4 `ReadUInt_XByte` returns the big-endian value. -/
theorem ReadUInt_XByte_eq_bigEndian (B : List Nat) (start : Int) (w : Nat)
    (hw : w = 1 ∨ w = 2 ∨ w = 4) : ReadUInt_XByte B start w = bigEndian B start w := by
  rcases hw with rfl | rfl | rfl
  · have hr : List.range 1 = [0] := rfl
    simp [ReadUInt_XByte, bigEndian, hr]
  · simp [ReadUInt_XByte, ReadUInt_2Byte_eq]
  · simp [ReadUInt_XByte, ReadUInt_4Byte_eq]

/-- For a width other than 1, 2, 4 and 8 `ReadUInt_XByte` returns `(uint64_t)-1`. -/
theorem ReadUInt_XByte_unsupported (B : List Nat) (start : Int) (w : Nat)
    (h1 : w ≠ 1) (h2 : w ≠ 2) (h4 : w ≠ 4) (h8 : w ≠ 8) :
    ReadUInt_XByte B start w = kNone := by
  simp [ReadUInt_XByte, h1, h2, h4, h8]

/-- C1. `ReadUInt_XByte` with width 8 does not return the big-endian value of its eight
bytes once the high-order four are not zero: on the bytes `00 00 00 01 00 00 00 00`, whose
big-endian value is `2^32`, it returns 1, while the two-byte read of `12 34` is `0x1234`. -/
theorem ReadUInt_XByte_width8_high_bytes :
    ReadUInt_XByte [0, 0, 0, 1, 0, 0, 0, 0] 0 8 = 1 ∧
      bigEndian [0, 0, 0, 1, 0, 0, 0, 0] 0 8 = 2 ^ 32 ∧
      ReadUInt_XByte [0x12, 0x34] 0 2 = 0x1234 := by
  decide

/-! ## What `Load_bplist` establishes -/

theorem toUInt64_lt (x : Int) : toUInt64 x < 2 ^ 64 := by
  have e64 : (2 : Int) ^ 64 = 18446744073709551616 := by norm_num
  unfold toUInt64
  rw [e64]
  omega

theorem foldl_or_lt (f : Nat → Int) (l : List Nat) (acc : Nat) (h : acc < 2 ^ 64) :
    l.foldl (fun (result a : Nat) => result ||| toUInt64 (f a)) acc < 2 ^ 64 := by
  induction l generalizing acc with
  | nil => simpa using h
  | cons a l ih =>
    rw [List.foldl_cons]
    exact ih _ (Nat.or_lt_two_pow h (toUInt64_lt _))

theorem ReadUInt_8Byte_lt (B : List Nat) (start : Int) :
    ReadUInt_8Byte B start < 2 ^ 64 := by
  unfold ReadUInt_8Byte
  exact foldl_or_lt (fun a => shlInt (peek B (start + a)) ((7 - a) * 8)) _ 0 (by norm_num)

/-- The globals after a successful `Load_bplist`. -/
theorem Load_bplist_some (B : List Nat) (s : BPState) (h : Load_bplist B = some s) :
    s.gInFileContents = B ∧ 0 < s.gNumObj ∧ s.gNumObj < 2 ^ 64 ∧ s.gRootObjID ≤ s.gNumObj ∧
      s.gNumObj = (readTrailer B).numObj ∧ s.gRootObjID = (readTrailer B).rootObjID ∧
      s.gRefSize = (readTrailer B).refSize ∧ s.gOffsets.length = s.gNumObj := by
  unfold Load_bplist at h
  have hlt : (readTrailer B).numObj < 2 ^ 64 := ReadUInt_8Byte_lt _ _
  simp only at h
  split at h
  · exact absurd h (by simp)
  · split at h
    · exact absurd h (by simp)
    · simp only [Option.some.injEq] at h
      subst h
      simp only [List.length_map, List.length_range, and_true, true_and]
      exact ⟨by omega, hlt, by omega⟩

/-! ## The stages of `LoadObject` -/

theorem LoadObject_S2_Locate_eq (s : BPState) (obj : BPObject) (h0 : 0 < s.gNumObj)
    (h64 : s.gNumObj < 2 ^ 64) :
    LoadObject_S2_Locate s obj =
      if obj.oUID < s.gNumObj then
        (true, { obj with oObjAddress := some (s.gOffsets.getD obj.oUID 0 : Nat) })
      else (false, obj) := by
  unfold LoadObject_S2_Locate
  have e : (s.gNumObj + 2 ^ 64 - 1) % 2 ^ 64 = s.gNumObj - 1 := by omega
  rw [e]
  by_cases h : obj.oUID < s.gNumObj
  · rw [if_neg (by omega), if_pos h]
  · rw [if_pos (by omega), if_neg h]

/-- What stage 3 makes of each of the 256 code bytes, against the design's table, and
the table rows of the types it can return. -/
theorem getTypeLoop_table :
    ∀ b < 256,
      specTag (b >>> 4) (b &&& 0x0F)
          = (if getTypeLoop (hiQuadOf b) (loQuadOf b) (gTypeTable.drop 1) = -1 then none
            else some (getTypeLoop (hiQuadOf b) (loQuadOf b) (gTypeTable.drop 1))) ∧
        (getTypeLoop (hiQuadOf b) (loQuadOf b) (gTypeTable.drop 1) = -1 ∨
          (0 < getTypeLoop (hiQuadOf b) (loQuadOf b) (gTypeTable.drop 1) ∧
            getTypeLoop (hiQuadOf b) (loQuadOf b) (gTypeTable.drop 1) < kTypeCount)) := by
  set_option maxRecDepth 100000 in decide

/-- The rows of `gTypeTable` for the types 1 to 14. -/
theorem typeRow_facts :
    ∀ t : Fin 15, 0 < t.val →
      (typeRow (t.val : Int)).otReadFunc.isSome = true ∧
      ((typeRow (t.val : Int)).otReadFunc = some ReadFunc.Dict ↔ (t.val : Int) = kTypeDict) ∧
      ((typeRow (t.val : Int)).otSizeType = BPObjectSizeType.kSizeScalarOverflow
        ↔ isScalarOverflowType (t.val : Int) = true) ∧
      ((typeRow (t.val : Int)).otSizeType = BPObjectSizeType.kSizeAddOne
        ↔ (t.val : Int) = kTypeUID) := by
  decide

theorem LoadObject_S4_ReadSize_oType (s : BPState) (obj : BPObject) :
    (LoadObject_S4_ReadSize s obj).2.oType = obj.oType := by
  unfold LoadObject_S4_ReadSize
  split
  · rfl
  · dsimp only
    split
    · rfl
    · rfl
    · split <;> rfl
    · rfl
    · rfl

theorem LoadObject_S4_ReadSize_fst (s : BPState) (obj : BPObject) :
    (LoadObject_S4_ReadSize s obj).1 = decide (kTypeNone < obj.oType) := by
  unfold LoadObject_S4_ReadSize
  split
  · rename_i h
    simp [not_lt.mpr h]
  · rename_i h
    have h1 : kTypeNone < obj.oType := not_le.mp h
    dsimp only
    split
    · simp [h1]
    · simp [h1]
    · split <;> simp [h1]
    · simp [h1]
    · simp [h1]

theorem callReadFunc_oType (load : Nat → Option (Bool × BPObject)) (s : BPState)
    (obj obj1 : BPObject) (f : ReadFunc) (h : callReadFunc load s obj f = some obj1) :
    obj1.oType = obj.oType := by
  cases f <;> simp only [callReadFunc, Option.some.injEq] at h
  case Dict =>
    unfold ReadData_Dict at h
    split at h
    · exact absurd h (by simp)
    · simp only [Option.some.injEq] at h
      rw [← h]
  case Real =>
    unfold ReadData_Real at h
    split at h <;> rw [← h]
  case Date =>
    unfold ReadData_Date at h
    split at h <;> rw [← h]
  case Data =>
    unfold ReadData_Data at h
    split at h <;> rw [← h]
  case StringASCII =>
    unfold ReadData_StringASCII at h
    split at h
    · dsimp only at h
      split at h
      · rw [← h]
      · split at h <;> rw [← h]
    · rw [← h]
  case StringUnicode =>
    unfold ReadData_StringUnicode at h
    split at h <;> rw [← h]
  all_goals (rw [← h]; rfl)

theorem LoadObject_S5_ReadData_oType (load : Nat → Option (Bool × BPObject)) (s : BPState)
    (obj : BPObject) (r : Bool × BPObject) (h : LoadObject_S5_ReadData load s obj = some r) :
    r.2.oType = obj.oType := by
  unfold LoadObject_S5_ReadData at h
  split at h
  · simp only [Option.some.injEq] at h; rw [← h]
  · split at h
    · simp only [Option.some.injEq] at h; rw [← h]
    · split at h
      · rename_i f hf
        split at h
        · exact absurd h (by simp)
        · rename_i obj1 h1
          simp only [Option.some.injEq] at h
          rw [← h]
          exact callReadFunc_oType load s obj obj1 f h1
      · simp only [Option.some.injEq] at h; rw [← h]

/-- For an index that stage 2 accepts, stages 1 to 4 amount to stage 4 on `typedObject`. -/
theorem LoadObject_S1toS4_eq (s : BPState) (i : Nat) (h0 : 0 < s.gNumObj)
    (h64 : s.gNumObj < 2 ^ 64) (hi : i < s.gNumObj) :
    LoadObject_S1toS4 s i = LoadObject_S4_ReadSize s (typedObject s i) := by
  unfold LoadObject_S1toS4
  rw [LoadObject_S2_Locate_eq s _ h0 h64]
  have hu : (LoadObject_S1_Init i).oUID = i := rfl
  rw [hu, if_pos hi]
  rfl

/-- For an index that stage 2 rejects, stages 1 to 4 fail. -/
theorem LoadObject_S1toS4_invalid (s : BPState) (i : Nat) (h0 : 0 < s.gNumObj)
    (h64 : s.gNumObj < 2 ^ 64) (hi : ¬ i < s.gNumObj) :
    LoadObject_S1toS4 s i = (false, LoadObject_S1_Init i) := by
  unfold LoadObject_S1toS4
  rw [LoadObject_S2_Locate_eq s _ h0 h64]
  have hu : (LoadObject_S1_Init i).oUID = i := rfl
  rw [hu, if_neg hi]

/-- Embeds `LoadObject` is stages 1 to 4 followed, when they succeed, by stage 5. -/
theorem LoadObject_succ (s : BPState) (fuel i : Nat) :
    LoadObject s (fuel + 1) i =
      if (LoadObject_S1toS4 s i).1 = true then
        LoadObject_S5_ReadData (LoadObject s fuel) s (LoadObject_S1toS4 s i).2
      else some (false, (LoadObject_S1toS4 s i).2) := by
  rw [LoadObject]
  generalize LoadObject_S1toS4 s i = p
  obtain ⟨ok, obj⟩ := p
  cases ok <;> simp

theorem LoadObject_oType (s : BPState) (fuel i : Nat) (r : Bool × BPObject)
    (h : LoadObject s fuel i = some r) : r.2.oType = (LoadObject_S1toS4 s i).2.oType := by
  cases fuel with
  | zero => simp [LoadObject] at h
  | succ fuel =>
    rw [LoadObject_succ] at h
    split at h
    · exact LoadObject_S5_ReadData_oType _ s _ r h
    · simp only [Option.some.injEq] at h
      rw [← h]

/-! ## C2: classification by the tag table -/

/-- C2. For a loaded file and an index below `numObjects`, with `b` the header byte of the
object: where the tag table has a row for `(b >> 4, b & 0x0F)`, stages 1 to 4 of
`LoadObject` succeed with the type of that row, and every result `LoadObject` returns has
that type; where the table has no row, `LoadObject` returns failure. -/
theorem LoadObject_classifies_by_tag_table (B : List Nat) (s : BPState)
    (hload : Load_bplist B = some s) (i : Nat) (hi : i < s.gNumObj) :
    (∀ t, specTag (headerByte s i >>> 4) (headerByte s i &&& 0x0F) = some t →
      (LoadObject_S1toS4 s i).1 = true ∧ (LoadObject_S1toS4 s i).2.oType = t ∧
        ∀ fuel r, LoadObject s fuel i = some r → r.2.oType = t) ∧
    (specTag (headerByte s i >>> 4) (headerByte s i &&& 0x0F) = none →
      ∀ fuel, ∃ obj, LoadObject s (fuel + 1) i = some (false, obj)) := by
  obtain ⟨_, h0, h64, _⟩ := Load_bplist_some B s hload
  have hb : headerByte s i < 256 := peek_lt _ _
  obtain ⟨htab, hrange⟩ := getTypeLoop_table (headerByte s i) hb
  have hS := LoadObject_S1toS4_eq s i h0 h64 hi
  have hty : (LoadObject_S1toS4 s i).2.oType
      = getTypeLoop (hiQuadOf (headerByte s i)) (loQuadOf (headerByte s i))
          (gTypeTable.drop 1) := by
    rw [hS, LoadObject_S4_ReadSize_oType]
    rfl
  have hfst : (LoadObject_S1toS4 s i).1
      = decide (kTypeNone < getTypeLoop (hiQuadOf (headerByte s i))
          (loQuadOf (headerByte s i)) (gTypeTable.drop 1)) := by
    rw [hS, LoadObject_S4_ReadSize_fst]
    rfl
  rw [htab]
  constructor
  · intro t ht
    split at ht
    · exact absurd ht (by simp)
    · rename_i hne
      simp only [Option.some.injEq] at ht
      rcases hrange with h | ⟨hpos, _⟩
      · exact absurd h hne
      · refine ⟨?_, ?_, ?_⟩
        · rw [hfst]
          exact decide_eq_true hpos
        · rw [hty, ht]
        · intro fuel r hr
          rw [LoadObject_oType s fuel i r hr, hty, ht]
  · intro hnone fuel
    split at hnone
    · rename_i heq
      refine ⟨(LoadObject_S1toS4 s i).2, ?_⟩
      rw [LoadObject_succ, if_neg]
      rw [hfst, heq]
      decide
    · exact absurd hnone (by simp)

theorem LoadObject_classifies_by_tag_table_witness :
    Load_bplist sampleFile = some sampleState ∧ 4 < sampleState.gNumObj ∧
      headerByte sampleState 4 = 0x70 ∧
      (∀ t, specTag (headerByte sampleState 4 >>> 4) (headerByte sampleState 4 &&& 0x0F)
          = some t →
        (LoadObject_S1toS4 sampleState 4).1 = true ∧
          (LoadObject_S1toS4 sampleState 4).2.oType = t ∧
          ∀ fuel r, LoadObject sampleState fuel 4 = some r → r.2.oType = t) ∧
      (specTag (headerByte sampleState 4 >>> 4) (headerByte sampleState 4 &&& 0x0F) = none →
        ∀ fuel, ∃ obj, LoadObject sampleState (fuel + 1) 4 = some (false, obj)) :=
  ⟨by decide, by decide, by decide,
    LoadObject_classifies_by_tag_table sampleFile sampleState (by decide) 4 (by decide)⟩

/-! ## C3, C4: the size of a `ScalarOverflow` object -/

theorem scalarOverflow_row (t : Int) (h : isScalarOverflowType t = true) :
    (typeRow t).otSizeType = BPObjectSizeType.kSizeScalarOverflow ∧ ¬ t ≤ kTypeNone := by
  unfold isScalarOverflowType at h
  simp only [Bool.or_eq_true, decide_eq_true_eq] at h
  rcases h with ((((h | h) | h) | h) | h) | h <;> subst h <;> decide

/-- Stage 4 on an object of a `ScalarOverflow` type. -/
theorem LoadObject_S4_ReadSize_scalarOverflow (s : BPState) (obj : BPObject) (h : Int)
    (hty : isScalarOverflowType obj.oType = true) (haddr : obj.oObjAddress = some h) :
    LoadObject_S4_ReadSize s obj =
      if loQuadOf (peek s.gInFileContents h) = 0xF then
        (true, { obj with
          oSize := ReadUInt_XByte s.gInFileContents (h + 2)
            (2 ^ loQuadOf (peek s.gInFileContents (h + 1)))
          oDataAddress := some (h + 1 +
            ((2 ^ loQuadOf (peek s.gInFileContents (h + 1)) + 1 : Nat) : Int)) })
      else
        (true, { obj with
          oSize := loQuadOf (peek s.gInFileContents h)
          oDataAddress := some (h + 1 + ((0 : Nat) : Int)) }) := by
  obtain ⟨hrow, hpos⟩ := scalarOverflow_row obj.oType hty
  unfold LoadObject_S4_ReadSize
  rw [if_neg hpos, haddr]
  simp only [Option.getD_some, hrow]

/-- C3, as the code has it. For an object of a `ScalarOverflow` type with header at `h`:
if `lo < 0xF`, stage 4 sets the count to `lo` and the data start to `h+1`; if `lo = 0xF`,
with `k` the low nibble of the byte at `h+1`, the data start is `h+2+2^k`, the count is the
big-endian value of the `2^k` bytes at `h+2` when `k ≤ 2`, and the count is the sentinel
`2^64-1` when `k ≥ 4`. -/
theorem LoadObject_S4_ReadSize_count (s : BPState) (obj : BPObject) (h : Int)
    (hty : isScalarOverflowType obj.oType = true) (haddr : obj.oObjAddress = some h) :
    (loQuadOf (peek s.gInFileContents h) < 0xF →
      (LoadObject_S4_ReadSize s obj).1 = true ∧
      (LoadObject_S4_ReadSize s obj).2.oSize = loQuadOf (peek s.gInFileContents h) ∧
      (LoadObject_S4_ReadSize s obj).2.oDataAddress = some (h + 1)) ∧
    (loQuadOf (peek s.gInFileContents h) = 0xF →
      (LoadObject_S4_ReadSize s obj).1 = true ∧
      (LoadObject_S4_ReadSize s obj).2.oDataAddress
        = some (h + 2 + 2 ^ loQuadOf (peek s.gInFileContents (h + 1))) ∧
      (loQuadOf (peek s.gInFileContents (h + 1)) ≤ 2 →
        (LoadObject_S4_ReadSize s obj).2.oSize
          = bigEndian s.gInFileContents (h + 2)
              (2 ^ loQuadOf (peek s.gInFileContents (h + 1)))) ∧
      (4 ≤ loQuadOf (peek s.gInFileContents (h + 1)) →
        (LoadObject_S4_ReadSize s obj).2.oSize = kNone)) := by
  rw [LoadObject_S4_ReadSize_scalarOverflow s obj h hty haddr]
  constructor
  · intro hlo
    rw [if_neg (by omega)]
    simp
  · intro hlo
    rw [if_pos hlo]
    refine ⟨rfl, ?_, ?_, ?_⟩
    · simp only [Option.some.injEq]
      push_cast
      ring
    · intro hk
      apply ReadUInt_XByte_eq_bigEndian
      generalize loQuadOf (peek s.gInFileContents (h + 1)) = k at hk
      interval_cases k <;> simp
    · intro hk
      apply ReadUInt_XByte_unsupported
      all_goals
        generalize loQuadOf (peek s.gInFileContents (h + 1)) = k at hk
        have h16 : 2 ^ 4 ≤ 2 ^ k := Nat.pow_le_pow_right (by norm_num) hk
        omega

theorem LoadObject_S4_ReadSize_count_witness :
    isScalarOverflowType (typedObject wideCountState 0).oType = true ∧
      (typedObject wideCountState 0).oObjAddress = some 8 ∧
      loQuadOf (peek wideCountState.gInFileContents 8) = 0xF ∧
      4 ≤ loQuadOf (peek wideCountState.gInFileContents (8 + 1)) ∧
      (LoadObject_S4_ReadSize wideCountState (typedObject wideCountState 0)).2.oSize = kNone :=
  ⟨by decide, by decide, by decide, by decide,
    ((LoadObject_S4_ReadSize_count wideCountState (typedObject wideCountState 0) 8
      (by decide) (by decide)).2 (by decide)).2.2.2 (by decide)⟩

/-- C3 fails as stated: for the ASCII string header `5F` followed by the count marker `14`
(`k = 4`) and sixteen zero bytes, stage 4 sets the count to `2^64-1`, while the big-endian
value of the `2^4` bytes after the marker is 0. -/
theorem LoadObject_S4_ReadSize_count_counterexample :
    isScalarOverflowType (typedObject wideCountState 0).oType = true ∧
      (typedObject wideCountState 0).oObjAddress = some 8 ∧
      loQuadOf (peek wideCountState.gInFileContents 8) = 0xF ∧
      loQuadOf (peek wideCountState.gInFileContents 9) = 4 ∧
      bigEndian wideCountState.gInFileContents 10 (2 ^ 4) = 0 ∧
      (LoadObject_S4_ReadSize wideCountState (typedObject wideCountState 0)).2.oSize
        = 2 ^ 64 - 1 ∧
      (LoadObject_S4_ReadSize wideCountState (typedObject wideCountState 0)).2.oSize
        ≠ bigEndian wideCountState.gInFileContents 10 (2 ^ 4) := by
  decide

theorem typeRow_readFunc_isSome (t : Int) (h0 : kTypeNone < t) (h15 : t < kTypeCount) :
    (typeRow t).otReadFunc.isSome = true := by
  have h0' : 0 < t := h0
  have h15' : t < 15 := h15
  obtain ⟨n, rfl⟩ : ∃ n : Nat, t = (n : Int) := ⟨t.toNat, by omega⟩
  exact (typeRow_facts ⟨n, by omega⟩ (by simpa using h0')).1

/-- Stage 5 on an object whose type is one of the table's: it fails exactly when the size
is the sentinel. -/
theorem LoadObject_S5_ReadData_fst (load : Nat → Option (Bool × BPObject)) (s : BPState)
    (obj : BPObject) (r : Bool × BPObject) (h0 : kTypeNone < obj.oType)
    (h15 : obj.oType < kTypeCount) (h : LoadObject_S5_ReadData load s obj = some r) :
    (r.1 = false ↔ obj.oSize = kNone) := by
  have hrf := typeRow_readFunc_isSome obj.oType h0 h15
  unfold LoadObject_S5_ReadData at h
  split at h
  · rename_i hs
    simp only [Option.some.injEq] at h
    rw [← h]
    simp [hs]
  · rename_i hs
    split at h
    · rename_i hge
      exact absurd h15 (not_lt.mpr hge)
    · split at h
      · split at h
        · exact absurd h (by simp)
        · simp only [Option.some.injEq] at h
          rw [← h]
          simp [hs]
      · rename_i hnone
        rw [hnone] at hrf
        exact absurd hrf (by simp)

/-- The type stage 3 assigns is one of the table's or `-1`. -/
theorem typedObject_oType_range (s : BPState) (i : Nat) :
    (typedObject s i).oType = -1 ∨
      (kTypeNone < (typedObject s i).oType ∧ (typedObject s i).oType < kTypeCount) :=
  (getTypeLoop_table (headerByte s i) (peek_lt _ _)).2

/-- C4, as the code has it. For an object of a `ScalarOverflow` type whose header has
`lo = 0xF`, stage 4 does not look at the high nibble of the following byte: it succeeds and
takes the count from the `2^k` bytes after that byte, `k` being its low nibble; and
`LoadObject`, when it returns, fails exactly when that count reads as `2^64-1`. -/
theorem LoadObject_overflow_marker_unchecked (B : List Nat) (s : BPState)
    (hload : Load_bplist B = some s) (i : Nat) (hi : i < s.gNumObj)
    (hty : isScalarOverflowType (typedObject s i).oType = true)
    (hlo : loQuadOf (headerByte s i) = 0xF) :
    (LoadObject_S1toS4 s i).1 = true ∧
      (LoadObject_S1toS4 s i).2.oSize
        = ReadUInt_XByte B ((s.gOffsets.getD i 0 : Nat) + 2)
            (2 ^ loQuadOf (peek B ((s.gOffsets.getD i 0 : Nat) + 1))) ∧
      ∀ fuel r, LoadObject s fuel i = some r →
        (r.1 = false ↔
          ReadUInt_XByte B ((s.gOffsets.getD i 0 : Nat) + 2)
            (2 ^ loQuadOf (peek B ((s.gOffsets.getD i 0 : Nat) + 1))) = kNone) := by
  obtain ⟨hB, h0, h64, _⟩ := Load_bplist_some B s hload
  have hS := LoadObject_S1toS4_eq s i h0 h64 hi
  have hS4 := LoadObject_S4_ReadSize_scalarOverflow s (typedObject s i)
    (s.gOffsets.getD i 0 : Nat) hty rfl
  have hlo' : loQuadOf (peek s.gInFileContents (s.gOffsets.getD i 0 : Nat)) = 0xF := hlo
  rw [if_pos hlo'] at hS4
  rw [hS4] at hS
  rw [hB] at hS
  have hrange := typedObject_oType_range s i
  have hpos := (scalarOverflow_row _ hty).2
  refine ⟨by rw [hS], by rw [hS], ?_⟩
  intro fuel r hr
  cases fuel with
  | zero => simp [LoadObject] at hr
  | succ fuel =>
    rw [LoadObject_succ, hS] at hr
    simp only [if_true] at hr
    rcases hrange with hneg | ⟨hgt, hlt⟩
    · rw [hneg] at hpos
      exact absurd (by decide) hpos
    · exact LoadObject_S5_ReadData_fst _ s _ r (by exact hgt) (by exact hlt) hr

theorem LoadObject_overflow_marker_unchecked_witness :
    Load_bplist markerState.gInFileContents = some markerState ∧ 0 < markerState.gNumObj ∧
      isScalarOverflowType (typedObject markerState 0).oType = true ∧
      loQuadOf (headerByte markerState 0) = 0xF ∧
      (LoadObject_S1toS4 markerState 0).1 = true ∧
      (LoadObject_S1toS4 markerState 0).2.oSize = 1 :=
  ⟨by decide, by decide, by decide, by decide,
    (LoadObject_overflow_marker_unchecked markerState.gInFileContents markerState
      (by decide) 0 (by decide) (by decide) (by decide)).1,
    by decide⟩

/-- C4 fails as stated: the ASCII string `5F 00 01 41` has `lo = 0xF` and a following byte
`00` whose high nibble is 0, not 1, and `LoadObject` returns it as the one-byte string
`"A"`. -/
theorem LoadObject_overflow_marker_counterexample :
    Load_bplist markerState.gInFileContents = some markerState ∧
      isScalarOverflowType (typedObject markerState 0).oType = true ∧
      loQuadOf (headerByte markerState 0) = 0xF ∧
      hiQuadOf (peek markerState.gInFileContents 9) = 0 ∧
      (LoadObject markerState 1 0).map (fun r => (r.1, r.2.oType, r.2.oSize, r.2.oData))
        = some (true, kTypeStringASCII, 1, some [0x41, 0]) := by
  decide

/-! ## C5: UID objects -/

theorem uid_header :
    ∀ lo < 16, hiQuadOf (0x80 + lo) = 8 ∧ loQuadOf (0x80 + lo) = lo ∧
      getTypeLoop (hiQuadOf (0x80 + lo)) (loQuadOf (0x80 + lo)) (gTypeTable.drop 1)
        = kTypeUID := by
  decide

/-- Stage 4 on a UID object: the size is `lo + 1` and the data follows the header. -/
theorem LoadObject_S4_ReadSize_UID (s : BPState) (obj : BPObject) (h : Int)
    (hty : obj.oType = kTypeUID) (haddr : obj.oObjAddress = some h) :
    LoadObject_S4_ReadSize s obj =
      (true, { obj with
        oSize := loQuadOf (peek s.gInFileContents h) + 1
        oDataAddress := some (h + 1 + ((0 : Nat) : Int)) }) := by
  have hrow : (typeRow obj.oType).otSizeType = BPObjectSizeType.kSizeAddOne := by
    rw [hty]; decide
  have hpos : ¬ obj.oType ≤ kTypeNone := by rw [hty]; decide
  unfold LoadObject_S4_ReadSize
  rw [if_neg hpos, haddr]
  simp only [Option.getD_some, hrow]

/-- Stage 5 on a UID object whose size is not the sentinel. -/
theorem LoadObject_S5_ReadData_UID (load : Nat → Option (Bool × BPObject)) (s : BPState)
    (obj : BPObject) (hty : obj.oType = kTypeUID) (hsize : obj.oSize ≠ kNone) :
    LoadObject_S5_ReadData load s obj = some (true, ReadData_UID s obj) := by
  have hrow : (typeRow obj.oType).otReadFunc = some ReadFunc.UID := by rw [hty]; decide
  have hlt : ¬ obj.oType ≥ kTypeCount := by rw [hty]; decide
  unfold LoadObject_S5_ReadData
  rw [if_neg hsize, if_neg hlt, hrow]
  rfl

/-- C5, as the code has it. For a UID object with header byte `0x80 | lo`, `lo` in 0..7,
`LoadObject` succeeds with a payload of `lo+1` bytes right after the header; the value it
stores is what `ReadUInt_XByte` returns for that width: the big-endian value of the payload
for the widths 1, 2 and 4, and `2^64-1` for the widths 3, 5, 6 and 7. -/
theorem LoadObject_UID (B : List Nat) (s : BPState) (hload : Load_bplist B = some s)
    (i : Nat) (hi : i < s.gNumObj) (lo : Nat) (hlo : lo ≤ 7)
    (hb : headerByte s i = 0x80 + lo) (fuel : Nat) :
    ∃ obj, LoadObject s (fuel + 1) i = some (true, obj) ∧ obj.oType = kTypeUID ∧
      obj.oSize = lo + 1 ∧ obj.oDataAddress = some (((s.gOffsets.getD i 0 : Nat) : Int) + 1) ∧
      obj.oInt = ReadUInt_XByte B ((s.gOffsets.getD i 0 : Nat) + 1) (lo + 1) ∧
      (lo + 1 = 1 ∨ lo + 1 = 2 ∨ lo + 1 = 4 →
        obj.oInt = bigEndian B ((s.gOffsets.getD i 0 : Nat) + 1) (lo + 1)) ∧
      (lo + 1 = 3 ∨ lo + 1 = 5 ∨ lo + 1 = 6 ∨ lo + 1 = 7 → obj.oInt = 2 ^ 64 - 1) := by
  obtain ⟨hB, h0, h64, _⟩ := Load_bplist_some B s hload
  obtain ⟨_, hloq, hty⟩ := uid_header lo (by omega)
  have htyped : (typedObject s i).oType = kTypeUID := by
    show getTypeLoop _ _ _ = kTypeUID
    rw [hb]
    exact hty
  have hpk : peek s.gInFileContents (s.gOffsets.getD i 0 : Nat) = 0x80 + lo := hb
  have hS := LoadObject_S1toS4_eq s i h0 h64 hi
  rw [LoadObject_S4_ReadSize_UID s (typedObject s i) (s.gOffsets.getD i 0 : Nat) htyped rfl,
    hpk, hloq] at hS
  have hne : lo + 1 ≠ kNone := by unfold kNone; omega
  have hL : LoadObject s (fuel + 1) i
      = some (true, ReadData_UID s (LoadObject_S1toS4 s i).2) := by
    rw [LoadObject_succ, hS]
    simp only [if_true]
    exact LoadObject_S5_ReadData_UID _ s _ htyped hne
  refine ⟨ReadData_UID s (LoadObject_S1toS4 s i).2, hL, ?_, ?_, ?_, ?_, ?_, ?_⟩
  · rw [hS]
    exact htyped
  · rw [hS]
    rfl
  · rw [hS]
    simp [ReadData_UID]
  · rw [hS]
    simp [ReadData_UID, hB]
  · intro hw
    rw [hS]
    simp only [ReadData_UID, Option.getD_some, hB]
    rw [ReadUInt_XByte_eq_bigEndian _ _ _ hw]
    simp
  · intro hw
    rw [hS]
    simp only [ReadData_UID, Option.getD_some, hB]
    exact ReadUInt_XByte_unsupported _ _ _ (by omega) (by omega) (by omega) (by omega)

theorem LoadObject_UID_witness :
    Load_bplist sampleFile = some sampleState ∧ 3 < sampleState.gNumObj ∧ 2 ≤ 7 ∧
      headerByte sampleState 3 = 0x80 + 2 ∧
      ∃ obj, LoadObject sampleState (0 + 1) 3 = some (true, obj) ∧ obj.oType = kTypeUID ∧
        obj.oSize = 2 + 1 ∧
        obj.oDataAddress = some (((sampleState.gOffsets.getD 3 0 : Nat) : Int) + 1) ∧
        obj.oInt = ReadUInt_XByte sampleFile ((sampleState.gOffsets.getD 3 0 : Nat) + 1)
          (2 + 1) ∧
        (2 + 1 = 1 ∨ 2 + 1 = 2 ∨ 2 + 1 = 4 →
          obj.oInt = bigEndian sampleFile ((sampleState.gOffsets.getD 3 0 : Nat) + 1)
            (2 + 1)) ∧
        (2 + 1 = 3 ∨ 2 + 1 = 5 ∨ 2 + 1 = 6 ∨ 2 + 1 = 7 → obj.oInt = 2 ^ 64 - 1) :=
  ⟨by decide, by decide, by decide, by decide,
    LoadObject_UID sampleFile sampleState (by decide) 3 (by decide) 2 (by decide)
      (by decide) 0⟩

/-- C5 fails as stated: the UID object `82 00 11 22` (width 3) loads successfully with the
value `2^64-1`, while the big-endian value of its three payload bytes is `0x001122`. -/
theorem LoadObject_UID_counterexample :
    Load_bplist sampleFile = some sampleState ∧ headerByte sampleState 3 = 0x82 ∧
      bigEndian sampleFile 18 3 = 0x001122 ∧
      (LoadObject sampleState 1 3).map
          (fun r => (r.1, r.2.oType, r.2.oSize, r.2.oDataAddress, r.2.oInt))
        = some (true, kTypeUID, 3, some 18, 2 ^ 64 - 1) := by
  decide

/-! ## C6: where a loaded object lies -/

/-- The read functions leave the location, type and size of the object as they are. -/
theorem callReadFunc_frame (load : Nat → Option (Bool × BPObject)) (s : BPState)
    (obj obj1 : BPObject) (f : ReadFunc) (h : callReadFunc load s obj f = some obj1) :
    obj1.oObjAddress = obj.oObjAddress ∧ obj1.oSize = obj.oSize ∧
      obj1.oDataAddress = obj.oDataAddress := by
  cases f <;> simp only [callReadFunc, Option.some.injEq] at h
  case Dict =>
    unfold ReadData_Dict at h
    split at h
    · exact absurd h (by simp)
    · simp only [Option.some.injEq] at h
      rw [← h]
      exact ⟨rfl, rfl, rfl⟩
  case Real =>
    unfold ReadData_Real at h
    split at h <;> rw [← h] <;> exact ⟨rfl, rfl, rfl⟩
  case Date =>
    unfold ReadData_Date at h
    split at h <;> rw [← h] <;> exact ⟨rfl, rfl, rfl⟩
  case Data =>
    unfold ReadData_Data at h
    split at h <;> rw [← h] <;> exact ⟨rfl, rfl, rfl⟩
  case StringASCII =>
    unfold ReadData_StringASCII at h
    split at h
    · dsimp only at h
      split at h
      · rw [← h]; exact ⟨rfl, rfl, rfl⟩
      · split at h <;> rw [← h] <;> exact ⟨rfl, rfl, rfl⟩
    · rw [← h]; exact ⟨rfl, rfl, rfl⟩
  case StringUnicode =>
    unfold ReadData_StringUnicode at h
    split at h <;> rw [← h] <;> exact ⟨rfl, rfl, rfl⟩
  all_goals (rw [← h]; exact ⟨rfl, rfl, rfl⟩)

theorem LoadObject_S5_ReadData_frame (load : Nat → Option (Bool × BPObject)) (s : BPState)
    (obj : BPObject) (r : Bool × BPObject) (h : LoadObject_S5_ReadData load s obj = some r) :
    r.2.oObjAddress = obj.oObjAddress ∧ r.2.oSize = obj.oSize ∧
      r.2.oDataAddress = obj.oDataAddress := by
  unfold LoadObject_S5_ReadData at h
  split at h
  · simp only [Option.some.injEq] at h; rw [← h]; exact ⟨rfl, rfl, rfl⟩
  · split at h
    · simp only [Option.some.injEq] at h; rw [← h]; exact ⟨rfl, rfl, rfl⟩
    · split at h
      · rename_i f hf
        split at h
        · exact absurd h (by simp)
        · rename_i obj1 h1
          simp only [Option.some.injEq] at h
          rw [← h]
          exact callReadFunc_frame load s obj obj1 f h1
      · simp only [Option.some.injEq] at h; rw [← h]; exact ⟨rfl, rfl, rfl⟩

/-- Where stage 4 puts the start of the data. -/
theorem LoadObject_S4_ReadSize_addresses (s : BPState) (obj : BPObject) (h : Int)
    (haddr : obj.oObjAddress = some h) (hok : (LoadObject_S4_ReadSize s obj).1 = true) :
    (LoadObject_S4_ReadSize s obj).2.oObjAddress = some h ∧
      ((LoadObject_S4_ReadSize s obj).2.oDataAddress = some (h + 1) ∨
        (loQuadOf (peek s.gInFileContents h) = 0xF ∧
          (typeRow obj.oType).otSizeType = BPObjectSizeType.kSizeScalarOverflow ∧
          (LoadObject_S4_ReadSize s obj).2.oDataAddress
            = some (h + 2 + 2 ^ loQuadOf (peek s.gInFileContents (h + 1))))) := by
  unfold LoadObject_S4_ReadSize at hok ⊢
  split
  · rename_i hle
    rw [if_pos hle] at hok
    exact absurd hok (by simp)
  · rw [haddr]
    simp only [Option.getD_some]
    split
    · exact ⟨rfl, Or.inl (by simp)⟩
    · exact ⟨rfl, Or.inl (by simp)⟩
    · rename_i hrow
      split
      · rename_i hlo
        refine ⟨rfl, Or.inr ⟨hlo, hrow, ?_⟩⟩
        simp only [Option.some.injEq]
        push_cast
        ring
      · exact ⟨rfl, Or.inl (by simp)⟩
    · exact ⟨rfl, Or.inl (by simp)⟩
    · exact ⟨rfl, Or.inl (by simp)⟩

/-- C6, as the code has it. If `LoadObject(i)` succeeds on a loaded file, then `i` is below
`numObjects`, the object's header is at `O[i]`, and its payload starts at `O[i]+1`, or at
`O[i]+2+2^k` when the count is stored in an overflow scalar of `2^k` bytes. -/
theorem LoadObject_success_location (B : List Nat) (s : BPState)
    (hload : Load_bplist B = some s) (fuel i : Nat) (r : Bool × BPObject)
    (h : LoadObject s fuel i = some r) (hr : r.1 = true) :
    i < s.gNumObj ∧ r.2.oObjAddress = some ((s.gOffsets.getD i 0 : Nat) : Int) ∧
      (r.2.oDataAddress = some (((s.gOffsets.getD i 0 : Nat) : Int) + 1) ∨
        (loQuadOf (headerByte s i) = 0xF ∧
          r.2.oDataAddress = some (((s.gOffsets.getD i 0 : Nat) : Int) + 2
            + 2 ^ loQuadOf (peek B (((s.gOffsets.getD i 0 : Nat) : Int) + 1))))) := by
  obtain ⟨hB, h0, h64, _⟩ := Load_bplist_some B s hload
  cases fuel with
  | zero => simp [LoadObject] at h
  | succ fuel =>
    rw [LoadObject_succ] at h
    by_cases hi : i < s.gNumObj
    · have hS := LoadObject_S1toS4_eq s i h0 h64 hi
      split at h
      · rename_i hok
        obtain ⟨f1, _, f3⟩ := LoadObject_S5_ReadData_frame _ s _ r h
        rw [hS] at hok f1 f3
        obtain ⟨a1, a2⟩ := LoadObject_S4_ReadSize_addresses s (typedObject s i)
          (s.gOffsets.getD i 0 : Nat) rfl hok
        refine ⟨hi, by rw [f1, a1], ?_⟩
        rcases a2 with a2 | ⟨hlo, _, a2⟩
        · exact Or.inl (by rw [f3, a2])
        · exact Or.inr ⟨hlo, by rw [f3, a2, hB]⟩
      · simp only [Option.some.injEq] at h
        rw [← h] at hr
        exact absurd hr (by simp)
    · rw [LoadObject_S1toS4_invalid s i h0 h64 hi] at h
      simp only [Bool.false_eq_true, if_false, Option.some.injEq] at h
      rw [← h] at hr
      exact absurd hr (by simp)

theorem LoadObject_success_location_witness :
    Load_bplist sampleFile = some sampleState ∧
      LoadObject sampleState 1 2 = some (true, ReadData_Int sampleState
        (LoadObject_S1toS4 sampleState 2).2) ∧
      2 < sampleState.gNumObj ∧
      (ReadData_Int sampleState (LoadObject_S1toS4 sampleState 2).2).oObjAddress
        = some ((sampleState.gOffsets.getD 2 0 : Nat) : Int) :=
  ⟨by decide, by decide,
    (LoadObject_success_location sampleFile sampleState (by decide) 1 2
      (true, ReadData_Int sampleState (LoadObject_S1toS4 sampleState 2).2)
      (by decide) rfl).1,
    (LoadObject_success_location sampleFile sampleState (by decide) 1 2
      (true, ReadData_Int sampleState (LoadObject_S1toS4 sampleState 2).2)
      (by decide) rfl).2.1⟩

/-- C6 fails as stated: in a file of 188 bytes whose offset table sends object 0 to the
last byte, `A1`, `LoadObject` succeeds with an array of one reference of one byte whose
payload range `[188, 189)` lies outside `[0, 188)`. -/
theorem LoadObject_payload_bounds_counterexample :
    Load_bplist edgeState.gInFileContents = some edgeState ∧
      edgeState.gInFileContents.length = 188 ∧
      (LoadObject edgeState 1 0).map
          (fun r => (r.1, r.2.oType, r.2.oObjAddress, r.2.oDataAddress, r.2.oSize))
        = some (true, kTypeArray, some 187, some 188, 1) ∧
      payloadUnit edgeState kTypeArray = 1 ∧
      ¬ (188 + 1 * payloadUnit edgeState kTypeArray ≤ edgeState.gInFileContents.length) := by
  set_option maxRecDepth 100000 in decide

/-! ## C7: termination of `LoadObject` -/

/-- Stage 5 on a dict whose size is not the sentinel. -/
theorem LoadObject_S5_ReadData_Dict (load : Nat → Option (Bool × BPObject)) (s : BPState)
    (obj : BPObject) (hty : obj.oType = kTypeDict) (hsize : obj.oSize ≠ kNone) :
    LoadObject_S5_ReadData load s obj =
      (ReadData_Dict_loop load s obj.oSize obj.oSize (obj.oDataAddress.getD 0)).map
        (fun _ => (true, obj)) := by
  have hrow : (typeRow obj.oType).otReadFunc = some ReadFunc.Dict := by rw [hty]; decide
  have hlt : ¬ obj.oType ≥ kTypeCount := by rw [hty]; decide
  unfold LoadObject_S5_ReadData
  rw [if_neg hsize, if_neg hlt, hrow]
  simp only [callReadFunc, ReadData_Dict]
  cases ReadData_Dict_loop load s obj.oSize obj.oSize (obj.oDataAddress.getD 0) <;> rfl

/-- Stage 5 returns once every read function does; only the dict scan can fail to. -/
theorem LoadObject_S5_ReadData_isSome (load : Nat → Option (Bool × BPObject)) (s : BPState)
    (obj : BPObject)
    (hdict : (typeRow obj.oType).otReadFunc = some ReadFunc.Dict →
      (ReadData_Dict_loop load s obj.oSize obj.oSize (obj.oDataAddress.getD 0)).isSome
        = true) :
    (LoadObject_S5_ReadData load s obj).isSome = true := by
  unfold LoadObject_S5_ReadData
  split
  · rfl
  · split
    · rfl
    · split
      · rename_i f hf
        cases f
        case Dict =>
          have hd := hdict hf
          simp only [callReadFunc, ReadData_Dict]
          cases hl : ReadData_Dict_loop load s obj.oSize obj.oSize
            (obj.oDataAddress.getD 0) with
          | none => rw [hl] at hd; exact absurd hd (by simp)
          | some u => rfl
        all_goals rfl
      · rfl

/-- The dict scan returns when each `LoadObject` call it can make returns. -/
theorem ReadData_Dict_loop_isSome (load : Nat → Option (Bool × BPObject)) (s : BPState)
    (size : Nat) :
    ∀ (n : Nat) (pairReader : Int),
      (∀ a < n,
        (load (dictKeyRef s (pairReader + (a : Int) * (s.gRefSize : Int)))).isSome = true ∧
        (load (dictValueRef s size (pairReader + (a : Int) * (s.gRefSize : Int)))).isSome
          = true) →
      (ReadData_Dict_loop load s size n pairReader).isSome = true := by
  intro n
  induction n with
  | zero => intro _ _; rfl
  | succ n ih =>
    intro pairReader h
    have h0 := h 0 (by omega)
    simp only [Nat.cast_zero, zero_mul, add_zero] at h0
    obtain ⟨hk, hv⟩ := h0
    have hrest := ih (pairReader + (s.gRefSize : Int)) (by
      intro a ha
      have := h (a + 1) (by omega)
      have e : pairReader + ((a + 1 : Nat) : Int) * (s.gRefSize : Int)
          = pairReader + (s.gRefSize : Int) + (a : Int) * (s.gRefSize : Int) := by
        push_cast
        ring
      rw [e] at this
      exact this)
    unfold ReadData_Dict_loop
    split
    · rename_i hnone
      rw [hnone] at hk
      exact absurd hk (by simp)
    · rfl
    · split
      · rename_i hnone
        rw [hnone] at hv
        exact absurd hv (by simp)
      · rfl
      · exact hrest

/-- An index that stages 1 to 4 accept is below `numObjects`. -/
theorem LoadObject_S1toS4_valid (s : BPState) (i : Nat) (h0 : 0 < s.gNumObj)
    (h64 : s.gNumObj < 2 ^ 64) (hok : (LoadObject_S1toS4 s i).1 = true) : i < s.gNumObj := by
  by_contra hi
  rw [LoadObject_S1toS4_invalid s i h0 h64 hi] at hok
  exact absurd hok (by simp)

theorem typeRow_Dict (t : Int) (h0 : kTypeNone < t) (h15 : t < kTypeCount)
    (h : (typeRow t).otReadFunc = some ReadFunc.Dict) : t = kTypeDict := by
  have h0' : 0 < t := h0
  have h15' : t < 15 := h15
  obtain ⟨n, rfl⟩ : ∃ n : Nat, t = (n : Int) := ⟨t.toNat, by omega⟩
  exact (typeRow_facts ⟨n, by omega⟩ (by simpa using h0')).2.1.mp h

theorem LoadObject_returns_of_rank (B : List Nat) (s : BPState)
    (hload : Load_bplist B = some s) (rank : Nat → Nat) (hrank : dictRefsBelow s rank) :
    ∀ fuel i, rank i < fuel → (LoadObject s fuel i).isSome = true := by
  obtain ⟨hB, h0, h64, _⟩ := Load_bplist_some B s hload
  intro fuel
  induction fuel with
  | zero => intro i hi; omega
  | succ fuel ih =>
    intro i hi
    rw [LoadObject_succ]
    split
    · rename_i hok
      have hval := LoadObject_S1toS4_valid s i h0 h64 hok
      apply LoadObject_S5_ReadData_isSome
      intro hrow
      have hS := LoadObject_S1toS4_eq s i h0 h64 hval
      have hty : (LoadObject_S1toS4 s i).2.oType = kTypeDict := by
        have hr := typedObject_oType_range s i
        rw [hS, LoadObject_S4_ReadSize_oType] at hrow ⊢
        rcases hr with hneg | ⟨hgt, hlt⟩
        · rw [hneg] at hrow
          exact absurd hrow (by decide)
        · exact typeRow_Dict _ hgt hlt hrow
      apply ReadData_Dict_loop_isSome
      intro a ha
      obtain ⟨r1, r2⟩ := hrank i hval hty a ha
      exact ⟨ih _ (by omega), ih _ (by omega)⟩
    · rfl

/-- C7, as the code has it. For a loaded file whose dicts refer, through their key and
value references, only to objects of smaller rank (no dict refers to itself or to a dict
above it), `LoadObject(i)` returns, with success or failure, for every index `i`, within a
nesting depth of `rank i + 1` calls. -/
theorem LoadObject_terminates (B : List Nat) (s : BPState) (hload : Load_bplist B = some s)
    (rank : Nat → Nat) (hrank : dictRefsBelow s rank) (i : Nat) :
    ∃ r, LoadObject s (rank i + 1) i = some r :=
  Option.isSome_iff_exists.mp
    (LoadObject_returns_of_rank B s hload rank hrank (rank i + 1) i (by omega))

theorem LoadObject_terminates_witness :
    Load_bplist sampleFile = some sampleState ∧ dictRefsBelow sampleState sampleRank ∧
      ∃ r, LoadObject sampleState (sampleRank 0 + 1) 0 = some r :=
  ⟨by decide, by decide,
    LoadObject_terminates sampleFile sampleState (by decide) sampleRank (by decide) 0⟩

theorem LoadObject_loopState_none : ∀ fuel, LoadObject loopState fuel 0 = none := by
  intro fuel
  induction fuel with
  | zero => rfl
  | succ fuel ih =>
    have hok : (LoadObject_S1toS4 loopState 0).1 = true := by decide
    have hty : (LoadObject_S1toS4 loopState 0).2.oType = kTypeDict := by decide
    have hsz : (LoadObject_S1toS4 loopState 0).2.oSize = 1 := by decide
    have hne : (LoadObject_S1toS4 loopState 0).2.oSize ≠ kNone := by decide
    have hkey : dictKeyRef loopState ((LoadObject_S1toS4 loopState 0).2.oDataAddress.getD 0)
        = 0 := by decide
    rw [LoadObject_succ, if_pos hok, LoadObject_S5_ReadData_Dict _ _ _ hty hne, hsz]
    unfold ReadData_Dict_loop
    rw [hkey, ih]
    rfl

/-- C7 fails as stated: object 0 of the file `D1 00 00` is a dict of one pair whose key
reference is 0, the dict itself; index 0 is below `numObjects = 1`, and `LoadObject(0)`
returns for no bound on the nesting depth: `ReadData_Dict` calls `LoadObject(0)` again
before anything else. -/
theorem LoadObject_terminates_counterexample :
    Load_bplist loopState.gInFileContents = some loopState ∧ 0 < loopState.gNumObj ∧
      ¬ ∃ fuel r, LoadObject loopState fuel 0 = some r := by
  refine ⟨by decide, by decide, ?_⟩
  rintro ⟨fuel, r, h⟩
  rw [LoadObject_loopState_none fuel] at h
  exact absurd h (by simp)

/-! ## C8: what `Load_bplist` checks -/

theorem toUInt64_shlInt (b s : Nat) (hs : s ≤ 24) (hb : b * 2 ^ s < 2 ^ 31) :
    toUInt64 (shlInt b s) = b * 2 ^ s := by
  have h32 : s % 32 = s := Nat.mod_eq_of_lt (by omega)
  unfold toUInt64 shlInt wrapInt32
  rw [h32]
  have hc : ((b : Int) * 2 ^ s) = ((b * 2 ^ s : Nat) : Int) := by push_cast; ring
  rw [hc]
  generalize b * 2 ^ s = x at hb ⊢
  have e31 : (2 : Int) ^ 31 = 2147483648 := by norm_num
  have e32 : (2 : Int) ^ 32 = 4294967296 := by norm_num
  have e64 : (2 : Int) ^ 64 = 18446744073709551616 := by norm_num
  have f31 : (2 : Nat) ^ 31 = 2147483648 := by norm_num
  rw [e31, e32, e64]
  rw [f31] at hb
  omega

theorem toUInt64_shlInt_zero (s : Nat) : toUInt64 (shlInt ((0 : Nat) : Int) s) = 0 := by
  unfold toUInt64 shlInt wrapInt32
  norm_num

/-- The eight bytes of a big-endian value below `2^31`, which `ReadUInt_8Byte` reads as
that value. -/
theorem ReadUInt_8Byte_small (B : List Nat) (start : Int)
    (h : bigEndian B start 8 < 2 ^ 31) : ReadUInt_8Byte B start = bigEndian B start 8 := by
  have hr : List.range 8 = [0, 1, 2, 3, 4, 5, 6, 7] := rfl
  have h0 := peek_lt B (start + (0 : Nat))
  have h1 := peek_lt B (start + (1 : Nat))
  have h2 := peek_lt B (start + (2 : Nat))
  have h3 := peek_lt B (start + (3 : Nat))
  have h4 := peek_lt B (start + (4 : Nat))
  have h5 := peek_lt B (start + (5 : Nat))
  have h6 := peek_lt B (start + (6 : Nat))
  have h7 := peek_lt B (start + (7 : Nat))
  unfold bigEndian at h ⊢
  unfold ReadUInt_8Byte
  rw [hr] at h ⊢
  simp only [List.map, List.sum_cons, List.sum_nil] at h ⊢
  rw [List.foldl_cons, List.foldl_cons, List.foldl_cons, List.foldl_cons, List.foldl_cons,
    List.foldl_cons, List.foldl_cons, List.foldl_cons, List.foldl_nil]
  generalize peek B (start + (0 : Nat)) = b0 at h h0 ⊢
  generalize peek B (start + (1 : Nat)) = b1 at h h1 ⊢
  generalize peek B (start + (2 : Nat)) = b2 at h h2 ⊢
  generalize peek B (start + (3 : Nat)) = b3 at h h3 ⊢
  generalize peek B (start + (4 : Nat)) = b4 at h h4 ⊢
  generalize peek B (start + (5 : Nat)) = b5 at h h5 ⊢
  generalize peek B (start + (6 : Nat)) = b6 at h h6 ⊢
  generalize peek B (start + (7 : Nat)) = b7 at h h7 ⊢
  have s0 : (7 - 0) * 8 = 56 := rfl
  have s1 : (7 - 1) * 8 = 48 := rfl
  have s2 : (7 - 2) * 8 = 40 := rfl
  have s3 : (7 - 3) * 8 = 32 := rfl
  have s4 : (7 - 4) * 8 = 24 := rfl
  have s5 : (7 - 5) * 8 = 16 := rfl
  have s6 : (7 - 6) * 8 = 8 := rfl
  have s7 : (7 - 7) * 8 = 0 := rfl
  have t0 : 8 - 1 - 0 = 7 := rfl
  have t1 : 8 - 1 - 1 = 6 := rfl
  have t2 : 8 - 1 - 2 = 5 := rfl
  have t3 : 8 - 1 - 3 = 4 := rfl
  have t4 : 8 - 1 - 4 = 3 := rfl
  have t5 : 8 - 1 - 5 = 2 := rfl
  have t6 : 8 - 1 - 6 = 1 := rfl
  have t7 : 8 - 1 - 7 = 0 := rfl
  rw [s0, s1, s2, s3, s4, s5, s6, s7]
  rw [t0, t1, t2, t3, t4, t5, t6, t7] at h ⊢
  have p7 : 256 ^ 7 = 72057594037927936 := by norm_num
  have p6 : 256 ^ 6 = 281474976710656 := by norm_num
  have p5 : 256 ^ 5 = 1099511627776 := by norm_num
  have p4 : 256 ^ 4 = 4294967296 := by norm_num
  have p3 : 256 ^ 3 = 16777216 := by norm_num
  have p2 : 256 ^ 2 = 65536 := by norm_num
  have p31 : 2 ^ 31 = 2147483648 := by norm_num
  rw [p7, p6, p5, p4, p3, p2, p31] at h
  have z0 : b0 = 0 := by omega
  have z1 : b1 = 0 := by omega
  have z2 : b2 = 0 := by omega
  have z3 : b3 = 0 := by omega
  have z4 : b4 < 128 := by omega
  subst z0 z1 z2 z3
  rw [toUInt64_shlInt_zero, toUInt64_shlInt_zero, toUInt64_shlInt_zero, toUInt64_shlInt_zero]
  rw [toUInt64_shlInt b4 24 (by norm_num) (by omega),
    toUInt64_shlInt b5 16 (by norm_num) (by omega),
    toUInt64_shlInt b6 8 (by norm_num) (by omega),
    toUInt64_shlInt b7 0 (by norm_num) (by omega)]
  have hb := or_bytes4 b4 b5 b6 b7 h5 h6 h7
  rw [Nat.zero_or] at hb
  simp only [Nat.or_zero, Nat.zero_or]
  rw [hb]
  omega

/-- One byte below 128, read as a plain `char` and converted to `uint64_t`. -/
theorem toUInt64_peekChar_small (B : List Nat) (p : Int) (h : peek B p < 128) :
    toUInt64 (peekChar B p) = peek B p := by
  have e64 : (2 : Int) ^ 64 = 18446744073709551616 := by norm_num
  unfold peekChar toUInt64
  rw [if_pos h, e64]
  omega

/-- The trailer that `Load_bplist` reads is the trailer of the file format when the two
sizes are below 128 and the three counts are below `2^31`. -/
theorem readTrailer_eq_trailerFields (B : List Nat)
    (hsz : (trailerFields B).offsetSize < 128) (hrs : (trailerFields B).refSize < 128)
    (hn : (trailerFields B).numObj < 2 ^ 31) (hr : (trailerFields B).rootObjID < 2 ^ 31)
    (ht : (trailerFields B).offsetTableOffset < 2 ^ 31) :
    readTrailer B = trailerFields B := by
  have a0 : (B.length : Int) - kTrailerOffset + kOffsetSizeOffset = (B.length : Int) - 26 := by
    unfold kTrailerOffset kOffsetSizeOffset; omega
  have a1 : (B.length : Int) - kTrailerOffset + kParamSizeOffset = (B.length : Int) - 25 := by
    unfold kTrailerOffset kParamSizeOffset; omega
  have a2 : (B.length : Int) - kTrailerOffset + kNumObjOffset = (B.length : Int) - 24 := by
    unfold kTrailerOffset kNumObjOffset; omega
  have a3 : (B.length : Int) - kTrailerOffset + kRootObjOffset = (B.length : Int) - 16 := by
    unfold kTrailerOffset kRootObjOffset; omega
  have a4 : (B.length : Int) - kTrailerOffset + kOffsetTableOffsetOffset
      = (B.length : Int) - 8 := by
    unfold kTrailerOffset kOffsetTableOffsetOffset; omega
  unfold trailerFields at hsz hrs hn hr ht ⊢
  simp only at hsz hrs hn hr ht
  unfold readTrailer
  simp only [a0, a1, a2, a3, a4]
  rw [toUInt64_peekChar_small B _ hsz, toUInt64_peekChar_small B _ hrs,
    ReadUInt_8Byte_small B _ hn, ReadUInt_8Byte_small B _ hr, ReadUInt_8Byte_small B _ ht]

/-- Every byte that `Load_bplist` reads lies in the file when the file has its 26 bytes of
trailer and the offset table that the trailer describes ends in the file. -/
theorem Load_bplist_reads_inside (B : List Nat) (hN : 26 ≤ B.length)
    (htable : (readTrailer B).offsetTableOffset + (readTrailer B).numObj *
      (readTrailer B).offsetSize ≤ B.length) :
    ∀ p ∈ Load_bplist_reads B, 0 ≤ p ∧ p < (B.length : Int) := by
  intro p hp
  unfold Load_bplist_reads at hp
  rw [List.mem_append] at hp
  rcases hp with hp | hp
  · rw [List.mem_map] at hp
    obtain ⟨j, hj, rfl⟩ := hp
    rw [List.mem_range] at hj
    unfold kTrailerOffset
    omega
  · split at hp
    · cases hp
    · rw [List.mem_flatMap] at hp
      obtain ⟨a, ha, hp⟩ := hp
      rw [List.mem_map] at hp
      obtain ⟨j, hj, rfl⟩ := hp
      rw [List.mem_range] at ha hj
      have hj2 : j < (readTrailer B).offsetSize := by
        split at hj
        · exact hj
        · omega
      have hmul : (a + 1) * (readTrailer B).offsetSize
          ≤ (readTrailer B).numObj * (readTrailer B).offsetSize :=
        Nat.mul_le_mul_right _ ha
      have hexp : (a + 1) * (readTrailer B).offsetSize
          = a * (readTrailer B).offsetSize + (readTrailer B).offsetSize := by ring
      have hnat : (readTrailer B).offsetTableOffset + a * (readTrailer B).offsetSize + j
          < B.length := by omega
      have hcast : ((readTrailer B).offsetTableOffset : Int) +
          (a : Int) * ((readTrailer B).offsetSize : Int) + (j : Int)
          = (((readTrailer B).offsetTableOffset + a * (readTrailer B).offsetSize + j : Nat) :
              Int) := by
        push_cast
        rfl
      rw [hcast]
      exact ⟨Int.ofNat_nonneg _, by exact_mod_cast hnat⟩

/-- C8 (amended).  Take a file of at least 26 bytes whose trailer has `offsetIntSize` and
`refIntSize` below 128 and `numObjects`, `rootObjectIndex` and `offsetTableStart` below
`2^31`, so that `Load_bplist` reads the five fields as the file format has them.
`Load_bplist` returns `false` when `numObjects = 0` or `rootObjectIndex > numObjects`.
When `numObjects ≠ 0`, `rootObjectIndex < numObjects` and the offset table ends in the
file, `offsetTableStart + numObjects * offsetIntSize ≤ N`, every byte it reads lies in the
file and it returns `true`, with the globals set from the trailer and with one offset for
each object, read with `ReadUInt_XByte` at the width `offsetIntSize`: the two sizes are not
compared with 1, 2, 4 and 8, and the end of the table is not compared with `N - 26`. -/
theorem Load_bplist_checks (B : List Nat) (hN : 26 ≤ B.length)
    (hsz : (trailerFields B).offsetSize < 128) (hrs : (trailerFields B).refSize < 128)
    (hn : (trailerFields B).numObj < 2 ^ 31) (hr : (trailerFields B).rootObjID < 2 ^ 31)
    (ht : (trailerFields B).offsetTableOffset < 2 ^ 31) :
    (((trailerFields B).numObj = 0 ∨
        (trailerFields B).rootObjID > (trailerFields B).numObj) → Load_bplist B = none) ∧
    ((trailerFields B).numObj ≠ 0 →
      (trailerFields B).rootObjID < (trailerFields B).numObj →
      (trailerFields B).offsetTableOffset +
        (trailerFields B).numObj * (trailerFields B).offsetSize ≤ B.length →
      (∀ p ∈ Load_bplist_reads B, 0 ≤ p ∧ p < (B.length : Int)) ∧
      Load_bplist B
        = some
          { gInFileContents := B
            gRefSize := (trailerFields B).refSize
            gNumObj := (trailerFields B).numObj
            gRootObjID := (trailerFields B).rootObjID
            gOffsets := (List.range (trailerFields B).numObj).map (fun (a : Nat) =>
              ReadUInt_XByte B
                (((trailerFields B).offsetTableOffset : Int) + a * (trailerFields B).offsetSize)
                (trailerFields B).offsetSize) }) := by
  have heq := readTrailer_eq_trailerFields B hsz hrs hn hr ht
  constructor
  · intro h
    unfold Load_bplist
    simp only [heq]
    rcases h with h | h
    · rw [if_pos h]
    · by_cases hc : (trailerFields B).numObj = 0
      · rw [if_pos hc]
      · rw [if_neg hc, if_pos h]
  · intro h1 h2 h3
    constructor
    · apply Load_bplist_reads_inside B hN
      rw [heq]
      exact h3
    · unfold Load_bplist
      simp only [heq]
      rw [if_neg h1, if_neg (by omega)]

/-- C8 at a file of 36 bytes with one object, whose offset table of one offset of width 3
starts at byte 9 and ends in the trailer: `Load_bplist` returns `true`. -/
theorem Load_bplist_checks_witness :
    oddSizesFile.length = 36 ∧ trailerFields oddSizesFile = ⟨3, 3, 1, 0, 9⟩ ∧
    (∀ p ∈ Load_bplist_reads oddSizesFile, 0 ≤ p ∧ p < (oddSizesFile.length : Int)) ∧
    Load_bplist oddSizesFile
      = some
        { gInFileContents := oddSizesFile
          gRefSize := 3
          gNumObj := 1
          gRootObjID := 0
          gOffsets := [kNone] } :=
  have h := (Load_bplist_checks oddSizesFile (by decide) (by decide) (by decide) (by decide)
    (by decide) (by decide)).2 (by decide) (by decide) (by decide)
  ⟨by decide, by decide, h.1, h.2.trans (by decide)⟩

/-- C8 fails as stated: `Load_bplist` succeeds on a file whose trailer gives
`offsetIntSize = 3` and `refIntSize = 3`, neither of them 1, 2, 4 or 8, and whose offset
table, from byte 9 to byte 12, ends after byte `N - 26 = 10`. -/
theorem Load_bplist_checks_counterexample :
    (readTrailer oddSizesFile).offsetSize = 3 ∧ (readTrailer oddSizesFile).refSize = 3 ∧
      (readTrailer oddSizesFile).numObj = 1 ∧ (readTrailer oddSizesFile).rootObjID = 0 ∧
      (readTrailer oddSizesFile).offsetTableOffset = 9 ∧ oddSizesFile.length = 36 ∧
      Load_bplist oddSizesFile
        = some
          { gInFileContents := oddSizesFile
            gRefSize := 3
            gNumObj := 1
            gRootObjID := 0
            gOffsets := [2 ^ 64 - 1] } := by
  decide

/-! ## C9: `Validate_bplist` -/

/-- Embeds `strncmp` against a string with no zero byte among the `n` compared is 0 exactly when
the `n` bytes agree. -/
theorem strncmp_eq_zero_iff (s1 s2 : Nat → Nat) :
    ∀ (n i : Nat), (∀ j < n, s2 (i + j) ≠ 0) →
      (strncmp s1 s2 i n = 0 ↔ ∀ j < n, s1 (i + j) = s2 (i + j)) := by
  intro n
  induction n with
  | zero => intro i _; simp [strncmp]
  | succ n ih =>
    intro i hnz
    have hrec := ih (i + 1) (by
      intro j hj
      have := hnz (j + 1) (by omega)
      rwa [show i + (j + 1) = i + 1 + j by omega] at this)
    have hz : s2 i ≠ 0 := by simpa using hnz 0 (by omega)
    unfold strncmp
    by_cases hne : s1 i ≠ s2 i
    · rw [if_pos hne]
      constructor
      · intro h
        exact absurd (by omega) hne
      · intro h
        exact absurd (by simpa using h 0 (by omega)) hne
    · have heq : s1 i = s2 i := not_not.mp hne
      rw [if_neg hne, if_neg (by rw [heq]; exact hz), hrec]
      constructor
      · intro h j hj
        cases j with
        | zero => simpa using heq
        | succ j =>
          have := h j (by omega)
          rwa [show i + 1 + j = i + (j + 1) by omega] at this
      · intro h j hj
        have := h (j + 1) (by omega)
        rwa [show i + (j + 1) = i + 1 + j by omega] at this

/-- C9. `Validate_bplist` accepts a loaded file `B` exactly when it has at least 8 bytes,
its bytes 0..5 are the text `bplist` and its bytes 6..7 are the text `00`; in particular it
rejects every file of fewer than 8 bytes. -/
theorem Validate_bplist_iff (B : List Nat) :
    (Validate_bplist (some B) = true ↔
      8 ≤ B.length ∧ (∀ j < 6, peek B (j : Nat) = (cstr "bplist").getD j 0) ∧
        (∀ j < 2, peek B (6 + (j : Nat)) = (cstr "00").getD j 0)) ∧
    (B.length < 8 → Validate_bplist (some B) = false) := by
  have hm := strncmp_eq_zero_iff (fun i => peek B i) (fun i => kMagicWord.getD i 0) 6 0
    (by decide)
  have hv := strncmp_eq_zero_iff (fun i => peek B ((kMagicWordLength : Int) + i))
    (fun i => kVersion_bplist.getD i 0) 2 0 (by decide)
  simp only [Nat.zero_add] at hm hv
  have hlen : kMagicWordLength + kVerLength = 8 := rfl
  unfold Validate_bplist
  simp only [hlen]
  constructor
  · constructor
    · intro h
      split at h
      · exact absurd h (by simp)
      · rename_i hl
        split at h
        · exact absurd h (by simp)
        · rename_i h1
          split at h
          · exact absurd h (by simp)
          · rename_i h2
            exact ⟨by omega, hm.mp (not_not.mp h1), hv.mp (not_not.mp h2)⟩
    · rintro ⟨hl, h1, h2⟩
      rw [if_neg (by omega), if_neg (by rw [not_not]; exact hm.mpr h1),
        if_neg (by rw [not_not]; exact hv.mpr h2)]
  · intro hl
    rw [if_pos hl]

/-! ## C10: lookup of a key name in a dict -/

theorem cBytes_nil : cBytes [] = [] := rfl

theorem cBytes_cons (c : Nat) (r : List Nat) :
    cBytes (c :: r) = if c = 0 then [] else c :: cBytes r := by
  unfold cBytes
  by_cases h : c = 0
  · simp [List.takeWhile, h]
  · simp [List.takeWhile, h]

/-- Embeds `strcmp` is 0 exactly when the two C strings have the same bytes before their
terminators. -/
theorem strcmp_eq_zero_iff : ∀ a b : List Nat, strcmp a b = 0 ↔ cBytes a = cBytes b := by
  intro a
  induction a with
  | nil =>
    intro b
    cases b with
    | nil => simp [strcmp]
    | cons c2 r2 =>
      rw [cBytes_cons, cBytes_nil]
      unfold strcmp
      by_cases h : c2 = 0
      · simp [h]
      · simp [h]
  | cons c1 r1 ih =>
    intro b
    cases b with
    | nil =>
      rw [cBytes_cons, cBytes_nil]
      unfold strcmp
      by_cases h : c1 = 0
      · simp [h]
      · simp [h]
    | cons c2 r2 =>
      rw [cBytes_cons, cBytes_cons]
      unfold strcmp
      by_cases hne : c1 ≠ c2
      · rw [if_pos hne]
        have hd : (c1 : Int) - (c2 : Int) ≠ 0 := by omega
        by_cases h1 : c1 = 0
        · have h2 : c2 ≠ 0 := fun h => hne (h1.trans h.symm)
          simp [h1, h2, hd]
        · by_cases h2 : c2 = 0
          · simp [h1, h2]
          · simp [h1, h2, hd, hne]
      · have heq : c1 = c2 := not_not.mp hne
        subst heq
        rw [if_neg hne]
        by_cases h1 : c1 = 0
        · simp [h1]
        · simp [h1, ih r2]

theorem memcpy_succ (B : List Nat) (p : Int) (n : Nat) :
    memcpy B p (n + 1) = peek B p :: memcpy B (p + 1) n := by
  unfold memcpy
  rw [List.range_succ_eq_map, List.map_cons, List.map_map]
  simp only [Nat.cast_zero, add_zero, List.cons.injEq, true_and]
  apply List.map_congr_left
  intro j _
  simp only [Function.comp, Nat.cast_succ]
  congr 1
  ring

/-- The C string that `strncpy` and the terminator leave in `oData` is the payload's. -/
theorem cBytes_strncpy (B : List Nat) :
    ∀ (n : Nat) (p : Int), cBytes (strncpy B p n ++ [0]) = cBytes (memcpy B p n) := by
  intro n
  induction n with
  | zero => intro p; rfl
  | succ n ih =>
    intro p
    rw [memcpy_succ, cBytes_cons]
    unfold strncpy
    by_cases h : peek B p = 0
    · rw [if_pos h, if_pos h, List.replicate_succ, List.cons_append, cBytes_cons, if_pos rfl]
    · rw [if_neg h, if_neg h, List.cons_append, cBytes_cons, if_neg h, ih]

theorem LoadObject_S4_ReadSize_oData (s : BPState) (obj : BPObject) :
    (LoadObject_S4_ReadSize s obj).2.oData = obj.oData := by
  unfold LoadObject_S4_ReadSize
  split
  · rfl
  · dsimp only
    split
    · rfl
    · rfl
    · split <;> rfl
    · rfl
    · rfl

/-- What a successfully loaded AsciiString holds in `oData`: nothing when its size is 0,
otherwise the `strncpy` of its payload and the terminator. -/
theorem LoadObject_StringASCII_oData (B : List Nat) (s : BPState)
    (hload : Load_bplist B = some s) (fuel i : Nat) (key : BPObject)
    (h : LoadObject s fuel i = some (true, key)) (hty : key.oType = kTypeStringASCII) :
    key.oData =
      if key.oSize > 0 then
        some (strncpy s.gInFileContents (key.oDataAddress.getD 0) key.oSize ++ [0])
      else none := by
  obtain ⟨hB, h0, h64, _⟩ := Load_bplist_some B s hload
  have hty0 := LoadObject_oType s fuel i _ h
  cases fuel with
  | zero => simp [LoadObject] at h
  | succ fuel =>
    rw [LoadObject_succ] at h
    split at h
    · rename_i hok
      have hval := LoadObject_S1toS4_valid s i h0 h64 hok
      have hS := LoadObject_S1toS4_eq s i h0 h64 hval
      have hod : (LoadObject_S1toS4 s i).2.oData = none := by
        rw [hS, LoadObject_S4_ReadSize_oData]
        rfl
      have hty1 : (LoadObject_S1toS4 s i).2.oType = kTypeStringASCII := by
        rw [← hty0]
        exact hty
      generalize (LoadObject_S1toS4 s i).2 = obj at h hod hty1
      have hrow : (typeRow obj.oType).otReadFunc = some ReadFunc.StringASCII := by
        rw [hty1]; decide
      have hlt : ¬ obj.oType ≥ kTypeCount := by rw [hty1]; decide
      unfold LoadObject_S5_ReadData at h
      split at h
      · exact absurd h (by simp)
      · rw [hrow] at h
        simp only [callReadFunc, Option.some.injEq, Prod.mk.injEq, true_and] at h
        rw [← h]
        unfold ReadData_StringASCII
        split
        · rename_i hpos
          dsimp only
          split
          · simp [hpos]
          · split <;> simp [hpos]
        · exact hod
    · exact absurd h (by simp)

/-- One iteration of the lookup loop on a key that is passed over. -/
theorem ReturnValueRefForKeyName_loop_skip (B : List Nat) (s : BPState)
    (hload : Load_bplist B = some s) (fuel dictSize : Nat) (name : List Nat) (n : Nat)
    (reader : Int) (key : BPObject)
    (hk : LoadObject s fuel (dictKeyRef s reader) = some (true, key))
    (hs : keySkipped s key name) :
    ReturnValueRefForKeyName_loop s fuel dictSize name (n + 1) reader
      = ReturnValueRefForKeyName_loop s fuel dictSize name n (reader + s.gRefSize) := by
  rw [ReturnValueRefForKeyName_loop, hk]
  dsimp only
  rcases hs with hs | ⟨hpos, hne⟩
  · rw [if_neg hs]
  · by_cases hty : key.oType = kTypeStringASCII
    · rw [if_pos hty, LoadObject_StringASCII_oData B s hload fuel _ key hk hty, if_pos hpos]
      dsimp only
      rw [if_neg]
      rw [strcmp_eq_zero_iff, cBytes_strncpy]
      exact hne
    · rw [if_neg hty]

/-- One iteration of the lookup loop on a key that matches. -/
theorem ReturnValueRefForKeyName_loop_match (B : List Nat) (s : BPState)
    (hload : Load_bplist B = some s) (fuel dictSize : Nat) (name : List Nat) (n : Nat)
    (reader : Int) (key : BPObject)
    (hk : LoadObject s fuel (dictKeyRef s reader) = some (true, key))
    (hm : keyMatches s key name) :
    ReturnValueRefForKeyName_loop s fuel dictSize name (n + 1) reader
      = Run.returned (dictValueRef s dictSize reader) := by
  obtain ⟨hty, hpos, heq⟩ := hm
  rw [ReturnValueRefForKeyName_loop, hk]
  dsimp only
  rw [if_pos hty, LoadObject_StringASCII_oData B s hload fuel _ key hk hty, if_pos hpos]
  dsimp only
  rw [if_pos]
  rw [strcmp_eq_zero_iff, cBytes_strncpy]
  exact heq

/-- The lookup loop returns "none" when every key left is passed over. -/
theorem ReturnValueRefForKeyName_loop_none (B : List Nat) (s : BPState)
    (hload : Load_bplist B = some s) (fuel dictSize : Nat) (name : List Nat) :
    ∀ (n : Nat) (reader : Int),
      (∀ a < n, ∃ key,
        LoadObject s fuel (dictKeyRef s (reader + (a : Int) * (s.gRefSize : Int)))
          = some (true, key) ∧ keySkipped s key name) →
      ReturnValueRefForKeyName_loop s fuel dictSize name n reader = Run.returned kNone := by
  intro n
  induction n with
  | zero => intro _ _; rfl
  | succ n ih =>
    intro reader h
    obtain ⟨key, hk, hs⟩ := h 0 (by omega)
    simp only [Nat.cast_zero, zero_mul, add_zero] at hk
    rw [ReturnValueRefForKeyName_loop_skip B s hload fuel dictSize name n reader key hk hs]
    apply ih
    intro a ha
    have := h (a + 1) (by omega)
    have e : reader + ((a + 1 : Nat) : Int) * (s.gRefSize : Int)
        = reader + (s.gRefSize : Int) + (a : Int) * (s.gRefSize : Int) := by
      push_cast
      ring
    rw [e] at this
    exact this

/-- The lookup loop returns the value reference of the first key that matches. -/
theorem ReturnValueRefForKeyName_loop_first (B : List Nat) (s : BPState)
    (hload : Load_bplist B = some s) (fuel dictSize : Nat) (name : List Nat) :
    ∀ (i n : Nat) (reader : Int), i < n →
      (∀ a < i, ∃ key,
        LoadObject s fuel (dictKeyRef s (reader + (a : Int) * (s.gRefSize : Int)))
          = some (true, key) ∧ keySkipped s key name) →
      (∃ key,
        LoadObject s fuel (dictKeyRef s (reader + (i : Int) * (s.gRefSize : Int)))
          = some (true, key) ∧ keyMatches s key name) →
      ReturnValueRefForKeyName_loop s fuel dictSize name n reader
        = Run.returned (dictValueRef s dictSize (reader + (i : Int) * (s.gRefSize : Int))) := by
  intro i
  induction i with
  | zero =>
    intro n reader hn _ hm
    obtain ⟨key, hk, hm⟩ := hm
    simp only [Nat.cast_zero, zero_mul, add_zero] at hk ⊢
    obtain ⟨m, rfl⟩ : ∃ m, n = m + 1 := ⟨n - 1, by omega⟩
    exact ReturnValueRefForKeyName_loop_match B s hload fuel dictSize name m reader key hk hm
  | succ i ih =>
    intro n reader hn hskip hm
    obtain ⟨m, rfl⟩ : ∃ m, n = m + 1 := ⟨n - 1, by omega⟩
    obtain ⟨key, hk, hs⟩ := hskip 0 (by omega)
    simp only [Nat.cast_zero, zero_mul, add_zero] at hk
    rw [ReturnValueRefForKeyName_loop_skip B s hload fuel dictSize name m reader key hk hs]
    have e : ∀ a : Nat, reader + ((a + 1 : Nat) : Int) * (s.gRefSize : Int)
        = reader + (s.gRefSize : Int) + (a : Int) * (s.gRefSize : Int) := by
      intro a
      push_cast
      ring
    rw [e i] at hm ⊢
    apply ih m _ (by omega) _ hm
    intro a ha
    have := hskip (a + 1) (by omega)
    rw [e a] at this
    exact this

/-- The size and data start of a successfully loaded dict. -/
theorem LoadObject_dict_shape (B : List Nat) (s : BPState) (hload : Load_bplist B = some s)
    (fuel d : Nat) (dict : BPObject) (hd : LoadObject s fuel d = some (true, dict))
    (hty : dict.oType = kTypeDict) :
    dict.oSize ≠ kNone ∧
      if loQuadOf (headerByte s d) = 0xF then
        dict.oSize = ReadUInt_XByte B ((s.gOffsets.getD d 0 : Nat) + 2)
          (2 ^ loQuadOf (peek B ((s.gOffsets.getD d 0 : Nat) + 1))) ∧
        dict.oDataAddress = some (((s.gOffsets.getD d 0 : Nat) : Int) + 1 +
          ((2 ^ loQuadOf (peek B ((s.gOffsets.getD d 0 : Nat) + 1)) + 1 : Nat) : Int))
      else
        dict.oSize = loQuadOf (headerByte s d) ∧
        dict.oDataAddress = some (((s.gOffsets.getD d 0 : Nat) : Int) + 1 + ((0 : Nat) : Int)) := by
  obtain ⟨hB, h0, h64, _⟩ := Load_bplist_some B s hload
  have hty0 := LoadObject_oType s fuel d _ hd
  cases fuel with
  | zero => simp [LoadObject] at hd
  | succ fuel =>
    rw [LoadObject_succ] at hd
    split at hd
    · rename_i hok
      have hval := LoadObject_S1toS4_valid s d h0 h64 hok
      have hS := LoadObject_S1toS4_eq s d h0 h64 hval
      have htyped : (typedObject s d).oType = kTypeDict := by
        rw [← hty, hty0, hS, LoadObject_S4_ReadSize_oType]
      have hso : isScalarOverflowType (typedObject s d).oType = true := by
        rw [htyped]; decide
      have hS4 := LoadObject_S4_ReadSize_scalarOverflow s (typedObject s d)
        (s.gOffsets.getD d 0 : Nat) hso rfl
      obtain ⟨_, f2, f3⟩ := LoadObject_S5_ReadData_frame _ s _ _ hd
      have hfst := LoadObject_S5_ReadData_fst _ s _ _
        (by rw [hS, LoadObject_S4_ReadSize_oType, htyped]; decide)
        (by rw [hS, LoadObject_S4_ReadSize_oType, htyped]; decide) hd
      have hne : (LoadObject_S1toS4 s d).2.oSize ≠ kNone := by
        intro hc
        have := hfst.mpr hc
        exact absurd this (by simp)
      simp only at f2 f3
      rw [← f2] at hne
      refine ⟨hne, ?_⟩
      rw [hS, hS4, hB] at f2 f3
      have hhb : headerByte s d = peek B (s.gOffsets.getD d 0 : Nat) := by
        unfold headerByte
        rw [hB]
      rw [hhb]
      split
      · rename_i hlo
        rw [if_pos hlo] at f2 f3
        exact ⟨f2, f3⟩
      · rename_i hlo
        rw [if_neg hlo] at f2 f3
        exact ⟨f2, f3⟩
    · exact absurd hd (by simp)

/-- C10, as the code has it. For a successfully loaded dict `d` with count `n` and a name
`k`, `ReturnValueRefForKeyName(d, k)` goes through the keys in order, key `i` being the
reference at `data + i*refIntSize` and its value the reference at
`data + (n+i)*refIntSize`, and compares each AsciiString key with `k` as C strings.  If key
`i` is a non-empty AsciiString whose bytes before its first zero byte are those of `k`, and
every key before it loads and is either no AsciiString or a non-empty one with another C
string, the result is the value reference of key `i`.  If all `n` keys load and are passed
over in that way, the result is "none", `2^64-1`.  For a dict with the header bytes
`DF 10 10` and `refIntSize = 1` the count is 16, and key `i` and value `i` are the bytes at
`data + i` and `data + 16 + i`. -/
theorem ReturnValueRefForKeyName_first_match (B : List Nat) (s : BPState)
    (hload : Load_bplist B = some s) (fuel0 d : Nat) (dict : BPObject)
    (hd : LoadObject s fuel0 d = some (true, dict)) (hty : dict.oType = kTypeDict)
    (fuel : Nat) (name : List Nat) :
    (∀ i < dict.oSize,
      (∀ j < i, ∃ key,
        LoadObject s fuel
            (dictKeyRef s (dict.oDataAddress.getD 0 + (j : Int) * (s.gRefSize : Int)))
          = some (true, key) ∧ keySkipped s key name) →
      (∃ key,
        LoadObject s fuel
            (dictKeyRef s (dict.oDataAddress.getD 0 + (i : Int) * (s.gRefSize : Int)))
          = some (true, key) ∧ keyMatches s key name) →
      ReturnValueRefForKeyName s fuel dict name
        = Run.returned (dictValueRef s dict.oSize
            (dict.oDataAddress.getD 0 + (i : Int) * (s.gRefSize : Int)))) ∧
    ((∀ j < dict.oSize, ∃ key,
        LoadObject s fuel
            (dictKeyRef s (dict.oDataAddress.getD 0 + (j : Int) * (s.gRefSize : Int)))
          = some (true, key) ∧ keySkipped s key name) →
      ReturnValueRefForKeyName s fuel dict name = Run.returned kNone) ∧
    (∀ i : Nat, s.gRefSize * dict.oSize < 2 ^ 64 →
      dictValueRef s dict.oSize (dict.oDataAddress.getD 0 + (i : Int) * (s.gRefSize : Int))
        = ReadUInt_XByte B
            (dict.oDataAddress.getD 0 + ((dict.oSize + i : Nat) : Int) * (s.gRefSize : Int))
            s.gRefSize) ∧
    (s.gRefSize = 1 → headerByte s d = 0xDF →
      peek B (((s.gOffsets.getD d 0 : Nat) : Int) + 1) = 0x10 →
      peek B (((s.gOffsets.getD d 0 : Nat) : Int) + 2) = 0x10 →
      dict.oSize = 16 ∧
        dict.oDataAddress = some (((s.gOffsets.getD d 0 : Nat) : Int) + 3) ∧
        ∀ i < 16,
          dictKeyRef s (((s.gOffsets.getD d 0 : Nat) : Int) + 3 + (i : Int))
              = peek B (((s.gOffsets.getD d 0 : Nat) : Int) + 3 + (i : Int)) ∧
            dictValueRef s 16 (((s.gOffsets.getD d 0 : Nat) : Int) + 3 + (i : Int))
              = peek B (((s.gOffsets.getD d 0 : Nat) : Int) + 3 + 16 + (i : Int))) := by
  obtain ⟨hB, _, _, _⟩ := Load_bplist_some B s hload
  obtain ⟨hne, hshape⟩ := LoadObject_dict_shape B s hload fuel0 d dict hd hty
  have hnd : ¬ dict.oType ≠ kTypeDict := not_not.mpr hty
  have hR : ReturnValueRefForKeyName s fuel dict name
      = ReturnValueRefForKeyName_loop s fuel dict.oSize name dict.oSize
          (dict.oDataAddress.getD 0) := by
    unfold ReturnValueRefForKeyName
    rw [if_neg hne, if_neg hnd]
  refine ⟨?_, ?_, ?_, ?_⟩
  · intro i hi hskip hm
    rw [hR]
    exact ReturnValueRefForKeyName_loop_first B s hload fuel dict.oSize name i dict.oSize
      _ hi hskip hm
  · intro hskip
    rw [hR]
    exact ReturnValueRefForKeyName_loop_none B s hload fuel dict.oSize name dict.oSize _ hskip
  · intro i hlt
    unfold dictValueRef
    rw [Nat.mod_eq_of_lt hlt, hB]
    congr 1
    push_cast
    ring
  · intro hg hhdr h1 h2
    have hlo : loQuadOf (headerByte s d) = 0xF := by rw [hhdr]; decide
    rw [if_pos hlo, h1] at hshape
    have hk : loQuadOf 0x10 = 0 := by decide
    rw [hk] at hshape
    obtain ⟨hsz, haddr⟩ := hshape
    have hsz16 : dict.oSize = 16 := by
      rw [hsz]
      simp only [pow_zero, ReadUInt_XByte, if_true]
      exact h2
    refine ⟨hsz16, ?_, ?_⟩
    · rw [haddr]
      simp only [pow_zero, Option.some.injEq]
      push_cast
      ring
    · intro i _
      constructor
      · unfold dictKeyRef
        rw [hg, hB]
        simp [ReadUInt_XByte]
      · unfold dictValueRef
        rw [hg, hB]
        simp only [ReadUInt_XByte, if_true]
        congr 1
        norm_num
        ring

theorem ReturnValueRefForKeyName_first_match_witness :
    Load_bplist sampleFile = some sampleState ∧
      LoadObject sampleState 2 0 = some (true, sampleDict) ∧
      sampleDict.oType = kTypeDict ∧
      ReturnValueRefForKeyName sampleState 1 sampleDict (cstr "a")
        = Run.returned (dictValueRef sampleState sampleDict.oSize
            (sampleDict.oDataAddress.getD 0 + ((0 : Nat) : Int) * (sampleState.gRefSize : Int))) :=
  ⟨by decide, by decide, by decide,
    (ReturnValueRefForKeyName_first_match sampleFile sampleState (by decide) 2 0 sampleDict
      (by decide) (by decide) 1 (cstr "a")).1 0 (by decide) (by intro j hj; omega)
      ⟨sampleKey, by decide, by unfold keyMatches; decide⟩⟩

/-- C10 fails as stated: the only key of the dict `{1: 2}` is the AsciiString with the
three bytes `61 00 62`, which are not the bytes of the name `"a"`, and the lookup of `"a"`
returns the value reference 2 instead of "none". -/
theorem ReturnValueRefForKeyName_counterexample :
    Load_bplist sampleFile = some sampleState ∧
      LoadObject sampleState 2 0 = some (true, sampleDict) ∧
      sampleDict.oType = kTypeDict ∧ sampleDict.oSize = 1 ∧
      dictKeyRef sampleState (sampleDict.oDataAddress.getD 0) = 1 ∧
      LoadObject sampleState 1 1 = some (true, sampleKey) ∧
      sampleKey.oType = kTypeStringASCII ∧ sampleKey.oSize = 3 ∧
      memcpy sampleFile (sampleKey.oDataAddress.getD 0) sampleKey.oSize = [0x61, 0x00, 0x62] ∧
      cstr "a" = [0x61] ∧
      ReturnValueRefForKeyName sampleState 1 sampleDict (cstr "a") = Run.returned 2 := by
  decide

/-! ## C14: the signed readers -/

theorem toInt16_range (x : Nat) : -2 ^ 15 ≤ toInt16 x ∧ toInt16 x < 2 ^ 15 := by
  unfold toInt16
  have h : (x + 2 ^ 15) % 2 ^ 16 < 2 ^ 16 := Nat.mod_lt _ (by norm_num)
  constructor <;> omega

/-- C14. `ReadInt_XByte` with width 4 or 8 does not return the signed value of the word:
whatever the bytes, its result lies in `[-2^15, 2^15)`; on the four bytes `00 01 00 00` and
on the eight bytes `00 00 00 00 00 01 00 00`, whose signed big-endian value is 65536, it
returns 0. -/
theorem ReadInt_XByte_truncates_to_16_bits :
    (∀ (B : List Nat) (p : Int),
      (-2 ^ 15 ≤ ReadInt_XByte B p 4 ∧ ReadInt_XByte B p 4 < 2 ^ 15) ∧
      (-2 ^ 15 ≤ ReadInt_XByte B p 8 ∧ ReadInt_XByte B p 8 < 2 ^ 15)) ∧
    ReadInt_XByte [0, 1, 0, 0] 0 4 = 0 ∧ signedBigEndian [0, 1, 0, 0] 0 4 = 65536 ∧
    ReadInt_XByte [0, 0, 0, 0, 0, 1, 0, 0] 0 8 = 0 ∧
    signedBigEndian [0, 0, 0, 0, 0, 1, 0, 0] 0 8 = 65536 := by
  refine ⟨?_, by decide, by decide, by decide, by decide⟩
  intro B p
  have h4 : ReadInt_XByte B p 4 = ReadInt_4Byte B p := by simp [ReadInt_XByte]
  have h8 : ReadInt_XByte B p 8 = ReadInt_8Byte B p := by simp [ReadInt_XByte]
  rw [h4, h8]
  exact ⟨toInt16_range _, toInt16_range _⟩

/-! ## C13: Int objects of an unsupported width -/

theorem int_header :
    ∀ lo < 16, hiQuadOf (0x10 + lo) = 1 ∧ loQuadOf (0x10 + lo) = lo ∧
      getTypeLoop (hiQuadOf (0x10 + lo)) (loQuadOf (0x10 + lo)) (gTypeTable.drop 1)
        = kTypeInt := by
  decide

/-- Stage 4 on an int object: the size is `2^lo` and the data follows the header. -/
theorem LoadObject_S4_ReadSize_Int (s : BPState) (obj : BPObject) (h : Int)
    (hty : obj.oType = kTypeInt) (haddr : obj.oObjAddress = some h) :
    LoadObject_S4_ReadSize s obj =
      (true, { obj with
        oSize := 2 ^ loQuadOf (peek s.gInFileContents h)
        oDataAddress := some (h + 1 + ((0 : Nat) : Int)) }) := by
  have hrow : (typeRow obj.oType).otSizeType = BPObjectSizeType.kSizePowerOfTwo := by
    rw [hty]; decide
  have hpos : ¬ obj.oType ≤ kTypeNone := by rw [hty]; decide
  unfold LoadObject_S4_ReadSize
  rw [if_neg hpos, haddr]
  simp only [Option.getD_some, hrow]

/-- Stage 5 on an int object whose size is not the sentinel. -/
theorem LoadObject_S5_ReadData_Int (load : Nat → Option (Bool × BPObject)) (s : BPState)
    (obj : BPObject) (hty : obj.oType = kTypeInt) (hsize : obj.oSize ≠ kNone) :
    LoadObject_S5_ReadData load s obj = some (true, ReadData_Int s obj) := by
  have hrow : (typeRow obj.oType).otReadFunc = some ReadFunc.Int := by rw [hty]; decide
  have hlt : ¬ obj.oType ≥ kTypeCount := by rw [hty]; decide
  unfold LoadObject_S5_ReadData
  rw [if_neg hsize, if_neg hlt, hrow]
  rfl

/-- C13, as the code has it. For every width outside `{1,2,4,8}` `ReadUInt_XByte` returns
the sentinel `2^64-1`.  `LoadObject` on an int object with header byte `0x10 | lo` succeeds
with the declared width `2^lo` and stores what `ReadUInt_XByte` returns for that width; for
a width that is not 1, 2, 4 or 8 (`lo ≥ 4`) the value it stores is `2^64-1`. -/
theorem LoadObject_Int (B : List Nat) (s : BPState) (hload : Load_bplist B = some s)
    (i : Nat) (hi : i < s.gNumObj) (lo : Nat) (hlo : lo < 16)
    (hb : headerByte s i = 0x10 + lo) (fuel : Nat) :
    (∀ (p : Int) (w : Nat), w ≠ 1 → w ≠ 2 → w ≠ 4 → w ≠ 8 →
      ReadUInt_XByte B p w = 2 ^ 64 - 1) ∧
    ∃ obj, LoadObject s (fuel + 1) i = some (true, obj) ∧ obj.oType = kTypeInt ∧
      obj.oSize = 2 ^ lo ∧
      obj.oInt = ReadUInt_XByte B (((s.gOffsets.getD i 0 : Nat) : Int) + 1) (2 ^ lo) ∧
      (4 ≤ lo → obj.oInt = 2 ^ 64 - 1) := by
  refine ⟨fun p w h1 h2 h4 h8 => ReadUInt_XByte_unsupported B p w h1 h2 h4 h8, ?_⟩
  obtain ⟨hB, h0, h64, _⟩ := Load_bplist_some B s hload
  obtain ⟨_, hloq, hty⟩ := int_header lo hlo
  have htyped : (typedObject s i).oType = kTypeInt := by
    show getTypeLoop _ _ _ = kTypeInt
    rw [hb]
    exact hty
  have hpk : peek s.gInFileContents (s.gOffsets.getD i 0 : Nat) = 0x10 + lo := hb
  have hS := LoadObject_S1toS4_eq s i h0 h64 hi
  rw [LoadObject_S4_ReadSize_Int s (typedObject s i) (s.gOffsets.getD i 0 : Nat) htyped rfl,
    hpk, hloq] at hS
  have hpow : 2 ^ lo ≤ 2 ^ 15 := Nat.pow_le_pow_right (by norm_num) (by omega)
  have hne : 2 ^ lo ≠ kNone := by unfold kNone; omega
  have hL : LoadObject s (fuel + 1) i
      = some (true, ReadData_Int s (LoadObject_S1toS4 s i).2) := by
    rw [LoadObject_succ, hS]
    simp only [if_true]
    exact LoadObject_S5_ReadData_Int _ s _ htyped hne
  refine ⟨ReadData_Int s (LoadObject_S1toS4 s i).2, hL, ?_, ?_, ?_, ?_⟩
  · rw [hS]
    exact htyped
  · rw [hS]
    rfl
  · rw [hS]
    simp [ReadData_Int, hB]
  · intro hw
    rw [hS]
    simp only [ReadData_Int, Option.getD_some, hB]
    have h16 : 2 ^ 4 ≤ 2 ^ lo := Nat.pow_le_pow_right (by norm_num) hw
    exact ReadUInt_XByte_unsupported _ _ _ (by omega) (by omega) (by omega) (by omega)

theorem LoadObject_Int_witness :
    Load_bplist wideIntState.gInFileContents = some wideIntState ∧
      0 < wideIntState.gNumObj ∧ 4 < 16 ∧ headerByte wideIntState 0 = 0x10 + 4 ∧
      ∃ obj, LoadObject wideIntState (0 + 1) 0 = some (true, obj) ∧ obj.oType = kTypeInt ∧
        obj.oSize = 2 ^ 4 ∧
        obj.oInt = ReadUInt_XByte wideIntState.gInFileContents
          (((wideIntState.gOffsets.getD 0 0 : Nat) : Int) + 1) (2 ^ 4) ∧
        (4 ≤ 4 → obj.oInt = 2 ^ 64 - 1) :=
  ⟨by decide, by decide, by decide, by decide,
    (LoadObject_Int wideIntState.gInFileContents wideIntState (by decide) 0 (by decide) 4
      (by decide) (by decide) 0).2⟩

/-- C13 fails as stated: the int object `14 01 01 ... 01` declares a width of 16 bytes, and
`LoadObject` succeeds on it with the value `2^64-1`, which is not the value of its sixteen
bytes. -/
theorem LoadObject_Int_counterexample :
    Load_bplist wideIntState.gInFileContents = some wideIntState ∧
      headerByte wideIntState 0 = 0x14 ∧
      bigEndian wideIntState.gInFileContents 9 16 ≠ 2 ^ 64 - 1 ∧
      (LoadObject wideIntState 1 0).map (fun r => (r.1, r.2.oType, r.2.oSize, r.2.oInt))
        = some (true, kTypeInt, 16, 2 ^ 64 - 1) := by
  decide

/-! ## C12: `ReturnElemRef` -/

/-- A successfully loaded object has a size other than the sentinel. -/
theorem LoadObject_success_size (s : BPState) (fuel i : Nat) (obj : BPObject)
    (h : LoadObject s fuel i = some (true, obj)) : obj.oSize ≠ kNone := by
  cases fuel with
  | zero => simp [LoadObject] at h
  | succ fuel =>
    rw [LoadObject_succ] at h
    split at h
    · obtain ⟨_, f2, _⟩ := LoadObject_S5_ReadData_frame _ s _ _ h
      simp only at f2
      rw [f2]
      intro hc
      unfold LoadObject_S5_ReadData at h
      rw [if_pos hc] at h
      exact absurd h (by simp)
    · exact absurd h (by simp)

theorem toUInt16_lt (x : Int) : toUInt16 x < 2 ^ 16 := by
  have e16 : (2 : Int) ^ 16 = 65536 := by norm_num
  unfold toUInt16
  rw [e16]
  omega

theorem bigEndian_four_lt (B : List Nat) (p : Int) : bigEndian B p 4 < 2 ^ 32 := by
  have hr : List.range 4 = [0, 1, 2, 3] := rfl
  have t0 : 4 - 1 - 0 = 3 := rfl
  have t1 : 4 - 1 - 1 = 2 := rfl
  have t2 : 4 - 1 - 2 = 1 := rfl
  have t3 : 4 - 1 - 3 = 0 := rfl
  have h0 := peek_lt B (p + (0 : Nat))
  have h1 := peek_lt B (p + (1 : Nat))
  have h2 := peek_lt B (p + (2 : Nat))
  have h3 := peek_lt B (p + (3 : Nat))
  unfold bigEndian
  rw [hr]
  simp only [List.map, List.sum_cons, List.sum_nil]
  rw [t0, t1, t2, t3]
  omega

/-- A reference of 1, 2 or 4 bytes is below `2^32`, so it is never the sentinel. -/
theorem ReadUInt_XByte_lt (B : List Nat) (p : Int) (w : Nat) (hw : w = 1 ∨ w = 2 ∨ w = 4) :
    ReadUInt_XByte B p w < 2 ^ 32 := by
  rcases hw with rfl | rfl | rfl
  · have := peek_lt B p
    simp only [ReadUInt_XByte, if_true]
    omega
  · have h2 : ReadUInt_XByte B p 2 = ReadUInt_2Byte B p := by simp [ReadUInt_XByte]
    have := toUInt16_lt ((peek B (p + 1) : Int) + shlInt (peek B p) 8)
    rw [h2]
    unfold ReadUInt_2Byte
    omega
  · have := bigEndian_four_lt B p
    rw [ReadUInt_XByte_eq_bigEndian B p 4 (by simp)]
    exact this

theorem filter_range_length (f : Nat → Bool) (n : Nat) (hf : ∀ i, f i = true ↔ i < n) :
    ∀ m, ((List.range m).filter f).length = min m n := by
  intro m
  induction m with
  | zero => simp
  | succ m ih =>
    rw [List.range_succ, List.filter_append, List.length_append, ih]
    by_cases hm : m < n
    · have : f m = true := (hf m).mpr hm
      simp only [List.filter, this, List.length_cons, List.length_nil]
      omega
    · have : f m = false := by
        cases hfm : f m with
        | false => rfl
        | true => exact absurd ((hf m).mp hfm) hm
      simp only [List.filter, this, List.length_nil]
      omega

/-- C12. For a successfully loaded array `a` with count `n`, `refIntSize` being 1, 2 or 4:
`ReturnElemRef(a, i)` succeeds (returns something other than `(uint64_t)-1`) exactly when
`i < n`; when it succeeds it returns the big-endian reference stored at
`data + i*refIntSize` (the product being the `uint64_t` one the code computes, which is the
plain product whenever that is below `2^64`); among the `i` below any `m` it succeeds
`min m n` times, so exactly `n` times over `[0, n)`; and it fails for every object that is
not an array. -/
theorem ReturnElemRef_spec (B : List Nat) (s : BPState) (hload : Load_bplist B = some s)
    (fuel j : Nat) (a : BPObject) (ha : LoadObject s fuel j = some (true, a))
    (hty : a.oType = kTypeArray)
    (hg : s.gRefSize = 1 ∨ s.gRefSize = 2 ∨ s.gRefSize = 4) :
    (∀ i, ReturnElemRef s a i ≠ kNone ↔ i < a.oSize) ∧
    (∀ i, i < a.oSize →
      ReturnElemRef s a i
        = bigEndian B (a.oDataAddress.getD 0 + ((i * s.gRefSize % 2 ^ 64 : Nat) : Int))
            s.gRefSize) ∧
    (∀ i, i < a.oSize → i * s.gRefSize < 2 ^ 64 →
      ReturnElemRef s a i
        = bigEndian B (a.oDataAddress.getD 0 + (i : Int) * (s.gRefSize : Int)) s.gRefSize) ∧
    (∀ m, ((List.range m).filter (fun i => decide (ReturnElemRef s a i ≠ kNone))).length
      = min m a.oSize) ∧
    ((List.range a.oSize).filter (fun i => decide (ReturnElemRef s a i ≠ kNone))).length
      = a.oSize ∧
    (∀ (obj : BPObject) (i : Nat), obj.oType ≠ kTypeArray → ReturnElemRef s obj i = kNone) := by
  obtain ⟨hB, _, _, _⟩ := Load_bplist_some B s hload
  have hsz := LoadObject_success_size s fuel j a ha
  have hnt : ¬ a.oType ≠ kTypeArray := not_not.mpr hty
  have hval : ∀ i, i < a.oSize →
      ReturnElemRef s a i
        = ReadUInt_XByte B (a.oDataAddress.getD 0 + ((i * s.gRefSize % 2 ^ 64 : Nat) : Int))
            s.gRefSize := by
    intro i hi
    unfold ReturnElemRef
    rw [if_neg hsz, if_neg hnt, if_neg (by omega), hB]
  have hiff : ∀ i, ReturnElemRef s a i ≠ kNone ↔ i < a.oSize := by
    intro i
    constructor
    · intro hne
      by_contra hi
      apply hne
      unfold ReturnElemRef
      rw [if_neg hsz, if_neg hnt, if_pos (by omega)]
    · intro hi
      rw [hval i hi]
      have := ReadUInt_XByte_lt B
        (a.oDataAddress.getD 0 + ((i * s.gRefSize % 2 ^ 64 : Nat) : Int)) s.gRefSize hg
      unfold kNone
      omega
  have hcount := filter_range_length (fun i => decide (ReturnElemRef s a i ≠ kNone)) a.oSize
    (by intro i; simp only [decide_eq_true_eq]; exact hiff i)
  refine ⟨hiff, ?_, ?_, hcount, ?_, ?_⟩
  · intro i hi
    rw [hval i hi, ReadUInt_XByte_eq_bigEndian _ _ _ hg]
  · intro i hi hlt
    rw [hval i hi, ReadUInt_XByte_eq_bigEndian _ _ _ hg, Nat.mod_eq_of_lt hlt]
    push_cast
    rfl
  · rw [hcount a.oSize]
    exact Nat.min_self _
  · intro obj i hobj
    unfold ReturnElemRef
    by_cases h1 : obj.oSize = kNone
    · rw [if_pos h1]
    · rw [if_neg h1, if_pos hobj]

theorem ReturnElemRef_spec_witness :
    Load_bplist arrayState.gInFileContents = some arrayState ∧
      LoadObject arrayState 1 0 = some (true, sampleArray) ∧
      sampleArray.oType = kTypeArray ∧ sampleArray.oSize = 3 ∧
      (arrayState.gRefSize = 1 ∨ arrayState.gRefSize = 2 ∨ arrayState.gRefSize = 4) ∧
      ((List.range sampleArray.oSize).filter
          (fun i => decide (ReturnElemRef arrayState sampleArray i ≠ kNone))).length
        = sampleArray.oSize ∧
      (List.range 5).map (ReturnElemRef arrayState sampleArray) = [1, 2, 1, kNone, kNone] :=
  ⟨by decide, by decide, by decide, by decide, by decide,
    (ReturnElemRef_spec arrayState.gInFileContents arrayState (by decide) 1 0 sampleArray
      (by decide) (by decide) (by decide)).2.2.2.2.1,
    by decide⟩

/-! ## C11: what the lookup returns -/

/-- A value other than "none" that the lookup loop returns is the value reference of a key
that matches. -/
theorem ReturnValueRefForKeyName_loop_returned (B : List Nat) (s : BPState)
    (hload : Load_bplist B = some s) (fuel dictSize : Nat) (name : List Nat) :
    ∀ (n : Nat) (reader : Int) (v : Nat),
      ReturnValueRefForKeyName_loop s fuel dictSize name n reader = Run.returned v →
      v = kNone ∨ ∃ i < n,
        v = dictValueRef s dictSize (reader + (i : Int) * (s.gRefSize : Int)) ∧
        ∃ key,
          LoadObject s fuel (dictKeyRef s (reader + (i : Int) * (s.gRefSize : Int)))
            = some (true, key) ∧ keyMatches s key name := by
  intro n
  induction n with
  | zero =>
    intro reader v h
    simp only [ReturnValueRefForKeyName_loop, Run.returned.injEq] at h
    exact Or.inl h.symm
  | succ n ih =>
    intro reader v h
    have hshift : ∀ i : Nat, reader + (s.gRefSize : Int) + (i : Int) * (s.gRefSize : Int)
        = reader + ((i + 1 : Nat) : Int) * (s.gRefSize : Int) := by
      intro i
      push_cast
      ring
    have hrec : ∀ v,
        ReturnValueRefForKeyName_loop s fuel dictSize name n (reader + s.gRefSize)
          = Run.returned v →
        v = kNone ∨ ∃ i < n + 1,
          v = dictValueRef s dictSize (reader + (i : Int) * (s.gRefSize : Int)) ∧
          ∃ key,
            LoadObject s fuel (dictKeyRef s (reader + (i : Int) * (s.gRefSize : Int)))
              = some (true, key) ∧ keyMatches s key name := by
      intro v hv
      rcases ih _ v hv with h1 | ⟨i, hi, hval, key, hk, hm⟩
      · exact Or.inl h1
      · rw [hshift i] at hval hk
        exact Or.inr ⟨i + 1, by omega, hval, key, hk, hm⟩
    rw [ReturnValueRefForKeyName_loop] at h
    split at h
    · exact absurd h (by simp)
    · simp only [Run.returned.injEq] at h
      exact Or.inl h.symm
    · rename_i key hk
      split at h
      · rename_i hty
        have hod := LoadObject_StringASCII_oData B s hload fuel _ key hk hty
        split at h
        · exact absurd h (by simp)
        · rename_i data hdata
          have hpos : key.oSize > 0 := by
            by_contra hc
            rw [if_neg hc, hdata] at hod
            exact absurd hod (by simp)
          rw [if_pos hpos, hdata, Option.some.injEq] at hod
          split at h
          · rename_i hcmp
            simp only [Run.returned.injEq] at h
            rw [hod, strcmp_eq_zero_iff, cBytes_strncpy] at hcmp
            refine Or.inr ⟨0, by omega, ?_, key, ?_, hty, hpos, hcmp⟩
            · simp only [Nat.cast_zero, zero_mul, add_zero]
              exact h.symm
            · simp only [Nat.cast_zero, zero_mul, add_zero]
              exact hk
          · exact hrec v h
      · exact hrec v h

/-- An index on which `LoadObject` succeeds is below `numObjects`. -/
theorem LoadObject_success_valid (B : List Nat) (s : BPState)
    (hload : Load_bplist B = some s) (fuel v : Nat) (obj : BPObject)
    (h : LoadObject s fuel v = some (true, obj)) : v < s.gNumObj := by
  obtain ⟨_, h0, h64, _⟩ := Load_bplist_some B s hload
  cases fuel with
  | zero => simp [LoadObject] at h
  | succ fuel =>
    rw [LoadObject_succ] at h
    split at h
    · rename_i hok
      exact LoadObject_S1toS4_valid s v h0 h64 hok
    · exact absurd h (by simp)

/-- C11, as the code has it. For a successfully loaded dict `d` and a name `k`: when the
lookup returns an index other than "none", that index is the value reference stored for a
key that is a non-empty AsciiString with the C string of `k`; for a dict with count 0 the
lookup returns "none" for every `k`.  The index is not compared with `numObjects`:
`LoadObject` fails on every index that is not below `numObjects` and succeeds only on
indices below it. -/
theorem ReturnValueRefForKeyName_result (B : List Nat) (s : BPState)
    (hload : Load_bplist B = some s) (fuel0 d : Nat) (dict : BPObject)
    (hd : LoadObject s fuel0 d = some (true, dict)) (hty : dict.oType = kTypeDict)
    (fuel : Nat) (name : List Nat) :
    (dict.oSize = 0 → ReturnValueRefForKeyName s fuel dict name = Run.returned kNone) ∧
    (∀ v, ReturnValueRefForKeyName s fuel dict name = Run.returned v → v ≠ kNone →
      ∃ i < dict.oSize,
        v = dictValueRef s dict.oSize
          (dict.oDataAddress.getD 0 + (i : Int) * (s.gRefSize : Int)) ∧
        ∃ key,
          LoadObject s fuel
              (dictKeyRef s (dict.oDataAddress.getD 0 + (i : Int) * (s.gRefSize : Int)))
            = some (true, key) ∧ keyMatches s key name) ∧
    (∀ v fuel1, ¬ v < s.gNumObj →
      LoadObject s (fuel1 + 1) v = some (false, LoadObject_S1_Init v)) ∧
    (∀ v fuel1 obj, LoadObject s fuel1 v = some (true, obj) → v < s.gNumObj) := by
  obtain ⟨hB, h0, h64, _⟩ := Load_bplist_some B s hload
  have hne := LoadObject_success_size s fuel0 d dict hd
  have hnd : ¬ dict.oType ≠ kTypeDict := not_not.mpr hty
  have hR : ReturnValueRefForKeyName s fuel dict name
      = ReturnValueRefForKeyName_loop s fuel dict.oSize name dict.oSize
          (dict.oDataAddress.getD 0) := by
    unfold ReturnValueRefForKeyName
    rw [if_neg hne, if_neg hnd]
  refine ⟨?_, ?_, ?_, ?_⟩
  · intro hz
    rw [hR, hz]
    rfl
  · intro v hv hvn
    rw [hR] at hv
    rcases ReturnValueRefForKeyName_loop_returned B s hload fuel dict.oSize name dict.oSize
      _ v hv with h1 | h2
    · exact absurd h1 hvn
    · exact h2
  · intro v fuel1 hv
    rw [LoadObject_succ, LoadObject_S1toS4_invalid s v h0 h64 hv]
    simp
  · intro v fuel1 obj hobj
    exact LoadObject_success_valid B s hload fuel1 v obj hobj

theorem ReturnValueRefForKeyName_result_witness :
    Load_bplist danglingState.gInFileContents = some danglingState ∧
      LoadObject danglingState 2 0 = some (true, danglingDict) ∧
      danglingDict.oType = kTypeDict ∧
      ReturnValueRefForKeyName danglingState 1 danglingDict (cstr "a") = Run.returned 200 ∧
      ∃ i < danglingDict.oSize,
        200 = dictValueRef danglingState danglingDict.oSize
          (danglingDict.oDataAddress.getD 0 + (i : Int) * (danglingState.gRefSize : Int)) ∧
        ∃ key,
          LoadObject danglingState 1
              (dictKeyRef danglingState
                (danglingDict.oDataAddress.getD 0 + (i : Int) * (danglingState.gRefSize : Int)))
            = some (true, key) ∧ keyMatches danglingState key (cstr "a") :=
  ⟨by decide, by decide, by decide, by decide,
    (ReturnValueRefForKeyName_result danglingState.gInFileContents danglingState (by decide)
      2 0 danglingDict (by decide) (by decide) 1 (cstr "a")).2.1 200 (by decide) (by decide)⟩

/-- C11 fails as stated: the dict of `danglingState` loads successfully and has the key
`"a"`; the file has 2 objects; the lookup of `"a"` returns the index 200, which is not
below `numObjects`, and `LoadObject(200)` fails. -/
theorem ReturnValueRefForKeyName_result_counterexample :
    Load_bplist danglingState.gInFileContents = some danglingState ∧
      danglingState.gNumObj = 2 ∧
      LoadObject danglingState 2 0 = some (true, danglingDict) ∧
      danglingDict.oType = kTypeDict ∧
      ReturnValueRefForKeyName danglingState 1 danglingDict (cstr "a") = Run.returned 200 ∧
      ¬ 200 < danglingState.gNumObj ∧
      (LoadObject danglingState 2 200).map (fun r => r.1) = some false := by
  decide

/-! ## How the steps of `ichatReader.c` go through -/

theorem Res.bind_eq_ok {α β : Type} (x : Res α) (f : α → Res β) (b : β) :
    (x >>= f) = Res.ok b ↔ ∃ a, x = Res.ok a ∧ f a = Res.ok b := by
  cases x
  · exact ⟨fun h => ⟨_, rfl, h⟩, fun ⟨a, ha, h⟩ => by cases ha; exact h⟩
  · exact ⟨fun h => (by cases h), fun ⟨a, ha, _⟩ => (by cases ha)⟩
  · exact ⟨fun h => (by cases h), fun ⟨a, ha, _⟩ => (by cases ha)⟩
  · exact ⟨fun h => (by cases h), fun ⟨a, ha, _⟩ => (by cases ha)⟩
  · exact ⟨fun h => (by cases h), fun ⟨a, ha, _⟩ => (by cases ha)⟩

theorem Res.pure_eq_ok {α : Type} (a b : α) : (pure a : Res α) = Res.ok b ↔ a = b := by
  exact ⟨fun h => (by cases h; rfl), fun h => (by rw [h]; rfl)⟩

theorem dieIf_eq_ok (boole : Bool) (u : Unit) : dieIf boole = Res.ok u ↔ boole = false := by
  cases boole <;> simp [dieIf]

theorem loadOrDie_eq_ok (s : BPState) (fuel ref : Nat) (obj : BPObject) :
    loadOrDie s fuel ref = Res.ok obj ↔ LoadObject s fuel ref = some (true, obj) := by
  unfold loadOrDie
  split <;> simp_all

theorem valueRef_eq_ok (s : BPState) (fuel : Nat) (dict : BPObject) (name : List Nat)
    (ref : Nat) :
    valueRef s fuel dict name = Res.ok ref ↔
      ReturnValueRefForKeyName s fuel dict name = Run.returned ref := by
  unfold valueRef
  split <;> simp_all

theorem valueRefOrDie_eq_ok (s : BPState) (fuel : Nat) (dict : BPObject) (name : List Nat)
    (ref : Nat) :
    valueRefOrDie s fuel dict name = Res.ok ref ↔
      ReturnValueRefForKeyName s fuel dict name = Run.returned ref ∧ ref ≠ kNone := by
  unfold valueRefOrDie
  simp only [Res.bind_eq_ok, Res.pure_eq_ok, valueRef_eq_ok, dieIf_eq_ok, decide_eq_false_iff_not]
  constructor
  · rintro ⟨a, h1, _, h2, rfl⟩
    exact ⟨h1, h2⟩
  · rintro ⟨h1, h2⟩
    exact ⟨ref, h1, (), h2, rfl⟩

theorem elemRefOrDie_eq_ok (s : BPState) (array : BPObject) (elem ref : Nat) :
    elemRefOrDie s array elem = Res.ok ref ↔
      ReturnElemRef s array elem = ref ∧ ref ≠ kNone := by
  unfold elemRefOrDie
  simp only [Res.bind_eq_ok, Res.pure_eq_ok, dieIf_eq_ok, decide_eq_false_iff_not]
  constructor
  · rintro ⟨_, h2, rfl⟩
    exact ⟨rfl, h2⟩
  · rintro ⟨rfl, h2⟩
    exact ⟨(), h2, rfl⟩

/-- The step `objectsOf` goes through exactly when the key is found and its value loads as
an array. -/
theorem objectsOf_eq_ok (s : BPState) (fuel : Nat) (dict array : BPObject) :
    objectsOf s fuel dict = Res.ok array ↔
      ∃ ref, ReturnValueRefForKeyName s fuel dict (cstr "NS.objects") = Run.returned ref ∧
        ref ≠ kNone ∧ LoadObject s fuel ref = some (true, array) ∧
        array.oType = kTypeArray := by
  unfold objectsOf
  simp only [Res.bind_eq_ok, Res.pure_eq_ok, valueRefOrDie_eq_ok, loadOrDie_eq_ok, dieIf_eq_ok,
    decide_eq_false_iff_not, not_not]
  constructor
  · rintro ⟨ref, ⟨h1, h2⟩, a, h3, _, h4, rfl⟩
    exact ⟨ref, h1, h2, h3, h4⟩
  · rintro ⟨ref, h1, h2, h3, h4⟩
    exact ⟨ref, ⟨h1, h2⟩, array, h3, (), h4, rfl⟩

/-- A lookup returns when every `LoadObject` call returns and no key is an ASCII string
without data. -/
theorem ReturnValueRefForKeyName_loop_returns (s : BPState) (fuel dictSize : Nat)
    (name : List Nat) (hret : ∀ ref, LoadObject s fuel ref ≠ none)
    (hkey : ∀ ref key, LoadObject s fuel ref = some (true, key) →
      key.oType = kTypeStringASCII → key.oData ≠ none) :
    ∀ (n : Nat) (reader : Int),
      ∃ v, ReturnValueRefForKeyName_loop s fuel dictSize name n reader = Run.returned v := by
  intro n
  induction n with
  | zero =>
    intro reader
    exact ⟨kNone, rfl⟩
  | succ n ih =>
    intro reader
    rw [ReturnValueRefForKeyName_loop]
    split
    · next h => exact absurd h (hret _)
    · exact ⟨kNone, rfl⟩
    · next key h =>
      split
      · next hty =>
        split
        · next hd => exact absurd hd (hkey _ key h hty)
        · split
          · exact ⟨_, rfl⟩
          · exact ih _
      · exact ih _

theorem valueRef_returns (s : BPState) (fuel : Nat) (dict : BPObject) (name : List Nat)
    (hret : ∀ ref, LoadObject s fuel ref ≠ none)
    (hkey : ∀ ref key, LoadObject s fuel ref = some (true, key) →
      key.oType = kTypeStringASCII → key.oData ≠ none) :
    ∃ v, valueRef s fuel dict name = Res.ok v := by
  have h : ∃ v, ReturnValueRefForKeyName s fuel dict name = Run.returned v := by
    unfold ReturnValueRefForKeyName
    split
    · exact ⟨kNone, rfl⟩
    · split
      · exact ⟨kNone, rfl⟩
      · exact ReturnValueRefForKeyName_loop_returns s fuel _ name hret hkey _ _
  obtain ⟨v, hv⟩ := h
  exact ⟨v, (valueRef_eq_ok s fuel dict name v).2 hv⟩

theorem Res.returns_bind {α β : Type} (x : Res α) (f : α → Res β) (hx : Res.returns x)
    (hf : ∀ a, x = Res.ok a → Res.returns (f a)) : Res.returns (x >>= f) := by
  rcases hx with rfl | ⟨a, rfl⟩
  · exact Or.inl rfl
  · exact hf a rfl

theorem dieIf_returns (boole : Bool) : Res.returns (dieIf boole) := by
  cases boole
  · exact Or.inr ⟨(), rfl⟩
  · exact Or.inl rfl

theorem loadOrDie_returns (s : BPState) (fuel ref : Nat)
    (hret : ∀ ref, LoadObject s fuel ref ≠ none) : Res.returns (loadOrDie s fuel ref) := by
  unfold loadOrDie
  split
  · next h => exact absurd h (hret _)
  · exact Or.inl rfl
  · exact Or.inr ⟨_, rfl⟩

theorem valueRefOrDie_returns (s : BPState) (fuel : Nat) (dict : BPObject) (name : List Nat)
    (hret : ∀ ref, LoadObject s fuel ref ≠ none)
    (hkey : ∀ ref key, LoadObject s fuel ref = some (true, key) →
      key.oType = kTypeStringASCII → key.oData ≠ none) :
    Res.returns (valueRefOrDie s fuel dict name) := by
  unfold valueRefOrDie
  obtain ⟨v, hv⟩ := valueRef_returns s fuel dict name hret hkey
  rw [hv]
  refine Res.returns_bind _ _ (Or.inr ⟨v, rfl⟩) (fun a _ => ?_)
  exact Res.returns_bind _ _ (dieIf_returns _) (fun _ _ => Or.inr ⟨_, rfl⟩)

/-! ## The sample chat logs are files that `Load_bplist` accepts -/

theorem unevenLog_loads :
    Load_bplist (buildFile unevenLog 0) = some (buildState unevenLog 0) := by
  set_option maxRecDepth 100000 in decide

theorem unicodeLog_loads :
    Load_bplist (buildFile unicodeLog 0) = some (buildState unicodeLog 0) := by
  set_option maxRecDepth 100000 in decide

theorem unicodeLog_globals : loadSampleLog unicodeLog true = Res.ok unicodeGlobals := by
  set_option maxRecDepth 100000 in decide

/-! ## `Validate_ichat` -/

/-- `LoadObject` returns `false` at once for an index that is not below `gNumObj`. -/
theorem LoadObject_invalid_returns (B : List Nat) (s : BPState)
    (hload : Load_bplist B = some s) (fuel i : Nat) (hi : ¬ i < s.gNumObj) :
    LoadObject s (fuel + 1) i ≠ none := by
  obtain ⟨_, h0, h64, _⟩ := Load_bplist_some B s hload
  rw [LoadObject_succ, LoadObject_S1toS4_invalid s i h0 h64 hi]
  simp

/-- C15 (amended): `Validate_ichat` returns `true`, with `arr` stored in `gObjectsArray`,
exactly when the root object loads as a dict, the lookup of `"$version"` in it returns a
reference that loads as an int of value 100000, and the lookup of `"$objects"` returns a
reference that loads as the array `arr`.  When every `LoadObject` call returns and no
ASCII string is loaded without data, the function returns: `false` in every other case. -/
theorem Validate_ichat_iff (s : BPState) (fuel : Nat) (arr : BPObject) :
    (Validate_ichat s fuel = Res.ok arr ↔
      ∃ root versionRef value objectsRef,
        LoadObject s fuel s.gRootObjID = some (true, root) ∧ root.oType = kTypeDict ∧
        ReturnValueRefForKeyName s fuel root (cstr "$version") = Run.returned versionRef ∧
        versionRef ≠ kNone ∧
        LoadObject s fuel versionRef = some (true, value) ∧ value.oType = kTypeInt ∧
        value.oInt = 100000 ∧
        ReturnValueRefForKeyName s fuel root (cstr "$objects") = Run.returned objectsRef ∧
        objectsRef ≠ kNone ∧
        LoadObject s fuel objectsRef = some (true, arr) ∧ arr.oType = kTypeArray) ∧
    ((∀ ref, LoadObject s fuel ref ≠ none) →
      (∀ ref key, LoadObject s fuel ref = some (true, key) →
        key.oType = kTypeStringASCII → key.oData ≠ none) →
      Validate_ichat s fuel = Res.fail ∨ ∃ a, Validate_ichat s fuel = Res.ok a) := by
  constructor
  · unfold Validate_ichat
    simp only [Res.bind_eq_ok, Res.pure_eq_ok, valueRefOrDie_eq_ok, loadOrDie_eq_ok,
      dieIf_eq_ok, decide_eq_false_iff_not, not_not, kVersion_ichat]
    constructor
    · rintro ⟨root, h1, _, h2, versionRef, ⟨h3, h4⟩, value, h5, _, h6, _, h7, objectsRef,
        ⟨h8, h9⟩, a, h10, _, h11, rfl⟩
      exact ⟨root, versionRef, value, objectsRef, h1, h2, h3, h4, h5, h6, h7, h8, h9, h10, h11⟩
    · rintro ⟨root, versionRef, value, objectsRef, h1, h2, h3, h4, h5, h6, h7, h8, h9, h10,
        h11⟩
      exact ⟨root, h1, (), h2, versionRef, ⟨h3, h4⟩, value, h5, (), h6, (), h7, objectsRef,
        ⟨h8, h9⟩, arr, h10, (), h11, rfl⟩
  · intro hret hkey
    have h : Res.returns (Validate_ichat s fuel) := by
      unfold Validate_ichat
      refine Res.returns_bind _ _ (loadOrDie_returns s fuel _ hret) (fun root _ => ?_)
      refine Res.returns_bind _ _ (dieIf_returns _) (fun _ _ => ?_)
      refine Res.returns_bind _ _ (valueRefOrDie_returns s fuel _ _ hret hkey) (fun _ _ => ?_)
      refine Res.returns_bind _ _ (loadOrDie_returns s fuel _ hret) (fun value _ => ?_)
      refine Res.returns_bind _ _ (dieIf_returns _) (fun _ _ => ?_)
      refine Res.returns_bind _ _ (dieIf_returns _) (fun _ _ => ?_)
      refine Res.returns_bind _ _ (valueRefOrDie_returns s fuel _ _ hret hkey) (fun _ _ => ?_)
      refine Res.returns_bind _ _ (loadOrDie_returns s fuel _ hret) (fun objectsArray _ => ?_)
      refine Res.returns_bind _ _ (dieIf_returns _) (fun _ _ => ?_)
      exact Or.inr ⟨_, rfl⟩
    exact h

/-- C15 at the sample chat log: `Validate_ichat` returns `true` with the array at file
object 5, so the conditions hold; there every `LoadObject` call returns and every ASCII
string has data. -/
theorem Validate_ichat_iff_witness :
    Load_bplist (buildFile unevenLog 0) = some (buildState unevenLog 0) ∧
    (∃ arr, LoadObject (buildState unevenLog 0) 3 5 = some (true, arr) ∧
      (∃ root versionRef value objectsRef,
        LoadObject (buildState unevenLog 0) 3 (buildState unevenLog 0).gRootObjID
          = some (true, root) ∧ root.oType = kTypeDict ∧
        ReturnValueRefForKeyName (buildState unevenLog 0) 3 root (cstr "$version")
          = Run.returned versionRef ∧
        versionRef ≠ kNone ∧
        LoadObject (buildState unevenLog 0) 3 versionRef = some (true, value) ∧
        value.oType = kTypeInt ∧ value.oInt = 100000 ∧
        ReturnValueRefForKeyName (buildState unevenLog 0) 3 root (cstr "$objects")
          = Run.returned objectsRef ∧
        objectsRef ≠ kNone ∧
        LoadObject (buildState unevenLog 0) 3 objectsRef = some (true, arr) ∧
        arr.oType = kTypeArray)) ∧
    (Validate_ichat (buildState unevenLog 0) 3 = Res.fail ∨
      ∃ a, Validate_ichat (buildState unevenLog 0) 3 = Res.ok a) := by
  have hload := unevenLog_loads
  have hall : ∀ ref < 33, ∃ r, LoadObject (buildState unevenLog 0) 3 ref = some r ∧
      (r.1 = true → r.2.oType = kTypeStringASCII → r.2.oData ≠ none) := by
    have hd : ∀ ref < 33, ((LoadObject (buildState unevenLog 0) 3 ref).all
        (fun r => !r.1 || r.2.oType != kTypeStringASCII || r.2.oData.isSome)
        && (LoadObject (buildState unevenLog 0) 3 ref).isSome) = true := by
      set_option maxRecDepth 100000 in decide
    intro ref href
    have h := hd ref href
    cases hr : LoadObject (buildState unevenLog 0) 3 ref with
    | none => rw [hr] at h; simp at h
    | some r =>
      rw [hr] at h
      refine ⟨r, rfl, fun h1 h2 h3 => ?_⟩
      simp [h1, h2, h3] at h
  refine ⟨hload, ?_, ?_⟩
  · refine ⟨ReadData_Array (LoadObject_S1toS4 (buildState unevenLog 0) 5).2, by decide, ?_⟩
    exact (Validate_ichat_iff (buildState unevenLog 0) 3 _).1.mp (by decide)
  · refine (Validate_ichat_iff (buildState unevenLog 0) 3 (LoadObject_S1_Init 0)).2 ?_ ?_
    · intro ref
      by_cases href : ref < 33
      · obtain ⟨r, hr, _⟩ := hall ref href
        rw [hr]
        simp
      · exact LoadObject_invalid_returns _ _ hload 2 ref href
    · intro ref key hk hty
      have href : ref < 33 := LoadObject_success_valid _ _ hload 3 ref key hk
      obtain ⟨r, hr, h⟩ := hall ref href
      rw [hk] at hr
      cases hr
      exact h rfl hty

/-- C15 fails as stated: the root object of the file `D1 00 00` is a dict whose key is
the dict itself, and `Validate_ichat` returns neither `true` nor `false`: its first
`LoadObject` call returns for no bound on the nesting depth. -/
theorem Validate_ichat_counterexample :
    Load_bplist loopState.gInFileContents = some loopState ∧
      ∀ fuel, Validate_ichat loopState fuel = Res.noReturn := by
  refine ⟨by decide, fun fuel => ?_⟩
  have h : loadOrDie loopState fuel loopState.gRootObjID = Res.noReturn := by
    unfold loadOrDie
    have h0 : loopState.gRootObjID = 0 := rfl
    rw [h0, LoadObject_loopState_none fuel]
  unfold Validate_ichat
  rw [h]
  rfl

/-! ## `Load_ichat` -/

/-- The name loop that goes through gives one name per iteration: element `i` of the result
is what iteration `a + i` stores. -/
theorem loadParticipantNames_ok (s : BPState) (fuel : Nat)
    (gObjectsArray participantsArray : BPObject) :
    ∀ (n a : Nat) (names : List (List Nat)),
      loadParticipantNames s fuel gObjectsArray participantsArray n a = Res.ok names →
      names.length = n ∧ ∀ i < n,
        loadParticipantName s fuel gObjectsArray participantsArray (a + i)
          = Res.ok (names.getD i []) := by
  intro n
  induction n with
  | zero =>
    intro a names h
    simp only [loadParticipantNames, Res.ok.injEq] at h
    subst h
    exact ⟨rfl, fun i hi => absurd hi (Nat.not_lt_zero i)⟩
  | succ n ih =>
    intro a names h
    rw [loadParticipantNames] at h
    simp only [Res.bind_eq_ok, Res.pure_eq_ok] at h
    obtain ⟨name, h1, rest, h2, rfl⟩ := h
    obtain ⟨hl, hi⟩ := ih (a + 1) rest h2
    refine ⟨by simp [hl], fun i hlt => ?_⟩
    cases i with
    | zero => simpa using h1
    | succ i =>
      have := hi i (by omega)
      rw [show a + (i + 1) = a + 1 + i by omega]
      simpa using this

/-- The ID loop that goes through gives one ID per iteration. -/
theorem loadAccountIDs_ok (s : BPState) (fuel : Nat)
    (gObjectsArray presentityArray : BPObject) (gTrimEmailIDs : Bool) :
    ∀ (n a : Nat) (ids : List (List Nat)),
      loadAccountIDs s fuel gObjectsArray presentityArray gTrimEmailIDs n a = Res.ok ids →
      ids.length = n ∧ ∀ i < n,
        loadAccountID s fuel gObjectsArray presentityArray gTrimEmailIDs (a + i)
          = Res.ok (ids.getD i []) := by
  intro n
  induction n with
  | zero =>
    intro a ids h
    simp only [loadAccountIDs, Res.ok.injEq] at h
    subst h
    exact ⟨rfl, fun i hi => absurd hi (Nat.not_lt_zero i)⟩
  | succ n ih =>
    intro a ids h
    rw [loadAccountIDs] at h
    simp only [Res.bind_eq_ok, Res.pure_eq_ok] at h
    obtain ⟨id, h1, rest, h2, rfl⟩ := h
    obtain ⟨hl, hi⟩ := ih (a + 1) rest h2
    refine ⟨by simp [hl], fun i hlt => ?_⟩
    cases i with
    | zero => simpa using h1
    | succ i =>
      have := hi i (by omega)
      rw [show a + (i + 1) = a + 1 + i by omega]
      simpa using this

/-- C16 (amended): when `Load_ichat` returns `true`, `gNumParticipantNames` is the size of
the array of the participants and `gNumParticipantIDs` the size of the array of the
account IDs, two arrays that the function reads one after the other without comparing
their sizes; there are `gNumParticipantNames` names and `gNumParticipantIDs` IDs, and the
name, or ID, at each index is what the loop iteration of that index stores. -/
theorem Load_ichat_tables (s : BPState) (fuel : Nat) (gObjectsArray : BPObject)
    (gTrimEmailIDs : Bool) (g : ICGlobals)
    (h : Load_ichat s fuel gObjectsArray gTrimEmailIDs = Res.ok g) :
    ∃ gMessageListArray metadataValues partIndex presIndex participantsArray presentityArray,
      Load_ichat_metadata s fuel gObjectsArray
        = Res.ok (gMessageListArray, metadataValues, partIndex, presIndex) ∧
      Load_ichat_list s fuel gObjectsArray metadataValues partIndex
        = Res.ok participantsArray ∧
      Load_ichat_list s fuel gObjectsArray metadataValues presIndex
        = Res.ok presentityArray ∧
      g.gNumParticipantNames = participantsArray.oSize ∧
      g.gNumParticipantIDs = presentityArray.oSize ∧
      g.gParticipantNames.length = g.gNumParticipantNames ∧
      g.gParticipantIDs.length = g.gNumParticipantIDs ∧
      (∀ i < g.gNumParticipantNames,
        loadParticipantName s fuel gObjectsArray participantsArray i
          = Res.ok (g.gParticipantNames.getD i [])) ∧
      (∀ i < g.gNumParticipantIDs,
        loadAccountID s fuel gObjectsArray presentityArray gTrimEmailIDs i
          = Res.ok (g.gParticipantIDs.getD i [])) := by
  unfold Load_ichat at h
  simp only [Res.bind_eq_ok, Res.pure_eq_ok] at h
  obtain ⟨⟨gMessageListArray, metadataValues, partIndex, presIndex⟩, h1, h⟩ := h
  simp only [Res.bind_eq_ok, Res.pure_eq_ok] at h
  obtain ⟨participantsArray, h2, names, h3, presentityArray, h4, ids, h5, rfl⟩ := h
  obtain ⟨hn, hni⟩ := loadParticipantNames_ok s fuel gObjectsArray participantsArray _ 0 names h3
  obtain ⟨hd, hdi⟩ := loadAccountIDs_ok s fuel gObjectsArray presentityArray gTrimEmailIDs _ 0
    ids h5
  refine ⟨gMessageListArray, metadataValues, partIndex, presIndex, participantsArray,
    presentityArray, h1, h2, h4, rfl, rfl, hn, hd, fun i hi => ?_, fun i hi => ?_⟩
  · simpa using hni i hi
  · simpa using hdi i hi

/-- C16 at the sample chat log, where `Load_ichat` returns `true`: one name, two IDs. -/
theorem Load_ichat_tables_witness :
    Load_bplist (buildFile unevenLog 0) = some (buildState unevenLog 0) ∧
    Load_ichat (buildState unevenLog 0) 3 unevenGlobals.gObjectsArray false
      = Res.ok unevenGlobals ∧
    unevenGlobals.gParticipantNames.length = unevenGlobals.gNumParticipantNames ∧
    unevenGlobals.gParticipantIDs.length = unevenGlobals.gNumParticipantIDs := by
  have h : Load_ichat (buildState unevenLog 0) 3 unevenGlobals.gObjectsArray false
      = Res.ok unevenGlobals := by
    set_option maxRecDepth 100000 in decide
  obtain ⟨_, _, _, _, _, _, _, _, _, _, _, h1, h2, _⟩ :=
    Load_ichat_tables (buildState unevenLog 0) 3 _ false unevenGlobals h
  exact ⟨unevenLog_loads, h, h1, h2⟩

/-- C16 fails as stated: in this chat log the array under `Participants` has one element
and the array under `PresentityIDs` two; `Validate_ichat` and `Load_ichat` return `true`
and leave `gNumParticipantNames = 1`, `gNumParticipantIDs = 2`: there is an ID at index 1
and no name. -/
theorem Load_ichat_tables_counterexample :
    Load_bplist (buildFile unevenLog 0) = some (buildState unevenLog 0) ∧
    loadSampleLog unevenLog false = Res.ok unevenGlobals ∧
    unevenGlobals.gNumParticipantNames = 1 ∧ unevenGlobals.gNumParticipantIDs = 2 ∧
    unevenGlobals.gParticipantNames = [cstr "Al"] ∧
    unevenGlobals.gParticipantIDs = [cstr "al@x", cstr "bo@y"] ∧
    unevenGlobals.gNumParticipantNames ≠ unevenGlobals.gNumParticipantIDs := by
  refine ⟨unevenLog_loads, by set_option maxRecDepth 100000 in decide, ?_⟩
  decide

/-! ## Unicode names, account IDs and senders -/

/-- C17, the code's behaviour: the participant name of this chat log is the Unicode string
U+00E9, U+0041, U+202A, and `Load_ichat` stores the two bytes `E9 41`: the code unit
U+00E9 is kept, as the single byte `E9`.  `ConvertUnicodeToUTF8` reads the two bytes of a
code unit as `char`s, so that every code unit from U+0080 to U+00FF gives a negative `wc`
and a conversion of one byte. -/
theorem Load_ichat_unicode_name_keeps_byte :
    Load_bplist (buildFile unicodeLog 0) = some (buildState unicodeLog 0) ∧
    loadSampleLog unicodeLog true = Res.ok unicodeGlobals ∧
    unicodeGlobals.gParticipantNames = [[0xE9, 0x41]] ∧
    (∀ c1 < 256, 0x80 ≤ c1 → cBytes (ConvertUnicodeToUTF8 0 c1) = [c1]) ∧
    cBytes (ConvertUnicodeToUTF8 0x20 0x2A) = [0xE2, 0x80, 0xAA] := by
  refine ⟨unicodeLog_loads, unicodeLog_globals, by decide, ?_, by decide⟩
  set_option maxRecDepth 100000 in decide

/-- C18, the code's behaviour: with `gTrimEmailIDs` set, the account ID stored as the
Unicode string `a@b` is kept whole, while the one stored as the ASCII string `bo@y` is cut
at the `@`. -/
theorem Load_ichat_unicode_id_not_trimmed :
    Load_bplist (buildFile unicodeLog 0) = some (buildState unicodeLog 0) ∧
    loadSampleLog unicodeLog true = Res.ok unicodeGlobals ∧
    unicodeGlobals.gParticipantIDs = [cstr "a@b", cstr "bo"] ∧
    0x40 ∈ unicodeGlobals.gParticipantIDs.getD 0 [] := by
  refine ⟨unicodeLog_loads, unicodeLog_globals, by decide, by decide⟩

/-- The loop over a zero-filled buffer leaves it as it is: each conversion is of the two
zero bytes read from the buffer itself. -/
theorem senderUnicodeLoop_zero (k : Nat) :
    ∀ n b, senderUnicodeLoop n b (List.replicate k 0) = List.replicate k 0 := by
  intro n
  induction n with
  | zero => intro b; rfl
  | succ n ih =>
    intro b
    have hget : ∀ i, (List.replicate k 0).getD i 0 = 0 := by
      intro i
      rw [List.getD_eq_getElem?_getD]
      by_cases hi : i < k
      · simp [List.getElem?_replicate, hi]
      · simp [List.getElem?_replicate, hi]
    rw [senderUnicodeLoop, hget, hget]
    have h0 : (cBytes (ConvertUnicodeToUTF8 0 0)).length ≠ 1 := by decide
    rw [if_neg h0]
    exact ih _

theorem cBytes_replicate_zero (k : Nat) : cBytes (List.replicate k 0) = [] := by
  cases k with
  | zero => rfl
  | succ k => simp [List.replicate_succ, cBytes]

/-- C19, the code's behaviour: the sender ID made from a Unicode string is `"<Unicode>"`
whatever the string, and so is the `mSenderID` of the message of this chat log, whose
sender's account ID is the Unicode string `bob`; with the ASCII string `bob` in its place
the `mSenderID` is `bob`. -/
theorem LoadMessage_unicode_sender :
    (∀ obj, senderFromUnicode obj = cstr "<Unicode>") ∧
    Load_bplist (buildFile (textLog (unicodeObj [0x62, 0x6F, 0x62])) 0)
      = some (buildState (textLog (unicodeObj [0x62, 0x6F, 0x62])) 0) ∧
    loadSampleMessage (textLog (unicodeObj [0x62, 0x6F, 0x62])) 33 = Res.ok
      { InitMessage with
        mSenderID := some (cstr "<Unicode>"), mTime := some [], mText := some (cstr "hi") } ∧
    loadSampleMessage (textLog (asciiObj "bob")) 33 = Res.ok
      { InitMessage with
        mSenderID := some (cstr "bob"), mTime := some [], mText := some (cstr "hi") } := by
  refine ⟨fun obj => ?_, by set_option maxRecDepth 100000 in decide,
    by set_option maxRecDepth 100000 in decide, by set_option maxRecDepth 100000 in decide⟩
  unfold senderFromUnicode
  rw [senderUnicodeLoop_zero, cBytes_replicate_zero]
  rfl

/-! ## `LoadMessage`: text or file transfer -/

/-- What `LoadMessage` sets `mFileTransfer` to.  When `LoadMessage`, called on a message
that `InitMessage` has cleared, returns `true` without setting `mHiccup`: if the lookup of
`"OriginalMessage"` in the message dict finds the key, `mFileTransfer` is 0 and there is a
text; if it does not,
`mFileTransfer` is 1 when the dict under `MessageText` has no key `"NSAttributeInfo"`, and
otherwise it is the size of the array under `"NS.objects"` of the dict under
`"NSAttributes"`, whatever that size is. -/
theorem LoadMessage_fileTransfer (s : BPState) (fuel : Nat) (gObjectsArray : BPObject)
    (dateString : Nat → Bool → List Nat) (gFirstMsgTime : Option (List Nat))
    (BPmsg : BPObject) (firstMsg : Bool) (msg : ICMessage) (t : Option (List Nat))
    (h : LoadMessage s fuel gObjectsArray dateString gFirstMsgTime BPmsg InitMessage firstMsg
      = Res.ok (msg, t))
    (hh : msg.mHiccup = false) :
    ∃ originalRef,
      ReturnValueRefForKeyName s fuel BPmsg (cstr "OriginalMessage")
        = Run.returned originalRef ∧
      (originalRef ≠ kNone → msg.mFileTransfer = 0 ∧ msg.mText ≠ none) ∧
      (originalRef = kNone →
        ∃ msgText infoRef attribRef attrib,
          LoadMessage_messageText s fuel gObjectsArray BPmsg = Res.ok msgText ∧
          ReturnValueRefForKeyName s fuel msgText (cstr "NSAttributeInfo")
            = Run.returned infoRef ∧
          ReturnValueRefForKeyName s fuel msgText (cstr "NSAttributes")
            = Run.returned attribRef ∧
          attribRef ≠ kNone ∧
          followUID s fuel gObjectsArray attribRef = Res.ok attrib ∧
          attrib.oType = kTypeDict ∧
          (infoRef = kNone → msg.mFileTransfer = 1) ∧
          (infoRef ≠ kNone → ∃ attribObjects,
            objectsOf s fuel attrib = Res.ok attribObjects ∧
            msg.mFileTransfer = attribObjects.oSize)) := by
  unfold LoadMessage at h
  simp only [Res.bind_eq_ok, Res.pure_eq_ok, valueRef_eq_ok, Prod.mk.injEq] at h
  obtain ⟨party, _, oReal, _, msgText0, _, originalRef, ho, body, hb, hmsg, _⟩ := h
  subst hmsg
  simp only at hh
  refine ⟨originalRef, ho, fun hne => ?_, fun he => ?_⟩
  · unfold LoadMessage_body at hb
    rw [if_pos (decide_eq_true hne)] at hb
    unfold LoadMessage_text at hb
    simp only [Res.bind_eq_ok, Res.pure_eq_ok] at hb
    obtain ⟨_, _, _, _, _, _, string, _, hb⟩ := hb
    split at hb
    · simp only [Res.bind_eq_ok, Res.pure_eq_ok] at hb
      obtain ⟨text, _, rfl⟩ := hb
      exact ⟨rfl, by simp⟩
    · split at hb
      · simp only [Res.pure_eq_ok] at hb
        subst hb
        exact ⟨rfl, by simp⟩
      · cases hb
  · unfold LoadMessage_body at hb
    rw [if_neg (by simp [he])] at hb
    unfold LoadMessage_files at hb
    simp only [Res.bind_eq_ok, Res.pure_eq_ok, valueRef_eq_ok] at hb
    obtain ⟨msgText, hmt, infoRef, hi, attribRef, ha, hb⟩ := hb
    split at hb
    · simp only [Res.pure_eq_ok] at hb
      subst hb
      simp at hh
    · next hne =>
      simp only [Res.bind_eq_ok, Res.pure_eq_ok, dieIf_eq_ok, decide_eq_false_iff_not,
        not_not] at hb
      obtain ⟨attrib, hat, _, hty, hb⟩ := hb
      refine ⟨msgText, infoRef, attribRef, attrib, hmt, hi, ha, hne, hat, hty, ?_, ?_⟩
      · intro hinfo
        rw [if_neg (not_not.2 hinfo)] at hb
        simp only [Res.bind_eq_ok, Res.pure_eq_ok] at hb
        obtain ⟨_, _, _, _, _, _, _, _, rfl⟩ := hb
        rfl
      · intro hinfo
        rw [if_pos hinfo] at hb
        simp only [Res.bind_eq_ok, Res.pure_eq_ok] at hb
        obtain ⟨attribObjects, hao, _, _, rfl⟩ := hb
        exact ⟨attribObjects, hao, rfl⟩

/-- C20, the code's behaviour.  The message of this chat log has no key `OriginalMessage`;
the dict under `MessageText` has the keys `NSAttributeInfo` and `NSAttributes`, and the
`NS.objects` array of the dict under `NSAttributes` is empty.  `LoadMessage` returns
`true` with `mHiccup` at `false`, `mFileTransfer` at 0, which stands for a regular text
message, and `mText` at `NULL`: the message is no text message and has no file. -/
theorem LoadMessage_fileTransfer_zero_files :
    Load_bplist (buildFile noFilesLog 0) = some noFilesState ∧
    Validate_ichat noFilesState 3 = Res.ok (sampleArchive noFilesState) ∧
    LoadObject noFilesState 3 33 = some (true, sampleMessage noFilesState) ∧
    ReturnValueRefForKeyName noFilesState 3 (sampleMessage noFilesState)
      (cstr "OriginalMessage") = Run.returned kNone ∧
    LoadMessage noFilesState 3 (sampleArchive noFilesState) (fun _ _ => []) none
        (sampleMessage noFilesState) InitMessage true = Res.ok (noFilesMessage, some []) ∧
    noFilesMessage.mHiccup = false ∧ noFilesMessage.mFileTransfer = 0 ∧
    noFilesMessage.mText = none := by
  refine ⟨by set_option maxRecDepth 100000 in decide,
    by set_option maxRecDepth 100000 in decide,
    by set_option maxRecDepth 100000 in decide,
    by set_option maxRecDepth 100000 in decide,
    by set_option maxRecDepth 100000 in decide, rfl, rfl, rfl⟩

/-! ## `LoadMessage`: the names of the files -/

theorem Res.ok_bind {α β : Type} (a : α) (f : α → Res β) : (Res.ok a >>= f) = f a := rfl

theorem dieIf_false : dieIf false = Res.ok () := rfl

/-- The text after the file names `names` have been appended to `p`. -/
theorem foldl_appendFileName_some (names : List (List Nat)) :
    ∀ p : List Nat, names.foldl appendFileName (some p)
      = some (p ++ names.flatMap (fun name => cstr ", " ++ name)) := by
  induction names with
  | nil => intro p; simp
  | cons name rest ih =>
    intro p
    rw [List.foldl_cons]
    show List.foldl appendFileName (some (p ++ cstr ", " ++ name)) rest = _
    rw [ih]
    simp [List.flatMap_cons, List.append_assoc]

theorem intercalate_cons (sep name : List Nat) (rest : List (List Nat)) :
    List.intercalate sep (name :: rest) = name ++ rest.flatMap (fun x => sep ++ x) := by
  induction rest generalizing name with
  | nil => simp [List.intercalate]
  | cons x r ih =>
    have h : List.intercalate sep (name :: x :: r)
        = name ++ (sep ++ List.intercalate sep (x :: r)) := by
      simp [List.intercalate, List.intersperse]
    rw [h, ih]
    simp [List.flatMap_cons, List.append_assoc]

/-- Appending the file names one by one to no text gives the names joined by `", "`. -/
theorem foldl_appendFileName_none (names : List (List Nat)) :
    names.foldl appendFileName none = joinFileNames names := by
  cases names with
  | nil => rfl
  | cons name rest =>
    rw [List.foldl_cons]
    show List.foldl appendFileName (some name) rest = _
    rw [foldl_appendFileName_some]
    unfold joinFileNames
    rw [if_neg (by simp), intercalate_cons]

/-- The loop over the files goes through when each element gives a file name, and appends
the names in order. -/
theorem LoadMessage_fileNames_ok (s : BPState) (fuel : Nat)
    (gObjectsArray attribObjects : BPObject) :
    ∀ (n a : Nat) (mText : Option (List Nat)) (names : List (List Nat)),
      names.length = n →
      (∀ i < n, LoadMessage_fileNameAt s fuel gObjectsArray attribObjects (a + i)
        = Res.ok (names.getD i [])) →
      LoadMessage_fileNames s fuel gObjectsArray attribObjects n a mText
        = Res.ok (names.foldl appendFileName mText) := by
  intro n
  induction n with
  | zero =>
    intro a mText names hl _
    have : names = [] := List.length_eq_zero.mp hl
    subst this
    rfl
  | succ n ih =>
    intro a mText names hl hi
    cases names with
    | nil => simp at hl
    | cons name rest =>
      have h0 := hi 0 (by omega)
      simp only [Nat.add_zero, List.getD_cons_zero] at h0
      unfold LoadMessage_fileNameAt at h0
      simp only [Res.bind_eq_ok, Res.pure_eq_ok] at h0
      obtain ⟨r, h1, obj, h2, u, h3, keys, h4, values, h5, fileName, h6, h7⟩ := h0
      subst h7
      have hrest : ∀ i < n, LoadMessage_fileNameAt s fuel gObjectsArray attribObjects
          (a + 1 + i) = Res.ok (rest.getD i []) := by
        intro i hlt
        have := hi (i + 1) (by omega)
        rw [show a + (i + 1) = a + 1 + i by omega] at this
        simpa using this
      have hlen : rest.length = n := by simpa using hl
      rw [LoadMessage_fileNames]
      simp only [h1, h2, h3, h4, h5, h6, Res.ok_bind]
      cases mText with
      | none => exact ih (a + 1) _ rest hlen hrest
      | some prevStr => exact ih (a + 1) _ rest hlen hrest

/-- The steps of `LoadMessage` before the text or the file names, when they go through. -/
theorem LoadMessage_of_body (s : BPState) (fuel : Nat) (gObjectsArray : BPObject)
    (dateString : Nat → Bool → List Nat) (gFirstMsgTime : Option (List Nat))
    (BPmsg : BPObject) (ICmsg : ICMessage) (firstMsg : Bool)
    (party : Bool × Option (List Nat) × Bool × Option (List Nat)) (oReal : Nat)
    (msgText : BPObject) (originalRef : Nat) (body : MessageBody)
    (hparty : LoadMessage_party s fuel gObjectsArray BPmsg ICmsg = Res.ok party)
    (htime : LoadMessage_time s fuel gObjectsArray BPmsg = Res.ok oReal)
    (hmt : LoadMessage_messageText s fuel gObjectsArray BPmsg = Res.ok msgText)
    (horig : ReturnValueRefForKeyName s fuel BPmsg (cstr "OriginalMessage")
      = Run.returned originalRef)
    (hbody : LoadMessage_body s fuel gObjectsArray BPmsg msgText party.1 party.2.1 ICmsg
      (originalRef ≠ kNone) = Res.ok body) :
    LoadMessage s fuel gObjectsArray dateString gFirstMsgTime BPmsg ICmsg firstMsg
      = Res.ok
        ({ mHiccup := body.mHiccup
           mFromClient := party.2.2.1
           mFileTransfer := body.mFileTransfer
           mSenderID := party.2.2.2
           mTime := some (dateString oReal false)
           mText := body.mText
           mWideStrSize := body.mWideStrSize },
          if firstMsg then some (dateString oReal true) else gFirstMsgTime) := by
  have ho := (valueRef_eq_ok s fuel BPmsg (cstr "OriginalMessage") originalRef).2 horig
  unfold LoadMessage
  simp only [hparty, htime, hmt, ho, hbody, Res.ok_bind]
  rfl

theorem joinFileNames_one (name : List Nat) : joinFileNames [name] = some name := by
  simp [joinFileNames, List.intercalate]

/-- The text of a file transfer whose file names are not `NULL`.  For a message without
`OriginalMessage` whose sender, time and `MessageText` dict resolve and whose `MessageText` dict leads to the dict `attrib` under `NSAttributes`: when
`NSAttributeInfo` is there and the elements of `attrib`'s `NS.objects` array give the file
names `names`, one per element, `LoadMessage` returns `true` with `mFileTransfer` the
number of names and `mText` the names joined by `", "`; when `NSAttributeInfo` is not
there and `attrib` itself gives the file name `name`, `LoadMessage` returns `true` with
`mFileTransfer = 1` and `mText = name`. -/
theorem LoadMessage_files_join (s : BPState) (fuel : Nat) (gObjectsArray : BPObject)
    (dateString : Nat → Bool → List Nat) (gFirstMsgTime : Option (List Nat))
    (BPmsg : BPObject) (firstMsg : Bool)
    (party : Bool × Option (List Nat) × Bool × Option (List Nat)) (oReal : Nat)
    (msgText attrib : BPObject) (infoRef attribRef : Nat)
    (hparty : LoadMessage_party s fuel gObjectsArray BPmsg InitMessage = Res.ok party)
    (htime : LoadMessage_time s fuel gObjectsArray BPmsg = Res.ok oReal)
    (hmt : LoadMessage_messageText s fuel gObjectsArray BPmsg = Res.ok msgText)
    (horig : ReturnValueRefForKeyName s fuel BPmsg (cstr "OriginalMessage")
      = Run.returned kNone)
    (hinfo : ReturnValueRefForKeyName s fuel msgText (cstr "NSAttributeInfo")
      = Run.returned infoRef)
    (hattr : ReturnValueRefForKeyName s fuel msgText (cstr "NSAttributes")
      = Run.returned attribRef)
    (hne : attribRef ≠ kNone)
    (hfollow : followUID s fuel gObjectsArray attribRef = Res.ok attrib)
    (hty : attrib.oType = kTypeDict) :
    (∀ (attribObjects : BPObject) (names : List (List Nat)),
      infoRef ≠ kNone →
      objectsOf s fuel attrib = Res.ok attribObjects →
      names.length = attribObjects.oSize →
      (∀ i < attribObjects.oSize,
        LoadMessage_fileNameAt s fuel gObjectsArray attribObjects i
          = Res.ok (names.getD i [])) →
      ∃ msg t,
        LoadMessage s fuel gObjectsArray dateString gFirstMsgTime BPmsg InitMessage firstMsg
          = Res.ok (msg, t) ∧
        msg.mHiccup = false ∧ msg.mFileTransfer = names.length ∧
        msg.mText = joinFileNames names ∧
        (∀ name, names = [name] → msg.mText = some name)) ∧
    (∀ (msgKeys msgValues fileName : BPObject) (name : List Nat),
      infoRef = kNone →
      keysOf s fuel attrib = Res.ok msgKeys →
      objectsOf s fuel attrib = Res.ok msgValues →
      LoadMessage_fileName s fuel gObjectsArray msgKeys msgValues = Res.ok fileName →
      copyCString fileName.oData = Res.ok name →
      ∃ msg t,
        LoadMessage s fuel gObjectsArray dateString gFirstMsgTime BPmsg InitMessage firstMsg
          = Res.ok (msg, t) ∧
        msg.mHiccup = false ∧ msg.mFileTransfer = 1 ∧ msg.mText = some name ∧
        msg.mText = joinFileNames [name]) := by
  have hi := (valueRef_eq_ok s fuel msgText (cstr "NSAttributeInfo") infoRef).2 hinfo
  have ha := (valueRef_eq_ok s fuel msgText (cstr "NSAttributes") attribRef).2 hattr
  have hd : dieIf (decide (attrib.oType ≠ kTypeDict)) = Res.ok () := by
    rw [dieIf_eq_ok]
    simp [hty]
  have hnot : decide (kNone ≠ kNone) = false := by simp
  constructor
  · intro attribObjects names hinf hobj hlen hnames
    have hloop := LoadMessage_fileNames_ok s fuel gObjectsArray attribObjects
      attribObjects.oSize 0 none names hlen (fun i hlt => by simpa using hnames i hlt)
    rw [foldl_appendFileName_none] at hloop
    have hbody : LoadMessage_body s fuel gObjectsArray BPmsg msgText party.1 party.2.1
        InitMessage (kNone ≠ kNone) = Res.ok
          { mHiccup := false
            mFileTransfer := attribObjects.oSize
            mText := joinFileNames names
            mWideStrSize := 0 } := by
      unfold LoadMessage_body
      rw [hnot]
      simp only [Bool.false_eq_true, if_false]
      unfold LoadMessage_files
      simp only [hmt, hi, ha, Res.ok_bind, if_neg hne, hfollow, hd, if_pos hinf, hobj]
      show (LoadMessage_fileNames s fuel gObjectsArray attribObjects attribObjects.oSize 0 none
        >>= _) = _
      rw [hloop]
      rfl
    refine ⟨_, _, LoadMessage_of_body s fuel gObjectsArray dateString gFirstMsgTime BPmsg
      InitMessage firstMsg party oReal msgText kNone _ hparty htime hmt horig hbody,
      rfl, hlen.symm, rfl, ?_⟩
    intro name hone
    subst hone
    exact joinFileNames_one name
  · intro msgKeys msgValues fileName name hinf hkeys hvals hfile hname
    have hbody : LoadMessage_body s fuel gObjectsArray BPmsg msgText party.1 party.2.1
        InitMessage (kNone ≠ kNone) = Res.ok
          { mHiccup := false
            mFileTransfer := 1
            mText := some name
            mWideStrSize := 0 } := by
      unfold LoadMessage_body
      rw [hnot]
      simp only [Bool.false_eq_true, if_false]
      unfold LoadMessage_files
      simp only [hmt, hi, ha, Res.ok_bind, if_neg hne, hfollow, hd, if_neg (not_not.2 hinf),
        hkeys, hvals, hfile, hname]
      rfl
    exact ⟨_, _, LoadMessage_of_body s fuel gObjectsArray dateString gFirstMsgTime BPmsg
      InitMessage firstMsg party oReal msgText kNone _ hparty htime hmt horig hbody,
      rfl, rfl, rfl, (joinFileNames_one name).symm⟩

/-- C21, the code's behaviour.  A file name that is the ASCII string of length 0 has its
`oData` at `NULL`.  As the first of two names it is formatted by `%s` as `(null)`, so that
for the names `""` and `b.txt` the text is `(null), b.txt`, where the names joined by
`", "` are `, b.txt`; as the name of a single file it is passed to `strlen`. -/
theorem LoadMessage_files_null_name :
    loadSampleMessage emptyNameLog 33 = Res.ok (twoFilesMessage (cstr "(null), b.txt")) ∧
    (twoFilesMessage (cstr "(null), b.txt")).mFileTransfer = 2 ∧
    joinFileNames [cstr "", cstr "b.txt"] = some (cstr ", b.txt") ∧
    loadSampleMessage oneEmptyNameLog 33 = Res.nullDeref := by
  refine ⟨by set_option maxRecDepth 100000 in decide, rfl, by decide,
    by set_option maxRecDepth 100000 in decide⟩

/-! ## The SMS hiccup -/

/-- C22. For a message without `OriginalMessage` whose sender, time and `MessageText` dict
resolve, when the lookup of `NSAttributes` in the `MessageText` dict finds nothing,
`LoadMessage` returns `true` with `mHiccup` set; and for every message with `mHiccup` set
`ConvertMessageToTXT` and `ConvertMessageToRTF` write nothing. -/
theorem LoadMessage_hiccup (s : BPState) (fuel : Nat) (gObjectsArray : BPObject)
    (dateString : Nat → Bool → List Nat) (gFirstMsgTime : Option (List Nat))
    (BPmsg : BPObject) (firstMsg : Bool)
    (party : Bool × Option (List Nat) × Bool × Option (List Nat)) (oReal : Nat)
    (msgText : BPObject) (infoRef : Nat)
    (hparty : LoadMessage_party s fuel gObjectsArray BPmsg InitMessage = Res.ok party)
    (htime : LoadMessage_time s fuel gObjectsArray BPmsg = Res.ok oReal)
    (hmt : LoadMessage_messageText s fuel gObjectsArray BPmsg = Res.ok msgText)
    (horig : ReturnValueRefForKeyName s fuel BPmsg (cstr "OriginalMessage")
      = Run.returned kNone)
    (hinfo : ReturnValueRefForKeyName s fuel msgText (cstr "NSAttributeInfo")
      = Run.returned infoRef)
    (hattr : ReturnValueRefForKeyName s fuel msgText (cstr "NSAttributes")
      = Run.returned kNone) :
    (∃ msg t,
      LoadMessage s fuel gObjectsArray dateString gFirstMsgTime BPmsg InitMessage firstMsg
        = Res.ok (msg, t) ∧ msg.mHiccup = true) ∧
    (∀ (g : ICGlobals) (gUseRealNames gTrimEmailIDs : Bool) (msg : ICMessage),
      msg.mHiccup = true →
      ConvertMessageToTXT g gUseRealNames gTrimEmailIDs msg = Res.ok [] ∧
      ConvertMessageToRTF g gUseRealNames gTrimEmailIDs msg = Res.ok []) := by
  have hi := (valueRef_eq_ok s fuel msgText (cstr "NSAttributeInfo") infoRef).2 hinfo
  have ha := (valueRef_eq_ok s fuel msgText (cstr "NSAttributes") kNone).2 hattr
  have hnot : decide (kNone ≠ kNone) = false := by simp
  constructor
  · have hbody : LoadMessage_body s fuel gObjectsArray BPmsg msgText party.1 party.2.1
        InitMessage (kNone ≠ kNone) = Res.ok
          { mHiccup := true
            mFileTransfer := 0
            mText := none
            mWideStrSize := 0 } := by
      unfold LoadMessage_body
      rw [hnot]
      simp only [Bool.false_eq_true, if_false]
      unfold LoadMessage_files
      simp only [hmt, hi, ha, Res.ok_bind, if_true]
      rfl
    exact ⟨_, _, LoadMessage_of_body s fuel gObjectsArray dateString gFirstMsgTime BPmsg
      InitMessage firstMsg party oReal msgText kNone _ hparty htime hmt horig hbody, rfl⟩
  · intro g gUseRealNames gTrimEmailIDs msg hh
    constructor
    · unfold ConvertMessageToTXT
      rw [if_pos hh]
    · unfold ConvertMessageToRTF
      rw [if_pos hh]

/-- C22 at the message of `hiccupLog`. -/
theorem LoadMessage_hiccup_witness :
    Load_bplist (buildFile hiccupLog 0) = some hiccupState ∧
    (∃ msg t,
      LoadMessage hiccupState 3 (sampleArchive hiccupState) (fun _ _ => []) none
        (sampleMessage hiccupState) InitMessage true = Res.ok (msg, t) ∧
      msg.mHiccup = true) ∧
    convertSampleLog hiccupLog 0 false true false
      = Res.ok (cstr "Chat window opened on 2001-01-01 00:00:00:\n") :=
  ⟨by set_option maxRecDepth 100000 in decide,
    (LoadMessage_hiccup hiccupState 3 (sampleArchive hiccupState) (fun _ _ => []) none
      (sampleMessage hiccupState) true bobParty 0 (sampleDictAt hiccupState 46) kNone
      (by set_option maxRecDepth 100000 in decide)
      (by set_option maxRecDepth 100000 in decide)
      (by set_option maxRecDepth 100000 in decide)
      (by set_option maxRecDepth 100000 in decide)
      (by set_option maxRecDepth 100000 in decide)
      (by set_option maxRecDepth 100000 in decide)).1,
    by set_option maxRecDepth 100000 in decide⟩

/-! ## `ConvertNSDate` and `ConvertUnicodeToUTF8` on their own -/

/-- C23, the code's behaviour, with `LOCAL_TIME_ZONE` 0.  The `double` 0.0 gives
`2001-01-01 00:00:00`.  The `double` 2678400.0, with the bits `41446F4000000000`, is the
number of seconds of 31 days, from the first of January to the first of February 2001,
and gives `2001-01-32 00:00:00`; the seconds of 365 days give `2001-12-32 00:00:00`: the
loops stop when `dayBank` equals the days of the month or year, and `dayBank` is added to
day 1. -/
theorem ConvertNSDate_first_of_month :
    ConvertNSDate 0 0 kDateSaveLong = some (cstr "2001-01-01 00:00:00") ∧
    doubleBitsOfNat 2678400 = 0x41446F4000000000 ∧
    (doubleOfBits 0x41446F4000000000).map (fun x => decide (x.1 = 31 * 86400 * (x.2 : Int)))
      = some true ∧
    ConvertNSDate 0 0x41446F4000000000 kDateSaveLong = some (cstr "2001-01-32 00:00:00") ∧
    (doubleOfBits (doubleBitsOfNat 31536000)).map
      (fun x => decide (x.1 = 365 * 86400 * (x.2 : Int))) = some true ∧
    ConvertNSDate 0 (doubleBitsOfNat 31536000) kDateSaveLong
      = some (cstr "2001-12-32 00:00:00") := by
  refine ⟨by decide, by decide, by decide, by decide, by decide, by decide⟩

/-- C24, the code's behaviour.  The code unit `00E9` gives the single byte `E9` where the
canonical encoding is `C3 A9`, and the code unit `9000` gives no byte where the canonical
encoding is `E9 80 80`: the two bytes are read as `char`s, and a byte from `80` on makes
`wc` negative or takes 256 off it.  For the code units below `0800` whose low byte is below
`80`, and for `0800`, `202A` and `7F7F`, the allocation holds the canonical encoding. -/
theorem ConvertUnicodeToUTF8_signed_char :
    ConvertUnicodeToUTF8 0x00 0xE9 = [0xE9, 0, 0, 0, 0] ∧ utf8Canonical 0x00E9 = [0xC3, 0xA9] ∧
    ConvertUnicodeToUTF8 0x90 0x00 = [0, 0, 0, 0, 0] ∧
    utf8Canonical 0x9000 = [0xE9, 0x80, 0x80] ∧
    (∀ c0 < 8, ∀ c1 < 128,
      ConvertUnicodeToUTF8 c0 c1 = inFiveBytes (utf8Canonical (c0 * 256 + c1))) ∧
    ConvertUnicodeToUTF8 0x08 0x00 = inFiveBytes (utf8Canonical 0x0800) ∧
    ConvertUnicodeToUTF8 0x20 0x2A = inFiveBytes (utf8Canonical 0x202A) ∧
    ConvertUnicodeToUTF8 0x7F 0x7F = inFiveBytes (utf8Canonical 0x7F7F) := by
  refine ⟨by decide, by decide, by decide, by decide, ?_, by decide, by decide, by decide⟩
  set_option maxRecDepth 1000000 in decide

/-- C25, the code's behaviour.  For every code unit from `D800` to `DFFF` the conversion
is the low byte of the code unit, as one byte: the high byte, read as a `char`, makes `wc`
negative, the branch `wc < 0x80` is taken and the test for the forbidden range is not
reached.  The code unit `D841` gives the string `A`. -/
theorem ConvertUnicodeToUTF8_surrogate :
    (∀ c0 < 0xE0, 0xD8 ≤ c0 → ∀ c1 < 256, ConvertUnicodeToUTF8 c0 c1 = [c1, 0, 0, 0, 0]) ∧
    cBytes (ConvertUnicodeToUTF8 0xD8 0x41) = cstr "A" := by
  refine ⟨?_, by decide⟩
  set_option maxRecDepth 1000000 in decide

/-! ## `WriteSenderName` -/

/-- The loop of `WriteSenderName` ends with -1 when no index in its range matches, and
otherwise with the first index that does. -/
theorem WriteSenderName_index_spec (ids : List (List Nat)) (mSenderID copy : List Nat) :
    ∀ (n a : Nat),
      (WriteSenderName_index ids mSenderID copy n a = -1 ∧
        ∀ j, a ≤ j → j < a + n → ¬ senderMatches ids mSenderID copy j) ∨
      (∃ k : Nat, WriteSenderName_index ids mSenderID copy n a = (k : Int) ∧ a ≤ k ∧
        k < a + n ∧ senderMatches ids mSenderID copy k ∧
        ∀ j, a ≤ j → j < k → ¬ senderMatches ids mSenderID copy j) := by
  intro n
  induction n with
  | zero =>
    intro a
    exact Or.inl ⟨rfl, fun j h1 h2 => by omega⟩
  | succ n ih =>
    intro a
    rw [WriteSenderName_index]
    by_cases hm : senderMatches ids mSenderID copy a
    · have hc : strcmp (ids.getD a []) mSenderID = 0 ∨ strcmp (ids.getD a []) copy = 0 := by
        rcases hm with h | h
        · exact Or.inl ((strcmp_eq_zero_iff _ _).2 h)
        · exact Or.inr ((strcmp_eq_zero_iff _ _).2 h)
      rw [if_pos hc]
      exact Or.inr ⟨a, rfl, le_refl a, by omega, hm, fun j h1 h2 => by omega⟩
    · have hc : ¬ (strcmp (ids.getD a []) mSenderID = 0 ∨ strcmp (ids.getD a []) copy = 0) := by
        intro h
        apply hm
        rcases h with h | h
        · exact Or.inl ((strcmp_eq_zero_iff _ _).1 h)
        · exact Or.inr ((strcmp_eq_zero_iff _ _).1 h)
      rw [if_neg hc]
      rcases ih (a + 1) with ⟨h1, h2⟩ | ⟨k, h1, h2, h3, h4, h5⟩
      · refine Or.inl ⟨h1, fun j hj1 hj2 => ?_⟩
        by_cases hja : j = a
        · rw [hja]; exact hm
        · exact h2 j (by omega) (by omega)
      · refine Or.inr ⟨k, h1, by omega, by omega, h4, fun j hj1 hj2 => ?_⟩
        by_cases hja : j = a
        · rw [hja]; exact hm
        · exact h5 j (by omega) hj2

/-- The copy that `WriteSenderName` makes of the sender ID is the canonicalised ID of the
design. -/
theorem senderCompareCopy_eq_canonical (mSenderID : List Nat) :
    senderCompareCopy mSenderID = canonicalSenderID (cBytes mSenderID) := by
  unfold senderCompareCopy canonicalSenderID cutAtAt
  cases h : (cBytes mSenderID).takeWhile (fun c => c ≠ 0x40) with
  | nil => simp
  | cons c rest =>
    by_cases hc : c = 0x2B
    · subst hc
      simp
    · simp only [List.head?_cons, Option.some.injEq, hc, if_false]
      split
      · next heq =>
        simp only [List.cons.injEq] at heq
        exact absurd heq.1 hc
      · rfl

/-- C26 (amended): the index that `WriteSenderName` records for the sender ID `mSenderID`
is the first index below `gNumParticipantIDs` at which the ID equals the sender ID or
equals the canonicalised sender ID, the two being tried together at each index; it is -1
exactly when no index matches either.  The canonicalised sender ID, which is the copy that
the function makes, is the sender ID cut at its first `@` and then without one leading
`+`, for every sender ID. -/
theorem WriteSenderName_index_first (ids : List (List Nat)) (mSenderID : List Nat) (n : Nat) :
    (WriteSenderName_index ids mSenderID (senderCompareCopy mSenderID) n 0 = -1 ↔
      ∀ j < n, ¬ senderMatches ids mSenderID (canonicalSenderID (cBytes mSenderID)) j) ∧
    (∀ k : Nat, WriteSenderName_index ids mSenderID (senderCompareCopy mSenderID) n 0
        = (k : Int) ↔
      k < n ∧ senderMatches ids mSenderID (canonicalSenderID (cBytes mSenderID)) k ∧
        ∀ j < k, ¬ senderMatches ids mSenderID (canonicalSenderID (cBytes mSenderID)) j) ∧
    senderCompareCopy mSenderID = canonicalSenderID (cBytes mSenderID) ∧
    canonicalSenderID (cstr "+15551235555") = cstr "15551235555" ∧
    canonicalSenderID (cstr "e:user@domain.com") = cstr "e:user" ∧
    canonicalSenderID (cstr "+1555@x") = cstr "1555" := by
  rw [senderCompareCopy_eq_canonical]
  generalize canonicalSenderID (cBytes mSenderID) = copy
  refine ⟨?_, ?_, rfl, by decide, by decide, by decide⟩
  · constructor
    · intro h j hj
      rcases WriteSenderName_index_spec ids mSenderID copy n 0 with ⟨_, h2⟩ | ⟨k, h1, _⟩
      · exact h2 j (Nat.zero_le j) (by omega)
      · rw [h] at h1
        omega
    · intro h
      rcases WriteSenderName_index_spec ids mSenderID copy n 0 with ⟨h1, _⟩ | ⟨k, _, _, h3, h4, _⟩
      · exact h1
      · exact absurd h4 (h k (by omega))
  · intro k
    constructor
    · intro h
      rcases WriteSenderName_index_spec ids mSenderID copy n 0 with ⟨h1, _⟩ | ⟨k1, h1, _, h3, h4, h5⟩
      · rw [h] at h1
        omega
      · rw [h] at h1
        have hk : k = k1 := by omega
        subst hk
        exact ⟨by omega, h4, fun j hj => h5 j (Nat.zero_le j) hj⟩
    · rintro ⟨h1, h2, h3⟩
      rcases WriteSenderName_index_spec ids mSenderID copy n 0 with ⟨_, h5⟩ | ⟨k1, h4, _, h6, h7, h8⟩
      · exact absurd h2 (h5 k (Nat.zero_le k) (by omega))
      · rw [h4]
        have hk : k1 = k := by
          rcases Nat.lt_trichotomy k1 k with hlt | heq | hgt
          · exact absurd h7 (h3 k1 hlt)
          · exact heq
          · exact absurd h2 (h8 k (Nat.zero_le k) hgt)
        rw [hk]

/-- C26 fails as stated: with the IDs `alice` and `alice@x` and the sender ID `alice@x`,
whose copy is `alice`, the loop stops at index 0, where the ID equals the copy and not the
sender ID, although the ID at index 1 equals the sender ID; in RTF the name is written in
the colour of index 0. -/
theorem WriteSenderName_index_counterexample :
    senderCompareCopy (cstr "alice@x") = cstr "alice" ∧
    WriteSenderName_index [cstr "alice", cstr "alice@x"] (cstr "alice@x") (cstr "alice") 2 0
      = 0 ∧
    [cstr "alice", cstr "alice@x"].getD 0 [] ≠ cstr "alice@x" ∧
    [cstr "alice", cstr "alice@x"].getD 1 [] = cstr "alice@x" ∧
    WriteSenderName aliceGlobals false false
      { InitMessage with mSenderID := some (cstr "alice@x") } true
      = Res.ok (cstr "\\cf2 alice@x") := by
  refine ⟨by decide, by decide, by decide, by decide, by decide⟩

/-- C27, the code's behaviour.  With `gTrimEmailIDs` set and real names not used, the
sender ID `ab:cd` is written as `cd`: the start is moved past the first `:` of the ID,
whatever stands before it.  The sender ID `e:user@domain` is written as `user`, and
unchanged when `gTrimEmailIDs` is not set.  For `a@b:c`, where the `:` comes after the `@`,
the length wraps. -/
theorem WriteSenderName_trims_to_colon :
    WriteSenderName aliceGlobals false true
      { InitMessage with mSenderID := some (cstr "ab:cd") } false = Res.ok (cstr "cd") ∧
    WriteSenderName aliceGlobals false true
      { InitMessage with mSenderID := some (cstr "e:user@domain") } false
      = Res.ok (cstr "user") ∧
    WriteSenderName aliceGlobals false false
      { InitMessage with mSenderID := some (cstr "e:user@domain") } false
      = Res.ok (cstr "e:user@domain") ∧
    WriteSenderName aliceGlobals false false
      { InitMessage with mSenderID := some (cstr "ab:cd") } false = Res.ok (cstr "ab:cd") ∧
    WriteSenderName_accountID true (cstr "a@b:c") = Res.outOfBounds := by
  refine ⟨by decide, by decide, by decide, by decide, by decide⟩

/-- The string `nameColor` for a known index `k`. -/
theorem WriteSenderName_color_known (mFileTransfer k : Nat) :
    WriteSenderName_color mFileTransfer (k : Int)
      = (if mFileTransfer ≠ 0 then cstr "\\i1 " else []) ++ cstr "\\cf" ++
          [0x30 + (k % 5 + 2)] ++ cstr " " := by
  have hne : ¬ ((k : Int) = -1) := by omega
  have hmod : (k : Int).tmod 5 + 2 = ((k % 5 + 2 : Nat) : Int) := by
    rw [Int.tmod_eq_emod (by omega) (by omega)]
    push_cast
    rfl
  have hd : ∀ r < 5, printf_d ((r + 2 : Nat) : Int) = [0x30 + (r + 2)] := by decide
  unfold WriteSenderName_color
  rw [if_neg hne, hmod, hd (k % 5) (Nat.mod_lt k (by omega))]

/-- The string `nameColor` for the index -1. -/
theorem WriteSenderName_color_unknown (mFileTransfer : Nat) :
    WriteSenderName_color mFileTransfer (-1)
      = (if mFileTransfer ≠ 0 then cstr "\\i1 " else []) ++ cstr "\\cf0 " := by
  have h : printf_d (if (-1 : Int) = -1 then 0 else (-1 : Int).tmod 5 + 2) = [0x30] := by
    decide
  have h2 : cstr "\\cf" ++ ([0x30] ++ cstr " ") = cstr "\\cf0 " := by decide
  unfold WriteSenderName_color
  rw [h, List.append_assoc, List.append_assoc, h2]

/-- C30. For a message with a sender ID, what `WriteSenderName` writes in RTF is what it
writes in plain text, the name, with the string `colour` before it.  `colour` is `\i1 `
exactly when `mFileTransfer` is not 0, and then `\cfK ` with the one digit `K`: `K` is 0
exactly when the recorded index is -1, and otherwise the index is some `k` below
`gNumParticipantIDs` and `K` is `k mod 5 + 2`, which lies between 2 and 6 and is the same
for `k` and `k + 5 m`.  The recorded index is that of the sender ID or of its copy, which
for a sender ID such as `+15551235555` is the ID without the `+`. -/
theorem WriteSenderName_rtf_colour (g : ICGlobals) (gUseRealNames gTrimEmailIDs : Bool)
    (msg : ICMessage) (id : List Nat) (hid : msg.mSenderID = some id) :
    (∃ colour : List Nat,
      (WriteSenderName g gUseRealNames gTrimEmailIDs msg true
        = do
          let name ← WriteSenderName g gUseRealNames gTrimEmailIDs msg false
          pure (colour ++ name)) ∧
      (∀ name, WriteSenderName g gUseRealNames gTrimEmailIDs msg false = Res.ok name →
        WriteSenderName g gUseRealNames gTrimEmailIDs msg true = Res.ok (colour ++ name)) ∧
      ((WriteSenderName_index g.gParticipantIDs (cBytes id) (senderCompareCopy (cBytes id))
            g.gNumParticipantIDs 0 = -1 ∧
          colour = (if msg.mFileTransfer ≠ 0 then cstr "\\i1 " else []) ++ cstr "\\cf0 ") ∨
        (∃ k : Nat, k < g.gNumParticipantIDs ∧
          WriteSenderName_index g.gParticipantIDs (cBytes id) (senderCompareCopy (cBytes id))
            g.gNumParticipantIDs 0 = (k : Int) ∧
          colour = (if msg.mFileTransfer ≠ 0 then cstr "\\i1 " else []) ++ cstr "\\cf" ++
            [0x30 + (k % 5 + 2)] ++ cstr " " ∧
          2 ≤ k % 5 + 2 ∧ k % 5 + 2 ≤ 6))) ∧
    (∀ k m : Nat, (k + 5 * m) % 5 + 2 = k % 5 + 2) ∧
    (∀ (mFileTransfer k m : Nat),
      WriteSenderName_color mFileTransfer ((k + 5 * m : Nat) : Int)
        = WriteSenderName_color mFileTransfer (k : Int)) := by
  have hrtf : WriteSenderName g gUseRealNames gTrimEmailIDs msg true
      = (do
          let name ← WriteSenderName g gUseRealNames gTrimEmailIDs msg false
          pure (WriteSenderName_color msg.mFileTransfer
            (WriteSenderName_index g.gParticipantIDs (cBytes id) (senderCompareCopy (cBytes id))
              g.gNumParticipantIDs 0) ++ name)) := by
    unfold WriteSenderName
    simp only [hid]
    cases h1 : WriteSenderName_realName g gUseRealNames
        (WriteSenderName_index g.gParticipantIDs (cBytes id) (senderCompareCopy (cBytes id))
          g.gNumParticipantIDs 0) with
    | ok realName =>
      simp only [Res.ok_bind]
      cases h2 : WriteSenderName_nameToUse gTrimEmailIDs (cBytes id) realName <;> rfl
    | fail => rfl
    | nullDeref => rfl
    | noReturn => rfl
    | outOfBounds => rfl
  refine ⟨⟨_, hrtf, fun name hname => ?_, ?_⟩, fun k m => by omega, fun ft k m => ?_⟩
  · rw [hrtf, hname]
    rfl
  · rcases WriteSenderName_index_spec g.gParticipantIDs (cBytes id)
        (senderCompareCopy (cBytes id)) g.gNumParticipantIDs 0
      with ⟨h3, _⟩ | ⟨k, h3, _, h4, _, _⟩
    · refine Or.inl ⟨h3, ?_⟩
      rw [h3, WriteSenderName_color_unknown]
    · refine Or.inr ⟨k, by omega, h3, ?_, by omega, ?_⟩
      · rw [h3, WriteSenderName_color_known]
      · have := Nat.mod_lt k (show 5 > 0 by omega)
        omega
  · rw [WriteSenderName_color_known, WriteSenderName_color_known]
    congr 3
    omega

/-- C30 at the sender `+15551235555` of a message that sends a file, with the IDs `bob`
and `15551235555`: the index is 1, that of the ID without the `+`, and the colour is 3. -/
theorem WriteSenderName_rtf_colour_witness :
    WriteSenderName phoneGlobals false false { phoneMessage with mFileTransfer := 1 } false
      = Res.ok (cstr "+15551235555") ∧
    WriteSenderName phoneGlobals false false { phoneMessage with mFileTransfer := 1 } true
      = Res.ok (cstr "\\i1 \\cf3 +15551235555") := by
  have hname : WriteSenderName phoneGlobals false false
      { phoneMessage with mFileTransfer := 1 } false = Res.ok (cstr "+15551235555") := by
    decide
  refine ⟨hname, ?_⟩
  obtain ⟨colour, _, h2, h3⟩ := (WriteSenderName_rtf_colour phoneGlobals false false
    { phoneMessage with mFileTransfer := 1 } (cstr "+15551235555") rfl).1
  rw [h2 _ hname]
  rcases h3 with ⟨h1, _⟩ | ⟨k, _, h1, hc, _⟩
  · exact absurd h1 (by decide)
  · have hk : k = 1 := by
      have h0 : WriteSenderName_index phoneGlobals.gParticipantIDs
          (cBytes (cstr "+15551235555")) (senderCompareCopy (cBytes (cstr "+15551235555")))
          phoneGlobals.gNumParticipantIDs 0 = 1 := by decide
      rw [h0] at h1
      omega
    subst hk
    rw [hc]
    decide

/-! ## `ConvertMessageToTXT` -/

/-- The loop over the 16-bit characters writes, in order, the string that
`ConvertUnicodeToUTF8` makes of each. -/
theorem ConvertMessageToTXT_wide_eq (mText : List Nat) :
    ∀ (n a : Nat),
      ConvertMessageToTXT_wide mText n a
        = (List.range n).flatMap (fun i =>
            cBytes (ConvertUnicodeToUTF8 (mText.getD (a + 2 * i) 0)
              (mText.getD (a + 2 * i + 1) 0))) := by
  intro n
  induction n with
  | zero => intro a; rfl
  | succ n ih =>
    intro a
    rw [ConvertMessageToTXT_wide, ih, List.range_succ_eq_map, List.flatMap_cons,
      List.flatMap_map]
    simp only [Nat.mul_zero, Nat.add_zero]
    congr 1
    apply List.flatMap_congr
    intro i _
    simp only [Function.comp, Nat.succ_eq_add_one]
    rw [show a + 2 + 2 * i = a + 2 * (i + 1) by ring]

/-- The text that `ConvertMessageToTXT` and `ConvertMessageToRTF` use for a message that
has one. -/
theorem messageTextRead_some (msg : ICMessage) (text : List Nat) (hx : msg.mText = some text) :
    messageTextRead msg = Res.ok text := by
  unfold messageTextRead messageText
  rw [hx]
  split
  · rfl
  · split <;> rfl

/-- With neither real names nor trimming, the name that `WriteSenderName` writes in plain
text is the sender ID, whatever the sender ID is. -/
theorem WriteSenderName_plain (g : ICGlobals) (msg : ICMessage) (id : List Nat)
    (hid : msg.mSenderID = some id) :
    WriteSenderName g false false msg false = Res.ok (cBytes id) := by
  unfold WriteSenderName
  simp only [hid]
  unfold WriteSenderName_realName
  simp only [Bool.false_eq_true, if_false, Res.ok_bind]
  unfold WriteSenderName_nameToUse WriteSenderName_accountID
  simp only [Bool.false_eq_true, false_and, if_false, le_refl, if_true, List.drop_zero,
    List.take_length, Res.ok_bind]
  have hidem : cBytes (cBytes id) = cBytes id := by
    unfold cBytes
    rw [List.takeWhile_takeWhile]
    simp
  rw [hidem]
  rfl

/-- C28 (amended): for a message without `mHiccup` that has a time and a text,
`ConvertMessageToTXT` writes the time, a space and then `iChat` and a space when
`mFromClient` is set, or else the name that `WriteSenderName` writes, which with neither
real names nor trimming is the sender ID, whatever it is; after that it writes
` sent file <text>.` when `mFileTransfer` is 1, ` sent <n> files: <text>.` when
`mFileTransfer` is `n > 1`, and otherwise `: <text>`, each with a line feed, whether
`mFromClient` is set or not; for a text of 16-bit characters `<text>` is, in order, the
strings that `ConvertUnicodeToUTF8` makes of the characters. -/
theorem ConvertMessageToTXT_line (g : ICGlobals) (gUseRealNames gTrimEmailIDs : Bool)
    (msg : ICMessage) (time text : List Nat)
    (hh : msg.mHiccup = false) (ht : msg.mTime = some time) (hx : msg.mText = some text) :
    (msg.mFromClient = true →
      ConvertMessageToTXT g gUseRealNames gTrimEmailIDs msg
        = Res.ok (cBytes time ++ cstr " " ++ gClientName ++ cstr " " ++
            ConvertMessageToTXT_body msg text)) ∧
    (msg.mFromClient = false →
      ConvertMessageToTXT g gUseRealNames gTrimEmailIDs msg
        = do
          let name ← WriteSenderName g gUseRealNames gTrimEmailIDs msg false
          pure (cBytes time ++ cstr " " ++ name ++ ConvertMessageToTXT_body msg text)) ∧
    (msg.mFromClient = false → ∀ name,
      WriteSenderName g gUseRealNames gTrimEmailIDs msg false = Res.ok name →
      ConvertMessageToTXT g gUseRealNames gTrimEmailIDs msg
        = Res.ok (cBytes time ++ cstr " " ++ name ++ ConvertMessageToTXT_body msg text)) ∧
    (msg.mFromClient = false → ∀ id, msg.mSenderID = some id →
      ConvertMessageToTXT g false false msg
        = Res.ok (cBytes time ++ cstr " " ++ cBytes id ++ ConvertMessageToTXT_body msg text)) ∧
    (msg.mFileTransfer = 1 →
      ConvertMessageToTXT_body msg text = cstr " sent file " ++ cBytes text ++ cstr ".\n") ∧
    (1 < msg.mFileTransfer →
      ConvertMessageToTXT_body msg text
        = cstr " sent " ++ decimal msg.mFileTransfer ++ cstr " files: " ++ cBytes text ++
            cstr ".\n") ∧
    (msg.mFileTransfer = 0 → msg.mWideStrSize = 0 →
      ConvertMessageToTXT_body msg text = cstr ": " ++ cBytes text ++ cstr "\n") ∧
    (msg.mFileTransfer = 0 → msg.mWideStrSize ≠ 0 →
      ConvertMessageToTXT_body msg text
        = cstr ": " ++
          (List.range (msg.mWideStrSize * 2 % 2 ^ 64 / 2)).flatMap (fun i =>
            cBytes (ConvertUnicodeToUTF8 (text.getD (2 * i) 0) (text.getD (2 * i + 1) 0))) ++
          cstr "\n") := by
  have hhf : ¬ (msg.mHiccup = true) := by simp [hh]
  have hp : percentS msg.mTime = cBytes time := by rw [ht]; rfl
  have hm := messageTextRead_some msg text hx
  have hsender : ∀ (r t : Bool), msg.mFromClient = false →
      ConvertMessageToTXT g r t msg
        = (do
          let name ← WriteSenderName g r t msg false
          pure (cBytes time ++ cstr " " ++ name ++ ConvertMessageToTXT_body msg text)) := by
    intro r t hc
    have hcf : ¬ (msg.mFromClient = true) := by simp [hc]
    unfold ConvertMessageToTXT ConvertMessageToTXT_head
    simp only [if_neg hhf, hp, hm, if_neg hcf]
    cases WriteSenderName g r t msg false <;> rfl
  refine ⟨?_, hsender gUseRealNames gTrimEmailIDs, ?_, ?_, ?_, ?_, ?_, ?_⟩
  · intro hc
    unfold ConvertMessageToTXT ConvertMessageToTXT_head
    simp only [if_neg hhf, hp, hm, if_pos hc, Res.ok_bind]
    rfl
  · intro hc name hname
    rw [hsender gUseRealNames gTrimEmailIDs hc, hname]
    rfl
  · intro hc id hid
    rw [hsender false false hc, WriteSenderName_plain g msg id hid]
    rfl
  · intro h1
    unfold ConvertMessageToTXT_body
    rw [if_pos (by omega), if_pos h1]
  · intro h1
    unfold ConvertMessageToTXT_body
    rw [if_pos (by omega), if_neg (by omega)]
  · intro h0 hw
    unfold ConvertMessageToTXT_body
    rw [if_neg (by omega), if_pos hw]
  · intro h0 hw
    unfold ConvertMessageToTXT_body
    rw [if_neg (by omega), if_neg hw, ConvertMessageToTXT_wide_eq]
    simp only [Nat.zero_add]

/-- C28 at the text message `hi` from `+15551235555`, whose ID is in the list as
`15551235555` with the real name `Ann`. -/
theorem ConvertMessageToTXT_line_witness :
    WriteSenderName phoneGlobals true false phoneMessage false = Res.ok (cstr "Ann") ∧
    ConvertMessageToTXT phoneGlobals true false phoneMessage
      = Res.ok (cstr "19:00:00 Ann: hi\n") ∧
    ConvertMessageToTXT phoneGlobals false false phoneMessage
      = Res.ok (cstr "19:00:00 +15551235555: hi\n") := by
  have hname : WriteSenderName phoneGlobals true false phoneMessage false
      = Res.ok (cstr "Ann") := by decide
  have h := ConvertMessageToTXT_line phoneGlobals true false phoneMessage (cstr "19:00:00")
    (cstr "hi") rfl rfl rfl
  refine ⟨hname, ?_, ?_⟩
  · rw [h.2.2.1 rfl (cstr "Ann") hname]
    decide
  · rw [h.2.2.2.1 rfl (cstr "+15551235555") rfl]
    decide

/-- C28 fails as stated: for a message from the client that sends one file,
`ConvertMessageToTXT` writes the line of a file transfer after the client's name, and not
`<time> <clientName> : <text>`. -/
theorem ConvertMessageToTXT_line_counterexample :
    clientFileMessage.mHiccup = false ∧ clientFileMessage.mFromClient = true ∧
    ConvertMessageToTXT aliceGlobals false false clientFileMessage
      = Res.ok (cstr "00:00:00 iChat  sent file a.txt.\n") ∧
    cstr "00:00:00 iChat  sent file a.txt.\n" ≠ cstr "00:00:00 iChat : a.txt\n" := by
  refine ⟨rfl, rfl, by decide, by decide⟩

/-! ## `Convert_ichat` -/

/-- The loop of `Convert_ichat` from a message after the first one on, in plain text: when
each message loads and is written, the loop writes the messages in order. -/
theorem Convert_ichat_loop_txt (s : BPState) (fuel : Nat) (g : ICGlobals)
    (gUseRealNames gTrimEmailIDs : Bool) (dateString : Nat → Bool → List Nat)
    (t0 : List Nat) (msgs : Nat → ICMessage) (outs : Nat → List Nat) :
    ∀ (n a : Nat), 0 < a →
      (∀ i < n, Convert_ichat_load s fuel g dateString (some t0) (a + i)
        = Res.ok (msgs (a + i), some t0)) →
      (∀ i < n, ConvertMessageToTXT g gUseRealNames gTrimEmailIDs (msgs (a + i))
        = Res.ok (outs (a + i))) →
      Convert_ichat_loop s fuel g gUseRealNames gTrimEmailIDs dateString false n a (some t0)
        = Res.ok ((List.range n).flatMap (fun i => outs (a + i))) := by
  intro n
  induction n with
  | zero => intro a _ _ _; rfl
  | succ n ih =>
    intro a ha hload hout
    have h0 := hload 0 (by omega)
    have h1 := hout 0 (by omega)
    simp only [Nat.add_zero] at h0 h1
    have hrest := ih (a + 1) (by omega)
      (fun i hi => by
        have := hload (i + 1) (by omega)
        rw [show a + (i + 1) = a + 1 + i by omega] at this
        exact this)
      (fun i hi => by
        have := hout (i + 1) (by omega)
        rw [show a + (i + 1) = a + 1 + i by omega] at this
        exact this)
    have hw : Convert_ichat_write g gUseRealNames gTrimEmailIDs false (some t0) a (msgs a)
        = Res.ok (outs a) := by
      unfold Convert_ichat_write
      simp only [if_neg (show ¬ a = 0 by omega), Bool.false_eq_true, if_false, h1, Res.ok_bind]
      rfl
    rw [Convert_ichat_loop]
    simp only [h0, hw, hrest, Res.ok_bind]
    rw [List.range_succ_eq_map, List.flatMap_cons, List.flatMap_map]
    simp only [Nat.add_zero]
    show Res.ok _ = Res.ok _
    congr 2
    apply List.flatMap_congr
    intro i _
    simp only [Function.comp, Nat.succ_eq_add_one]
    rw [show a + 1 + i = a + (i + 1) by omega]

/-- What `Convert_ichat` writes in plain text.  When the message list has `n ≥ 1` elements,
each of them loads as the message `msgs a`, the first one setting `gFirstMsgTime` to the
long date string `t0` of its time, and `ConvertMessageToTXT` writes `outs a` for `msgs a`,
then `Convert_ichat` writes `Chat window opened on <t0>:` and a line feed, then `outs 0`,
..., `outs (n-1)` in order, where `outs a` is empty for a message with `mHiccup` set. -/
theorem Convert_ichat_txt (s : BPState) (fuel : Nat) (g : ICGlobals)
    (gUseRealNames gTrimEmailIDs : Bool) (dateString : Nat → Bool → List Nat)
    (gFirstMsgTime : Option (List Nat)) (n : Nat) (t0 : List Nat)
    (msgs : Nat → ICMessage) (outs : Nat → List Nat)
    (hn : g.gMessageListArray.oSize = n) (hpos : 0 < n)
    (hfirst : Convert_ichat_load s fuel g dateString gFirstMsgTime 0
      = Res.ok (msgs 0, some t0))
    (hload : ∀ a, 0 < a → a < n →
      Convert_ichat_load s fuel g dateString (some t0) a = Res.ok (msgs a, some t0))
    (hout : ∀ a < n,
      ConvertMessageToTXT g gUseRealNames gTrimEmailIDs (msgs a) = Res.ok (outs a)) :
    Convert_ichat s fuel g gUseRealNames gTrimEmailIDs dateString gFirstMsgTime false
      = Res.ok (cstr "Chat window opened on " ++ cBytes t0 ++ cstr ":\n" ++
          (List.range n).flatMap outs) ∧
    (∀ a < n, (msgs a).mHiccup = true → outs a = []) := by
  refine ⟨?_, ?_⟩
  · obtain ⟨m, rfl⟩ : ∃ m, n = m + 1 := ⟨n - 1, by omega⟩
    have hrest := Convert_ichat_loop_txt s fuel g gUseRealNames gTrimEmailIDs dateString t0
      msgs outs m 1 (by omega)
      (fun i hi => hload (1 + i) (by omega) (by omega))
      (fun i hi => hout (1 + i) (by omega))
    have hw : Convert_ichat_write g gUseRealNames gTrimEmailIDs false (some t0) 0 (msgs 0)
        = Res.ok (cstr "Chat window opened on " ++ cBytes t0 ++ cstr ":\n" ++ outs 0) := by
      unfold Convert_ichat_write WriteTimeHeader
      simp only [if_true, Bool.false_eq_true, if_false, hout 0 (by omega), Res.ok_bind]
      rfl
    unfold Convert_ichat
    rw [hn, Convert_ichat_loop]
    simp only [hfirst, hw, hrest, Res.ok_bind]
    rw [List.range_succ_eq_map, List.flatMap_cons, List.flatMap_map]
    show Res.ok _ = Res.ok _
    simp only [Bool.false_eq_true, if_false, List.nil_append, List.append_nil,
      List.append_assoc]
    congr 5
    apply List.flatMap_congr
    intro i _
    simp only [Function.comp, Nat.succ_eq_add_one]
    rw [Nat.add_comm]
  · intro a ha hh
    have h := hout a ha
    unfold ConvertMessageToTXT at h
    rw [if_pos hh] at h
    simp only [Res.ok.injEq] at h
    exact h.symm

/-- C29, the code's behaviour.  The one message of this chat log is a file transfer whose
list of files is empty: `LoadMessage` returns `true` on it, without `mHiccup` and with
`mText` at `NULL`, so that the message list interprets.  `Convert_ichat` then has
`ConvertMessageToTXT` pass the `NULL` text to `WriteToOutFile`, and writes no complete
output.  For the chat log of the design's scenario, with `LOCAL_TIME_ZONE` 0 and
`gTrimEmailIDs` set, what is written is exactly the two lines of the scenario. -/
theorem Convert_ichat_txt_null_text :
    loadSampleMessage noFilesLog 33 = Res.ok noFilesMessage ∧
    noFilesMessage.mHiccup = false ∧ noFilesMessage.mText = none ∧
    ConvertMessageToTXT unevenGlobals false false noFilesMessage = Res.nullDeref ∧
    convertSampleLog noFilesLog (-5) false false false = Res.nullDeref ∧
    convertSampleLog fixtureLog 0 false true false
      = Res.ok (cstr "Chat window opened on 2001-01-01 00:00:00:\n00:00:00 alice: hi\n") := by
  refine ⟨by set_option maxRecDepth 100000 in decide, rfl, rfl, by decide,
    by set_option maxRecDepth 100000 in decide, by set_option maxRecDepth 100000 in decide⟩

/-! ## The Unicode body in RTF -/

/-- C32, the code's behaviour: the loop over a Unicode body reads the two bytes of a code
unit as `char`s, so that a code unit from U+0080 to U+00FF gives a negative `wc`, which is
not above 127, and the single byte is written in place of the markup: for the body U+00E9,
U+2019, left brace, `ConvertMessageToRTF` writes the byte `E9`, then the markup of U+2019
with its decimal value 8217, then the escaped brace; the markup of U+00E9 would have the
decimal value 233. -/
theorem ConvertMessageToRTF_wide_signed_char :
    ConvertMessageToRTF_wide [0x00, 0xE9, 0x20, 0x19, 0x00, 0x7B, 0, 0] 3 0
      = [0xE9] ++ cstr "\\uc0\\u8217 " ++ cstr "\\\x7b" ∧
    ConvertMessageToRTF aliceGlobals false false wideMessage
      = Res.ok (cstr "\\cf1 00:00:00 \\cf2 alice@x\\cf0 : " ++ [0xE9] ++ cstr "\\uc0\\u8217 "
          ++ cstr "\\\x7b" ++ cstr "\n" ++ cstr "\\\n") ∧
    (∀ c1 < 256, 0x80 ≤ c1 → ConvertMessageToRTF_wide [0x00, c1] 1 0 = [c1]) ∧
    cstr "\\uc0\\u" ++ printf_d 233 ++ cstr " " ≠ [0xE9] := by
  refine ⟨by decide, by decide, ?_, by decide⟩
  set_option maxRecDepth 100000 in decide

/-! ## The sender as a Unicode string -/

/-- C35, the code's behaviour: in this chat log the first account ID and the sender's
account ID of the message are both the Unicode string `bob`.  `Load_ichat` stores the
account ID `bob`, which is what the participant extraction makes of that object, and
`LoadMessage` stores the sender ID `"<Unicode>"`: its loop converts the bytes of its own
zero-filled buffer where the sibling loops convert the bytes of the object. -/
theorem LoadMessage_unicode_sender_differs :
    LoadObject unicodeBobState 3 43 = some (true, unicodeBob) ∧
    unicodeBob.oType = kTypeStringUnicode ∧
    stripUnicode unicodeBob = cstr "bob" ∧
    senderFromUnicode unicodeBob = cstr "<Unicode>" ∧
    loadSampleLog unicodeBobLog false = Res.ok unicodeBobGlobals ∧
    unicodeBobGlobals.gParticipantIDs = [cstr "bob", cstr "bo@y"] ∧
    loadSampleMessage unicodeBobLog 33 = Res.ok
      { InitMessage with
        mSenderID := some (cstr "<Unicode>"), mTime := some [], mText := some (cstr "hi") } ∧
    (∀ obj, senderFromUnicode obj = stripUnicode obj ↔ stripUnicode obj = cstr "<Unicode>") := by
  have hall : ∀ obj, senderFromUnicode obj = cstr "<Unicode>" := by
    intro obj
    unfold senderFromUnicode
    rw [senderUnicodeLoop_zero, cBytes_replicate_zero]
    rfl
  refine ⟨by set_option maxRecDepth 100000 in decide,
    by set_option maxRecDepth 100000 in decide, by set_option maxRecDepth 100000 in decide,
    hall _, by set_option maxRecDepth 100000 in decide,
    by set_option maxRecDepth 100000 in decide,
    by set_option maxRecDepth 100000 in decide, fun obj => ?_⟩
  rw [hall obj]
  exact eq_comm

/-! ## The reference of a message -/

/-- C36, the code's behaviour: the message list of this chat log has one element, which
loads as an ASCII string, not as a UID.  `ReturnMessageRef(0)` executes `return false`,
that is it returns 0 and not the failure value `(uint64_t)-1`; `Convert_ichat` then loads
file object 0, the root dict, as the message, and writes a line for it. -/
theorem ReturnMessageRef_not_UID_returns_zero :
    Load_bplist (buildFile strayLog 0) = some strayState ∧
    loadSampleLog strayLog false = Res.ok strayGlobals ∧
    LoadObject strayState 3 34 = some (true, strayElement) ∧
    strayElement.oType = kTypeStringASCII ∧
    ReturnMessageRef strayState 3 strayGlobals 0 = Res.ok 0 ∧
    (0 : Nat) ≠ kNone ∧
    Convert_ichat strayState 3 strayGlobals false false (dateStringOf (-5)) none false
      = Res.ok (cstr "Chat window opened on 2000-12-31 19:00:00:\n19:00:00 bob: hi\n") := by
  refine ⟨by set_option maxRecDepth 100000 in decide,
    by set_option maxRecDepth 100000 in decide, by set_option maxRecDepth 100000 in decide,
    by set_option maxRecDepth 100000 in decide, by set_option maxRecDepth 100000 in decide,
    by decide, by set_option maxRecDepth 100000 in decide⟩

/-! ## The real name of the sender -/

/-- C39, the code's behaviour: the test before `gParticipantNames[nameIndex]` is
`nameIndex > gNumParticipantNames`, so that the index equal to the number of names passes
it and the element after the last name is read.  With one name and the account IDs `al@x`
and `bo@y`, the sender `bo@y` has index 1 and the read is outside the table; a sender
whose index is above the number of names, or unknown, gets the account ID written. -/
theorem WriteSenderName_reads_past_names :
    unevenGlobals.gParticipantNames.length = 1 ∧
    unevenGlobals.gNumParticipantNames = 1 ∧
    WriteSenderName_index unevenGlobals.gParticipantIDs (cstr "bo@y") (cstr "bo")
      unevenGlobals.gNumParticipantIDs 0 = 1 ∧
    WriteSenderName_realName unevenGlobals true 1 = Res.outOfBounds ∧
    WriteSenderName unevenGlobals true false boMessage false = Res.outOfBounds ∧
    WriteSenderName unevenGlobals false false boMessage false = Res.ok (cstr "bo@y") ∧
    WriteSenderName threeIDsGlobals true false boMessage false = Res.ok (cstr "bo@y") ∧
    WriteSenderName unevenGlobals true false
      { boMessage with mSenderID := some (cstr "zz") } false = Res.ok (cstr "zz") ∧
    (∀ g : ICGlobals, g.gParticipantNames.length = g.gNumParticipantNames →
      g.gNumParticipantNames < 2 ^ 64 →
      WriteSenderName_realName g true (g.gNumParticipantNames : Int) = Res.outOfBounds) := by
  refine ⟨by decide, by decide, by decide, by decide, by decide, by decide, by decide,
    by decide, fun g hlen hlt => ?_⟩
  unfold WriteSenderName_realName
  have h64 : toUInt64 (g.gNumParticipantNames : Int) = g.gNumParticipantNames := by
    unfold toUInt64
    have : ((g.gNumParticipantNames : Int)) % 2 ^ 64 = (g.gNumParticipantNames : Int) :=
      Int.emod_eq_of_lt (by omega) (by exact_mod_cast hlt)
    rw [this]
    exact Int.toNat_ofNat _
  rw [if_pos rfl, h64, if_neg (lt_irrefl _), if_neg (by omega)]
  have hnone : g.gParticipantNames[(g.gNumParticipantNames : Int).toNat]? = none := by
    rw [Int.toNat_ofNat, List.getElem?_eq_none_iff]
    omega
  rw [hnone]

/-! ## The empty ASCII string -/

/-- C40, the code's behaviour: for an ASCII string of length 0 `ReadData_StringASCII`
leaves `oData` at `NULL`.  The message of this chat log has such a string under
`NS.string`; `LoadMessage` passes its `oData` to `strlen`, a `NULL` pointer.
`ReturnValueRefForKeyName` passes the `oData` of a key of length 0 to `strcmp`.  The name
loop of `Load_ichat` tests `oSize > 0` first. -/
theorem LoadMessage_empty_string_null :
    LoadObject emptyTextState 3 48 = some (true, emptyText) ∧
    emptyText.oType = kTypeStringASCII ∧ emptyText.oSize = 0 ∧ emptyText.oData = none ∧
    loadSampleMessage emptyTextLog 33 = Res.nullDeref ∧
    Load_bplist (buildFile emptyKeyObjects 0) = some emptyKeyState ∧
    ReturnValueRefForKeyName emptyKeyState 3 (LoadObject_S1toS4 emptyKeyState 0).2 (cstr "a")
      = Run.nullDeref ∧
    copyName emptyText = Res.ok (cstr "<empty>") := by
  refine ⟨by set_option maxRecDepth 100000 in decide,
    by set_option maxRecDepth 100000 in decide, by set_option maxRecDepth 100000 in decide,
    by set_option maxRecDepth 100000 in decide, by set_option maxRecDepth 100000 in decide,
    by set_option maxRecDepth 100000 in decide, by set_option maxRecDepth 100000 in decide,
    by set_option maxRecDepth 100000 in decide⟩

/-! ## Closing the out file -/

/-- The stream that `CreateOutFile` opens has nothing written, and is neither flushed nor
closed. -/
theorem CreateOutFile_ok (gInFilePath : List Nat) (useRTF fopenSucceeds : Bool) (f : OutFile)
    (h : CreateOutFile gInFilePath useRTF fopenSucceeds = Res.ok f) :
    f.written = [] ∧ f.flushed = false ∧ f.closed = false := by
  unfold CreateOutFile at h
  split at h
  · cases h
  · split at h
    · cases h
    · split at h
      · simp only [Res.ok.injEq] at h
        subst h
        exact ⟨rfl, rfl, rfl⟩
      · cases h

/-- The loop of `Convert_ichat` neither closes nor flushes the stream. -/
theorem Convert_ichat_loopOut_open (s : BPState) (fuel : Nat) (g : ICGlobals)
    (gUseRealNames gTrimEmailIDs : Bool) (dateString : Nat → Bool → List Nat) (useRTF : Bool) :
    ∀ (n a : Nat) (gFirstMsgTime : Option (List Nat)) (f f' : OutFile) (b : Bool),
      Convert_ichat_loopOut s fuel g gUseRealNames gTrimEmailIDs dateString useRTF n a
        gFirstMsgTime f = Res.ok (b, f') →
      f'.closed = f.closed ∧ f'.path = f.path ∧ (f.flushed = false → f'.flushed = false) := by
  intro n
  induction n with
  | zero =>
    intro a t f f' b h
    rw [Convert_ichat_loopOut] at h
    simp only [Res.ok.injEq, Prod.mk.injEq] at h
    rw [← h.2]
    exact ⟨rfl, rfl, fun hf => hf⟩
  | succ n ih =>
    intro a t f f' b h
    rw [Convert_ichat_loopOut] at h
    cases hl : Convert_ichat_load s fuel g dateString t a with
    | fail =>
      rw [hl] at h
      simp only [Res.ok.injEq, Prod.mk.injEq] at h
      rw [← h.2]
      exact ⟨rfl, rfl, fun hf => hf⟩
    | ok message =>
      rw [hl] at h
      simp only [Res.ok_bind] at h
      cases hw : Convert_ichat_write g gUseRealNames gTrimEmailIDs useRTF message.2 a
          message.1 with
      | ok written =>
        rw [hw] at h
        simp only [Res.ok_bind] at h
        have := ih (a + 1) message.2 (WriteToOutFile f written) f' b h
        exact ⟨this.1, this.2.1, fun _ => this.2.2 rfl⟩
      | fail => rw [hw] at h; cases h
      | nullDeref => rw [hw] at h; cases h
      | noReturn => rw [hw] at h; cases h
      | outOfBounds => rw [hw] at h; cases h
    | nullDeref => rw [hl] at h; cases h
    | noReturn => rw [hl] at h; cases h
    | outOfBounds => rw [hl] at h; cases h

/-- The loop of `Convert_ichat` on the stream runs to its end exactly when the loop of the
embedding without the stream returns what was written, and the stream then has those bytes
after the ones it had. -/
theorem Convert_ichat_loopOut_complete (s : BPState) (fuel : Nat) (g : ICGlobals)
    (gUseRealNames gTrimEmailIDs : Bool) (dateString : Nat → Bool → List Nat) (useRTF : Bool) :
    ∀ (n a : Nat) (gFirstMsgTime : Option (List Nat)) (f : OutFile), f.flushed = false →
      (∀ out, Convert_ichat_loop s fuel g gUseRealNames gTrimEmailIDs dateString useRTF n a
          gFirstMsgTime = Res.ok out →
        Convert_ichat_loopOut s fuel g gUseRealNames gTrimEmailIDs dateString useRTF n a
          gFirstMsgTime f = Res.ok (true, { f with written := f.written ++ out })) ∧
      (∀ f', Convert_ichat_loopOut s fuel g gUseRealNames gTrimEmailIDs dateString useRTF n a
          gFirstMsgTime f = Res.ok (true, f') →
        ∃ out, Convert_ichat_loop s fuel g gUseRealNames gTrimEmailIDs dateString useRTF n a
          gFirstMsgTime = Res.ok out) := by
  intro n
  induction n with
  | zero =>
    intro a t f hf
    constructor
    · intro out h
      rw [Convert_ichat_loop] at h
      simp only [Res.ok.injEq] at h
      subst h
      rw [Convert_ichat_loopOut, List.append_nil]
    · intro f' _
      exact ⟨[], rfl⟩
  | succ n ih =>
    intro a t f hf
    rw [Convert_ichat_loopOut, Convert_ichat_loop]
    cases hl : Convert_ichat_load s fuel g dateString t a with
    | fail =>
      constructor
      · intro out h
        cases h
      · intro f' h
        simp only [Res.ok.injEq, Prod.mk.injEq, Bool.false_eq_true, false_and] at h
    | ok message =>
      simp only [Res.ok_bind]
      cases hw : Convert_ichat_write g gUseRealNames gTrimEmailIDs useRTF message.2 a
          message.1 with
      | ok written =>
        simp only [Res.ok_bind]
        have hrec := ih (a + 1) message.2 (WriteToOutFile f written) rfl
        constructor
        · intro out h
          cases hr : Convert_ichat_loop s fuel g gUseRealNames gTrimEmailIDs dateString useRTF
              n (a + 1) message.2 with
          | ok rest =>
            rw [hr] at h
            simp only [Res.ok_bind, Res.pure_eq_ok] at h
            subst h
            rw [hrec.1 rest hr]
            simp only [WriteToOutFile, List.append_assoc, hf]
          | fail => rw [hr] at h; cases h
          | nullDeref => rw [hr] at h; cases h
          | noReturn => rw [hr] at h; cases h
          | outOfBounds => rw [hr] at h; cases h
        · intro f' h
          obtain ⟨rest, hr⟩ := hrec.2 f' h
          exact ⟨written ++ rest, by rw [hr]; rfl⟩
      | fail => exact ⟨fun out h => (by cases h), fun f' h => (by cases h)⟩
      | nullDeref => exact ⟨fun out h => (by cases h), fun f' h => (by cases h)⟩
      | noReturn => exact ⟨fun out h => (by cases h), fun f' h => (by cases h)⟩
      | outOfBounds => exact ⟨fun out h => (by cases h), fun f' h => (by cases h)⟩
    | nullDeref => exact ⟨fun out h => (by cases h), fun f' h => (by cases h)⟩
    | noReturn => exact ⟨fun out h => (by cases h), fun f' h => (by cases h)⟩
    | outOfBounds => exact ⟨fun out h => (by cases h), fun f' h => (by cases h)⟩

/-- The loop of `Convert_ichat` on the stream, when the message at index `a + k` does not
load after `k` messages that load and are written: the function returns with the stream
as the `k` messages leave it. -/
theorem Convert_ichat_loopOut_return (s : BPState) (fuel : Nat) (g : ICGlobals)
    (gUseRealNames gTrimEmailIDs : Bool) (dateString : Nat → Bool → List Nat) (useRTF : Bool)
    (times : Nat → Option (List Nat)) (msgs : Nat → ICMessage) (outs : Nat → List Nat) :
    ∀ (k n a : Nat) (f : OutFile), k < n →
      (∀ i < k, Convert_ichat_load s fuel g dateString (times (a + i)) (a + i)
        = Res.ok (msgs (a + i), times (a + i + 1))) →
      (∀ i < k, Convert_ichat_write g gUseRealNames gTrimEmailIDs useRTF (times (a + i + 1))
        (a + i) (msgs (a + i)) = Res.ok (outs (a + i))) →
      Convert_ichat_load s fuel g dateString (times (a + k)) (a + k) = Res.fail →
      Convert_ichat_loopOut s fuel g gUseRealNames gTrimEmailIDs dateString useRTF n a
          (times a) f
        = Res.ok (false,
            { f with
              written := f.written ++ (List.range k).flatMap (fun i => outs (a + i))
              flushed := if k = 0 then f.flushed else false }) := by
  intro k
  induction k with
  | zero =>
    intro n a f hn _ _ hfail
    obtain ⟨m, rfl⟩ : ∃ m, n = m + 1 := ⟨n - 1, by omega⟩
    rw [Nat.add_zero] at hfail
    rw [Convert_ichat_loopOut, hfail]
    simp
  | succ k ih =>
    intro n a f hn hload hwrite hfail
    obtain ⟨m, rfl⟩ : ∃ m, n = m + 1 := ⟨n - 1, by omega⟩
    have h0 := hload 0 (by omega)
    have w0 := hwrite 0 (by omega)
    simp only [Nat.add_zero] at h0 w0
    have hrec := ih m (a + 1) (WriteToOutFile f (outs a)) (by omega)
      (fun i hi => by
        have := hload (i + 1) (by omega)
        rw [show a + (i + 1) = a + 1 + i by omega] at this
        exact this)
      (fun i hi => by
        have := hwrite (i + 1) (by omega)
        rw [show a + (i + 1) = a + 1 + i by omega] at this
        exact this)
      (by rw [show a + 1 + k = a + (k + 1) by omega]; exact hfail)
    rw [Convert_ichat_loopOut, h0]
    simp only [Res.ok_bind, w0]
    rw [hrec]
    simp only [WriteToOutFile, List.append_assoc, if_neg (Nat.succ_ne_zero k), ite_self]
    rw [List.range_succ_eq_map, List.flatMap_cons, List.flatMap_map]
    simp only [Nat.add_zero, Function.comp, Nat.succ_eq_add_one]
    have hshift : (fun i => outs (a + 1 + i)) = (fun i => outs (a + (i + 1))) := by
      funext i
      rw [show a + 1 + i = a + (i + 1) by omega]
    rw [hshift]

/-- C33 (amended).  Let `CreateOutFile` have opened the out file.  When the conversion is
complete, `Convert_ichat` returns with all of the output written to the file and the file
flushed and closed.  When the message at an index `a`, after `a` messages that load and
are written, has a reference that cannot be resolved, an object that fails to load or a
`LoadMessage` that fails, `Convert_ichat` returns at once, with what was written for the
`a` messages and the file neither flushed nor closed.  Whenever `Convert_ichat` returns,
the file is closed exactly when the conversion is complete, and it is flushed exactly when
it is closed. -/
theorem Convert_ichat_closed_iff (s : BPState) (fuel : Nat) (g : ICGlobals)
    (gUseRealNames gTrimEmailIDs : Bool) (dateString : Nat → Bool → List Nat)
    (gFirstMsgTime : Option (List Nat)) (useRTF : Bool) (gInFilePath : List Nat)
    (fopenSucceeds : Bool) (f0 : OutFile)
    (hcreate : CreateOutFile gInFilePath useRTF fopenSucceeds = Res.ok f0) :
    (∀ out, Convert_ichat s fuel g gUseRealNames gTrimEmailIDs dateString gFirstMsgTime useRTF
        = Res.ok out →
      Convert_ichat_out s fuel g gUseRealNames gTrimEmailIDs dateString gFirstMsgTime useRTF
          gInFilePath fopenSucceeds
        = Res.ok (some { f0 with written := out, flushed := true, closed := true })) ∧
    (∀ (a : Nat) (times : Nat → Option (List Nat)) (msgs : Nat → ICMessage)
        (outs : Nat → List Nat),
      a < g.gMessageListArray.oSize → times 0 = gFirstMsgTime →
      (∀ i < a, Convert_ichat_load s fuel g dateString (times i) i
        = Res.ok (msgs i, times (i + 1))) →
      (∀ i < a, Convert_ichat_write g gUseRealNames gTrimEmailIDs useRTF (times (i + 1)) i
        (msgs i) = Res.ok (outs i)) →
      Convert_ichat_load s fuel g dateString (times a) a = Res.fail →
      Convert_ichat_out s fuel g gUseRealNames gTrimEmailIDs dateString gFirstMsgTime useRTF
          gInFilePath fopenSucceeds
        = Res.ok (some
            { f0 with
              written := (if useRTF then WriteRTFHeader else []) ++
                (List.range a).flatMap outs
              flushed := false
              closed := false })) ∧
    (∀ f, Convert_ichat_out s fuel g gUseRealNames gTrimEmailIDs dateString gFirstMsgTime
        useRTF gInFilePath fopenSucceeds = Res.ok (some f) →
      (f.closed = true ↔
        ∃ out, Convert_ichat s fuel g gUseRealNames gTrimEmailIDs dateString gFirstMsgTime
          useRTF = Res.ok out) ∧
      f.flushed = f.closed) := by
  obtain ⟨hw0, hf0, hc0⟩ := CreateOutFile_ok gInFilePath useRTF fopenSucceeds f0 hcreate
  have hstart : (if useRTF then WriteToOutFile f0 WriteRTFHeader else f0).flushed = false := by
    split
    · rfl
    · exact hf0
  have hstartw : (if useRTF then WriteToOutFile f0 WriteRTFHeader else f0).written
      = if useRTF then WriteRTFHeader else [] := by
    split
    · simp only [WriteToOutFile, hw0, List.nil_append]
    · exact hw0
  have hstartc : (if useRTF then WriteToOutFile f0 WriteRTFHeader else f0).closed = false := by
    split
    · exact hc0
    · exact hc0
  have hstartp : (if useRTF then WriteToOutFile f0 WriteRTFHeader else f0).path = f0.path := by
    split <;> rfl
  have hcomplete := Convert_ichat_loopOut_complete s fuel g gUseRealNames gTrimEmailIDs
    dateString useRTF g.gMessageListArray.oSize 0 gFirstMsgTime
    (if useRTF then WriteToOutFile f0 WriteRTFHeader else f0) hstart
  refine ⟨?_, ?_, ?_⟩
  · intro out h
    unfold Convert_ichat at h
    simp only [Res.bind_eq_ok, Res.pure_eq_ok] at h
    obtain ⟨messages, hm, rfl⟩ := h
    unfold Convert_ichat_out
    rw [hcreate]
    simp only [Res.ok_bind, hcomplete.1 messages hm, if_true]
    show Res.ok _ = Res.ok _
    congr 2
    cases useRTF
    · simp [CloseOutFile, hw0]
    · simp [CloseOutFile, WriteToOutFile, hw0]
  · intro a times msgs outs ha ht hload hwrite hfail
    have hret := Convert_ichat_loopOut_return s fuel g gUseRealNames gTrimEmailIDs dateString
      useRTF times msgs outs a g.gMessageListArray.oSize 0
      (if useRTF then WriteToOutFile f0 WriteRTFHeader else f0) ha
      (fun i hi => by simpa using hload i hi)
      (fun i hi => by simpa using hwrite i hi)
      (by simpa using hfail)
    rw [ht] at hret
    unfold Convert_ichat_out
    rw [hcreate]
    simp only [Res.ok_bind, hret, Bool.false_eq_true, if_false]
    show Res.ok _ = Res.ok _
    congr 2
    simp only [hstartw, hstart, hstartc, hstartp, ite_self, Nat.zero_add]
  · intro f h
    unfold Convert_ichat_out at h
    rw [hcreate] at h
    simp only [Res.ok_bind] at h
    cases hl : Convert_ichat_loopOut s fuel g gUseRealNames gTrimEmailIDs dateString useRTF
        g.gMessageListArray.oSize 0 gFirstMsgTime
        (if useRTF then WriteToOutFile f0 WriteRTFHeader else f0) with
    | ok looped =>
      rw [hl] at h
      simp only [Res.ok_bind] at h
      obtain ⟨b, f'⟩ := looped
      have hinv := Convert_ichat_loopOut_open s fuel g gUseRealNames gTrimEmailIDs dateString
        useRTF _ _ _ _ f' b hl
      cases b with
      | true =>
        simp only [if_true, Res.pure_eq_ok, Option.some.injEq] at h
        subst h
        obtain ⟨messages, hm⟩ := hcomplete.2 f' hl
        refine ⟨⟨fun _ => ⟨_, by unfold Convert_ichat; rw [hm]; rfl⟩, fun _ => rfl⟩, rfl⟩
      | false =>
        simp only [Bool.false_eq_true, if_false, Res.pure_eq_ok, Option.some.injEq] at h
        subst h
        have hcl : f'.closed = false := by rw [hinv.1, hstartc]
        have hfl : f'.flushed = false := hinv.2.2 hstart
        refine ⟨⟨fun hc => ?_, fun ⟨out, hout⟩ => ?_⟩, by rw [hcl, hfl]⟩
        · rw [hcl] at hc
          cases hc
        unfold Convert_ichat at hout
        simp only [Res.bind_eq_ok, Res.pure_eq_ok] at hout
        obtain ⟨messages, hm, _⟩ := hout
        have := hcomplete.1 messages hm
        rw [hl] at this
        simp only [Res.ok.injEq, Prod.mk.injEq, Bool.false_eq_true, false_and] at this
    | fail => rw [hl] at h; cases h
    | nullDeref => rw [hl] at h; cases h
    | noReturn => rw [hl] at h; cases h
    | outOfBounds => rw [hl] at h; cases h

/-- C33 at a chat log of two message references, the second of which leads to a dict that
is no message: the first message is written, `LoadMessage` fails on the second, and
`Convert_ichat` returns with the out file neither flushed nor closed. -/
theorem Convert_ichat_closed_iff_witness :
    CreateOutFile (cstr "a.ichat") false true = Res.ok ⟨cstr "a.txt", [], false, false⟩ ∧
    twoRefsGlobals.gMessageListArray.oSize = 2 ∧
    Convert_ichat_load twoRefsState 3 twoRefsGlobals (dateStringOf (-5))
      (some (cstr "2000-12-31 19:00:00")) 1 = Res.fail ∧
    Convert_ichat_out twoRefsState 3 twoRefsGlobals false false (dateStringOf (-5)) none false
        (cstr "a.ichat") true
      = Res.ok (some
          { path := cstr "a.txt"
            written := cstr "Chat window opened on 2000-12-31 19:00:00:\n19:00:00 bob: hi\n"
            flushed := false
            closed := false }) :=
  have hfail : Convert_ichat_load twoRefsState 3 twoRefsGlobals (dateStringOf (-5))
      (some (cstr "2000-12-31 19:00:00")) 1 = Res.fail := by
    set_option maxRecDepth 100000 in decide
  ⟨by decide, by set_option maxRecDepth 100000 in decide, hfail,
    ((Convert_ichat_closed_iff twoRefsState 3 twoRefsGlobals false false (dateStringOf (-5))
      none false (cstr "a.ichat") true ⟨cstr "a.txt", [], false, false⟩ (by decide)).2.1 1
      (fun i => if i = 0 then none else some (cstr "2000-12-31 19:00:00"))
      (fun _ => bobHiMessage)
      (fun _ => cstr "Chat window opened on 2000-12-31 19:00:00:\n19:00:00 bob: hi\n")
      (by set_option maxRecDepth 100000 in decide) rfl
      (fun i hi => by
        have hi0 : i = 0 := by omega
        subst hi0
        set_option maxRecDepth 100000 in decide)
      (fun i hi => by
        have hi0 : i = 0 := by omega
        subst hi0
        decide)
      hfail).trans (by decide)⟩

/-- C33 fails as stated.  The message of this chat log has the key `Sender` only:
`LoadMessage` returns `false`, and `Convert_ichat`, which has opened the out file, returns
without having flushed or closed it. -/
theorem Convert_ichat_closed_counterexample :
    loadSampleMessage noTimeLog 33 = Res.fail ∧
    closeSampleLog noTimeLog (-5) false false false
      = Res.ok (some { path := cstr "a.txt", written := [], flushed := false, closed := false })
    := by
  refine ⟨by set_option maxRecDepth 100000 in decide,
    by set_option maxRecDepth 100000 in decide⟩

/-! ## The flags `oIsNSTime` and `oIsBaseWritingDirection` -/

/-- Stage 2 of `LoadObject` leaves the two flags and `oData` as they are. -/
theorem LoadObject_S2_Locate_flags (s : BPState) (obj : BPObject) :
    (LoadObject_S2_Locate s obj).2.oIsNSTime = obj.oIsNSTime ∧
    (LoadObject_S2_Locate s obj).2.oIsBaseWritingDirection = obj.oIsBaseWritingDirection ∧
    (LoadObject_S2_Locate s obj).2.oData = obj.oData := by
  unfold LoadObject_S2_Locate
  split <;> exact ⟨rfl, rfl, rfl⟩

/-- Stage 3 of `LoadObject` leaves the two flags and `oData` as they are. -/
theorem LoadObject_S3_GetType_flags (s : BPState) (obj : BPObject) :
    (LoadObject_S3_GetType s obj).2.oIsNSTime = obj.oIsNSTime ∧
    (LoadObject_S3_GetType s obj).2.oIsBaseWritingDirection = obj.oIsBaseWritingDirection ∧
    (LoadObject_S3_GetType s obj).2.oData = obj.oData := by
  unfold LoadObject_S3_GetType
  split <;> exact ⟨rfl, rfl, rfl⟩

/-- Stage 4 of `LoadObject` leaves the two flags and `oData` as they are. -/
theorem LoadObject_S4_ReadSize_flags (s : BPState) (obj : BPObject) :
    (LoadObject_S4_ReadSize s obj).2.oIsNSTime = obj.oIsNSTime ∧
    (LoadObject_S4_ReadSize s obj).2.oIsBaseWritingDirection = obj.oIsBaseWritingDirection ∧
    (LoadObject_S4_ReadSize s obj).2.oData = obj.oData := by
  unfold LoadObject_S4_ReadSize
  split
  · exact ⟨rfl, rfl, rfl⟩
  · dsimp only
    split
    · exact ⟨rfl, rfl, rfl⟩
    · exact ⟨rfl, rfl, rfl⟩
    · split <;> exact ⟨rfl, rfl, rfl⟩
    · exact ⟨rfl, rfl, rfl⟩
    · exact ⟨rfl, rfl, rfl⟩

/-- Stages 1 to 4 of `LoadObject` leave the two flags cleared and `oData` at `NULL`. -/
theorem LoadObject_S1toS4_flags (s : BPState) (i : Nat) :
    (LoadObject_S1toS4 s i).2.oIsNSTime = false ∧
    (LoadObject_S1toS4 s i).2.oIsBaseWritingDirection = false ∧
    (LoadObject_S1toS4 s i).2.oData = none := by
  have h2 := LoadObject_S2_Locate_flags s (LoadObject_S1_Init i)
  unfold LoadObject_S1toS4
  generalize LoadObject_S2_Locate s (LoadObject_S1_Init i) = p2 at h2
  obtain ⟨ok2, obj2⟩ := p2
  simp only at h2
  cases ok2
  · exact ⟨h2.1, h2.2.1, h2.2.2⟩
  · have h3 := LoadObject_S3_GetType_flags s obj2
    simp only
    generalize LoadObject_S3_GetType s obj2 = p3 at h3
    obtain ⟨ok3, obj3⟩ := p3
    simp only at h3
    cases ok3
    · exact ⟨h3.1.trans h2.1, h3.2.1.trans h2.2.1, h3.2.2.trans h2.2.2⟩
    · have h4 := LoadObject_S4_ReadSize_flags s obj3
      exact ⟨h4.1.trans (h3.1.trans h2.1), h4.2.1.trans (h3.2.1.trans h2.2.1),
        h4.2.2.trans (h3.2.2.trans h2.2.2)⟩

/-- The read functions other than `ReadData_StringASCII` leave the two flags as they
are. -/
theorem callReadFunc_flags (load : Nat → Option (Bool × BPObject)) (s : BPState)
    (obj obj1 : BPObject) (f : ReadFunc) (h : callReadFunc load s obj f = some obj1)
    (hf : f ≠ ReadFunc.StringASCII) :
    obj1.oIsNSTime = obj.oIsNSTime ∧
      obj1.oIsBaseWritingDirection = obj.oIsBaseWritingDirection := by
  cases f <;> simp only [callReadFunc, Option.some.injEq] at h
  case StringASCII => exact absurd rfl hf
  case Dict =>
    unfold ReadData_Dict at h
    split at h
    · exact absurd h (by simp)
    · simp only [Option.some.injEq] at h
      rw [← h]
      exact ⟨rfl, rfl⟩
  case Real =>
    unfold ReadData_Real at h
    split at h <;> rw [← h] <;> exact ⟨rfl, rfl⟩
  case Date =>
    unfold ReadData_Date at h
    split at h <;> rw [← h] <;> exact ⟨rfl, rfl⟩
  case Data =>
    unfold ReadData_Data at h
    split at h <;> rw [← h] <;> exact ⟨rfl, rfl⟩
  case StringUnicode =>
    unfold ReadData_StringUnicode at h
    split at h <;> rw [← h] <;> exact ⟨rfl, rfl⟩
  all_goals (rw [← h]; exact ⟨rfl, rfl⟩)

/-- The row of the table with the read function `ReadData_StringASCII` is that of the type
`kTypeStringASCII`. -/
theorem typeRow_StringASCII (t : Int) (h15 : ¬ t ≥ kTypeCount) :
    (typeRow t).otReadFunc = some ReadFunc.StringASCII ↔ t = kTypeStringASCII := by
  have h15' : t < 15 := not_le.1 h15
  by_cases h0 : 0 ≤ t
  · obtain ⟨n, rfl⟩ : ∃ n : Nat, t = (n : Int) := ⟨t.toNat, by omega⟩
    have hn : n < 15 := by omega
    have key : ∀ m : Fin 15, ((typeRow (m.val : Int)).otReadFunc = some ReadFunc.StringASCII
        ↔ (m.val : Int) = kTypeStringASCII) := by decide
    exact key ⟨n, hn⟩
  · have hrow : typeRow t = typeRow 0 := by
      unfold typeRow
      rw [Int.toNat_eq_zero.2 (by omega)]
      rfl
    rw [hrow]
    constructor
    · intro h
      exact absurd h (by decide)
    · intro h
      rw [h] at h0
      exact absurd (by decide) h0

/-- What `LoadObject` returns for an object that is not an ASCII string has the two flags
cleared; for an ASCII string it is what `ReadData_StringASCII` makes of the object after
stage 4. -/
theorem LoadObject_flags_source (s : BPState) (fuel i : Nat) (obj : BPObject)
    (h : LoadObject s fuel i = some (true, obj)) :
    (obj.oType ≠ kTypeStringASCII →
      obj.oIsNSTime = false ∧ obj.oIsBaseWritingDirection = false) ∧
    (obj.oType = kTypeStringASCII →
      obj = ReadData_StringASCII s (LoadObject_S1toS4 s i).2) := by
  have hty := LoadObject_oType s fuel i _ h
  simp only at hty
  obtain ⟨hn, hb, _⟩ := LoadObject_S1toS4_flags s i
  cases fuel with
  | zero => simp [LoadObject] at h
  | succ fuel =>
    rw [LoadObject_succ] at h
    split at h
    · unfold LoadObject_S5_ReadData at h
      split at h
      · exact absurd h (by simp)
      · split at h
        · exact absurd h (by simp)
        · rename_i hcount
          split at h
          · rename_i f hf
            split at h
            · exact absurd h (by simp)
            · rename_i obj1 h1
              simp only [Option.some.injEq, Prod.mk.injEq, true_and] at h
              subst h
              have hrow := typeRow_StringASCII _ hcount
              rw [← hty] at hrow
              rw [← hty] at hf
              refine ⟨fun hne => ?_, fun heq => ?_⟩
              · have hfne : f ≠ ReadFunc.StringASCII := by
                  intro hc
                  rw [hc] at hf
                  exact hne (hrow.1 hf)
                obtain ⟨f1, f2⟩ := callReadFunc_flags _ s _ _ f h1 hfne
                rw [f1, f2]
                exact ⟨hn, hb⟩
              · have hfa := hrow.2 heq
                rw [hf] at hfa
                simp only [Option.some.injEq] at hfa
                subst hfa
                simp only [callReadFunc, Option.some.injEq] at h1
                exact h1.symm
          · exact absurd h (by simp)
    · exact absurd h (by simp)

/-- C34 (amended): an object that a caller obtains from `LoadObject` has `oIsNSTime`
(`oIsBaseWritingDirection`) set exactly when it is an ASCII string with data whose bytes up
to the first zero byte are `NS.time` (`BaseWritingDirection`).  The value object of such a
key is loaded afresh by the caller, with both flags as its own content gives them: cleared
when the value is not an ASCII string.  `CopyObjectMetadata` in `ReadData_Dict` writes to
the `value` that is local to the loop body, and the dict that `LoadObject` returns has both
flags cleared. -/
theorem LoadObject_flags_iff (s : BPState) (fuel i : Nat) (obj : BPObject)
    (h : LoadObject s fuel i = some (true, obj)) :
    (obj.oIsNSTime = true ↔
      obj.oType = kTypeStringASCII ∧
        ∃ data, obj.oData = some data ∧ cBytes data = cstr "NS.time") ∧
    (obj.oIsBaseWritingDirection = true ↔
      obj.oType = kTypeStringASCII ∧
        ∃ data, obj.oData = some data ∧ cBytes data = cstr "BaseWritingDirection") ∧
    (obj.oType ≠ kTypeStringASCII →
      obj.oIsNSTime = false ∧ obj.oIsBaseWritingDirection = false) := by
  obtain ⟨hother, hascii⟩ := LoadObject_flags_source s fuel i obj h
  obtain ⟨hn, hb, hd⟩ := LoadObject_S1toS4_flags s i
  have hlit : ∀ data : List Nat, cstr "NS.time" = cBytes data →
      ¬ cBytes data = cstr "BaseWritingDirection" := by
    intro data h1 h2
    rw [← h1] at h2
    exact absurd h2 (by decide)
  have hc1 : cBytes (cstr "NS.time") = cstr "NS.time" := by decide
  have hc2 : cBytes (cstr "BaseWritingDirection") = cstr "BaseWritingDirection" := by decide
  refine ⟨?_, ?_, hother⟩
  · by_cases hty : obj.oType = kTypeStringASCII
    · have ho := hascii hty
      unfold ReadData_StringASCII at ho
      split at ho
      · dsimp only at ho
        split at ho
        · rename_i hbwd
          rw [strcmp_eq_zero_iff, hc2] at hbwd
          subst ho
          simp only [hn, Bool.false_eq_true, false_iff, not_and, not_exists]
          intro _ data hdata
          simp only [Option.some.injEq] at hdata
          subst hdata
          rw [hbwd]
          decide
        · rename_i hbwd
          split at ho
          · rename_i hns
            rw [strcmp_eq_zero_iff, hc1] at hns
            subst ho
            simp only [true_iff]
            exact ⟨hty, _, rfl, hns⟩
          · rename_i hns
            rw [strcmp_eq_zero_iff, hc1] at hns
            subst ho
            simp only [hn, Bool.false_eq_true, false_iff, not_and, not_exists]
            intro _ data hdata
            simp only [Option.some.injEq] at hdata
            subst hdata
            exact hns
      · subst ho
        simp only [hn, hd, Bool.false_eq_true, false_iff, not_and, not_exists]
        intro _ data hdata
        exact absurd hdata (by simp)
    · simp only [(hother hty).1, Bool.false_eq_true, false_iff, not_and]
      intro hc
      exact absurd hc hty
  · by_cases hty : obj.oType = kTypeStringASCII
    · have ho := hascii hty
      unfold ReadData_StringASCII at ho
      split at ho
      · dsimp only at ho
        split at ho
        · rename_i hbwd
          rw [strcmp_eq_zero_iff, hc2] at hbwd
          subst ho
          simp only [true_iff]
          exact ⟨hty, _, rfl, hbwd⟩
        · rename_i hbwd
          rw [strcmp_eq_zero_iff, hc2] at hbwd
          split at ho
          · subst ho
            simp only [hb, Bool.false_eq_true, false_iff, not_and, not_exists]
            intro _ data hdata
            simp only [Option.some.injEq] at hdata
            subst hdata
            exact hbwd
          · subst ho
            simp only [hb, Bool.false_eq_true, false_iff, not_and, not_exists]
            intro _ data hdata
            simp only [Option.some.injEq] at hdata
            subst hdata
            exact hbwd
      · subst ho
        simp only [hb, hd, Bool.false_eq_true, false_iff, not_and, not_exists]
        intro _ data hdata
        exact absurd hdata (by simp)
    · simp only [(hother hty).2, Bool.false_eq_true, false_iff, not_and]
      intro hc
      exact absurd hc hty

/-- C34 at the key `NS.time` of a sample dict: the string has the flag `oIsNSTime`. -/
theorem LoadObject_flags_iff_witness :
    LoadObject flagState 1 1 = some (true, flagObject 1) ∧
    (flagObject 1).oIsNSTime = true ∧
    ((flagObject 1).oIsNSTime = true ↔
      (flagObject 1).oType = kTypeStringASCII ∧
        ∃ data, (flagObject 1).oData = some data ∧ cBytes data = cstr "NS.time") :=
  ⟨by decide, by decide,
    (LoadObject_flags_iff flagState 1 1 (flagObject 1) (by decide)).1⟩

/-- C34 fails as stated: in the dict `{NS.time: 0.0, BaseWritingDirection: 1}` the keys
load with their flags set, the lookups of the two keys give the references 2 and 4, and
the values that `LoadObject` returns for these have both flags cleared, as has the dict
itself.  The copy that `ReadData_Dict` makes with `CopyObjectMetadata` has the flag; it is
a local variable of `ReadData_Dict`. -/
theorem LoadObject_flags_counterexample :
    Load_bplist (buildFile flagObjects 0) = some flagState ∧
    (∃ dict, LoadObject flagState 2 0 = some (true, dict) ∧ dict.oType = kTypeDict ∧
      dict.oIsNSTime = false ∧ dict.oIsBaseWritingDirection = false ∧
      ReturnValueRefForKeyName flagState 1 dict (cstr "NS.time") = Run.returned 2 ∧
      ReturnValueRefForKeyName flagState 1 dict (cstr "BaseWritingDirection")
        = Run.returned 4) ∧
    LoadObject flagState 1 1 = some (true, flagObject 1) ∧
    (flagObject 1).oIsNSTime = true ∧
    LoadObject flagState 1 2 = some (true, flagObject 2) ∧
    (flagObject 2).oType = kTypeReal ∧ (flagObject 2).oIsNSTime = false ∧
    (CopyObjectMetadata (flagObject 1) (flagObject 2)).oIsNSTime = true ∧
    LoadObject flagState 1 3 = some (true, flagObject 3) ∧
    (flagObject 3).oIsBaseWritingDirection = true ∧
    LoadObject flagState 1 4 = some (true, flagObject 4) ∧
    (flagObject 4).oType = kTypeInt ∧ (flagObject 4).oIsBaseWritingDirection = false := by
  refine ⟨by decide, ⟨(LoadObject_S1toS4 flagState 0).2, by decide, by decide, by decide,
    by decide, by decide, by decide⟩, by decide, by decide, by decide, by decide, by decide,
    by decide, by decide, by decide, by decide, by decide, by decide⟩

/-! ## The year and month loops of `ConvertNSDate` -/

theorem DaysInYear_bounds (y : Int) : 365 ≤ DaysInYear y ∧ DaysInYear y ≤ 366 := by
  unfold DaysInYear
  split_ifs <;> omega

theorem DaysInFeb_bounds (y : Int) : 28 ≤ DaysInFeb y ∧ DaysInFeb y ≤ 29 := by
  unfold DaysInFeb
  split_ifs <;> omega

theorem DaysInFeb_add (y : Int) : DaysInFeb y + 337 = DaysInYear y := by
  unfold DaysInFeb DaysInYear
  split_ifs <;> rfl

/-- The days of each month, and the days from the first of a month to the end of the year,
month by month. -/
theorem daysFrom_step (m y : Int) (h1 : 1 ≤ m) (h12 : m ≤ 12) :
    28 ≤ DaysInMonth m y ∧
    (m = 12 → daysFrom m y = DaysInMonth m y) ∧
    (m < 12 → daysFrom m y = DaysInMonth m y + daysFrom (m + 1) y) ∧
    daysFrom 1 y = DaysInYear y := by
  have hf := DaysInFeb_bounds y
  have hy := DaysInFeb_add y
  have h2 : DaysInMonth 2 y = DaysInFeb y := rfl
  have e1 : daysFrom 1 y = 31 + (DaysInFeb y + 306) := by
    simp [daysFrom, DaysInMonth, daysInMonths, List.range_succ]
  have e2 : daysFrom 2 y = DaysInFeb y + 306 := by
    simp [daysFrom, DaysInMonth, daysInMonths, List.range_succ]
  have e3 : daysFrom 3 y = 306 := by
    simp [daysFrom, DaysInMonth, daysInMonths, List.range_succ]
  have e4 : daysFrom 4 y = 275 := by
    simp [daysFrom, DaysInMonth, daysInMonths, List.range_succ]
  have e5 : daysFrom 5 y = 245 := by
    simp [daysFrom, DaysInMonth, daysInMonths, List.range_succ]
  have e6 : daysFrom 6 y = 214 := by
    simp [daysFrom, DaysInMonth, daysInMonths, List.range_succ]
  have e7 : daysFrom 7 y = 184 := by
    simp [daysFrom, DaysInMonth, daysInMonths, List.range_succ]
  have e8 : daysFrom 8 y = 153 := by
    simp [daysFrom, DaysInMonth, daysInMonths, List.range_succ]
  have e9 : daysFrom 9 y = 122 := by
    simp [daysFrom, DaysInMonth, daysInMonths, List.range_succ]
  have e10 : daysFrom 10 y = 92 := by
    simp [daysFrom, DaysInMonth, daysInMonths, List.range_succ]
  have e11 : daysFrom 11 y = 61 := by
    simp [daysFrom, DaysInMonth, daysInMonths, List.range_succ]
  have e12 : daysFrom 12 y = 31 := by
    simp [daysFrom, DaysInMonth, daysInMonths, List.range_succ]
  have d1 : DaysInMonth 1 y = 31 := rfl
  have d3 : DaysInMonth 3 y = 31 := rfl
  have d4 : DaysInMonth 4 y = 30 := rfl
  have d5 : DaysInMonth 5 y = 31 := rfl
  have d6 : DaysInMonth 6 y = 30 := rfl
  have d7 : DaysInMonth 7 y = 31 := rfl
  have d8 : DaysInMonth 8 y = 31 := rfl
  have d9 : DaysInMonth 9 y = 30 := rfl
  have d10 : DaysInMonth 10 y = 31 := rfl
  have d11 : DaysInMonth 11 y = 30 := rfl
  have d12 : DaysInMonth 12 y = 31 := rfl
  refine ⟨?_, ?_, ?_, by omega⟩
  · interval_cases m <;> omega
  · intro h; subst h; omega
  · intro h
    interval_cases m <;> simp only [Int.reduceAdd] <;> omega

/-- The year loop ends, within `dayBank + 1` passes, with a day count that is at most the
number of days of the year it stops in. -/
theorem ConvertNSDate_years_spec :
    ∀ (fuel : Nat) (dayBank theYear : Int), dayBank.toNat < fuel →
      ∃ d y, ConvertNSDate_years fuel dayBank theYear = some (d, y) ∧ d ≤ DaysInYear y ∧
        d ≤ dayBank ∧ theYear ≤ y := by
  intro fuel
  induction fuel with
  | zero => intro d y h; omega
  | succ fuel ih =>
    intro d y h
    rw [ConvertNSDate_years]
    have hb := DaysInYear_bounds y
    by_cases hgt : d > DaysInYear y
    · rw [if_pos hgt]
      obtain ⟨d1, y1, h1, h2, h3, h4⟩ := ih (d - DaysInYear y) (y + 1) (by omega)
      exact ⟨d1, y1, h1, h2, by omega, by omega⟩
    · rw [if_neg hgt]
      exact ⟨d, y, rfl, by omega, le_refl _, le_refl _⟩

/-- The month loop, started in a month from 1 to 12 with a day count that is at most the
number of days left in the year, ends in a month from 1 to 12 of the same year: the test
`theMonth > 12` never holds. -/
theorem ConvertNSDate_months_spec (theYear : Int) :
    ∀ (fuel : Nat) (dayBank theMonth : Int), dayBank.toNat < fuel → 1 ≤ theMonth →
      theMonth ≤ 12 → dayBank ≤ daysFrom theMonth theYear →
      ∃ d m, ConvertNSDate_months fuel dayBank theMonth theYear = some (d, m, theYear) ∧
        theMonth ≤ m ∧ m ≤ 12 ∧ d ≤ DaysInMonth m theYear := by
  intro fuel
  induction fuel with
  | zero => intro d m h; omega
  | succ fuel ih =>
    intro d m h h1 h12 hd
    rw [ConvertNSDate_months]
    obtain ⟨h28, hlast, hstep, _⟩ := daysFrom_step m theYear h1 h12
    by_cases hgt : d > DaysInMonth m theYear
    · rw [if_pos hgt]
      have hm : m < 12 := by
        by_contra hc
        have h12' : m = 12 := by omega
        have := hlast h12'
        omega
      rw [if_neg (by omega)]
      obtain ⟨d1, m1, e1, e2, e3, e4⟩ := ih (d - DaysInMonth m theYear) (m + 1) (by omega)
        (by omega) (by omega) (by have := hstep hm; omega)
      exact ⟨d1, m1, e1, by omega, e3, e4⟩
    · rw [if_neg hgt]
      exact ⟨d, m, rfl, le_refl _, h12, by omega⟩

/-- The month after the statements that adjust for the time zone is from 1 to 12 when it
was before. -/
theorem ConvertNSDate_zone_month (LOCAL_TIME_ZONE theYear theMonth theDay theHour : Int)
    (h1 : 1 ≤ theMonth) (h12 : theMonth ≤ 12) :
    1 ≤ (ConvertNSDate_zone LOCAL_TIME_ZONE theYear theMonth theDay theHour).2.1 ∧
      (ConvertNSDate_zone LOCAL_TIME_ZONE theYear theMonth theDay theHour).2.1 ≤ 12 := by
  unfold ConvertNSDate_zone
  split_ifs <;> dsimp only <;> omega

/-- C38: in `ConvertNSDate`, for every day count `dayBank`, the year loop ends with a day
count that is at most the number of days of the year reached; the month loop, which starts
in month 1, then ends in a month from 1 to 12 and leaves the year as it is, so that the
branch for `theMonth > 12`, which alone changes the year there, is never taken; and the
month is from 1 to 12 after the time zone is applied, whatever the zone, the day and the
hour.  Whenever `ConvertNSDate` produces a string, it is the formatted date of such a
month. -/
theorem ConvertNSDate_month_in_range (dayBank : Int) :
    (∃ d y, ConvertNSDate_years (dayBank.toNat + 1) dayBank 2001 = some (d, y) ∧
      d ≤ DaysInYear y ∧
      ∃ d1 m, ConvertNSDate_months (d.toNat + 1) d 1 y = some (d1, m, y) ∧
        1 ≤ m ∧ m ≤ 12 ∧
        ∀ LOCAL_TIME_ZONE theDay theHour : Int,
          1 ≤ (ConvertNSDate_zone LOCAL_TIME_ZONE y m theDay theHour).2.1 ∧
            (ConvertNSDate_zone LOCAL_TIME_ZONE y m theDay theHour).2.1 ≤ 12) ∧
    (∀ (LOCAL_TIME_ZONE : Int) (nsDate mode : Nat) (output : List Nat),
      ConvertNSDate LOCAL_TIME_ZONE nsDate mode = some output →
      ∃ theYear theMonth theDay theHour theMinute theSecond : Int,
        output = ConvertNSDate_format mode theYear theMonth theDay theHour theMinute theSecond
          ∧ 1 ≤ theMonth ∧ theMonth ≤ 12) := by
  have hloops : ∀ dayBank : Int,
      ∃ d y, ConvertNSDate_years (dayBank.toNat + 1) dayBank 2001 = some (d, y) ∧
        d ≤ DaysInYear y ∧
        ∃ d1 m, ConvertNSDate_months (d.toNat + 1) d 1 y = some (d1, m, y) ∧
          1 ≤ m ∧ m ≤ 12 := by
    intro dayBank
    obtain ⟨d, y, hy, hd, _, _⟩ := ConvertNSDate_years_spec (dayBank.toNat + 1) dayBank 2001
      (by omega)
    obtain ⟨_, _, _, hfrom⟩ := daysFrom_step 1 y (le_refl _) (by omega)
    obtain ⟨d1, m, hm, h1, h12, _⟩ := ConvertNSDate_months_spec y (d.toNat + 1) d 1 (by omega)
      (le_refl _) (by omega) (by omega)
    exact ⟨d, y, hy, hd, d1, m, hm, h1, h12⟩
  refine ⟨?_, ?_⟩
  · obtain ⟨d, y, hy, hd, d1, m, hm, h1, h12⟩ := hloops dayBank
    exact ⟨d, y, hy, hd, d1, m, hm, h1, h12,
      fun tz day hour => ConvertNSDate_zone_month tz y m day hour h1 h12⟩
  · intro tz nsDate mode output h
    unfold ConvertNSDate at h
    simp only [Option.bind_eq_bind, Option.bind_eq_some, Option.pure_def,
      Option.some.injEq] at h
    obtain ⟨x, _, days, _, years, hyears, months, hmonths, hour, _, minute, _, hout⟩ := h
    obtain ⟨d, y, hy, hd, d1, m, hm, h1, h12⟩ := hloops days.1
    rw [hy] at hyears
    simp only [Option.some.injEq] at hyears
    subst hyears
    simp only at hmonths
    rw [hm] at hmonths
    simp only [Option.some.injEq] at hmonths
    subst hmonths
    refine ⟨_, _, _, _, _, _, hout.symm, ?_⟩
    exact ConvertNSDate_zone_month tz y m _ _ h1 h12

/-- C38 at the date 0.0 and the zone -5. -/
theorem ConvertNSDate_month_in_range_witness :
    ConvertNSDate (-5) 0 kDateSaveLong = some (cstr "2000-12-31 19:00:00") ∧
    ∃ theYear theMonth theDay theHour theMinute theSecond : Int,
      cstr "2000-12-31 19:00:00"
        = ConvertNSDate_format kDateSaveLong theYear theMonth theDay theHour theMinute
            theSecond ∧ 1 ≤ theMonth ∧ theMonth ≤ 12 :=
  ⟨by decide,
    (ConvertNSDate_month_in_range 0).2 (-5) 0 kDateSaveLong (cstr "2000-12-31 19:00:00")
      (by decide)⟩

/-! ## The escaping of an ASCII body in RTF -/

theorem rtfSpecial_toSChar : ∀ c < 256, rtfSpecial (toSChar c) = rtfSpecial (c : Int) := by
  set_option maxRecDepth 100000 in decide

theorem toSChar_ne_zero : ∀ c < 256, c ≠ 0 → toSChar c ≠ 0 := by
  set_option maxRecDepth 100000 in decide

theorem rtfSpecial_iff (c : Nat) :
    rtfSpecial (c : Int) = true ↔ (c = 0x7B ∨ c = 0x7D ∨ c = 0x5C ∨ c = 0x0A) := by
  unfold rtfSpecial
  simp only [Bool.or_eq_true, decide_eq_true_eq]
  omega

/-- The loop's result, character by character, is the design's escaping. -/
theorem ConvertMessageToRTF_escape_eq (s : List Nat) :
    ConvertMessageToRTF_escape s = s.flatMap rtfEscapeChar := by
  induction s with
  | nil => rfl
  | cons c rest ih =>
    rw [ConvertMessageToRTF_escape, List.flatMap_cons, ih]
    unfold rtfEscapeChar
    by_cases h : rtfSpecial (c : Int) = true
    · rw [if_pos h, if_pos ((rtfSpecial_iff c).1 h)]
      rfl
    · rw [if_neg h, if_neg (fun hc => h ((rtfSpecial_iff c).2 hc))]
      rfl

theorem cBytes_append_zeros (rest : List Nat) (k : Nat) (h : ∀ c ∈ rest, c ≠ 0) :
    cBytes (rest ++ List.replicate k 0) = rest := by
  induction rest with
  | nil => exact cBytes_replicate_zero k
  | cons c r ih =>
    rw [List.cons_append, cBytes_cons, if_neg (h c (List.mem_cons_self _ _)),
      ih (fun d hd => h d (List.mem_cons_of_mem _ hd))]

theorem getD_at_length (done tail : List Nat) (c d : Nat) :
    (done ++ c :: tail).getD done.length d = c := by
  induction done with
  | nil => rfl
  | cons a done ih => simpa using ih

theorem set_at_length (done tail : List Nat) (c x : Nat) :
    (done ++ c :: tail).set done.length x = done ++ x :: tail := by
  induction done with
  | nil => rfl
  | cons a done ih => simp

/-- One pass of the loop at a character that is escaped: the rest of the string moves right
by one and the backslash takes the place of the character. -/
theorem ConvertMessageToRTF_escapeStep_special (done rest : List Nat) (c k : Nat)
    (hc : c < 256) (hsp : rtfSpecial (c : Int) = true) (hrest : ∀ d ∈ rest, d ≠ 0)
    (hc0 : c ≠ 0) (hk : 1 ≤ k) :
    ConvertMessageToRTF_escapeStep (done ++ c :: rest ++ List.replicate k 0) done.length
      = some ((done ++ [0x5C, c]) ++ rest ++ List.replicate (k - 1) 0,
          (done ++ [0x5C, c]).length) := by
  unfold ConvertMessageToRTF_escapeStep
  have hlen : ¬ (done ++ c :: rest ++ List.replicate k 0).length ≤ done.length := by
    simp only [List.length_append, List.length_cons, List.length_replicate]
    omega
  have hget : (done ++ c :: rest ++ List.replicate k 0).getD done.length 0 = c := by
    rw [List.append_assoc, List.cons_append]
    exact getD_at_length _ _ _ _
  rw [if_neg hlen, hget, rtfSpecial_toSChar c hc, if_pos hsp]
  have hstr : strlenAt (done ++ c :: rest ++ List.replicate k 0) done.length
      = rest.length + 1 := by
    unfold strlenAt
    rw [List.append_assoc, List.drop_left,
      cBytes_append_zeros (c :: rest) k (by
        intro d hd
        rcases List.mem_cons.1 hd with h | h
        · rw [h]; exact hc0
        · exact hrest d h)]
    rfl
  rw [hstr]
  obtain ⟨j, rfl⟩ : ∃ j, k = j + 1 := ⟨k - 1, by omega⟩
  unfold memmove
  have hcond : done.length + 1 + (rest.length + 1)
        ≤ (done ++ c :: rest ++ List.replicate (j + 1) 0).length ∧
      done.length + (rest.length + 1)
        ≤ (done ++ c :: rest ++ List.replicate (j + 1) 0).length := by
    simp only [List.length_append, List.length_cons, List.length_replicate]
    omega
  rw [if_pos hcond]
  have htake : (done ++ c :: rest ++ List.replicate (j + 1) 0).take (done.length + 1)
      = done ++ [c] := by
    rw [List.append_assoc, List.take_append, List.cons_append, List.take_succ_cons,
      List.take_zero]
  have hmid : ((done ++ c :: rest ++ List.replicate (j + 1) 0).drop done.length).take
      (rest.length + 1) = c :: rest := by
    rw [List.append_assoc, List.drop_left]
    have : rest.length + 1 = (c :: rest).length := rfl
    rw [this, List.take_left]
  have hdrop : (done ++ c :: rest ++ List.replicate (j + 1) 0).drop
      (done.length + 1 + (rest.length + 1)) = List.replicate j 0 := by
    have e : done.length + 1 + (rest.length + 1) = (done ++ c :: rest).length + 1 := by
      simp only [List.length_append, List.length_cons]
      omega
    rw [e, List.drop_append, List.replicate_succ, List.drop_succ_cons, List.drop_zero]
  rw [htake, hmid, hdrop]
  simp only [Option.map_some', Option.some.injEq, Prod.mk.injEq, List.length_append,
    List.length_cons, List.length_nil, Nat.add_sub_cancel, and_true]
  have e : done ++ [c] ++ c :: rest ++ List.replicate j 0
      = done ++ c :: (c :: rest ++ List.replicate j 0) := by
    simp only [List.append_assoc, List.cons_append, List.nil_append]
  rw [e, set_at_length]
  simp only [List.append_assoc, List.cons_append, List.nil_append]

/-- One pass of the loop at a character that is not escaped. -/
theorem ConvertMessageToRTF_escapeStep_plain (done rest : List Nat) (c k : Nat)
    (hc : c < 256) (hsp : ¬ rtfSpecial (c : Int) = true) :
    ConvertMessageToRTF_escapeStep (done ++ c :: rest ++ List.replicate k 0) done.length
      = some ((done ++ [c]) ++ rest ++ List.replicate k 0, (done ++ [c]).length) := by
  unfold ConvertMessageToRTF_escapeStep
  have hlen : ¬ (done ++ c :: rest ++ List.replicate k 0).length ≤ done.length := by
    simp only [List.length_append, List.length_cons, List.length_replicate]
    omega
  have hget : (done ++ c :: rest ++ List.replicate k 0).getD done.length 0 = c := by
    rw [List.append_assoc, List.cons_append]
    exact getD_at_length _ _ _ _
  rw [if_neg hlen, hget, rtfSpecial_toSChar c hc, if_neg hsp]
  simp only [List.append_assoc, List.cons_append, List.nil_append, List.length_append,
    List.length_cons, List.length_nil]

/-- The loop from the test `*reader != 0` on, with `done` behind `reader`, the string
`rest` before it and `k` zero bytes after that, one more than there are characters to
escape: the loop ends within as many passes as `rest` has characters, and leaves `rest`
escaped. -/
theorem ConvertMessageToRTF_escapeLoop_spec :
    ∀ (rest done : List Nat) (k fuel : Nat), (∀ c ∈ rest, c ≠ 0 ∧ c < 256) →
      rest.length ≤ fuel → rest.countP (fun (c : Nat) => rtfSpecial (c : Int)) + 1 ≤ k →
      (if (done ++ rest ++ List.replicate k 0).length ≤ done.length then none
        else if toSChar ((done ++ rest ++ List.replicate k 0).getD done.length 0) ≠ 0 then
          ConvertMessageToRTF_escapeLoop fuel (done ++ rest ++ List.replicate k 0) done.length
        else some (done ++ rest ++ List.replicate k 0))
      = some (done ++ ConvertMessageToRTF_escape rest ++
          List.replicate (k - rest.countP (fun (c : Nat) => rtfSpecial (c : Int))) 0) := by
  intro rest
  induction rest with
  | nil =>
    intro done k fuel _ _ hk
    obtain ⟨j, rfl⟩ : ∃ j, k = j + 1 := ⟨k - 1, by simp at hk; omega⟩
    have hlen : ¬ (done ++ [] ++ List.replicate (j + 1) 0).length ≤ done.length := by
      simp only [List.length_append, List.length_nil, List.length_replicate]
      omega
    have hget : (done ++ [] ++ List.replicate (j + 1) 0).getD done.length 0 = 0 := by
      rw [List.append_nil, List.replicate_succ]
      exact getD_at_length _ _ _ _
    rw [if_neg hlen, hget, if_neg (by decide)]
    rfl
  | cons c rest ih =>
    intro done k fuel hall hfuel hk
    have hc := hall c (List.mem_cons_self _ _)
    have hrest : ∀ d ∈ rest, d ≠ 0 ∧ d < 256 := fun d hd => hall d (List.mem_cons_of_mem _ hd)
    have hlen : ¬ (done ++ c :: rest ++ List.replicate k 0).length ≤ done.length := by
      simp only [List.length_append, List.length_cons, List.length_replicate]
      omega
    have hget : (done ++ c :: rest ++ List.replicate k 0).getD done.length 0 = c := by
      rw [List.append_assoc, List.cons_append]
      exact getD_at_length _ _ _ _
    rw [if_neg hlen, hget, if_pos (toSChar_ne_zero c hc.2 hc.1)]
    obtain ⟨f, rfl⟩ : ∃ f, fuel = f + 1 := ⟨fuel - 1, by simp at hfuel; omega⟩
    have hfl : rest.length ≤ f := by
      rw [List.length_cons] at hfuel
      omega
    rw [ConvertMessageToRTF_escapeLoop, ConvertMessageToRTF_escape]
    by_cases hsp : rtfSpecial (c : Int) = true
    · have hcnt : (c :: rest).countP (fun (c : Nat) => rtfSpecial (c : Int))
          = rest.countP (fun (c : Nat) => rtfSpecial (c : Int)) + 1 := by
        rw [List.countP_cons]
        simp [hsp]
      rw [hcnt] at hk ⊢
      rw [if_pos hsp]
      rw [ConvertMessageToRTF_escapeStep_special done rest c k hc.2 hsp
        (fun d hd => (hrest d hd).1) hc.1 (by omega)]
      simp only
      rw [ih (done ++ [0x5C, c]) (k - 1) f hrest hfl (by omega)]
      have e : k - 1 - rest.countP (fun (c : Nat) => rtfSpecial (c : Int))
          = k - (rest.countP (fun (c : Nat) => rtfSpecial (c : Int)) + 1) := by omega
      rw [e]
      simp only [List.append_assoc, List.cons_append, List.nil_append]
    · have hcnt : (c :: rest).countP (fun (c : Nat) => rtfSpecial (c : Int))
          = rest.countP (fun (c : Nat) => rtfSpecial (c : Int)) := by
        rw [List.countP_cons]
        simp [hsp]
      rw [hcnt] at hk ⊢
      rw [if_neg hsp]
      rw [ConvertMessageToRTF_escapeStep_plain done rest c k hc.2 hsp]
      simp only
      rw [ih (done ++ [c]) k f hrest hfl (by omega)]
      simp only [List.append_assoc, List.cons_append, List.nil_append]

theorem countP_special_le (s : List Nat) :
    s.countP (fun (c : Nat) => rtfSpecial (c : Int)) ≤ s.length := List.countP_le_length _

theorem rtfUnescape_escape (s : List Nat) : rtfUnescape (s.flatMap rtfEscapeChar) = s := by
  induction s with
  | nil => rfl
  | cons c rest ih =>
    rw [List.flatMap_cons]
    by_cases h : c = 0x7B ∨ c = 0x7D ∨ c = 0x5C ∨ c = 0x0A
    · have hc : rtfEscapeChar c = [0x5C, c] := by
        unfold rtfEscapeChar
        rw [if_pos h]
      have e : [0x5C, c] ++ rest.flatMap rtfEscapeChar
          = 0x5C :: c :: rest.flatMap rtfEscapeChar := rfl
      rw [hc, e, rtfUnescape, if_pos rfl, ih]
    · have hc : rtfEscapeChar c = [c] := by
        unfold rtfEscapeChar
        rw [if_neg h]
      have hne : c ≠ 0x5C := fun hc => h (Or.inr (Or.inr (Or.inl hc)))
      have e : [c] ++ rest.flatMap rtfEscapeChar = c :: rest.flatMap rtfEscapeChar := rfl
      rw [hc, e]
      cases hr : rest.flatMap rtfEscapeChar with
      | nil =>
        rw [hr] at ih
        rw [← ih]
        rfl
      | cons d r =>
        rw [rtfUnescape, if_neg hne, ← hr, ih]

theorem length_escape (s : List Nat) :
    (s.flatMap rtfEscapeChar).length
      = s.length + s.countP (fun c => c = 0x7B ∨ c = 0x7D ∨ c = 0x5C ∨ c = 0x0A) := by
  induction s with
  | nil => rfl
  | cons c rest ih =>
    rw [List.flatMap_cons, List.length_append, ih, List.countP_cons, List.length_cons]
    unfold rtfEscapeChar
    by_cases h : c = 0x7B ∨ c = 0x7D ∨ c = 0x5C ∨ c = 0x0A
    · simp only [h, if_true, decide_True, List.length_cons, List.length_nil]
      omega
    · simp only [h, if_false, decide_False, List.length_cons, List.length_nil,
        Bool.false_eq_true]
      omega

/-- C31: for a non-empty ASCII text `s` without zero bytes, the loop of lines 1042 to 1053,
run on the buffer that lines 1038 to 1040 set up, leaves the C string that is `s` with a
backslash put before each brace, backslash and line feed and every other character
unchanged and in order; the body that `ConvertMessageToRTF` writes after `\cf0 : ` is that
string; its length is that of `s` plus the number of such characters; and reading each
backslash as standing for the character after it gives `s` back. -/
theorem ConvertMessageToRTF_escapes (s : List Nat) (msg : ICMessage) (hne : s ≠ [])
    (hs : ∀ c ∈ s, c ≠ 0 ∧ c < 256) (hlen : s.length < 2 ^ 63)
    (hft : msg.mFileTransfer = 0) (hw : msg.mWideStrSize = 0) :
    (ConvertMessageToRTF_escaped s).map cBytes = some (s.flatMap rtfEscapeChar) ∧
    ConvertMessageToRTF_body msg s
      = cstr "\\cf0 : " ++ s.flatMap rtfEscapeChar ++ cstr "\\\n" ∧
    (s.flatMap rtfEscapeChar).length
      = s.length + s.countP (fun c => c = 0x7B ∨ c = 0x7D ∨ c = 0x5C ∨ c = 0x0A) ∧
    rtfUnescape (s.flatMap rtfEscapeChar) = s := by
  have hcb : cBytes s = s := by
    have := cBytes_append_zeros s 0 (fun c hc => (hs c hc).1)
    simp at this
    exact this
  refine ⟨?_, ?_, length_escape s, rtfUnescape_escape s⟩
  · unfold ConvertMessageToRTF_escaped
    rw [hcb]
    have hmod : (s.length * 2 + 1) % 2 ^ 64 - s.length = s.length + 1 := by omega
    rw [hmod]
    have hcount := countP_special_le s
    have key := ConvertMessageToRTF_escapeLoop_spec s [] (s.length + 1) s.length hs
      (le_refl _) (by omega)
    obtain ⟨c, rest, rfl⟩ : ∃ c rest, s = c :: rest := by
      cases s with
      | nil => exact absurd rfl hne
      | cons c rest => exact ⟨c, rest, rfl⟩
    have hc := hs c (List.mem_cons_self _ _)
    simp only [List.nil_append, List.length_nil] at key
    have h1 : ¬ (c :: rest ++ List.replicate ((c :: rest).length + 1) 0).length ≤ 0 := by
      simp
    have h2 : (c :: rest ++ List.replicate ((c :: rest).length + 1) 0).getD 0 0 = c := rfl
    rw [if_neg h1, h2, if_pos (toSChar_ne_zero c hc.2 hc.1)] at key
    rw [key, Option.map_some', ConvertMessageToRTF_escape_eq]
    congr 1
    apply cBytes_append_zeros
    intro d hd
    rw [List.mem_flatMap] at hd
    obtain ⟨a, ha, hda⟩ := hd
    unfold rtfEscapeChar at hda
    have ha0 := (hs a ha).1
    split at hda
    · simp only [List.mem_cons, List.mem_singleton, List.not_mem_nil, or_false] at hda
      rcases hda with h | h
      · rw [h]; decide
      · rw [h]; exact ha0
    · simp only [List.mem_singleton] at hda
      rw [hda]; exact ha0
  · unfold ConvertMessageToRTF_body
    rw [if_neg (by omega), if_pos hw, hcb, ConvertMessageToRTF_escape_eq]
    by_cases hany : (s.any fun c => rtfSpecial (c : Int)) = true
    · rw [if_pos hany]
    · rw [if_neg hany]
      have hplain : s.flatMap rtfEscapeChar = s := by
        have hnone : ∀ c ∈ s, ¬ rtfSpecial (c : Int) = true := by
          intro c hc hsp
          exact hany (List.any_eq_true.2 ⟨c, hc, hsp⟩)
        clear hany hcb hne hlen hs
        induction s with
        | nil => rfl
        | cons c rest ih =>
          rw [List.flatMap_cons, ih (fun d hd => hnone d (List.mem_cons_of_mem _ hd))]
          unfold rtfEscapeChar
          rw [if_neg (fun hc => hnone c (List.mem_cons_self _ _) ((rtfSpecial_iff c).2 hc))]
          rfl
      rw [hplain]

/-- C31 at the text of a left brace, `a`, two right braces, a backslash and a line feed:
the special characters come first, last and next to each other. -/
theorem ConvertMessageToRTF_escapes_witness :
    (ConvertMessageToRTF_escaped (cstr "\x7ba\x7d\x7d\\\n")).map cBytes
      = some (cstr "\\\x7ba\\\x7d\\\x7d\\\\\\\n") ∧
    ConvertMessageToRTF_body aliceMessage (cstr "\x7ba\x7d\x7d\\\n")
      = cstr "\\cf0 : " ++ cstr "\\\x7ba\\\x7d\\\x7d\\\\\\\n" ++ cstr "\\\n" ∧
    (cstr "\\\x7ba\\\x7d\\\x7d\\\\\\\n").length = 6 + 5 ∧
    rtfUnescape (cstr "\\\x7ba\\\x7d\\\x7d\\\\\\\n") = cstr "\x7ba\x7d\x7d\\\n" ∧
    ConvertMessageToRTF aliceGlobals false false
        { aliceMessage with mText := some (cstr "\x7ba\x7d\x7d\\\n") }
      = Res.ok (cstr "\\cf1 00:00:00 \\cf2 alice@x\\cf0 : " ++
          cstr "\\\x7ba\\\x7d\\\x7d\\\\\\\n" ++ cstr "\\\n") := by
  have h := ConvertMessageToRTF_escapes (cstr "\x7ba\x7d\x7d\\\n") aliceMessage (by decide)
    (by decide) (by decide) rfl rfl
  exact ⟨h.1, h.2.1, by decide, h.2.2.2, by decide⟩

/-! ## `double` arithmetic on whole seconds -/

theorem bitLength_zero (fuel : Nat) : bitLength fuel 0 = 0 := by
  cases fuel <;> rfl

/-- The number of binary digits: `2^(L-1) ≤ n < 2^L`. -/
theorem bitLength_spec : ∀ (fuel n : Nat), n < 2 ^ fuel → 0 < n →
    1 ≤ bitLength fuel n ∧ 2 ^ (bitLength fuel n - 1) ≤ n ∧ n < 2 ^ bitLength fuel n := by
  intro fuel
  induction fuel with
  | zero => intro n h h0; simp at h; omega
  | succ fuel ih =>
    intro n h h0
    rw [bitLength, if_neg (by omega)]
    by_cases h1 : n / 2 = 0
    · rw [h1, bitLength_zero]
      have : n = 1 := by omega
      subst this
      simp
    · have hlt : n / 2 < 2 ^ fuel := by
        rw [Nat.pow_succ] at h
        omega
      obtain ⟨i1, i2, i3⟩ := ih (n / 2) hlt (by omega)
      refine ⟨by omega, ?_, ?_⟩
      · have e : bitLength fuel (n / 2) + 1 - 1 = (bitLength fuel (n / 2) - 1) + 1 := by omega
        rw [e, Nat.pow_succ]
        omega
      · rw [Nat.pow_succ]
        omega

theorem bitLength_self (n : Nat) (h0 : 0 < n) :
    1 ≤ bitLength n n ∧ 2 ^ (bitLength n n - 1) ≤ n ∧ n < 2 ^ bitLength n n :=
  bitLength_spec n n (Nat.lt_two_pow n) h0

/-- The nearest integer is within one half: twice the distance, times `d`, is at most
`d`. -/
theorem roundHalfEven_near (a d : Nat) (hd : 0 < d) :
    2 * (d * roundHalfEven a d) ≤ 2 * a + d ∧ 2 * a ≤ 2 * (d * roundHalfEven a d) + d := by
  have hdm := Nat.div_add_mod a d
  have hm := Nat.mod_lt a hd
  have e1 : d * (a / d + 1) = d * (a / d) + d := by ring
  unfold roundHalfEven
  split_ifs <;> (try rw [e1]) <;> omega

theorem roundHalfEven_exact (k d : Nat) (hd : 0 < d) : roundHalfEven (k * d) d = k := by
  unfold roundHalfEven
  rw [Nat.mul_mod_left, Nat.mul_div_cancel _ hd, if_pos (by omega)]

/-- The exponent that `binaryExponent` gives is that of the binade of `a / d`. -/
theorem binaryExponent_spec (a d : Nat) (ha : 0 < a) (hd : 0 < d) :
    (2 : ℚ) ^ binaryExponent a d ≤ (a : ℚ) / d ∧
      (a : ℚ) / d < (2 : ℚ) ^ (binaryExponent a d + 1) := by
  obtain ⟨a1, a2, a3⟩ := bitLength_self a ha
  obtain ⟨d1, d2, d3⟩ := bitLength_self d hd
  have hdq : (0 : ℚ) < d := by exact_mod_cast hd
  have two : (0 : ℚ) < 2 := by norm_num
  have two0 : (2 : ℚ) ≠ 0 := by norm_num
  have A2 : (2 : ℚ) ^ ((bitLength a a : Int) - 1) ≤ a := by
    have e : ((bitLength a a : Int) - 1) = ((bitLength a a - 1 : Nat) : Int) := by omega
    rw [e, zpow_natCast]
    exact_mod_cast a2
  have A3 : (a : ℚ) < (2 : ℚ) ^ (bitLength a a : Int) := by
    rw [zpow_natCast]
    exact_mod_cast a3
  have D2 : (2 : ℚ) ^ ((bitLength d d : Int) - 1) ≤ d := by
    have e : ((bitLength d d : Int) - 1) = ((bitLength d d - 1 : Nat) : Int) := by omega
    rw [e, zpow_natCast]
    exact_mod_cast d2
  have D3 : (d : ℚ) < (2 : ℚ) ^ (bitLength d d : Int) := by
    rw [zpow_natCast]
    exact_mod_cast d3
  have U : (a : ℚ) / d < (2 : ℚ) ^ ((bitLength a a : Int) - (bitLength d d : Int) + 1) := by
    rw [div_lt_iff₀ hdq]
    calc (a : ℚ) < (2 : ℚ) ^ (bitLength a a : Int) := A3
      _ = (2 : ℚ) ^ ((bitLength a a : Int) - (bitLength d d : Int) + 1)
            * (2 : ℚ) ^ ((bitLength d d : Int) - 1) := by
          rw [← zpow_add₀ two0]
          congr 1
          ring
      _ ≤ (2 : ℚ) ^ ((bitLength a a : Int) - (bitLength d d : Int) + 1) * d :=
          mul_le_mul_of_nonneg_left D2 (le_of_lt (zpow_pos two _))
  have L : (2 : ℚ) ^ ((bitLength a a : Int) - (bitLength d d : Int) - 1) < (a : ℚ) / d := by
    rw [lt_div_iff₀ hdq]
    calc (2 : ℚ) ^ ((bitLength a a : Int) - (bitLength d d : Int) - 1) * d
        < (2 : ℚ) ^ ((bitLength a a : Int) - (bitLength d d : Int) - 1)
            * (2 : ℚ) ^ (bitLength d d : Int) :=
          mul_lt_mul_of_pos_left D3 (zpow_pos two _)
      _ = (2 : ℚ) ^ ((bitLength a a : Int) - 1) := by
          rw [← zpow_add₀ two0]
          congr 1
          ring
      _ ≤ a := A2
  have hsucc : ∀ D : Int, (2 : ℚ) ^ (D - 1 + 1) = (2 : ℚ) ^ D := by
    intro D
    congr 1
    ring
  unfold binaryExponent
  split_ifs with h1 h2 h3
  · refine ⟨?_, U⟩
    rw [le_div_iff₀ hdq]
    have e : (2 : ℚ) ^ ((bitLength a a : Int) - (bitLength d d : Int))
        = ((2 ^ ((bitLength a a : Int) - (bitLength d d : Int)).toNat : Nat) : ℚ) := by
      conv_lhs => rw [← Int.toNat_of_nonneg h1]
      rw [zpow_natCast]
      push_cast
      rfl
    rw [e, mul_comm]
    exact_mod_cast h2
  · refine ⟨le_of_lt L, ?_⟩
    rw [hsucc, div_lt_iff₀ hdq]
    have e : (2 : ℚ) ^ ((bitLength a a : Int) - (bitLength d d : Int))
        = ((2 ^ ((bitLength a a : Int) - (bitLength d d : Int)).toNat : Nat) : ℚ) := by
      conv_lhs => rw [← Int.toNat_of_nonneg h1]
      rw [zpow_natCast]
      push_cast
      rfl
    rw [e, mul_comm]
    exact_mod_cast not_le.1 h2
  · refine ⟨?_, U⟩
    have hneg : 0 ≤ (bitLength d d : Int) - (bitLength a a : Int) := by omega
    have e : (2 : ℚ) ^ ((bitLength a a : Int) - (bitLength d d : Int))
        = 1 / ((2 ^ ((bitLength d d : Int) - (bitLength a a : Int)).toNat : Nat) : ℚ) := by
      have e1 : (bitLength a a : Int) - (bitLength d d : Int)
          = - ((((bitLength d d : Int) - (bitLength a a : Int)).toNat : Nat) : Int) := by
        rw [Int.toNat_of_nonneg hneg]
        ring
      conv_lhs => rw [e1]
      rw [zpow_neg, zpow_natCast]
      push_cast
      rw [one_div]
    rw [e, div_le_div_iff₀ (by positivity) hdq, one_mul]
    exact_mod_cast h3
  · refine ⟨le_of_lt L, ?_⟩
    have hneg : 0 ≤ (bitLength d d : Int) - (bitLength a a : Int) := by omega
    have e : (2 : ℚ) ^ ((bitLength a a : Int) - (bitLength d d : Int))
        = 1 / ((2 ^ ((bitLength d d : Int) - (bitLength a a : Int)).toNat : Nat) : ℚ) := by
      have e1 : (bitLength a a : Int) - (bitLength d d : Int)
          = - ((((bitLength d d : Int) - (bitLength a a : Int)).toNat : Nat) : Int) := by
        rw [Int.toNat_of_nonneg hneg]
        ring
      conv_lhs => rw [e1]
      rw [zpow_neg, zpow_natCast]
      push_cast
      rw [one_div]
    rw [hsucc, e, div_lt_div_iff₀ hdq (by positivity), one_mul]
    exact_mod_cast not_le.1 h3

theorem binaryExponent_bounds (a den : Nat) (ha : 0 < a) (hd : 0 < den)
    (hlo : (2 : ℚ) ^ (-1022 : Int) ≤ (a : ℚ) / den) (hhi : (a : ℚ) / den < (2 : ℚ) ^ (52 : Int)) :
    -1022 ≤ binaryExponent a den ∧ binaryExponent a den ≤ 51 := by
  obtain ⟨h1, h2⟩ := binaryExponent_spec a den ha hd
  have one2 : (1 : ℚ) < 2 := by norm_num
  constructor
  · have h := lt_of_le_of_lt hlo h2
    rw [zpow_lt_zpow_iff_right₀ one2] at h
    omega
  · have h := lt_of_le_of_lt h1 hhi
    rw [zpow_lt_zpow_iff_right₀ one2] at h
    omega

/-- The rounding of a positive fraction in the normal range, below `2^52`: the mantissa is
the nearest integer to the fraction scaled by `2^(52 - e)`. -/
theorem roundToDouble_pos (a den : Nat) (ha : 0 < a)
    (he1 : -1022 ≤ binaryExponent a den) (he2 : binaryExponent a den ≤ 51) :
    roundToDouble (a : Int) den
      = some (((roundHalfEven (a * 2 ^ (52 - binaryExponent a den).toNat) den : Nat) : Int),
          2 ^ (52 - binaryExponent a den).toNat) := by
  unfold roundToDouble
  have h0 : ¬ ((a : Int) = 0) := by omega
  have hneg : ¬ ((a : Int) < 0) := by omega
  have hp : max (binaryExponent a den - 52) (-1074) = binaryExponent a den - 52 :=
    max_eq_left (by omega)
  rw [if_neg h0]
  simp only [Int.natAbs_ofNat, hp, if_neg hneg]
  rw [if_neg (by omega)]
  have e : -(binaryExponent a den - 52) = 52 - binaryExponent a den := by ring
  rw [e, one_mul]

theorem roundToDouble_zero (den : Nat) : roundToDouble 0 den = some (0, 1) := by
  unfold roundToDouble
  rw [if_pos rfl]

/-- The `double` nearest to a positive fraction `q` in the normal range, below `2^52`, is
within `q / 2^53` of it. -/
theorem roundToDouble_near (a den : Nat) (ha : 0 < a) (hd : 0 < den)
    (hlo : (2 : ℚ) ^ (-1022 : Int) ≤ (a : ℚ) / den) (hhi : (a : ℚ) / den < (2 : ℚ) ^ (52 : Int)) :
    ∃ m j : Nat, roundToDouble (a : Int) den = some ((m : Int), 2 ^ j) ∧
      |(m : ℚ) / (2 : ℚ) ^ j - (a : ℚ) / den| ≤ (a : ℚ) / den / 2 ^ 53 := by
  obtain ⟨he1, he2⟩ := binaryExponent_bounds a den ha hd hlo hhi
  obtain ⟨hs1, _⟩ := binaryExponent_spec a den ha hd
  refine ⟨_, _, roundToDouble_pos a den ha he1 he2, ?_⟩
  obtain ⟨n1, n2⟩ := roundHalfEven_near (a * 2 ^ (52 - binaryExponent a den).toNat) den hd
  generalize roundHalfEven (a * 2 ^ (52 - binaryExponent a den).toNat) den = m at n1 n2
  have hj : (((52 - binaryExponent a den).toNat : Nat) : Int) = 52 - binaryExponent a den :=
    Int.toNat_of_nonneg (by omega)
  have hP : (2 : ℚ) ^ binaryExponent a den * (2 : ℚ) ^ (52 - binaryExponent a den).toNat
      = 2 ^ 52 := by
    rw [← zpow_natCast (2 : ℚ) (52 - binaryExponent a den).toNat, hj,
      ← zpow_add₀ (by norm_num : (2 : ℚ) ≠ 0)]
    have e : binaryExponent a den + (52 - binaryExponent a den) = ((52 : Nat) : Int) := by
      ring
    rw [e, zpow_natCast]
  generalize (52 - binaryExponent a den).toNat = j at n1 n2 hP
  have hdq : (0 : ℚ) < den := by exact_mod_cast hd
  have hPpos : (0 : ℚ) < (2 : ℚ) ^ j := by positivity
  have q1 : (2 : ℚ) * (den * m) ≤ 2 * (a * 2 ^ j) + den := by exact_mod_cast n1
  have q2 : (2 : ℚ) * (a * 2 ^ j) ≤ 2 * (den * m) + den := by exact_mod_cast n2
  have hQ : (a : ℚ) = (a : ℚ) / den * den := by field_simp
  generalize (a : ℚ) / den = Q at hs1 hQ ⊢
  rw [hQ] at q1 q2
  have hQP : (2 : ℚ) ^ 52 ≤ Q * (2 : ℚ) ^ j := by
    rw [← hP]
    exact mul_le_mul_of_nonneg_right hs1 (le_of_lt hPpos)
  have b1 : (m : ℚ) ≤ Q * 2 ^ j + 1 / 2 := by
    have : (2 : ℚ) * (den * m) ≤ den * (2 * (Q * 2 ^ j) + 1) := by linarith
    have h3 : (2 : ℚ) * m ≤ 2 * (Q * 2 ^ j) + 1 := by
      have h4 : (den : ℚ) * (2 * m) ≤ den * (2 * (Q * 2 ^ j) + 1) := by linarith
      exact le_of_mul_le_mul_left h4 hdq
    linarith
  have b2 : Q * 2 ^ j - 1 / 2 ≤ (m : ℚ) := by
    have h4 : (den : ℚ) * (2 * (Q * 2 ^ j) - 1) ≤ den * (2 * m) := by linarith
    have h3 := le_of_mul_le_mul_left h4 hdq
    linarith
  rw [abs_le]
  constructor
  · rw [le_sub_iff_add_le, le_div_iff₀ hPpos]
    have : (-(Q / 2 ^ 53) + Q) * (2 : ℚ) ^ j = Q * 2 ^ j - Q * 2 ^ j / 2 ^ 53 := by ring
    rw [this]
    have h5 : (1 : ℚ) / 2 ≤ Q * 2 ^ j / 2 ^ 53 := by
      rw [le_div_iff₀ (by positivity)]
      linarith
    linarith
  · rw [sub_le_iff_le_add, div_le_iff₀ hPpos]
    have : (Q / 2 ^ 53 + Q) * (2 : ℚ) ^ j = Q * 2 ^ j + Q * 2 ^ j / 2 ^ 53 := by ring
    rw [this]
    have h5 : (1 : ℚ) / 2 ≤ Q * 2 ^ j / 2 ^ 53 := by
      rw [le_div_iff₀ (by positivity)]
      linarith
    linarith

/-- A whole number below `2^52` is a `double`: rounding leaves it as it is. -/
theorem roundToDouble_exact (k den : Nat) (hd : 0 < den) (hk : k < 2 ^ 52) :
    ∃ j : Nat, roundToDouble ((k : Int) * (den : Int)) den
      = some (((k * 2 ^ j : Nat) : Int), 2 ^ j) := by
  by_cases h0 : k = 0
  · subst h0
    refine ⟨0, ?_⟩
    simp only [Int.ofNat_zero, zero_mul, Nat.cast_zero, pow_zero]
    exact roundToDouble_zero den
  · have ha : 0 < k * den := Nat.mul_pos (by omega) hd
    have hdq : (0 : ℚ) < den := by exact_mod_cast hd
    have hq : ((k * den : Nat) : ℚ) / den = k := by
      push_cast
      field_simp
    have hk1 : (1 : ℚ) ≤ k := by exact_mod_cast (by omega : 1 ≤ k)
    have hlo : (2 : ℚ) ^ (-1022 : Int) ≤ ((k * den : Nat) : ℚ) / den := by
      rw [hq]
      have : (2 : ℚ) ^ (-1022 : Int) ≤ 1 := by
        rw [zpow_neg]
        apply inv_le_one_of_one_le₀
        exact one_le_zpow₀ (by norm_num) (by norm_num)
      linarith
    have hhi : ((k * den : Nat) : ℚ) / den < (2 : ℚ) ^ (52 : Int) := by
      rw [hq]
      have : (k : ℚ) < 2 ^ 52 := by exact_mod_cast hk
      exact_mod_cast this
    obtain ⟨he1, he2⟩ := binaryExponent_bounds (k * den) den ha hd hlo hhi
    refine ⟨(52 - binaryExponent (k * den) den).toNat, ?_⟩
    have hpos := roundToDouble_pos (k * den) den ha he1 he2
    have e : k * den * 2 ^ (52 - binaryExponent (k * den) den).toNat
        = k * 2 ^ (52 - binaryExponent (k * den) den).toNat * den := by ring
    rw [e, roundHalfEven_exact _ _ hd] at hpos
    rw [← hpos]
    congr 1

theorem two_zpow_small : (2 : ℚ) ^ (-1022 : Int) ≤ 1 / 2 ^ 20 := by
  rw [zpow_neg, one_div]
  apply inv_anti₀ (by positivity)
  rw [← zpow_natCast]
  exact zpow_le_zpow_right₀ (by norm_num) (by norm_num)

/-- The quotient of a positive `double` by a whole number: when the exact quotient `q` lies
between `2^-20` and `2^20`, the result is within `q / 2^53` of it. -/
theorem doubleDiv_near (m d k : Nat) (hm : 0 < m) (hd : 0 < d) (hk : 0 < k)
    (hlo : (1 : ℚ) / 2 ^ 20 ≤ (m : ℚ) / d / k) (hhi : (m : ℚ) / d / k ≤ 2 ^ 20) :
    ∃ m1 j : Nat, doubleDiv ((m : Int), d) k = some ((m1 : Int), 2 ^ j) ∧ 0 < m1 ∧
      |(m1 : ℚ) / (2 : ℚ) ^ j - (m : ℚ) / d / k| ≤ (m : ℚ) / d / k / 2 ^ 53 := by
  have hq : ((m : ℚ) / ((d * k : Nat) : ℚ)) = (m : ℚ) / d / k := by
    push_cast
    rw [div_div]
  obtain ⟨m1, j, h1, h2⟩ := roundToDouble_near m (d * k) hm (Nat.mul_pos hd hk)
    (by rw [hq]; exact le_trans two_zpow_small hlo)
    (by
      rw [hq]
      refine lt_of_le_of_lt hhi ?_
      rw [← zpow_natCast]
      exact zpow_lt_zpow_right₀ (by norm_num) (by norm_num))
  rw [hq] at h2
  refine ⟨m1, j, h1, ?_, h2⟩
  by_contra hc
  have hz : m1 = 0 := by omega
  rw [hz] at h2
  simp only [Nat.cast_zero, zero_div, zero_sub, abs_neg] at h2
  have hpos : (0 : ℚ) < (m : ℚ) / d / k := lt_of_lt_of_le (by positivity) hlo
  rw [abs_of_pos hpos] at h2
  have : (m : ℚ) / d / k / 2 ^ 53 < (m : ℚ) / d / k := by
    rw [div_lt_iff₀ (by positivity)]
    have : (1 : ℚ) < 2 ^ 53 := by norm_num
    nlinarith
  linarith

/-- The quotient of a `double` that is a multiple `c * k` of the whole number `k`: exact. -/
theorem doubleDiv_exact (c d k : Nat) (hd : 0 < d) (hk : 0 < k) (hc : c < 2 ^ 52) :
    ∃ j : Nat, doubleDiv (((c * k * d : Nat) : Int), d) k
      = some (((c * 2 ^ j : Nat) : Int), 2 ^ j) := by
  obtain ⟨j, h⟩ := roundToDouble_exact c (d * k) (Nat.mul_pos hd hk) hc
  refine ⟨j, ?_⟩
  unfold doubleDiv
  rw [← h]
  congr 1
  push_cast
  ring

/-- The difference of a whole `double` and a smaller `int`: exact. -/
theorem doubleSub_exact (t n d : Nat) (hd : 0 < d) (hn : n ≤ t) (ht : t < 2 ^ 52) :
    ∃ j : Nat, doubleSub (((t * d : Nat) : Int), d) (n : Int)
      = some ((((t - n) * 2 ^ j : Nat) : Int), 2 ^ j) := by
  obtain ⟨j, h⟩ := roundToDouble_exact (t - n) d hd (by omega)
  refine ⟨j, ?_⟩
  unfold doubleSub
  rw [← h]
  congr 1
  push_cast [Nat.cast_sub hn]
  ring

/-- The conversion to `int` of a `double` between the whole numbers `h` and `h + 1`. -/
theorem doubleToInt_floor (m j h : Nat) (hh : h < 2 ^ 31)
    (h1 : (h : ℚ) ≤ (m : ℚ) / (2 : ℚ) ^ j) (h2 : (m : ℚ) / (2 : ℚ) ^ j < h + 1) :
    doubleToInt ((m : Int), 2 ^ j) = some (h : Int) := by
  have hP : (0 : ℚ) < (2 : ℚ) ^ j := by positivity
  rw [le_div_iff₀ hP] at h1
  rw [div_lt_iff₀ hP] at h2
  have n1 : h * 2 ^ j ≤ m := by exact_mod_cast h1
  have n2 : m < (h + 1) * 2 ^ j := by exact_mod_cast h2
  have hdiv : m / 2 ^ j = h := Nat.div_eq_of_lt_le n1 n2
  unfold doubleToInt
  have e : ((m : Int)).tdiv (((2 ^ j : Nat)) : Int) = (h : Int) := by
    rw [← Int.ofNat_tdiv, hdiv]
  simp only [e]
  rw [if_pos ⟨by omega, by exact_mod_cast hh⟩]

theorem doubleToInt_whole (h j : Nat) (hh : h < 2 ^ 31) :
    doubleToInt (((h * 2 ^ j : Nat) : Int), 2 ^ j) = some (h : Int) := by
  apply doubleToInt_floor _ _ _ hh
  · rw [le_div_iff₀ (by positivity)]
    push_cast
    exact le_refl _
  · rw [div_lt_iff₀ (by positivity)]
    push_cast
    have : (0 : ℚ) < (2 : ℚ) ^ j := by positivity
    linarith

theorem wrapInt32_id (x : Int) (h1 : -2 ^ 31 ≤ x) (h2 : x < 2 ^ 31) : wrapInt32 x = x := by
  unfold wrapInt32
  rw [Int.emod_eq_of_lt (by omega) (by omega)]
  ring

theorem doubleOfBits_normal (bits E M : Nat) (hE : bits / 2 ^ 52 % 2048 = E)
    (hM : bits % 2 ^ 52 = M) (hS : bits / 2 ^ 63 % 2 = 0) (hN : bits % 2 ^ 63 ≠ 0)
    (h1 : E ≠ 0) (h2 : E < 1075) :
    doubleOfBits bits = some (((2 ^ 52 + M : Nat) : Int), 2 ^ (1075 - E)) := by
  unfold doubleOfBits
  rw [hE, hM, hS]
  have c0 : ¬ ((0 : Nat) = 1) := by decide
  have c1 : ¬ (E = 2047) := by omega
  have c3 : ¬ (1075 ≤ E) := by omega
  rw [if_neg c1, if_neg hN, if_neg h1, if_neg c3]
  simp only [if_neg c0, one_mul]

/-- The `double` with the bits of the whole number `t` has the value `t`. -/
theorem doubleOfBits_seconds (t : Nat) (ht : t < 2 ^ 52) :
    ∃ j : Nat, doubleOfBits (bitsOfSeconds t) = some (((t * 2 ^ j : Nat) : Int), 2 ^ j) := by
  by_cases h0 : t = 0
  · subst h0
    exact ⟨0, by decide⟩
  · obtain ⟨l1, l2, l3⟩ := bitLength_self t (by omega)
    have hL : bitLength t t ≤ 52 := by
      by_contra hc
      have : 2 ^ 52 ≤ 2 ^ (bitLength t t - 1) :=
        Nat.pow_le_pow_right (by norm_num) (by omega)
      omega
    refine ⟨53 - bitLength t t, ?_⟩
    have hP1 : 2 ^ 52 ≤ t * 2 ^ (53 - bitLength t t) := by
      calc 2 ^ 52 = 2 ^ (bitLength t t - 1) * 2 ^ (53 - bitLength t t) := by
            rw [← Nat.pow_add]
            congr 1
            omega
        _ ≤ t * 2 ^ (53 - bitLength t t) := Nat.mul_le_mul_right _ l2
    have hP2 : t * 2 ^ (53 - bitLength t t) < 2 ^ 53 := by
      calc t * 2 ^ (53 - bitLength t t) < 2 ^ bitLength t t * 2 ^ (53 - bitLength t t) :=
            Nat.mul_lt_mul_of_pos_right l3 (by positivity)
        _ = 2 ^ 53 := by
            rw [← Nat.pow_add]
            congr 1
            omega
    unfold bitsOfSeconds doubleBitsOfNat
    rw [if_neg h0]
    generalize t * 2 ^ (53 - bitLength t t) = P at hP1 hP2
    generalize hLdef : bitLength t t = L at l1 hL
    rw [doubleOfBits_normal _ (1022 + L) (P - 2 ^ 52) (by omega) (by omega) (by omega)
      (by omega) (by omega) (by omega)]
    have e1 : 2 ^ 52 + (P - 2 ^ 52) = P := by omega
    have e2 : 1075 - (1022 + L) = 53 - L := by omega
    rw [e1, e2]

theorem wrapInt32_zero : wrapInt32 0 = 0 := wrapInt32_id 0 (by norm_num) (by norm_num)

/-- The stage `ConvertNSDate_dayBank` from the results of its steps, for no whole day. -/
theorem ConvertNSDate_dayBank_of_steps (x y1 y2 y3 s : Int × Nat)
    (e1 : doubleDiv x 60 = some y1) (e2 : doubleDiv y1 60 = some y2)
    (e3 : doubleDiv y2 24 = some y3) (hint : doubleToInt y3 = some 0)
    (hsub : doubleSub x 0 = some s) :
    ConvertNSDate_dayBank x = some (0, s) := by
  have hwrap : wrapInt32 (wrapInt32 (wrapInt32 ((0 : Int) * 60) * 60) * 24) = 0 := by
    rw [zero_mul, wrapInt32_zero, zero_mul, wrapInt32_zero, zero_mul, wrapInt32_zero]
  unfold ConvertNSDate_dayBank
  simp only [Option.bind_eq_bind, Option.some_bind, e1, e2, e3, hint, hwrap, hsub,
    Option.pure_def]

/-- Lines 807 to 810 for a whole number of seconds `t` below 18000: no whole day, and the
seconds themselves. -/
theorem ConvertNSDate_dayBank_seconds (t d : Nat) (hd : 0 < d) (h0 : 0 < t) (ht : t < 18000) :
    ∃ j : Nat, ConvertNSDate_dayBank (((t * d : Nat) : Int), d)
      = some (0, (((t * 2 ^ j : Nat) : Int), 2 ^ j)) := by
  have hdq : (0 : ℚ) < d := by exact_mod_cast hd
  have htq0 : (1 : ℚ) ≤ t := by exact_mod_cast h0
  have htq : (t : ℚ) < 18000 := by exact_mod_cast ht
  have hq1 : ((t * d : Nat) : ℚ) / d / ((60 : Nat) : ℚ) = t / 60 := by
    push_cast
    field_simp
  obtain ⟨m1, j1, e1, p1, b1⟩ := doubleDiv_near (t * d) d 60 (Nat.mul_pos h0 hd) hd
    (by norm_num) (by rw [hq1]; norm_num; linarith) (by rw [hq1]; norm_num; linarith)
  rw [hq1, abs_le] at b1
  have hq2 : (m1 : ℚ) / ((2 ^ j1 : Nat) : ℚ) / ((60 : Nat) : ℚ)
      = (m1 : ℚ) / (2 : ℚ) ^ j1 / 60 := by
    push_cast
    rfl
  generalize hv1 : (m1 : ℚ) / (2 : ℚ) ^ j1 = v1 at b1 hq2
  obtain ⟨m2, j2, e2, p2, b2⟩ := doubleDiv_near m1 (2 ^ j1) 60 p1 (by positivity)
    (by norm_num) (by rw [hq2]; norm_num at b1 ⊢; linarith)
    (by rw [hq2]; norm_num at b1 ⊢; linarith)
  rw [hq2, abs_le] at b2
  have hq3 : (m2 : ℚ) / ((2 ^ j2 : Nat) : ℚ) / ((24 : Nat) : ℚ)
      = (m2 : ℚ) / (2 : ℚ) ^ j2 / 24 := by
    push_cast
    rfl
  generalize hv2 : (m2 : ℚ) / (2 : ℚ) ^ j2 = v2 at b2 hq3
  obtain ⟨m3, j3, e3, p3, b3⟩ := doubleDiv_near m2 (2 ^ j2) 24 p2 (by positivity)
    (by norm_num) (by rw [hq3]; norm_num at b1 b2 ⊢; linarith)
    (by rw [hq3]; norm_num at b1 b2 ⊢; linarith)
  rw [hq3, abs_le] at b3
  have hint : doubleToInt ((m3 : Int), 2 ^ j3) = some (0 : Int) := by
    have h := doubleToInt_floor m3 j3 0 (by norm_num)
      (by push_cast; positivity)
      (by norm_num at b1 b2 b3 ⊢; linarith)
    rw [h]
    rfl
  obtain ⟨j, hsub⟩ := doubleSub_exact t 0 d hd (Nat.zero_le _) (by omega)
  rw [Nat.sub_zero] at hsub
  have hsub0 : doubleSub (((t * d : Nat) : Int), d) 0
      = some (((t * 2 ^ j : Nat) : Int), 2 ^ j) := hsub
  exact ⟨j, ConvertNSDate_dayBank_of_steps _ _ _ _ _ e1 e2 e3 hint hsub0⟩

/-- The stage `ConvertNSDate_hour` from the results of its steps. -/
theorem ConvertNSDate_hour_of_steps (x y1 y2 s : Int × Nat) (h : Int)
    (e1 : doubleDiv x 60 = some y1) (e2 : doubleDiv y1 60 = some y2)
    (hint : doubleToInt y2 = some h)
    (hsub : doubleSub x (wrapInt32 (wrapInt32 (h * 60) * 60)) = some s) :
    ConvertNSDate_hour x = some (h, s) := by
  unfold ConvertNSDate_hour
  simp only [Option.bind_eq_bind, Option.some_bind, e1, e2, hint, hsub, Option.pure_def]

/-- The stage `ConvertNSDate_minute` from the results of its steps. -/
theorem ConvertNSDate_minute_of_steps (x y1 s : Int × Nat) (m sec : Int)
    (e1 : doubleDiv x 60 = some y1) (hint : doubleToInt y1 = some m)
    (hsub : doubleSub x (wrapInt32 (m * 60)) = some s) (hsec : doubleToInt s = some sec) :
    ConvertNSDate_minute x = some (m, sec) := by
  unfold ConvertNSDate_minute
  simp only [Option.bind_eq_bind, Option.some_bind, e1, hint, hsub, hsec, Option.pure_def]

/-- Lines 838 and 839 for a whole number of seconds `t` below 18000: the whole hours, and
the seconds that remain. -/
theorem ConvertNSDate_hour_seconds (t d : Nat) (hd : 0 < d) (ht : t < 18000) :
    ∃ j : Nat, ConvertNSDate_hour (((t * d : Nat) : Int), d)
      = some (((t / 3600 : Nat) : Int), ((((t % 3600) * 2 ^ j : Nat) : Int), 2 ^ j)) := by
  have hdm := Nat.div_add_mod t 3600
  have hr := Nat.mod_lt t (by norm_num : 0 < 3600)
  generalize t / 3600 = h at hdm
  generalize t % 3600 = r at hdm hr
  have hh : h < 5 := by omega
  have hW : wrapInt32 (wrapInt32 ((h : Int) * 60) * 60) = ((3600 * h : Nat) : Int) := by
    rw [wrapInt32_id ((h : Int) * 60) (by omega) (by omega),
      wrapInt32_id ((h : Int) * 60 * 60) (by omega) (by omega)]
    push_cast
    ring
  obtain ⟨j, hsub⟩ := doubleSub_exact t (3600 * h) d hd (by omega) (by omega)
  have hrest : t - 3600 * h = r := by omega
  rw [hrest, ← hW] at hsub
  refine ⟨j, ?_⟩
  by_cases hr0 : r = 0
  · have ht' : t * d = h * 60 * 60 * d := by
      have : t = h * 60 * 60 := by omega
      rw [this]
    obtain ⟨j1, e1⟩ := doubleDiv_exact (h * 60) d 60 hd (by norm_num) (by omega)
    obtain ⟨j2, e2⟩ := doubleDiv_exact h (2 ^ j1) 60 (by positivity) (by norm_num) (by omega)
    rw [← ht'] at e1
    exact ConvertNSDate_hour_of_steps _ _ _ _ _ e1 e2 (doubleToInt_whole h j2 (by omega)) hsub
  · have h0 : 0 < t := by omega
    have hdq : (0 : ℚ) < d := by exact_mod_cast hd
    have htq : (t : ℚ) = 3600 * h + r := by exact_mod_cast hdm.symm
    have hrq1 : (1 : ℚ) ≤ r := by exact_mod_cast (by omega : 1 ≤ r)
    have hrq2 : (r : ℚ) ≤ 3599 := by exact_mod_cast (by omega : r ≤ 3599)
    have hhq1 : (0 : ℚ) ≤ h := by positivity
    have hhq2 : (h : ℚ) ≤ 4 := by exact_mod_cast (by omega : h ≤ 4)
    have hq1 : ((t * d : Nat) : ℚ) / d / ((60 : Nat) : ℚ) = t / 60 := by
      push_cast
      field_simp
    obtain ⟨m1, j1, e1, p1, b1⟩ := doubleDiv_near (t * d) d 60 (Nat.mul_pos h0 hd) hd
      (by norm_num) (by rw [hq1]; norm_num; linarith) (by rw [hq1]; norm_num; linarith)
    rw [hq1, abs_le] at b1
    have hq2 : (m1 : ℚ) / ((2 ^ j1 : Nat) : ℚ) / ((60 : Nat) : ℚ)
        = (m1 : ℚ) / (2 : ℚ) ^ j1 / 60 := by
      push_cast
      rfl
    generalize hv1 : (m1 : ℚ) / (2 : ℚ) ^ j1 = v1 at b1 hq2
    obtain ⟨m2, j2, e2, p2, b2⟩ := doubleDiv_near m1 (2 ^ j1) 60 p1 (by positivity)
      (by norm_num) (by rw [hq2]; norm_num at b1 ⊢; linarith)
      (by rw [hq2]; norm_num at b1 ⊢; linarith)
    rw [hq2, abs_le] at b2
    have hint := doubleToInt_floor m2 j2 h (by omega)
      (by norm_num at b1 b2 ⊢; linarith)
      (by norm_num at b1 b2 ⊢; linarith)
    exact ConvertNSDate_hour_of_steps _ _ _ _ _ e1 e2 hint hsub

/-- Lines 840 to 842 for a whole number of seconds `r` below 3600: the whole minutes and
the seconds. -/
theorem ConvertNSDate_minute_seconds (r d : Nat) (hd : 0 < d) (hr : r < 3600) :
    ConvertNSDate_minute (((r * d : Nat) : Int), d)
      = some (((r / 60 : Nat) : Int), ((r % 60 : Nat) : Int)) := by
  have hdm := Nat.div_add_mod r 60
  have hs := Nat.mod_lt r (by norm_num : 0 < 60)
  generalize r / 60 = m at hdm
  generalize r % 60 = s at hdm hs
  have hm : m < 60 := by omega
  have hW : wrapInt32 ((m : Int) * 60) = ((60 * m : Nat) : Int) := by
    rw [wrapInt32_id _ (by omega) (by omega)]
    push_cast
    ring
  obtain ⟨j, hsub⟩ := doubleSub_exact r (60 * m) d hd (by omega) (by omega)
  have hrest : r - 60 * m = s := by omega
  rw [hrest, ← hW] at hsub
  have hsec := doubleToInt_whole s j (by omega)
  by_cases hs0 : s = 0
  · have hr' : r * d = m * 60 * d := by
      have : r = m * 60 := by omega
      rw [this]
    obtain ⟨j1, e1⟩ := doubleDiv_exact m d 60 hd (by norm_num) (by omega)
    rw [← hr'] at e1
    exact ConvertNSDate_minute_of_steps _ _ _ _ _ e1 (doubleToInt_whole m j1 (by omega)) hsub
      hsec
  · have h0 : 0 < r := by omega
    have hdq : (0 : ℚ) < d := by exact_mod_cast hd
    have hrq : (r : ℚ) = 60 * m + s := by exact_mod_cast hdm.symm
    have hsq1 : (1 : ℚ) ≤ s := by exact_mod_cast (by omega : 1 ≤ s)
    have hsq2 : (s : ℚ) ≤ 59 := by exact_mod_cast (by omega : s ≤ 59)
    have hmq1 : (0 : ℚ) ≤ m := by positivity
    have hmq2 : (m : ℚ) ≤ 59 := by exact_mod_cast (by omega : m ≤ 59)
    have hq1 : ((r * d : Nat) : ℚ) / d / ((60 : Nat) : ℚ) = r / 60 := by
      push_cast
      field_simp
    obtain ⟨m1, j1, e1, p1, b1⟩ := doubleDiv_near (r * d) d 60 (Nat.mul_pos h0 hd) hd
      (by norm_num) (by rw [hq1]; norm_num; linarith) (by rw [hq1]; norm_num; linarith)
    rw [hq1, abs_le] at b1
    have hint := doubleToInt_floor m1 j1 m (by omega)
      (by norm_num at b1 ⊢; linarith)
      (by norm_num at b1 ⊢; linarith)
    exact ConvertNSDate_minute_of_steps _ _ _ _ _ e1 hint hsub hsec

/-- Embeds `ConvertNSDate` from the results of its stages. -/
theorem ConvertNSDate_of_steps (LOCAL_TIME_ZONE : Int) (nsDate mode : Nat) (x : Int × Nat)
    (days : Int × (Int × Nat)) (years : Int × Int) (months : Int × Int × Int)
    (hour : Int × (Int × Nat)) (minute : Int × Int)
    (hx : doubleOfBits nsDate = some x) (hdays : ConvertNSDate_dayBank x = some days)
    (hyears : ConvertNSDate_years (days.1.toNat + 1) days.1 2001 = some years)
    (hmonths : ConvertNSDate_months (years.1.toNat + 1) years.1 1 years.2 = some months)
    (hhour : ConvertNSDate_hour days.2 = some hour)
    (hminute : ConvertNSDate_minute hour.2 = some minute) :
    ConvertNSDate LOCAL_TIME_ZONE nsDate mode
      = some (ConvertNSDate_format mode
          (ConvertNSDate_zone LOCAL_TIME_ZONE months.2.2 months.2.1 (1 + months.1) hour.1).1
          (ConvertNSDate_zone LOCAL_TIME_ZONE months.2.2 months.2.1 (1 + months.1) hour.1).2.1
          (ConvertNSDate_zone LOCAL_TIME_ZONE months.2.2 months.2.1 (1 + months.1)
            hour.1).2.2.1
          (ConvertNSDate_zone LOCAL_TIME_ZONE months.2.2 months.2.1 (1 + months.1)
            hour.1).2.2.2
          minute.1 minute.2) := by
  unfold ConvertNSDate
  simp only [Option.bind_eq_bind, Option.some_bind, hx, hdays, hyears, hmonths, hhour,
    hminute, Option.pure_def]

theorem printf_02d_twoDigits : ∀ n < 100, printf_02d ((n : Nat) : Int) = twoDigits n := by
  decide

/-- The time zone -5 applied to an hour from 0 to 4 of 2001-01-01: the hour from 19 to 23
of 2000-12-31. -/
theorem ConvertNSDate_zone_new_year : ∀ h < 5,
    ConvertNSDate_zone (-5) 2001 1 (1 + 0) ((h : Nat) : Int)
      = (2000, 12, 31, ((19 + h : Nat) : Int)) := by
  decide

/-- C37: with `LOCAL_TIME_ZONE` -5, for a whole number of seconds `t` from 0 to 17999,
`ConvertNSDate` on the `double` `t` gives `2000-12-31 HH:MM:SS` with `HH = 19 + t / 3600`,
`MM = t / 60 mod 60` and `SS = t mod 60`: the negative hour rolls the date back one day,
across the month and the year. -/
theorem ConvertNSDate_zone_rollback (t : Nat) (ht : t < 18000) :
    (doubleOfBits (bitsOfSeconds t)).map doubleValue = some (t : ℚ) ∧
    ConvertNSDate (-5) (bitsOfSeconds t) kDateSaveLong
      = some (cstr "2000-12-31 " ++ twoDigits (19 + t / 3600) ++ [0x3A] ++
          twoDigits (t / 60 % 60) ++ [0x3A] ++ twoDigits (t % 60)) := by
  obtain ⟨j0, hx⟩ := doubleOfBits_seconds t (by omega)
  constructor
  · rw [hx, Option.map_some']
    unfold doubleValue
    congr 1
    push_cast
    field_simp
  · by_cases h0 : t = 0
    · subst h0
      decide
    · obtain ⟨j1, hday⟩ := ConvertNSDate_dayBank_seconds t (2 ^ j0) (by positivity) (by omega) ht
      obtain ⟨j2, hhour⟩ := ConvertNSDate_hour_seconds t (2 ^ j1) (by positivity) ht
      have hmin := ConvertNSDate_minute_seconds (t % 3600) (2 ^ j2) (by positivity)
        (Nat.mod_lt t (by norm_num))
      have hyears : ConvertNSDate_years ((0 : Int).toNat + 1) 0 2001 = some (0, 2001) := by
        decide
      have hmonths : ConvertNSDate_months ((0 : Int).toNat + 1) 0 1 2001
          = some (0, 1, 2001) := by decide
      rw [ConvertNSDate_of_steps (-5) (bitsOfSeconds t) kDateSaveLong _ _ _ _ _ _ hx hday
        hyears hmonths hhour hmin]
      have hh : t / 3600 < 5 := by omega
      simp only [ConvertNSDate_zone_new_year (t / 3600) hh]
      unfold ConvertNSDate_format
      rw [if_pos (Or.inr rfl), printf_02d_twoDigits (19 + t / 3600) (by omega),
        printf_02d_twoDigits (t % 3600 / 60) (by omega),
        printf_02d_twoDigits (t % 3600 % 60) (by omega)]
      have e1 : t % 3600 / 60 = t / 60 % 60 := by omega
      have e2 : t % 3600 % 60 = t % 60 := by omega
      rw [e1, e2]
      rfl

/-- C37 at 3725 seconds, which is 1 hour, 2 minutes and 5 seconds. -/
theorem ConvertNSDate_zone_rollback_witness :
    3725 < 18000 ∧
    ConvertNSDate (-5) (bitsOfSeconds 3725) kDateSaveLong
      = some (cstr "2000-12-31 20:02:05") :=
  ⟨by decide, (ConvertNSDate_zone_rollback 3725 (by decide)).2.trans (by decide)⟩

end Bplist
